import Mathlib

/-!
# Recast navigation-mesh generator: tile manager and tile generator

A shallow embedding of `RecastNavMeshGenerator.cpp`
(`Engine/Source/Runtime/Engine/Private/AI/Navigation`).

Conventions of the embedding

* `float` values are rationals (`ℚ`). The arithmetic that places boxes on the
  tile grid (`GrowBoundingBox`, the tile size, the tile range and the tile
  bounds) rounds the result of every operation to single precision
  (`FloatRound`); infinities and NaN are not modelled.
* `int32` values are `Int`; the index sums of `ExportCustomMesh` wrap around as
  two's complement sums do (`Int32Wrap`).
* `TArray` is `List`; index `0` is the head, `Last()` is the end of the list.
* Engine types whose declarations live outside this translation unit
  (`FVector`, `FBox`, `FIntPoint`, the pending / running tile elements, the
  Detour mesh container) are modelled next to their first use, each with a note.
-/

namespace RecastNavMeshGenerator

/-! ## Single-precision arithmetic -/

/-- The power `2 ^ e` of two with an integer exponent. -/
def TwoPow (e : Int) : ℚ :=
  if 0 ≤ e then ((2 ^ e.toNat : Nat) : ℚ) else 1 / ((2 ^ (-e).toNat : Nat) : ℚ)

/-- Rounding to the nearest integer, a tie going to the even neighbour. -/
def RoundHalfEven (q : ℚ) : Int :=
  if q - (⌊q⌋ : ℚ) < 1 / 2 then ⌊q⌋
  else if 1 / 2 < q - (⌊q⌋ : ℚ) then ⌊q⌋ + 1
  else if ⌊q⌋ % 2 = 0 then ⌊q⌋ else ⌊q⌋ + 1

/-- The loop of `Log2Floor`, with a bound on its rounds. -/
def Log2Loop : Nat → Nat → Nat
  | 0, _ => 0
  | Fuel + 1, n => if n < 2 then 0 else Log2Loop Fuel (n / 2) + 1

/-- The position of the highest set bit of a natural number other than zero: the
greatest `k` with `2 ^ k ≤ n`. -/
def Log2Floor (n : Nat) : Nat := Log2Loop n n

/-- The binary exponent of a rational other than zero: the greatest `e` with
`2 ^ e ≤ |q|`. -/
def FloatExponent (q : ℚ) : Int :=
  let k : Int := (Log2Floor q.num.natAbs : Int) - (Log2Floor q.den : Int)
  if TwoPow k ≤ |q| then k else k - 1

/-- The `float` nearest to a positive rational: 24 significant bits when the
exponent is at least -126, multiples of `2 ^ -149` below. -/
def FloatRoundPos (q : ℚ) : ℚ :=
  let e := max (FloatExponent q) (-126)
  let u := TwoPow (e - 23)
  (RoundHalfEven (q / u) : ℚ) * u

/-- IEEE 754 single precision (`float`) rounding, round to nearest with ties to even
and gradual underflow: the value that a `float` operation stores when its exact
result is `q`. Overflow to infinity is not represented: a result beyond the largest
`float` is rounded like the others. -/
def FloatRound (q : ℚ) : ℚ :=
  if q = 0 then 0 else if 0 < q then FloatRoundPos q else -FloatRoundPos (-q)

/-- A rational that a `float` can hold: rounding leaves it as it is. -/
def IsFloat (q : ℚ) : Prop := FloatRound q = q

instance (q : ℚ) : Decidable (IsFloat q) := by
  unfold IsFloat
  infer_instance

/-- The `int32` that holds an integer modulo `2 ^ 32`: what a sum of two `int32`
values is stored as. -/
def Int32Wrap (v : Int) : Int := (v + 2147483648) % 4294967296 - 2147483648

/-! ## Engine math types -/

/-- Engine `FVector`: three `float` components. -/
structure FVector where
  X : ℚ
  Y : ℚ
  Z : ℚ
deriving DecidableEq, Repr

namespace FVector

/-- Constructor `FVector(float InF)`: every component is set to `InF`. -/
def splat (InF : ℚ) : FVector := ⟨InF, InF, InF⟩

/-- The constant `FVector::ZeroVector`. -/
def ZeroVector : FVector := ⟨0, 0, 0⟩

/-- Component-wise `operator-`. -/
def sub (a b : FVector) : FVector := ⟨a.X - b.X, a.Y - b.Y, a.Z - b.Z⟩

/-- Component-wise `operator+`. -/
def add (a b : FVector) : FVector := ⟨a.X + b.X, a.Y + b.Y, a.Z + b.Z⟩

/-- Scaling `operator*(float)`. -/
def scale (a : FVector) (s : ℚ) : FVector := ⟨a.X * s, a.Y * s, a.Z * s⟩

/-- Component-wise `operator-` in single precision. -/
def subF (a b : FVector) : FVector :=
  ⟨FloatRound (a.X - b.X), FloatRound (a.Y - b.Y), FloatRound (a.Z - b.Z)⟩

/-- Component-wise `operator+` in single precision. -/
def addF (a b : FVector) : FVector :=
  ⟨FloatRound (a.X + b.X), FloatRound (a.Y + b.Y), FloatRound (a.Z + b.Z)⟩

/-- Scaling `operator*(float)` in single precision. -/
def scaleF (a : FVector) (s : ℚ) : FVector :=
  ⟨FloatRound (a.X * s), FloatRound (a.Y * s), FloatRound (a.Z * s)⟩

/-- Every component is a `float`. -/
def IsFloat (a : FVector) : Prop :=
  RecastNavMeshGenerator.IsFloat a.X ∧ RecastNavMeshGenerator.IsFloat a.Y
    ∧ RecastNavMeshGenerator.IsFloat a.Z

instance (a : FVector) : Decidable a.IsFloat := by
  unfold FVector.IsFloat
  infer_instance

end FVector

/-- Engine `FBox`: an axis-aligned box with a validity flag. -/
structure FBox where
  Min : FVector
  Max : FVector
  IsValid : Bool
deriving DecidableEq, Repr

namespace FBox

/-- Constructor `FBox(const FVector& InMin, const FVector& InMax)`. -/
def mk2 (InMin InMax : FVector) : FBox := ⟨InMin, InMax, true⟩

/-- Every coordinate of the box is a `float`. -/
def IsFloat (b : FBox) : Prop := b.Min.IsFloat ∧ b.Max.IsFloat

instance (b : FBox) : Decidable b.IsFloat := by
  unfold FBox.IsFloat
  infer_instance

/-- Constructor `FBox(const FVector* Points, int32 Count)` for two points: the
bounding box of both. -/
def ofPoints2 (p q : FVector) : FBox :=
  ⟨⟨min p.X q.X, min p.Y q.Y, min p.Z q.Z⟩, ⟨max p.X q.X, max p.Y q.Y, max p.Z q.Z⟩, true⟩

/-- Engine `FBox::Intersect`: closed-interval overlap test on every axis. -/
def Intersect (a Other : FBox) : Bool :=
  if a.Min.X > Other.Max.X ∨ Other.Min.X > a.Max.X then false
  else if a.Min.Y > Other.Max.Y ∨ Other.Min.Y > a.Max.Y then false
  else if a.Min.Z > Other.Max.Z ∨ Other.Min.Z > a.Max.Z then false
  else true

end FBox

/-- Engine `FIntPoint`: a grid coordinate. -/
structure FIntPoint where
  X : Int
  Y : Int
deriving DecidableEq, Repr

/-- Source helper `DoesBoxContainOrOverlapVector`. -/
def DoesBoxContainOrOverlapVector (BigBox : FBox) (In : FVector) : Bool :=
  decide (In.X ≥ BigBox.Min.X) && decide (In.X ≤ BigBox.Max.X)
    && decide (In.Y ≥ BigBox.Min.Y) && decide (In.Y ≤ BigBox.Max.Y)
    && decide (In.Z ≥ BigBox.Min.Z) && decide (In.Z ≤ BigBox.Max.Z)

/-- Source helper `DoesBoxContainBox`: true also when edges overlap. -/
def DoesBoxContainBox (BigBox SmallBox : FBox) : Bool :=
  DoesBoxContainOrOverlapVector BigBox SmallBox.Min
    && DoesBoxContainOrOverlapVector BigBox SmallBox.Max

/-! ## Coordinate conventions

`RecastHelpers` is outside this translation unit; the point conversion is the
one `CovertCoordDataToRecast` performs in place on a coordinate buffer
(`x, y, z ↦ -x, z, -y`), and the box conversions rebuild a box from the two
converted corners. -/

/-- Point conversion, as in `CovertCoordDataToRecast`. -/
def Unreal2RecastPoint (p : FVector) : FVector := ⟨-p.X, p.Z, -p.Y⟩

/-- Inverse point conversion. -/
def Recast2UnrealPoint (p : FVector) : FVector := ⟨-p.X, -p.Z, p.Y⟩

/-- Box conversion into Recast space. -/
def Unreal2RecastBox (b : FBox) : FBox :=
  FBox.ofPoints2 (Unreal2RecastPoint b.Min) (Unreal2RecastPoint b.Max)

/-- Box conversion back into engine space. -/
def Recast2UnrealBox (b : FBox) : FBox :=
  FBox.ofPoints2 (Recast2UnrealPoint b.Min) (Recast2UnrealPoint b.Max)

/-! ## Build configuration -/

/-- The fields of `FRecastBuildConfig` read by the code embedded here. -/
structure FRecastBuildConfig where
  /-- Cell size `cs` -/
  cs : ℚ
  /-- Tile size in cells -/
  tileSize : Int
  /-- Border size in cells -/
  borderSize : Int
  /-- Original agent height -/
  AgentHeight : ℚ
  /-- Maximum number of vertices per polygon -/
  maxVertsPerPoly : Int
  /-- Polygon limit per tile, from the tiled mesh parameters -/
  MaxPolysPerTile : Int
  /-- Cell height `ch` -/
  ch : ℚ
  /-- Original agent radius -/
  AgentRadius : ℚ
deriving DecidableEq, Repr

/-- The offset `2.0f * Config.borderSize * Config.cs` of `GrowBoundingBox`: the
border size converted to `float`, doubled, and multiplied by the cell size, in
single precision. -/
def BBoxGrowOffset (Config : FRecastBuildConfig) : ℚ :=
  FloatRound (FloatRound (2 * FloatRound (Config.borderSize : ℚ)) * Config.cs)

/-- Source `FRecastNavMeshGenerator::GrowBoundingBox`, as a function of the
configuration it reads; the vector operations are those of `float` components. -/
def GrowBoundingBox (Config : FRecastBuildConfig) (BBox : FBox) (bIncludeAgentHeight : Bool) :
    FBox :=
  let BBoxGrowOffsetBoth := FVector.splat (BBoxGrowOffset Config)
  let BBoxGrowOffsetMin : FVector := ⟨0, 0, if bIncludeAgentHeight then Config.AgentHeight else 0⟩
  FBox.mk2 ((BBox.Min.subF BBoxGrowOffsetBoth).subF BBoxGrowOffsetMin)
    (BBox.Max.addF BBoxGrowOffsetBoth)

/-- Source `CalculateBoxIntercetion` (spelled as in the source): the common
part of two boxes that are assumed to overlap. -/
def CalculateBoxIntercetion (BoxA BoxB : FBox) : FBox :=
  FBox.mk2 ⟨max BoxA.Min.X BoxB.Min.X, max BoxA.Min.Y BoxB.Min.Y, max BoxA.Min.Z BoxB.Min.Z⟩
    ⟨min BoxA.Max.X BoxB.Max.X, min BoxA.Max.Y BoxB.Max.Y, min BoxA.Max.Z BoxB.Max.Z⟩

/-- Source `IntercestBounds`: does the test box intersect any of the bounds. -/
def IntercestBounds (TestBox : FBox) (Bounds : List FBox) : Bool :=
  Bounds.any (fun Box => Box.Intersect TestBox)

/-- Source `CalculateTileBounds`: the box of grid tile `(X, Y)` in engine space;
its vertical extent is that of the total navigation bounds. The tile indices are
converted to `float`, and the product and the sum are those of `float` components. -/
def CalculateTileBounds (X Y : Int) (NavMeshOrigin : FVector) (TotalNavBounds : FBox)
    (TileSizeInWorldUnits : ℚ) : FBox :=
  let RcNavMeshOrigin := Unreal2RecastPoint NavMeshOrigin
  let TileBox := FBox.mk2
    (RcNavMeshOrigin.addF
      ((⟨FloatRound ((X : ℚ) + 0), 0, FloatRound ((Y : ℚ) + 0)⟩ : FVector).scaleF
        TileSizeInWorldUnits))
    (RcNavMeshOrigin.addF
      ((⟨FloatRound ((X : ℚ) + 1), 0, FloatRound ((Y : ℚ) + 1)⟩ : FVector).scaleF
        TileSizeInWorldUnits))
  let TileBox := Recast2UnrealBox TileBox
  { TileBox with
    Min := { TileBox.Min with Z := TotalNavBounds.Min.Z }
    Max := { TileBox.Max with Z := TotalNavBounds.Max.Z } }

/-! ## Dirty areas and pending tile elements -/

/-- Engine `ENavigationDirtyFlag`, one Boolean per bit of the flag set. -/
structure ENavigationDirtyFlag where
  Geometry : Bool
  DynamicModifier : Bool
  UseAgentHeight : Bool
  NavigationBounds : Bool
deriving DecidableEq, Repr

/-- Engine `FNavigationDirtyArea`: a world box and its flag set; `HasFlag` is the
projection of the corresponding bit. -/
structure FNavigationDirtyArea where
  Bounds : FBox
  Flags : ENavigationDirtyFlag
deriving DecidableEq, Repr

/-- The constant `MAX_flt`, the default of `FPendingTileElement::SeedDistance`. -/
def MAX_flt : ℚ := 340282346638528859811704183484516925440

/-- Modelled from the spec: the header type `FPendingTileElement`, a queued rebuild
request: grid coordinate, whether a full geometry re-gather is required, and the
dirty world-space boxes that triggered it. Equality (`operator==`) and hashing look at
`Coord` only; `operator<` is `Other.SeedDistance < SeedDistance`. -/
structure FPendingTileElement where
  Coord : FIntPoint
  SeedDistance : ℚ
  bRebuildGeometry : Bool
  DirtyAreas : List FBox
deriving DecidableEq, Repr

/-- The update `MarkDirtyTiles` applies to the element found in its set of dirty
tiles: `bRebuildGeometry |= Element.bRebuildGeometry`, then the dirty areas are
appended if the flag is still false and emptied otherwise. -/
def MergedElement (ExistingElement Element : FPendingTileElement) : FPendingTileElement :=
  let flag := ExistingElement.bRebuildGeometry || Element.bRebuildGeometry
  { ExistingElement with
    bRebuildGeometry := flag
    DirtyAreas := if flag = false then ExistingElement.DirtyAreas ++ Element.DirtyAreas else [] }

/-- The merge step that `MarkDirtyTiles` performs on its `TSet` of dirty tiles, both
for a freshly built element and for an element already pending:
`DirtyTiles.Find(Element)`, then either update the element found or `Add`.
The set is a list in insertion order (its iteration order), keyed by `Coord`. -/
def MergeDirtyTile : List FPendingTileElement → FPendingTileElement → List FPendingTileElement
  | [], Element => [Element]
  | ExistingElement :: rest, Element =>
    if ExistingElement.Coord = Element.Coord then MergedElement ExistingElement Element :: rest
    else ExistingElement :: MergeDirtyTile rest Element

/-- The relation between an element `r` of the set of dirty tiles and the list `L`
of elements merged into the set so far: its flag is the disjunction of the flags
merged for its coordinate, its dirty areas are empty under a true flag, and under
a false flag they hold every dirty area merged for its coordinate. -/
def MergedFrom (r : FPendingTileElement) (L : List FPendingTileElement) : Prop :=
  (r.bRebuildGeometry = true ↔ ∃ x ∈ L, x.Coord = r.Coord ∧ x.bRebuildGeometry = true)
    ∧ (r.bRebuildGeometry = true → r.DirtyAreas = [])
    ∧ (r.bRebuildGeometry = false →
        ∀ x ∈ L, x.Coord = r.Coord → ∀ b ∈ x.DirtyAreas, b ∈ r.DirtyAreas)

/-- The integers `lo, lo + 1, ..., hi` of a loop `for (i = lo; i <= hi; ++i)`. -/
def loopRange (lo hi : Int) : List Int :=
  (List.range (hi + 1 - lo).toNat).map (fun (i : Nat) => lo + (i : Int))

/-! ## Tile data, the live mesh container and the tile generator state -/

/-- A tile blob as the navigation library sees it: the location written into its
header (`tx, ty, tlayer` of a compressed layer, `x, y, layer` of a navigation
tile) and its bytes. -/
structure FTileBlob where
  tx : Int
  ty : Int
  tlayer : Int
  bytes : List Nat
deriving DecidableEq, Repr

/-- Engine `FNavMeshTileData`: an owned buffer (`none` is the null pointer), its
size, and the layer index and bounding box it is tagged with. -/
structure FNavMeshTileData where
  Data : Option FTileBlob
  DataSize : Int
  LayerIndex : Int
  LayerBBox : FBox
deriving DecidableEq, Repr

/-- Engine `FNavMeshTileData::IsValid`: a non-null buffer of positive size. -/
def FNavMeshTileData.IsValid (d : FNavMeshTileData) : Bool :=
  d.Data.isSome && decide (d.DataSize > 0)

/-- A tile held by the live mesh: its slot in the tile pool (what
`decodePolyIdTile` extracts from its reference) and the blob it was added with. -/
structure dtMeshTile where
  index : Nat
  data : FTileBlob
deriving DecidableEq, Repr

/-- Modelled from the spec: the live tiled mesh container (Detour `dtNavMesh`),
whose code is not part of this translation unit. It holds the layers of every
grid coordinate, newest first, and a pool of free tile slots; a layer is owned by
the container from insertion until it is replaced or removed. -/
structure dtNavMesh where
  tiles : List dtMeshTile
  nextFree : List Nat
deriving DecidableEq, Repr

namespace dtNavMesh

/-- Container query `getTilesAt`: the layers stored at a grid coordinate. -/
def getTilesAt (m : dtNavMesh) (x y : Int) : List dtMeshTile :=
  m.tiles.filter (fun t => decide (t.data.tx = x) && decide (t.data.ty = y))

/-- Container query `getTileCountAt`. -/
def getTileCountAt (m : dtNavMesh) (x y : Int) : Int :=
  ((m.getTilesAt x y).length : Int)

/-- Container query `getTileRefAt`: the reference of the layer with the given
index at a coordinate; `none` is the null reference. -/
def getTileRefAt (m : dtNavMesh) (x y layer : Int) : Option Nat :=
  ((m.getTilesAt x y).find? (fun t => decide (t.data.tlayer = layer))).map (fun t => t.index)

/-- Container update `removeTile`: the referenced tile leaves the mesh and its
slot goes back to the head of the free list. -/
def removeTile (m : dtNavMesh) (ref : Nat) : dtNavMesh :=
  if m.tiles.any (fun t => decide (t.index = ref)) then
    { tiles := m.tiles.filter (fun t => decide (t.index ≠ ref)), nextFree := ref :: m.nextFree }
  else m

/-- Container update `addTile`: fails when the location named by the blob header
is occupied or when no free slot is left (the tile limit); otherwise the blob
takes the first free slot. Returns the new reference on success. -/
def addTile (m : dtNavMesh) (data : FTileBlob) : dtNavMesh × Option Nat :=
  if (m.getTileRefAt data.tx data.ty data.tlayer).isSome then (m, none)
  else
    match m.nextFree with
    | [] => (m, none)
    | slot :: rest => ({ tiles := ⟨slot, data⟩ :: m.tiles, nextFree := rest }, some slot)

end dtNavMesh

/-- Engine `TArray::AddUnique` on the list of affected tile indices. -/
def AddUnique (xs : List Nat) (x : Nat) : List Nat :=
  if x ∈ xs then xs else xs ++ [x]

/-- Raw geometry gathered for a tile (`FRecastRawGeometryElement`): coordinates,
indices, and one transform (a row-major matrix) per instance. -/
structure FRecastRawGeometryElement where
  GeomCoords : List ℚ
  GeomIndices : List Int
  PerInstanceTransform : List (List ℚ)
deriving DecidableEq, Repr

/-- Area modifiers gathered for a tile (`FRecastAreaNavModifierElement`); the
areas are kept as identifiers. -/
structure FRecastAreaNavModifierElement where
  Areas : List Nat
  PerInstanceTransform : List (List ℚ)
deriving DecidableEq, Repr

/-- Off-mesh link modifiers gathered for a tile (`FSimpleLinkNavModifier`), kept
as identifiers of the link collections. -/
structure FSimpleLinkNavModifier where
  Links : List Nat
  SegmentLinks : List Nat
deriving DecidableEq, Repr

/-- The state of one `FRecastTileGenerator`. -/
structure FRecastTileGenerator where
  TileX : Int
  TileY : Int
  TileConfig : FRecastBuildConfig
  TileBB : FBox
  bSucceeded : Bool
  bRegenerateCompressedLayers : Bool
  bFullyEncapsulatedByInclusionBounds : Bool
  InclusionBounds : List FBox
  CompressedLayers : List FNavMeshTileData
  DirtyLayers : List Bool
  NavigationData : List FNavMeshTileData
  RawGeometry : List FRecastRawGeometryElement
  Modifiers : List FRecastAreaNavModifierElement
  OffmeshLinks : List FSimpleLinkNavModifier
deriving DecidableEq, Repr

/-- Modelled from the spec: the header type `FRunningTileElement`, an in-flight
build: grid coordinate, discard flag, and the asynchronous unit of work, here the
tile generator the task owns as it was set up. Equality looks at `Coord` only.
Every element of `RunningDirtyTiles` has a task (`check(Element.AsyncTask)`). -/
structure FRunningTileElement where
  Coord : FIntPoint
  bShouldDiscard : Bool
  AsyncTask : FRecastTileGenerator
deriving DecidableEq, Repr

/-- The members of `FRecastNavMeshGenerator` read or written by the code embedded
here. `DetourMesh` is the mesh of the destination navmesh (`none` when it has not
been constructed). -/
structure FRecastNavMeshGenerator where
  Config : FRecastBuildConfig
  TotalNavBounds : FBox
  InclusionBounds : List FBox
  PendingDirtyTiles : List FPendingTileElement
  RunningDirtyTiles : List FRunningTileElement
  IntermediateLayerDataMap : List (FIntPoint × List FNavMeshTileData)
  DetourMesh : Option dtNavMesh
  NumActiveTiles : Int
  MaxTileGeneratorTasks : Int
deriving DecidableEq, Repr

/-- An element of the navigation octree, as `GatherGeometry` reads it: its bounds,
`ShouldUseGeometry`, `Data.HasGeometry`, the decoded collision cache (`none` for an
empty byte array), the per-instance transform delegate (`none` when unbound, else
the transforms it yields for a tile box), the link collections its modifier
contributes (simple links followed by the evaluated custom links) and the areas
of its modifier. -/
structure FNavigationOctreeElement where
  Bounds : FBox
  bShouldUseGeometry : Bool
  bHasGeometry : Bool
  CollisionData : Option (List ℚ × List Int)
  NavDataPerInstanceTransformDelegate : Option (FBox → List (List ℚ))
  Links : List FSimpleLinkNavModifier
  Areas : List Nat

/-- What the manager reads from its world: the pawn locations of the player
controllers that have a pawn, the navigation octree, and whether the voxel cache
is enabled. -/
structure UWorld where
  PlayerLocations : List (ℚ × ℚ)
  NavOctree : List FNavigationOctreeElement
  bVoxelCacheEnabled : Bool

/-! ## Dirty-tile marking -/

/-- The local `TileSizeInWorldUnits` of `MarkDirtyTiles`, `Config.tileSize * Config.cs`:
the tile size in cells converted to `float` and multiplied by the cell size in
single precision. -/
def TileSizeInWorldUnits (Config : FRecastBuildConfig) : ℚ :=
  FloatRound (FloatRound (Config.tileSize : ℚ) * Config.cs)

/-- The constant `INDEX_NONE`. -/
def INDEX_NONE : Int := -1

/-- Source `FRecastNavMeshGenerator::FindInclusionBoundEncapsulatingBox`: index of
the first inclusion bound containing the box, or `INDEX_NONE`. -/
def FindInclusionBoundEncapsulatingBox (InclusionBounds : List FBox) (Box : FBox) : Int :=
  match InclusionBounds.findIdx? (fun b => DoesBoxContainBox b Box) with
  | some Index => (Index : Int)
  | none => INDEX_NONE

/-- First part of the body of the loop over dirty areas in `MarkDirtyTiles`:
`none` when the area is skipped (`continue`), otherwise `AdjustedAreaBounds` and
`bDoTileInclusionTest`. -/
def AdjustDirtyArea (self : FRecastNavMeshGenerator) (DirtyArea : FNavigationDirtyArea) :
    Option (FBox × Bool) :=
  if DirtyArea.Flags.NavigationBounds = false then
    if self.TotalNavBounds.Intersect DirtyArea.Bounds = false then none
    else
      let CutDownArea := CalculateBoxIntercetion self.TotalNavBounds DirtyArea.Bounds
      let AdjustedAreaBounds :=
        GrowBoundingBox self.Config CutDownArea DirtyArea.Flags.UseAgentHeight
      if IntercestBounds AdjustedAreaBounds self.InclusionBounds = false then none
      else
        some (AdjustedAreaBounds,
          decide (FindInclusionBoundEncapsulatingBox self.InclusionBounds CutDownArea
            = INDEX_NONE))
  else some (DirtyArea.Bounds, false)

/-- The element `MarkDirtyTiles` builds for tile `(x, y)` and a dirty area. -/
def NewPendingElement (DirtyArea : FNavigationDirtyArea) (AdjustedAreaBounds : FBox)
    (x y : Int) : FPendingTileElement :=
  let bRebuildGeometry := DirtyArea.Flags.Geometry || DirtyArea.Flags.NavigationBounds
  { Coord := ⟨x, y⟩
    SeedDistance := MAX_flt
    bRebuildGeometry := bRebuildGeometry
    DirtyAreas := if bRebuildGeometry = false then [AdjustedAreaBounds] else [] }

/-- The tile range `XMin, XMax, YMin, YMax` that `MarkDirtyTiles` computes from the
adjusted bounds of a dirty area (`NavMeshOrigin` is the zero vector). -/
structure FTileRange where
  XMin : Int
  XMax : Int
  YMin : Int
  YMax : Int
deriving DecidableEq, Repr

/-- The argument of `FMath::FloorToInt` in the tile range of `MarkDirtyTiles`,
`(RcCoord - Origin) / TileSizeInWorldUnits`: the position of a Recast-space
coordinate in tiles, with the difference and the quotient in single precision. -/
def TilePosition (Config : FRecastBuildConfig) (RcCoord Origin : ℚ) : ℚ :=
  FloatRound (FloatRound (RcCoord - Origin) / TileSizeInWorldUnits Config)

/-- The computation of the tile range in `MarkDirtyTiles`. -/
def TileRange (Config : FRecastBuildConfig) (AdjustedAreaBounds : FBox) : FTileRange :=
  let NavMeshOrigin := FVector.ZeroVector
  let RcAreaBounds := Unreal2RecastBox AdjustedAreaBounds
  { XMin := ⌊TilePosition Config RcAreaBounds.Min.X NavMeshOrigin.X⌋
    XMax := ⌊TilePosition Config RcAreaBounds.Max.X NavMeshOrigin.X⌋
    YMin := ⌊TilePosition Config RcAreaBounds.Min.Z NavMeshOrigin.Z⌋
    YMax := ⌊TilePosition Config RcAreaBounds.Max.Z NavMeshOrigin.Z⌋ }

/-- The per-tile test of `MarkDirtyTiles` that skips tile `(x, y)`: the area does
not expand the navigable bounds, the inclusion test is requested, and the tile
box meets no inclusion bound. -/
def TileIsSkipped (self : FRecastNavMeshGenerator) (DirtyArea : FNavigationDirtyArea)
    (bDoTileInclusionTest : Bool) (x y : Int) : Bool :=
  decide (DirtyArea.Flags.NavigationBounds = false) && decide (bDoTileInclusionTest = true)
    && decide (IntercestBounds
        (CalculateTileBounds x y FVector.ZeroVector self.TotalNavBounds
          (TileSizeInWorldUnits self.Config))
        self.InclusionBounds = false)

/-- Body of the innermost loop of `MarkDirtyTiles` for tile `(x, y)`: the per-tile
inclusion test, then the merge of the new element into `DirtyTiles`. -/
def MarkDirtyTile (self : FRecastNavMeshGenerator) (DirtyArea : FNavigationDirtyArea)
    (AdjustedAreaBounds : FBox) (bDoTileInclusionTest : Bool)
    (DirtyTiles : List FPendingTileElement) (x y : Int) : List FPendingTileElement :=
  if TileIsSkipped self DirtyArea bDoTileInclusionTest x y then DirtyTiles
  else MergeDirtyTile DirtyTiles (NewPendingElement DirtyArea AdjustedAreaBounds x y)

/-- Body of the loop over dirty areas in `MarkDirtyTiles`. -/
def MarkDirtyArea (self : FRecastNavMeshGenerator) (DirtyTiles : List FPendingTileElement)
    (DirtyArea : FNavigationDirtyArea) : List FPendingTileElement :=
  match AdjustDirtyArea self DirtyArea with
  | none => DirtyTiles
  | some (AdjustedAreaBounds, bDoTileInclusionTest) =>
    (loopRange (TileRange self.Config AdjustedAreaBounds).YMin
        (TileRange self.Config AdjustedAreaBounds).YMax).foldl
      (fun DirtyTiles y =>
        (loopRange (TileRange self.Config AdjustedAreaBounds).XMin
            (TileRange self.Config AdjustedAreaBounds).XMax).foldl
          (fun DirtyTiles x =>
            MarkDirtyTile self DirtyArea AdjustedAreaBounds bDoTileInclusionTest DirtyTiles x y)
          DirtyTiles)
      DirtyTiles

/-- The pending elements that the loops of `MarkDirtyTiles` build for one dirty
area, in loop order (tiles skipped by the inclusion test left out). -/
def AreaElements (self : FRecastNavMeshGenerator) (DirtyArea : FNavigationDirtyArea) :
    List FPendingTileElement :=
  match AdjustDirtyArea self DirtyArea with
  | none => []
  | some (AdjustedAreaBounds, bDoTileInclusionTest) =>
    (loopRange (TileRange self.Config AdjustedAreaBounds).YMin
        (TileRange self.Config AdjustedAreaBounds).YMax).flatMap
      (fun y =>
        ((loopRange (TileRange self.Config AdjustedAreaBounds).XMin
            (TileRange self.Config AdjustedAreaBounds).XMax).filter
          (fun x => !TileIsSkipped self DirtyArea bDoTileInclusionTest x y)).map
          (fun x => NewPendingElement DirtyArea AdjustedAreaBounds x y))

/-- The grid coordinates a dirty area touches: those for which `MarkDirtyTiles`
builds a pending element. -/
def AreaCoords (self : FRecastNavMeshGenerator) (DirtyArea : FNavigationDirtyArea) :
    List FIntPoint :=
  (AreaElements self DirtyArea).map (fun e => e.Coord)

/-- The dirty box `MarkDirtyTiles` stores for an area: its adjusted bounds. -/
def AreaDirtyBox (self : FRecastNavMeshGenerator) (DirtyArea : FNavigationDirtyArea) : FBox :=
  match AdjustDirtyArea self DirtyArea with
  | none => DirtyArea.Bounds
  | some (AdjustedAreaBounds, _) => AdjustedAreaBounds

/-- The rebuild-geometry flag `MarkDirtyTiles` gives the elements of an area. -/
def AreaRebuildsGeometry (DirtyArea : FNavigationDirtyArea) : Bool :=
  DirtyArea.Flags.Geometry || DirtyArea.Flags.NavigationBounds

/-- Squared distance `FVector2D::DistSquared`. -/
def DistSquared (a b : ℚ × ℚ) : ℚ :=
  (a.1 - b.1) * (a.1 - b.1) + (a.2 - b.2) * (a.2 - b.2)

/-- The seed-distance update of `SortPendingBuildTiles` for one pending element:
the smallest of its stored distance and the squared distances from the tile
centre to the seeds. -/
def UpdateSeedDistance (self : FRecastNavMeshGenerator) (SeedLocations : List (ℚ × ℚ))
    (Element : FPendingTileElement) : FPendingTileElement :=
  let TileBox := CalculateTileBounds Element.Coord.X Element.Coord.Y FVector.ZeroVector
    self.TotalNavBounds (TileSizeInWorldUnits self.Config)
  let TileCenter2D : ℚ × ℚ :=
    ((TileBox.Min.X + TileBox.Max.X) * (1 / 2), (TileBox.Min.Y + TileBox.Max.Y) * (1 / 2))
  SeedLocations.foldl
    (fun Element SeedLocation =>
      let DistSq := DistSquared TileCenter2D SeedLocation
      if DistSq < Element.SeedDistance then { Element with SeedDistance := DistSq } else Element)
    Element

/-- Source `FRecastNavMeshGenerator::SortPendingBuildTiles`. `TArray::Sort` orders by
`operator<`, so the stored distances descend and the nearest tiles end the list;
the engine's sort is not stable, the order it gives elements of equal distance is
that of a stable sort here. -/
def SortPendingBuildTiles (self : FRecastNavMeshGenerator) (CurWorld : Option UWorld) :
    FRecastNavMeshGenerator :=
  match CurWorld with
  | none => self
  | some World =>
    let SeedLocations :=
      if World.PlayerLocations.length = 0 then [((0 : ℚ), (0 : ℚ))] else World.PlayerLocations
    if SeedLocations.length > 0 then
      { self with
        PendingDirtyTiles :=
          (self.PendingDirtyTiles.map (UpdateSeedDistance self SeedLocations)).insertionSort
            (fun a b => b.SeedDistance ≤ a.SeedDistance) }
    else self

/-- Source `FRecastNavMeshGenerator::MarkDirtyTiles`. The assertions
`check(bInitialized)` and `check(TileSizeInWorldUnits > 0)` are preconditions of
the call. -/
def MarkDirtyTiles (self : FRecastNavMeshGenerator) (CurWorld : Option UWorld)
    (DirtyAreas : List FNavigationDirtyArea) : FRecastNavMeshGenerator :=
  let DirtyTiles := DirtyAreas.foldl (MarkDirtyArea self) []
  let NumTilesMarked := DirtyTiles.length
  let DirtyTiles := self.PendingDirtyTiles.foldl MergeDirtyTile DirtyTiles
  let self := { self with PendingDirtyTiles := DirtyTiles }
  if NumTilesMarked > 0 then SortPendingBuildTiles self CurWorld else self

/-! ## The tile generator -/

/-- Outcome of the Recast calls of `GenerateCompressedLayers` on a tile that has raw
geometry: a failed allocation or build stage, a heightfield without spans
(`SolidHF->pools == 0`), or the compressed layers in layer order, each with its
bytes, size and bounding box. -/
inductive FRasterizeOutcome where
  | Failed
  | EmptyHeightfield
  | Layers (layers : List (List Nat × Int × FBox))
deriving DecidableEq, Repr

/-- Outcome of the tile-cache calls of `GenerateNavigationData` for one layer: a
failed stage, or a polygon mesh with its polygon and vertex counts together with
what `dtCreateNavMeshData` yields if it is called (`none` when it returns false,
else the bytes and size of the navigation tile). -/
inductive FNavLayerOutcome where
  | Failed
  | PolyMesh (npolys nverts : Int) (NavData : Option (List Nat × Int))
deriving DecidableEq, Repr

/-- The navigation library (Recast / Detour tile cache) as the tile generator uses
it: deterministic functions of the generator state. -/
structure FRecastLibrary where
  RasterizeLayers : FRecastTileGenerator → FRasterizeOutcome
  BuildLayerMesh : FRecastTileGenerator → Nat → FNavMeshTileData → FNavLayerOutcome

/-- Detour constant `DT_VERTS_PER_POLYGON`. -/
def DT_VERTS_PER_POLYGON : Int := 6

namespace FRecastTileGenerator

/-- Constructor `FRecastTileGenerator(ParentGenerator, Location)`; the members it
does not set start empty. -/
def Construct (ParentGenerator : FRecastNavMeshGenerator) (Location : FIntPoint) :
    FRecastTileGenerator :=
  { TileX := Location.X
    TileY := Location.Y
    TileConfig := ParentGenerator.Config
    TileBB := ⟨FVector.ZeroVector, FVector.ZeroVector, false⟩
    bSucceeded := false
    bRegenerateCompressedLayers := false
    bFullyEncapsulatedByInclusionBounds := false
    InclusionBounds := []
    CompressedLayers := []
    DirtyLayers := []
    NavigationData := []
    RawGeometry := []
    Modifiers := []
    OffmeshLinks := [] }

/-- Modelled from the spec: the inline accessor `IsFullyRegenerated` of the class
header, which is not among the sources. A tile is fully regenerated when phase A
(the compressed layers) is redone, that is when `bRegenerateCompressedLayers`. -/
def IsFullyRegenerated (g : FRecastTileGenerator) : Bool :=
  g.bRegenerateCompressedLayers

/-- Modelled from the spec: the inline accessor `IsLayerChanged` of the class
header, which is not among the sources: whether the layer index is flagged in
`DirtyLayers`. An index outside the array reads as not flagged. -/
def IsLayerChanged (g : FRecastTileGenerator) (LayerIdx : Int) : Bool :=
  if LayerIdx < 0 then false else g.DirtyLayers.getD LayerIdx.toNat false

/-- Source `FRecastTileGenerator::HasDataToBuild`. -/
def HasDataToBuild (g : FRecastTileGenerator) : Bool :=
  decide (g.CompressedLayers.length ≠ 0) || decide (g.Modifiers.length ≠ 0)
    || decide (g.OffmeshLinks.length ≠ 0) || decide (g.RawGeometry.length ≠ 0)

/-- Source `FRecastTileGenerator::AppendGeometry`. -/
def AppendGeometry (g : FRecastTileGenerator) (RawCollisionCache : Option (List ℚ × List Int))
    (InTransformsDelegate : Option (FBox → List (List ℚ))) : FRecastTileGenerator :=
  match RawCollisionCache with
  | none => g
  | some (Verts, Indices) =>
    match InTransformsDelegate with
    | some Execute =>
      if (Execute g.TileBB).length = 0 then g
      else { g with RawGeometry := g.RawGeometry ++ [⟨Verts, Indices, Execute g.TileBB⟩] }
    | none => { g with RawGeometry := g.RawGeometry ++ [⟨Verts, Indices, []⟩] }

/-- Source `FRecastTileGenerator::AppendModifier`. -/
def AppendModifier (g : FRecastTileGenerator) (Element : FNavigationOctreeElement) :
    FRecastTileGenerator :=
  let g := { g with OffmeshLinks := g.OffmeshLinks ++ Element.Links }
  if Element.Areas.length = 0 then g
  else
    match Element.NavDataPerInstanceTransformDelegate with
    | some Execute =>
      if (Execute g.TileBB).length = 0 then g
      else { g with Modifiers := g.Modifiers ++ [⟨Element.Areas, Execute g.TileBB⟩] }
    | none => { g with Modifiers := g.Modifiers ++ [⟨Element.Areas, []⟩] }

/-- Source `FRecastTileGenerator::GatherGeometry`: walks the octree elements whose
bounds meet the grown tile box. With the voxel cache enabled no raw geometry is
appended. -/
def GatherGeometry (g : FRecastTileGenerator) (ParentGenerator : FRecastNavMeshGenerator)
    (World : UWorld) (bGeometryChanged : Bool) : FRecastTileGenerator :=
  (World.NavOctree.filter
      (fun Element => Element.Bounds.Intersect (GrowBoundingBox ParentGenerator.Config g.TileBB false))).foldl
    (fun g Element =>
      if Element.bShouldUseGeometry then
        let bExportGeometry := bGeometryChanged && Element.bHasGeometry
        let g :=
          if bExportGeometry then
            if World.bVoxelCacheEnabled then g
            else AppendGeometry g Element.CollisionData Element.NavDataPerInstanceTransformDelegate
          else g
        AppendModifier g Element
      else g)
    g

/-- The write `DirtyLayers[Index] = true`; an index outside the array writes
nothing. -/
def MarkLayerDirty (DirtyLayers : List Bool) (Index : Int) : List Bool :=
  if Index < 0 then DirtyLayers else DirtyLayers.set Index.toNat true

/-- Source `FRecastNavMeshGenerator::TakeIntermediateLayersData`
(`RemoveAndCopyValue` on the map of cached compressed layers). -/
def TakeIntermediateLayersData (ParentGenerator : FRecastNavMeshGenerator) (GridCoord : FIntPoint) :
    List FNavMeshTileData × FRecastNavMeshGenerator :=
  match ParentGenerator.IntermediateLayerDataMap.find? (fun kv => decide (kv.1 = GridCoord)) with
  | some kv =>
    (kv.2, { ParentGenerator with
      IntermediateLayerDataMap :=
        ParentGenerator.IntermediateLayerDataMap.filter (fun kv => decide (kv.1 ≠ GridCoord)) })
  | none => ([], ParentGenerator)

/-- Source `FRecastTileGenerator::Setup`. Returns the generator and the manager,
whose cached layers for the tile have been taken over. -/
def Setup (g : FRecastTileGenerator) (ParentGenerator : FRecastNavMeshGenerator) (World : UWorld)
    (DirtyAreas : List FBox) : FRecastTileGenerator × FRecastNavMeshGenerator :=
  let TileCellSize := FloatRound (FloatRound (g.TileConfig.tileSize : ℚ) * g.TileConfig.cs)
  let TileBB := CalculateTileBounds g.TileX g.TileY FVector.ZeroVector
    ParentGenerator.TotalNavBounds TileCellSize
  let ParentBounds := ParentGenerator.InclusionBounds
  let Picked : List FBox × Bool :=
    if ParentBounds.length > 0 then
      ParentBounds.foldl
        (fun acc Bounds =>
          if Bounds.Intersect TileBB then (acc.1 ++ [Bounds], DoesBoxContainBox Bounds TileBB)
          else acc)
        (g.InclusionBounds, false)
    else (g.InclusionBounds, true)
  let Taken := TakeIntermediateLayersData ParentGenerator ⟨g.TileX, g.TileY⟩
  let CompressedLayers := Taken.1
  let bRegenerateCompressedLayers :=
    decide (DirtyAreas.length = 0) || decide (CompressedLayers.length = 0)
  let g : FRecastTileGenerator := { g with
    TileBB := TileBB
    bFullyEncapsulatedByInclusionBounds := Picked.2
    InclusionBounds := Picked.1
    CompressedLayers := CompressedLayers
    bRegenerateCompressedLayers := bRegenerateCompressedLayers }
  if g.InclusionBounds.length ≠ 0 then
    let g : FRecastTileGenerator :=
      if !bRegenerateCompressedLayers then
        { g with
          DirtyLayers :=
            CompressedLayers.foldl
              (fun DirtyLayers LayerData =>
                DirtyAreas.foldl
                  (fun DirtyLayers DirtyBox =>
                    if DirtyBox.Intersect LayerData.LayerBBox then
                      MarkLayerDirty DirtyLayers LayerData.LayerIndex
                    else DirtyLayers)
                  DirtyLayers)
              (List.replicate CompressedLayers.length false) }
      else g
    (GatherGeometry g ParentGenerator World bRegenerateCompressedLayers, Taken.2)
  else (g, Taken.2)

/-- Source `FRecastTileGenerator::GenerateCompressedLayers`. Without raw geometry
no heightfield is allocated and the tile is empty, which is a success. -/
def GenerateCompressedLayers (Lib : FRecastLibrary) (g : FRecastTileGenerator) :
    Bool × FRecastTileGenerator :=
  let bHasGeometry := decide (g.RawGeometry.length > 0)
  if bHasGeometry then
    match Lib.RasterizeLayers g with
    | FRasterizeOutcome.Failed => (false, g)
    | FRasterizeOutcome.EmptyHeightfield => (true, g)
    | FRasterizeOutcome.Layers layers =>
      (true, { g with
        CompressedLayers :=
          layers.enum.map (fun il =>
            { Data := some ⟨g.TileX, g.TileY, (il.1 : Int), il.2.1⟩
              DataSize := il.2.2.1
              LayerIndex := (il.1 : Int)
              LayerBBox := il.2.2.2 }) })
  else (true, g)

/-- The loop of `GenerateNavigationData` over the compressed layers (paired with
their positions): `none` when a layer makes the function return false, otherwise
the navigation data collected. A position outside `DirtyLayers` reads as not
dirty. -/
def GenerateNavigationDataLoop (Lib : FRecastLibrary) (g : FRecastTileGenerator) :
    List (Nat × FNavMeshTileData) → List FNavMeshTileData → Option (List FNavMeshTileData)
  | [], NavigationData => some NavigationData
  | (iLayer, CompressedData) :: rest, NavigationData =>
    if g.DirtyLayers.getD iLayer false = false then
      GenerateNavigationDataLoop Lib g rest NavigationData
    else
      match Lib.BuildLayerMesh g iLayer CompressedData with
      | FNavLayerOutcome.Failed => none
      | FNavLayerOutcome.PolyMesh npolys nverts Created =>
        if g.TileConfig.maxVertsPerPoly ≤ DT_VERTS_PER_POLYGON ∧ npolys > 0 ∧ nverts > 0 then
          if nverts ≥ 0xffff then none
          else
            match Created with
            | none => none
            | some (NavData, NavDataSize) =>
              GenerateNavigationDataLoop Lib g rest
                (NavigationData ++
                  [⟨some ⟨g.TileX, g.TileY, (iLayer : Int), NavData⟩, NavDataSize, (iLayer : Int),
                    CompressedData.LayerBBox⟩])
        else
          GenerateNavigationDataLoop Lib g rest
            (NavigationData ++ [⟨none, 0, (iLayer : Int), CompressedData.LayerBBox⟩])

/-- Source `FRecastTileGenerator::GenerateNavigationData`: on failure the member
`NavigationData` is left as it was. -/
def GenerateNavigationData (Lib : FRecastLibrary) (g : FRecastTileGenerator) :
    Bool × FRecastTileGenerator :=
  match GenerateNavigationDataLoop Lib g g.CompressedLayers.enum [] with
  | none => (false, g)
  | some NavigationData => (true, { g with NavigationData := NavigationData })

/-- Source `FRecastTileGenerator::GenerateTile`. -/
def GenerateTile (Lib : FRecastLibrary) (g : FRecastTileGenerator) : Bool × FRecastTileGenerator :=
  let r : Bool × FRecastTileGenerator :=
    if g.bRegenerateCompressedLayers then
      let g := { g with CompressedLayers := [] }
      let r := GenerateCompressedLayers Lib g
      if r.1 then (true, { r.2 with DirtyLayers := List.replicate r.2.CompressedLayers.length true })
      else r
    else (true, g)
  if r.1 then GenerateNavigationData Lib r.2 else r

/-- Source `FRecastTileGenerator::DoWork`. -/
def DoWork (Lib : FRecastLibrary) (g : FRecastTileGenerator) : FRecastTileGenerator :=
  let r := GenerateTile Lib g
  { r.2 with bSucceeded := r.1 }

end FRecastTileGenerator

/-! ## Merging tile results and scheduling -/

/-- Source `FRecastNavMeshGenerator::RemoveTileLayers`: removes every layer of the
live mesh at the grid coordinate, then drops the cached compressed layers of the
coordinate. Returns the affected tile indices. -/
def RemoveTileLayers (self : FRecastNavMeshGenerator) (TileX TileY : Int) :
    List Nat × FRecastNavMeshGenerator :=
  let r : List Nat × FRecastNavMeshGenerator :=
    match self.DetourMesh with
    | none => ([], self)
    | some DetourMesh =>
      let NumLayers := DetourMesh.getTileCountAt TileX TileY
      if NumLayers > 0 then
        let Tiles := DetourMesh.getTilesAt TileX TileY
        let st : List Nat × Int × dtNavMesh :=
          Tiles.foldl
            (fun st Tile => (AddUnique st.1 Tile.index, st.2.1 - 1, st.2.2.removeTile Tile.index))
            ([], self.NumActiveTiles, DetourMesh)
        (st.1, { self with NumActiveTiles := st.2.1, DetourMesh := some st.2.2 })
      else ([], self)
  (r.1, { r.2 with
    IntermediateLayerDataMap :=
      r.2.IntermediateLayerDataMap.filter (fun kv => decide (kv.1 ≠ (⟨TileX, TileY⟩ : FIntPoint))) })

/-- Body of the loop of `AddGeneratedTiles` over the navigation data of the tile
generator, on the affected tile indices, the active-tile counter and the mesh. -/
def AddTileLayer (TileGenerator : FRecastTileGenerator) (TileX TileY : Int)
    (st : List Nat × Int × dtNavMesh) (TileLayer : FNavMeshTileData) : List Nat × Int × dtNavMesh :=
  let LayerIndex := TileLayer.LayerIndex
  if !TileGenerator.IsLayerChanged TileLayer.LayerIndex then st
  else
    let st : List Nat × Int × dtNavMesh :=
      match st.2.2.getTileRefAt TileX TileY LayerIndex with
      | some OldTileRef => (AddUnique st.1 OldTileRef, st.2.1 - 1, st.2.2.removeTile OldTileRef)
      | none => st
    if TileLayer.IsValid then
      match TileLayer.Data with
      | some Data =>
        match st.2.2.addTile Data with
        | (_, none) => st
        | (DetourMesh, some ResultTileRef) => (AddUnique st.1 ResultTileRef, st.2.1 + 1, DetourMesh)
      | none => st
    else st

/-- Source `FRecastNavMeshGenerator::AddGeneratedTiles`. Returns the affected tile
indices. -/
def AddGeneratedTiles (self : FRecastNavMeshGenerator) (TileGenerator : FRecastTileGenerator) :
    List Nat × FRecastNavMeshGenerator :=
  let TileX := TileGenerator.TileX
  let TileY := TileGenerator.TileY
  let r : List Nat × FRecastNavMeshGenerator :=
    if TileGenerator.IsFullyRegenerated then RemoveTileLayers self TileX TileY else ([], self)
  match r.2.DetourMesh with
  | some DetourMesh =>
    let TileLayers := TileGenerator.NavigationData
    let st := TileLayers.foldl (AddTileLayer TileGenerator TileX TileY)
      (r.1, r.2.NumActiveTiles, DetourMesh)
    (st.1, { r.2 with NumActiveTiles := st.2.1, DetourMesh := some st.2.2 })
  | none => r

/-- Source `FRecastNavMeshGenerator::CreateTileGenerator`. -/
def CreateTileGenerator (self : FRecastNavMeshGenerator) (World : UWorld) (Coord : FIntPoint)
    (DirtyAreas : List FBox) : FRecastTileGenerator × FRecastNavMeshGenerator :=
  (FRecastTileGenerator.Construct self Coord).Setup self World DirtyAreas

/-- Engine `TArray::Contains` on `RunningDirtyTiles`, which compares coordinates. -/
def RunningContains (RunningDirtyTiles : List FRunningTileElement) (Coord : FIntPoint) : Bool :=
  RunningDirtyTiles.any (fun r => decide (r.Coord = Coord))

/-- First loop of `ProcessTileTasks`, submitting pending elements. The first
argument is `ElementIdx + 1`; the state is the manager, `NumSubmittedTasks` and
`UpdatedTiles`. -/
def SubmitPendingLoop (World : UWorld) (NumTasksToSubmit : Int) :
    Nat → FRecastNavMeshGenerator × Int × List Nat → FRecastNavMeshGenerator × Int × List Nat
  | 0, st => st
  | ElementIdx + 1, (self, NumSubmittedTasks, UpdatedTiles) =>
    if NumSubmittedTasks < NumTasksToSubmit then
      match self.PendingDirtyTiles[ElementIdx]? with
      | none => SubmitPendingLoop World NumTasksToSubmit ElementIdx (self, NumSubmittedTasks, UpdatedTiles)
      | some PendingElement =>
        if RunningContains self.RunningDirtyTiles PendingElement.Coord then
          SubmitPendingLoop World NumTasksToSubmit ElementIdx (self, NumSubmittedTasks, UpdatedTiles)
        else
          let Created := CreateTileGenerator self World PendingElement.Coord PendingElement.DirtyAreas
          if Created.1.HasDataToBuild then
            SubmitPendingLoop World NumTasksToSubmit ElementIdx
              ({ Created.2 with
                  RunningDirtyTiles :=
                    Created.2.RunningDirtyTiles ++ [⟨PendingElement.Coord, false, Created.1⟩]
                  PendingDirtyTiles := Created.2.PendingDirtyTiles.eraseIdx ElementIdx },
                NumSubmittedTasks + 1, UpdatedTiles)
          else
            let Removed := RemoveTileLayers Created.2 PendingElement.Coord.X PendingElement.Coord.Y
            SubmitPendingLoop World NumTasksToSubmit ElementIdx
              ({ Removed.2 with
                  PendingDirtyTiles := Removed.2.PendingDirtyTiles.eraseIdx ElementIdx },
                NumSubmittedTasks, UpdatedTiles ++ Removed.1)
    else (self, NumSubmittedTasks, UpdatedTiles)

/-- Engine `TMap::Add` on the map of cached compressed layers: the value replaces
the one stored for the key, if any. -/
def IntermediateLayerDataMapAdd (Map : List (FIntPoint × List FNavMeshTileData)) (Coord : FIntPoint)
    (Layers : List FNavMeshTileData) : List (FIntPoint × List FNavMeshTileData) :=
  Map.filter (fun kv => decide (kv.1 ≠ Coord)) ++ [(Coord, Layers)]

/-- Second loop of `ProcessTileTasks`, collecting completed tasks. The first
argument is `Idx + 1`; `IsDone Idx` tells whether the task of the running element
at position `Idx` has finished when it is polled; the tile generator of a
finished task is the one set up at submission after its `DoWork`. -/
def CollectLoop (Lib : FRecastLibrary) (IsDone : Nat → Bool) :
    Nat → FRecastNavMeshGenerator × List Nat → FRecastNavMeshGenerator × List Nat
  | 0, st => st
  | Idx + 1, (self, UpdatedTiles) =>
    match self.RunningDirtyTiles[Idx]? with
    | none => CollectLoop Lib IsDone Idx (self, UpdatedTiles)
    | some Element =>
      if IsDone Idx then
        let st : FRecastNavMeshGenerator × List Nat :=
          if !Element.bShouldDiscard then
            let TileGenerator := Element.AsyncTask.DoWork Lib
            let Added := AddGeneratedTiles self TileGenerator
            let ComressedLayers := TileGenerator.CompressedLayers
            if ComressedLayers.length ≠ 0 then
              ({ Added.2 with
                  IntermediateLayerDataMap :=
                    IntermediateLayerDataMapAdd Added.2.IntermediateLayerDataMap Element.Coord
                      ComressedLayers },
                UpdatedTiles ++ Added.1)
            else (Added.2, UpdatedTiles ++ Added.1)
          else (self, UpdatedTiles)
        CollectLoop Lib IsDone Idx
          ({ st.1 with RunningDirtyTiles := st.1.RunningDirtyTiles.eraseIdx Idx }, st.2)
      else CollectLoop Lib IsDone Idx (self, UpdatedTiles)

/-- Source `FRecastNavMeshGenerator::ProcessTileTasks`. Returns the updated tile
indices. -/
def ProcessTileTasks (self : FRecastNavMeshGenerator) (World : UWorld) (Lib : FRecastLibrary)
    (IsDone : Nat → Bool) (NumTasksToSubmit : Int) : List Nat × FRecastNavMeshGenerator :=
  let Submitted :=
    SubmitPendingLoop World NumTasksToSubmit self.PendingDirtyTiles.length (self, 0, [])
  let Collected :=
    CollectLoop Lib IsDone Submitted.1.RunningDirtyTiles.length (Submitted.1, Submitted.2.2)
  (Collected.2, Collected.1)

/-! ## Single steps of the two loops, named for the proofs -/

/-- The manager after the pending element `p` at position `k` has been started as
an asynchronous task (first branch of the submit loop). -/
def SubmittedState (W : UWorld) (self : FRecastNavMeshGenerator) (k : Nat)
    (p : FPendingTileElement) : FRecastNavMeshGenerator :=
  { (CreateTileGenerator self W p.Coord p.DirtyAreas).2 with
    RunningDirtyTiles :=
      (CreateTileGenerator self W p.Coord p.DirtyAreas).2.RunningDirtyTiles
        ++ [⟨p.Coord, false, (CreateTileGenerator self W p.Coord p.DirtyAreas).1⟩]
    PendingDirtyTiles :=
      (CreateTileGenerator self W p.Coord p.DirtyAreas).2.PendingDirtyTiles.eraseIdx k }

/-- The manager after the pending element `p` at position `k` has been resolved as
a tile removal (second branch of the submit loop). -/
def RemovedState (W : UWorld) (self : FRecastNavMeshGenerator) (k : Nat)
    (p : FPendingTileElement) : FRecastNavMeshGenerator :=
  { (RemoveTileLayers (CreateTileGenerator self W p.Coord p.DirtyAreas).2 p.Coord.X p.Coord.Y).2 with
    PendingDirtyTiles :=
      (RemoveTileLayers (CreateTileGenerator self W p.Coord p.DirtyAreas).2
        p.Coord.X p.Coord.Y).2.PendingDirtyTiles.eraseIdx k }

/-- The manager and the updated-tile list after the finished task of the running
element at position `Idx` has been collected (body of the collect loop). -/
def CollectedState (Lib : FRecastLibrary) (self : FRecastNavMeshGenerator) (Idx : Nat)
    (Element : FRunningTileElement) (UpdatedTiles : List Nat) :
    FRecastNavMeshGenerator × List Nat :=
  let st : FRecastNavMeshGenerator × List Nat :=
    if !Element.bShouldDiscard then
      if (Element.AsyncTask.DoWork Lib).CompressedLayers.length ≠ 0 then
        ({ (AddGeneratedTiles self (Element.AsyncTask.DoWork Lib)).2 with
            IntermediateLayerDataMap :=
              IntermediateLayerDataMapAdd
                (AddGeneratedTiles self (Element.AsyncTask.DoWork Lib)).2.IntermediateLayerDataMap
                Element.Coord (Element.AsyncTask.DoWork Lib).CompressedLayers },
          UpdatedTiles ++ (AddGeneratedTiles self (Element.AsyncTask.DoWork Lib)).1)
      else ((AddGeneratedTiles self (Element.AsyncTask.DoWork Lib)).2,
        UpdatedTiles ++ (AddGeneratedTiles self (Element.AsyncTask.DoWork Lib)).1)
    else (self, UpdatedTiles)
  ({ st.1 with RunningDirtyTiles := st.1.RunningDirtyTiles.eraseIdx Idx }, st.2)

/-! ## Call sequences on the manager -/

/-- The grid coordinates of the running elements. -/
def RunningCoords (self : FRecastNavMeshGenerator) : List FIntPoint :=
  self.RunningDirtyTiles.map (fun r => r.Coord)

/-- The grid coordinates of the pending elements. -/
def PendingCoords (self : FRecastNavMeshGenerator) : List FIntPoint :=
  self.PendingDirtyTiles.map (fun p => p.Coord)

/-- A call on the manager together with what the environment contributes to it. -/
inductive FManagerCall where
  | MarkDirtyTiles (CurWorld : Option UWorld) (DirtyAreas : List FNavigationDirtyArea)
  | ProcessTileTasks (World : UWorld) (IsDone : Nat → Bool) (NumTasksToSubmit : Int)

/-- The manager after one call. -/
def ApplyCall (Lib : FRecastLibrary) (self : FRecastNavMeshGenerator) :
    FManagerCall → FRecastNavMeshGenerator
  | FManagerCall.MarkDirtyTiles CurWorld DirtyAreas => MarkDirtyTiles self CurWorld DirtyAreas
  | FManagerCall.ProcessTileTasks World IsDone NumTasksToSubmit =>
    (ProcessTileTasks self World Lib IsDone NumTasksToSubmit).2

/-- The manager after a sequence of calls. -/
def RunCalls (Lib : FRecastLibrary) (self : FRecastNavMeshGenerator) (Calls : List FManagerCall) :
    FRecastNavMeshGenerator :=
  Calls.foldl (ApplyCall Lib) self

/-- The manager after a sequence of `ProcessTileTasks` calls, each given by its
world, completion oracle and budget. -/
def RunTicks (Lib : FRecastLibrary) (self : FRecastNavMeshGenerator)
    (Ticks : List (UWorld × (Nat → Bool) × Int)) : FRecastNavMeshGenerator :=
  Ticks.foldl (fun self t => (ProcessTileTasks self t.1 Lib t.2.1 t.2.2).2) self

/-- What the first loop of one `ProcessTileTasks` call does with the pending
element `e` that it takes out of the queue: the element is in the queue before the
call and not after the loop; the loop creates the tile generator of the element
from its coordinate and dirty boxes (`CreateTileGenerator`); when that generator
has data to build, a running element with the coordinate of `e`, the discard flag
cleared and this generator as its task is in `RunningDirtyTiles` after the loop;
when it has none, no task is running for the coordinate after the loop and the
live mesh holds no layer at the coordinate (`RemoveTileLayers`). -/
def ResolvesPendingElement (World : UWorld) (NumTasksToSubmit : Int)
    (self : FRecastNavMeshGenerator) (e : FPendingTileElement) : Prop :=
  e ∈ self.PendingDirtyTiles
    ∧ e ∉ (SubmitPendingLoop World NumTasksToSubmit self.PendingDirtyTiles.length
        (self, 0, [])).1.PendingDirtyTiles
    ∧ ((CreateTileGenerator self World e.Coord e.DirtyAreas).1.HasDataToBuild = true →
        (⟨e.Coord, false, (CreateTileGenerator self World e.Coord e.DirtyAreas).1⟩ :
            FRunningTileElement)
          ∈ (SubmitPendingLoop World NumTasksToSubmit self.PendingDirtyTiles.length
              (self, 0, [])).1.RunningDirtyTiles)
    ∧ ((CreateTileGenerator self World e.Coord e.DirtyAreas).1.HasDataToBuild = false →
        e.Coord ∉ RunningCoords (SubmitPendingLoop World NumTasksToSubmit
            self.PendingDirtyTiles.length (self, 0, [])).1
          ∧ ∀ m, (SubmitPendingLoop World NumTasksToSubmit self.PendingDirtyTiles.length
              (self, 0, [])).1.DetourMesh = some m →
            m.getTilesAt e.Coord.X e.Coord.Y = [])

/-! ## Ticking and blocking completion -/

/-- Source `FRecastNavMeshGenerator::GetNumRemaningBuildTasks`. -/
def GetNumRemaningBuildTasks (self : FRecastNavMeshGenerator) : Int :=
  (self.RunningDirtyTiles.length : Int) + (self.PendingDirtyTiles.length : Int)

/-- Source `FRecastNavMeshGenerator::GetNumRunningBuildTasks`. -/
def GetNumRunningBuildTasks (self : FRecastNavMeshGenerator) : Int :=
  (self.RunningDirtyTiles.length : Int)

/-- Source `FRecastNavMeshGenerator::TickAsyncBuild`, without the drawing and path
invalidation requests it sends to the navmesh actor. `NumRunningTasks` is what
`NavSys->GetNumRunningBuildTasks()` reports, the running tasks of the generators of
the navigation system. Returns the updated tile indices. -/
def TickAsyncBuild (self : FRecastNavMeshGenerator) (World : UWorld) (Lib : FRecastLibrary)
    (IsDone : Nat → Bool) (NumRunningTasks : Int) : List Nat × FRecastNavMeshGenerator :=
  let NumTasksToSubmit := self.MaxTileGeneratorTasks - NumRunningTasks
  ProcessTileTasks self World Lib IsDone NumTasksToSubmit

/-- The `do ... while` loop of `EnsureBuildCompletion`. The first argument bounds the
number of passes: `none` when it is used up before the loop condition fails.
`IsDone Pass Idx` tells whether a task has finished when the collect loop of pass
`Pass` polls position `Idx`; the first `NumCompleted` running elements were waited
for (`EnsureCompletion`) at the end of the pass before, so their tasks are done. -/
def EnsureBuildCompletionLoop (World : UWorld) (Lib : FRecastLibrary) (IsDone : Nat → Nat → Bool) :
    Nat → Nat → Nat → FRecastNavMeshGenerator → Option FRecastNavMeshGenerator
  | 0, _, _, _ => none
  | Fuel + 1, Pass, NumCompleted, self =>
    let self := (ProcessTileTasks self World Lib
      (fun Idx => decide (Idx < NumCompleted) || IsDone Pass Idx) 16).2
    if GetNumRemaningBuildTasks self > 0 then
      EnsureBuildCompletionLoop World Lib IsDone Fuel (Pass + 1) self.RunningDirtyTiles.length self
    else some self

/-- Source `FRecastNavMeshGenerator::EnsureBuildCompletion`, without the drawing
request: on entry no task is known to be complete. -/
def EnsureBuildCompletion (self : FRecastNavMeshGenerator) (World : UWorld) (Lib : FRecastLibrary)
    (IsDone : Nat → Nat → Bool) (Fuel : Nat) : Option FRecastNavMeshGenerator :=
  EnsureBuildCompletionLoop World Lib IsDone Fuel 0 0 self

/-- A call on the generator made by the navigation system, together with what the
environment contributes to it. -/
inductive FGeneratorCall where
  | MarkDirtyTiles (CurWorld : Option UWorld) (DirtyAreas : List FNavigationDirtyArea)
  | TickAsyncBuild (World : UWorld) (IsDone : Nat → Bool)
  | EnsureBuildCompletion (World : UWorld) (IsDone : Nat → Nat → Bool) (Fuel : Nat)

/-- The generator after one call, when the call returns. The navigation system has
this generator only, so the running-task count it reports to `TickAsyncBuild` is
this generator's. -/
def ApplyGeneratorCall (Lib : FRecastLibrary) (self : FRecastNavMeshGenerator) :
    FGeneratorCall → Option FRecastNavMeshGenerator
  | FGeneratorCall.MarkDirtyTiles CurWorld DirtyAreas => some (MarkDirtyTiles self CurWorld DirtyAreas)
  | FGeneratorCall.TickAsyncBuild World IsDone =>
    some (TickAsyncBuild self World Lib IsDone (GetNumRunningBuildTasks self)).2
  | FGeneratorCall.EnsureBuildCompletion World IsDone Fuel =>
    EnsureBuildCompletion self World Lib IsDone Fuel

/-- The generator after a sequence of calls, when all of them return. -/
def RunGeneratorCalls (Lib : FRecastLibrary) (self : FRecastNavMeshGenerator) :
    List FGeneratorCall → Option FRecastNavMeshGenerator
  | [] => some self
  | Call :: Calls =>
    match ApplyGeneratorCall Lib self Call with
    | none => none
    | some Next => RunGeneratorCalls Lib Next Calls

/-! ## Byte buffers: the voxel cache and the collision cache

A `TArray<uint8>` is a list of bytes (`Nat` below 256). An `int32` occupies four
bytes, least significant first, in two's complement. The structs whose
declarations live in headers (`FRecastVoxelCache::FTileInfo`, `rcSpanCache`,
`FRecastGeometryCache`) and the bit patterns of `float` enter through
`FCacheLayout`. -/

/-- The four bytes of an `int32`, least significant first. -/
def Int32ToBytes (v : Int) : List Nat :=
  let u := (v % 4294967296).toNat
  [u % 256, u / 256 % 256, u / 65536 % 256, u / 16777216 % 256]

/-- The `int32` held by four bytes, least significant first; a missing byte reads
as zero. -/
def BytesToInt32 (bs : List Nat) : Int :=
  let u := bs.getD 0 0 % 256 + 256 * (bs.getD 1 0 % 256) + 65536 * (bs.getD 2 0 % 256)
    + 16777216 * (bs.getD 3 0 % 256)
  if u < 2147483648 then (u : Int) else (u : Int) - 4294967296

/-- The `Count` bytes of `Memory` that start at `Offset`. -/
def ReadBytes (Memory : List Nat) (Offset Count : Nat) : List Nat :=
  (Memory.drop Offset).take Count

/-- What `FMemory::Memcpy` copies into a zeroed destination of `Count` bytes when the
source holds `Source`: the first `Count` bytes of the source (a source shorter than
`Count` is outside the contract of `Memcpy`; the missing bytes read as zero). -/
def Memcpy (Source : List Nat) (Count : Nat) : List Nat :=
  Source.take Count ++ List.replicate (Count - Source.length) 0

/-- Sizes and field access of the structs declared outside this file, and the bytes
of a `float`. `WriteTileInfo x y n` is the object representation of a zeroed
`FTileInfo` after `TileX = x`, `TileY = y`, `NumSpans = n`; `WriteGeometryCache f v s`
that of a `FRecastGeometryCache` whose header holds `NumFaces = f`, `NumVerts = v`,
`SlopeOverride = s` and whose two pointers are null. The walkable-slope override is
kept as the bytes of its object. -/
structure FCacheLayout where
  SizeofTileInfo : Nat
  SizeofSpanCache : Nat
  WriteTileInfo : Int → Int → Int → List Nat
  ReadTileX : List Nat → Int
  ReadTileY : List Nat → Int
  ReadNumSpans : List Nat → Int
  SizeofGeometryCache : Nat
  WriteGeometryCache : Int → Int → List Nat → List Nat
  ReadNumFaces : List Nat → Int
  ReadNumVerts : List Nat → Int
  ReadSlopeOverride : List Nat → List Nat
  FloatToBytes : ℚ → List Nat
  BytesToFloat : List Nat → ℚ

/-- One record of the voxel cache as the constructor of `FRecastVoxelCache` links it:
the three stored fields and `SpanData`, the offset of the span data in the buffer
(`none` for the null pointer). `NextTile` is the order of the list of records. -/
structure FTileInfo where
  TileX : Int
  TileY : Int
  NumSpans : Int
  SpanData : Option Nat
deriving DecidableEq, Repr

/-- Source `FRecastVoxelCache`: the tile count and the linked records. -/
structure FRecastVoxelCache where
  NumTiles : Int
  Tiles : List FTileInfo
deriving DecidableEq, Repr

/-- The loop of the constructor of `FRecastVoxelCache`: the first argument counts
the records left, the second is `BytesArr` as an offset into the buffer. -/
def FRecastVoxelCache.LinkTiles (Layout : FCacheLayout) (Memory : List Nat) :
    Nat → Nat → List FTileInfo
  | 0, _ => []
  | n + 1, BytesArr =>
    let iTile := ReadBytes Memory BytesArr Layout.SizeofTileInfo
    let BytesArr := BytesArr + Layout.SizeofTileInfo
    let NumSpans := Layout.ReadNumSpans iTile
    if NumSpans ≠ 0 then
      ⟨Layout.ReadTileX iTile, Layout.ReadTileY iTile, NumSpans, some BytesArr⟩
        :: FRecastVoxelCache.LinkTiles Layout Memory n
            (BytesArr + (Layout.SizeofSpanCache * NumSpans).toNat)
    else
      ⟨Layout.ReadTileX iTile, Layout.ReadTileY iTile, NumSpans, none⟩
        :: FRecastVoxelCache.LinkTiles Layout Memory n BytesArr

/-- Source `FRecastVoxelCache::FRecastVoxelCache(const uint8* Memory)`; `none` is the
null pointer. The pointers the constructor writes into the records are kept in the
list it returns. -/
def FRecastVoxelCache.Construct (Layout : FCacheLayout) (Memory : Option (List Nat)) :
    FRecastVoxelCache :=
  match Memory with
  | some Bytes =>
    let NumTiles := BytesToInt32 (ReadBytes Bytes 0 4)
    ⟨NumTiles, FRecastVoxelCache.LinkTiles Layout Bytes NumTiles.toNat 4⟩
  | none => ⟨0, []⟩

/-- Engine `TArray::GetData`: the null pointer for an array without elements. -/
def GetData (Array : List Nat) : Option (List Nat) :=
  if Array.length = 0 then none else some Array

/-- The span data a record points to: `NumSpans` spans from `SpanData`, nothing for
the null pointer. -/
def SpanBytes (Layout : FCacheLayout) (Memory : List Nat) (iTile : FTileInfo) : List Nat :=
  match iTile.SpanData with
  | some SpanData => ReadBytes Memory SpanData (Layout.SizeofSpanCache * iTile.NumSpans).toNat
  | none => []

/-- Source `FRecastTileGenerator::HasVoxelCache`: `none` for `false`, otherwise the
out-parameters: the span data the record points to and its span count. -/
def FRecastTileGenerator.HasVoxelCache (Layout : FCacheLayout) (g : FRecastTileGenerator)
    (RawVoxelCache : List Nat) : Option (List Nat × Int) :=
  let VoxelCache := FRecastVoxelCache.Construct Layout (GetData RawVoxelCache)
  match VoxelCache.Tiles.find? (fun iTile => iTile.TileX == g.TileX && iTile.TileY == g.TileY) with
  | some iTile => some (SpanBytes Layout RawVoxelCache iTile, iTile.NumSpans)
  | none => none

/-- Source `FRecastTileGenerator::AddVoxelCache`; `CachedVoxels` holds the bytes of
the spans. -/
def FRecastTileGenerator.AddVoxelCache (Layout : FCacheLayout) (g : FRecastTileGenerator)
    (RawVoxelCache : List Nat) (CachedVoxels : List Nat) (NumCachedVoxels : Int) : List Nat :=
  let RawVoxelCache :=
    if RawVoxelCache.length = 0 then RawVoxelCache ++ List.replicate 4 0 else RawVoxelCache
  let NumTiles := BytesToInt32 (ReadBytes RawVoxelCache 0 4)
  let RawVoxelCache := Int32ToBytes (NumTiles + 1) ++ RawVoxelCache.drop 4
  let VoxelsSize := (Layout.SizeofSpanCache : Int) * NumCachedVoxels
  RawVoxelCache ++ Layout.WriteTileInfo g.TileX g.TileY NumCachedVoxels
    ++ Memcpy CachedVoxels VoxelsSize.toNat

/-- The voxel cache after a sequence of `AddVoxelCache` calls, each given by the tile
generator that makes it, the bytes of its spans and its span count. -/
def AddVoxelCaches (Layout : FCacheLayout) (RawVoxelCache : List Nat)
    (Calls : List (FRecastTileGenerator × List Nat × Int)) : List Nat :=
  Calls.foldl (fun Raw Call => Call.1.AddVoxelCache Layout Raw Call.2.1 Call.2.2) RawVoxelCache

/-- What a call of `AddVoxelCache` has to satisfy for the layout to represent it: the
record has the size of `FTileInfo`, its three fields read back what was stored, and
the span bytes are those of `NumCachedVoxels` spans. -/
def ValidVoxelCall (Layout : FCacheLayout) (Call : FRecastTileGenerator × List Nat × Int) : Prop :=
  (Layout.WriteTileInfo Call.1.TileX Call.1.TileY Call.2.2).length = Layout.SizeofTileInfo
    ∧ Layout.ReadTileX (Layout.WriteTileInfo Call.1.TileX Call.1.TileY Call.2.2) = Call.1.TileX
    ∧ Layout.ReadTileY (Layout.WriteTileInfo Call.1.TileX Call.1.TileY Call.2.2) = Call.1.TileY
    ∧ Layout.ReadNumSpans (Layout.WriteTileInfo Call.1.TileX Call.1.TileY Call.2.2) = Call.2.2
    ∧ (Call.2.1.length : Int) = (Layout.SizeofSpanCache : Int) * Call.2.2

instance (Layout : FCacheLayout) (Call : FRecastTileGenerator × List Nat × Int) :
    Decidable (ValidVoxelCall Layout Call) := by
  unfold ValidVoxelCall
  infer_instance

/-- The bytes of the records of a sequence of `AddVoxelCache` calls: for each call the
tile record followed by its spans. -/
def VoxelCacheRecords (Layout : FCacheLayout)
    (Calls : List (FRecastTileGenerator × List Nat × Int)) : List Nat :=
  Calls.flatMap (fun Call =>
    Layout.WriteTileInfo Call.1.TileX Call.1.TileY Call.2.2 ++ Call.2.1)

/-- Engine `FNavigationRelevantData`, as far as the exporter writes it: the bounds
and the collision cache. -/
structure FNavigationRelevantData where
  Bounds : FBox
  CollisionData : List Nat
deriving DecidableEq, Repr

/-- Source `FRecastGeometryExport`: the data it fills (held by pointer in the source)
and its buffers. -/
structure FRecastGeometryExport where
  Data : FNavigationRelevantData
  VertexBuffer : List ℚ
  IndexBuffer : List Int
  SlopeOverride : List Nat
deriving DecidableEq, Repr

/-- Source `RecastGeometryExport::StoreCollisionCache`. `AddUninitialized` appends
`CacheSize` bytes to the collision data and the cache is written from its start;
bytes that are not written read as zero. -/
def StoreCollisionCache (Layout : FCacheLayout) (GeomExport : FRecastGeometryExport) :
    FRecastGeometryExport :=
  let NumFaces := GeomExport.IndexBuffer.length / 3
  let NumVerts := GeomExport.VertexBuffer.length / 3
  if NumFaces = 0 ∨ NumVerts = 0 then
    { GeomExport with Data := { GeomExport.Data with CollisionData := [] } }
  else
    let HeaderSize := Layout.SizeofGeometryCache
    let CoordsSize := 4 * 3 * NumVerts
    let IndicesSize := 4 * 3 * NumFaces
    let CacheSize := HeaderSize + CoordsSize + IndicesSize
    let Written :=
      Layout.WriteGeometryCache NumFaces NumVerts GeomExport.SlopeOverride
        ++ Memcpy (GeomExport.VertexBuffer.flatMap Layout.FloatToBytes) CoordsSize
        ++ Memcpy (GeomExport.IndexBuffer.flatMap Int32ToBytes) IndicesSize
    { GeomExport with
      Data := { GeomExport.Data with
        CollisionData :=
          Written ++ (GeomExport.Data.CollisionData ++ List.replicate CacheSize 0).drop CacheSize } }

/-- Source `FRecastGeometryCache`: the header and the two pointers, as offsets into
the memory the cache was constructed on. -/
structure FRecastGeometryCache where
  NumFaces : Int
  NumVerts : Int
  SlopeOverride : List Nat
  Verts : Nat
  Indices : Nat
deriving DecidableEq, Repr

/-- Source `FRecastGeometryCache::FRecastGeometryCache(const uint8* Memory)`. -/
def FRecastGeometryCache.Construct (Layout : FCacheLayout) (Memory : List Nat) :
    FRecastGeometryCache :=
  let Header := ReadBytes Memory 0 Layout.SizeofGeometryCache
  { NumFaces := Layout.ReadNumFaces Header
    NumVerts := Layout.ReadNumVerts Header
    SlopeOverride := Layout.ReadSlopeOverride Header
    Verts := Layout.SizeofGeometryCache
    Indices := Layout.SizeofGeometryCache + (4 * (Layout.ReadNumVerts Header) * 3).toNat }

/-- The `Count` floats of `Memory` that start at `Offset`. -/
def ReadFloats (Layout : FCacheLayout) (Memory : List Nat) (Offset : Nat) : Nat → List ℚ
  | 0 => []
  | Count + 1 =>
    Layout.BytesToFloat (ReadBytes Memory Offset 4) :: ReadFloats Layout Memory (Offset + 4) Count

/-- The `Count` values of type `int32` of `Memory` that start at `Offset`. -/
def ReadInt32s (Memory : List Nat) (Offset : Nat) : Nat → List Int
  | 0 => []
  | Count + 1 => BytesToInt32 (ReadBytes Memory Offset 4) :: ReadInt32s Memory (Offset + 4) Count

/-! ## The geometry exporter

The shapes come from the physics engine and the transforms from the engine's math
library, both outside this file: a transform is what the exporter observes of it,
a mesh is what its accessors return. Reads outside an array, which the source does
not guard, return zero. -/

/-- Engine `FBox::operator+=(const FVector&)`: the box grown to hold the point; an
invalid box becomes the point. -/
def FBox.addPoint (b : FBox) (Other : FVector) : FBox :=
  if b.IsValid then
    ⟨⟨min b.Min.X Other.X, min b.Min.Y Other.Y, min b.Min.Z Other.Z⟩,
      ⟨max b.Max.X Other.X, max b.Max.Y Other.Y, max b.Max.Z Other.Z⟩, true⟩
  else ⟨Other, Other, true⟩

/-- Engine `FTransform`, as the generator observes it: `TransformPosition`,
`GetDeterminant`, `GetScale3D`, `GetLocation`, and `FBox::TransformBy` with this
transform. -/
structure FTransform where
  TransformPosition : FVector → FVector
  Determinant : ℚ
  Scale3D : FVector
  Location : FVector
  TransformBox : FBox → FBox

/-- The three reference parameters every export function appends to: the vertex
buffer (three floats per vertex), the index buffer and the accumulated bounds. -/
structure FExportBuffers where
  VertexBuffer : List ℚ
  IndexBuffer : List Int
  UnrealBounds : FBox
deriving DecidableEq, Repr

/-- The three `VertexBuffer.Add` calls and the `UnrealBounds +=` of a vertex loop. -/
def FExportBuffers.AddVertex (B : FExportBuffers) (Coords Bounded : FVector) : FExportBuffers :=
  { B with
    VertexBuffer := B.VertexBuffer ++ [Coords.X, Coords.Y, Coords.Z]
    UnrealBounds := B.UnrealBounds.addPoint Bounded }

/-- The three `IndexBuffer.Add` calls of a triangle. -/
def FExportBuffers.AddTriangle (B : FExportBuffers) (I0 I1 I2 : Int) : FExportBuffers :=
  { B with IndexBuffer := B.IndexBuffer ++ [I0, I1, I2] }

/-- PhysX `PxHullPolygon`, the fields the exporter reads. -/
structure PxHullPolygon where
  mNbVerts : Nat
  mIndexBase : Nat
deriving DecidableEq, Repr

/-- PhysX `PxConvexMesh`: vertices (already as engine vectors, `P2UVector`), the
index buffer and the polygons. -/
structure PxConvexMesh where
  Vertices : List FVector
  IndexBuffer : List Nat
  Polygons : List PxHullPolygon
deriving DecidableEq, Repr

/-- PhysX `PxTriangleMesh`: vertices, the triangle count and the vertex indices of
the triangles, three per triangle. -/
structure PxTriangleMesh where
  Vertices : List FVector
  NbTriangles : Nat
  Triangles : List Nat
deriving DecidableEq, Repr

/-- PhysX `PxHeightFieldSample`, the fields the exporter reads. -/
structure PxHeightFieldSample where
  height : Int
  materialIndex0 : Nat
deriving DecidableEq, Repr

/-- PhysX `PxHeightField`: row and column counts and what `saveCells` writes. -/
structure PxHeightField where
  NbRows : Int
  NbColumns : Int
  Cells : List PxHeightFieldSample
deriving DecidableEq, Repr

/-- PhysX `PxHeightFieldMaterial::eHOLE`. -/
def PxHeightFieldMaterial_eHOLE : Nat := 127

/-- An array read at an `int32` index. -/
def ReadAt {α : Type} (Array : List α) (Index : Int) (Default : α) : α :=
  if Index < 0 then Default else Array.getD Index.toNat Default

/-- Source `RecastGeometryExport::ExportPxConvexMesh`; `none` is the null mesh. The
triangle count of a polygon is the `PxU32` value of `mNbVerts - 2`. -/
def ExportPxConvexMesh (ConvexMesh : Option PxConvexMesh) (LocalToWorld : FTransform)
    (B : FExportBuffers) : FExportBuffers :=
  match ConvexMesh with
  | none => B
  | some Mesh =>
    let StartVertOffset : Int := ((B.VertexBuffer.length / 3 : Nat) : Int)
    let bFlipWinding := decide (LocalToWorld.Determinant < 0)
    let FirstIndex : Int := if bFlipWinding then 1 else 2
    let SecondIndex : Int := if bFlipWinding then 2 else 1
    (Mesh.Polygons.foldl
      (fun (st : FExportBuffers × Int) Data =>
        let B1 := (List.range Data.mNbVerts).foldl
          (fun B j =>
            let VertIndex := Mesh.IndexBuffer.getD (Data.mIndexBase + j) 0
            let UnrealCoords :=
              LocalToWorld.TransformPosition (Mesh.Vertices.getD VertIndex FVector.ZeroVector)
            B.AddVertex UnrealCoords UnrealCoords)
          st.1
        let nbTris := (((Data.mNbVerts : Int) - 2) % 4294967296).toNat
        let B2 := (List.range nbTris).foldl
          (fun B (j : Nat) =>
            B.AddTriangle (st.2 + 0) (st.2 + (j : Int) + FirstIndex) (st.2 + (j : Int) + SecondIndex))
          B1
        (B2, st.2 + (Data.mNbVerts : Int)))
      (B, StartVertOffset)).1

/-- Source `RecastGeometryExport::ExportPxTriMesh` (for both index widths); `none`
is the null mesh. -/
def ExportPxTriMesh (TriMesh : Option PxTriangleMesh) (LocalToWorld : FTransform)
    (B : FExportBuffers) : FExportBuffers :=
  match TriMesh with
  | none => B
  | some Mesh =>
    let VertOffset : Int := ((B.VertexBuffer.length / 3 : Nat) : Int)
    let NumTris := Mesh.NbTriangles
    let bFlipCullMode := decide (LocalToWorld.Determinant < 0)
    let IndexOrder0 : Int := if bFlipCullMode then 0 else 2
    let IndexOrder1 : Int := 1
    let IndexOrder2 : Int := if bFlipCullMode then 2 else 0
    ((List.range NumTris).foldl
      (fun (st : FExportBuffers × Int) TriIdx =>
        let B1 := (List.range 3).foldl
          (fun B i =>
            let UnrealCoords :=
              LocalToWorld.TransformPosition
                (Mesh.Vertices.getD (Mesh.Triangles.getD (3 * TriIdx + i) 0) FVector.ZeroVector)
            B.AddVertex UnrealCoords UnrealCoords)
          st.1
        (B1.AddTriangle (st.2 + IndexOrder0) (st.2 + IndexOrder1) (st.2 + IndexOrder2), st.2 + 3))
      (B, VertOffset)).1

/-- Source `RecastGeometryExport::ExportPxHeightField`; `none` is the null height
field. -/
def ExportPxHeightField (HeightField : Option PxHeightField) (LocalToWorld : FTransform)
    (B : FExportBuffers) : FExportBuffers :=
  match HeightField with
  | none => B
  | some Field =>
    let NumRows := Field.NbRows
    let NumCols := Field.NbColumns
    let HFSamples := Field.Cells
    let VertOffset : Int := ((B.VertexBuffer.length / 3 : Nat) : Int)
    let bMirrored := decide (LocalToWorld.Determinant < 0)
    let B1 := (loopRange 0 (NumRows - 1)).foldl
      (fun B Y =>
        (loopRange 0 (NumCols - 1)).foldl
          (fun B X =>
            let SampleIdx := (if bMirrored then X else NumCols - X - 1) * NumCols + Y
            let Sample := ReadAt HFSamples SampleIdx ⟨0, 0⟩
            let UnrealCoords :=
              LocalToWorld.TransformPosition ⟨(X : ℚ), (Y : ℚ), (Sample.height : ℚ)⟩
            B.AddVertex UnrealCoords UnrealCoords)
          B)
      B
    (loopRange 0 (NumRows - 1 - 1)).foldl
      (fun B Y =>
        (loopRange 0 (NumCols - 1 - 1)).foldl
          (fun B X =>
            let I00 := X + 0 + (Y + 0) * NumCols
            let I01 := if bMirrored then X + 1 + (Y + 0) * NumCols else X + 0 + (Y + 1) * NumCols
            let I10 := if bMirrored then X + 0 + (Y + 1) * NumCols else X + 1 + (Y + 0) * NumCols
            let I11 := X + 1 + (Y + 1) * NumCols
            let SampleIdx := (NumCols - X - 1) * NumCols + Y
            let Sample := ReadAt HFSamples SampleIdx ⟨0, 0⟩
            let HoleQuad := decide (Sample.materialIndex0 = PxHeightFieldMaterial_eHOLE)
            let B := B.AddTriangle (VertOffset + I00)
              (VertOffset + (if HoleQuad then I00 else I11))
              (VertOffset + (if HoleQuad then I00 else I10))
            B.AddTriangle (VertOffset + I00)
              (VertOffset + (if HoleQuad then I00 else I01))
              (VertOffset + (if HoleQuad then I00 else I11)))
          B)
      B1

/-- Source `RecastGeometryExport::ExportCustomMesh`; `InVertices` and `InIndices` are
the arrays the two pointers address. The index sums are `int32` sums. -/
def ExportCustomMesh (InVertices : List FVector) (NumVerts : Int) (InIndices : List Int)
    (NumIndices : Int) (LocalToWorld : FTransform) (B : FExportBuffers) : FExportBuffers :=
  if NumVerts ≤ 0 ∨ NumIndices ≤ 0 then B
  else
    let VertOffset : Int := ((B.VertexBuffer.length / 3 : Nat) : Int)
    let bFlipCullMode := decide (LocalToWorld.Determinant < 0)
    let IndexOrder0 : Int := if bFlipCullMode then 2 else 0
    let IndexOrder1 : Int := 1
    let IndexOrder2 : Int := if bFlipCullMode then 0 else 2
    let B1 := (loopRange 0 (NumVerts - 1)).foldl
      (fun B i =>
        let UnrealCoords := LocalToWorld.TransformPosition (ReadAt InVertices i FVector.ZeroVector)
        B.AddVertex UnrealCoords UnrealCoords)
      B
    (List.range ((NumIndices + 2) / 3).toNat).foldl
      (fun B (Step : Nat) =>
        let i : Int := 3 * (Step : Int)
        B.AddTriangle (Int32Wrap (ReadAt InIndices (i + IndexOrder0) 0 + VertOffset))
          (Int32Wrap (ReadAt InIndices (i + IndexOrder1) 0 + VertOffset))
          (Int32Wrap (ReadAt InIndices (i + IndexOrder2) 0 + VertOffset)))
      B1

/-- Source `RecastGeometryExport::ExportVertexSoup`; `check(VertexSoup.Num() % 3 == 0)`
is a precondition of the call. -/
def ExportVertexSoup (VertexSoup : List FVector) (B : FExportBuffers) : FExportBuffers :=
  if VertexSoup.length ≠ 0 then
    let VertBase : Int := ((B.VertexBuffer.length / 3 : Nat) : Int)
    let B1 := VertexSoup.foldl
      (fun B UnrealCoords => B.AddVertex (Unreal2RecastPoint UnrealCoords) UnrealCoords)
      B
    let NumFaces := VertexSoup.length / 3
    (List.range NumFaces).foldl
      (fun B (i : Nat) =>
        B.AddTriangle (VertBase + 3 * (i : Int) + 2) (VertBase + 3 * (i : Int) + 1)
          (VertBase + 3 * (i : Int) + 0))
      B1
  else B

/-- Source `RecastGeometryExport::CovertCoordDataToRecast`: converts whole vertices
in place and leaves a last incomplete one alone. -/
def CovertCoordDataToRecast : List ℚ → List ℚ
  | x :: y :: z :: rest => (-x) :: z :: (-y) :: CovertCoordDataToRecast rest
  | rest => rest

/-! ## Off-mesh links -/

/-- Engine `TMap::Find` on a map from class pointers (`none` is the null pointer) to
area identifiers. -/
def TMapFind (Map : List (Option Nat × Int)) (Key : Option Nat) : Option Int :=
  (Map.find? (fun kv => decide (kv.1 = Key))).map (fun kv => kv.2)

/-- Conversion of an `int32` to `unsigned char`. -/
def ToUChar (v : Int) : Nat := (v % 256).toNat

/-- Engine `ENavLinkDirection`. -/
inductive ENavLinkDirection where
  | BothWays
  | LeftToRight
  | RightToLeft
deriving DecidableEq, Repr

/-- Engine `FNavigationLink`, the fields `AddLinks` reads. -/
structure FNavigationLink where
  Left : FVector
  Right : FVector
  SupportedAgentsBits : Nat
  Direction : ENavLinkDirection
  SnapRadius : ℚ
  UserId : Nat
  AreaClass : Option Nat
deriving DecidableEq, Repr

/-- Engine `FNavigationSegmentLink`, the fields `AddSegmentLinks` reads. -/
structure FNavigationSegmentLink where
  LeftStart : FVector
  LeftEnd : FVector
  RightStart : FVector
  RightEnd : FVector
  SupportedAgentsBits : Nat
  Direction : ENavLinkDirection
  SnapRadius : ℚ
  UserId : Nat
  AreaClass : Option Nat
deriving DecidableEq, Repr

/-- Detour `dtOffMeshLinkCreateParams`, the fields the two functions write. -/
structure dtOffMeshLinkCreateParams where
  vertsA0 : FVector
  vertsA1 : FVector
  vertsB0 : FVector
  vertsB1 : FVector
  snapRadius : ℚ
  userID : Nat
  polyFlag : Nat
  area : Nat
  type : Nat
deriving DecidableEq, Repr

/-- The parameters after `FMemory::MemZero(NewInfo)`. -/
def dtOffMeshLinkCreateParams.Zeroed : dtOffMeshLinkCreateParams :=
  ⟨FVector.ZeroVector, FVector.ZeroVector, FVector.ZeroVector, FVector.ZeroVector, 0, 0, 0, 0, 0⟩

/-- Detour constant `DT_OFFMESH_CON_POINT`. -/
def DT_OFFMESH_CON_POINT : Nat := 1

/-- Detour constant `DT_OFFMESH_CON_SEGMENT`. -/
def DT_OFFMESH_CON_SEGMENT : Nat := 2

/-- Detour constant `DT_OFFMESH_CON_BIDIR`. -/
def DT_OFFMESH_CON_BIDIR : Nat := 4

/-- Source `FOffMeshData`: the collected link parameters, the map from area class to
area identifier and the table of polygon flags per area, both of which the two
functions dereference. -/
structure FOffMeshData where
  LinkParams : List dtOffMeshLinkCreateParams
  AreaClassToIdMap : List (Option Nat × Int)
  FlagsPerArea : List Nat
deriving DecidableEq, Repr

/-- Source `FOffMeshData::StoreUnrealPoint`: the three floats written to `dest`. -/
def StoreUnrealPoint (UnrealPt : FVector) : FVector :=
  Unreal2RecastPoint UnrealPt

/-- The body of the loop of `AddLinks` for a link that the agent mask supports: the
parameters passed to `LinkParams.Add`. `DefaultWalkableArea` is what
`UNavigationSystem::GetDefaultWalkableArea()` returns. -/
def FOffMeshData.LinkInfo (self : FOffMeshData) (DefaultWalkableArea : Option Nat)
    (LocalToWorld : FTransform) (Link : FNavigationLink) : dtOffMeshLinkCreateParams :=
  let NewInfo := dtOffMeshLinkCreateParams.Zeroed
  let NewInfo := { NewInfo with
    vertsA0 := StoreUnrealPoint (LocalToWorld.TransformPosition Link.Left)
    vertsB0 := StoreUnrealPoint (LocalToWorld.TransformPosition Link.Right) }
  let NewInfo := { NewInfo with
    type := DT_OFFMESH_CON_POINT
      ||| (if Link.Direction = ENavLinkDirection.BothWays then DT_OFFMESH_CON_BIDIR else 0)
    snapRadius := Link.SnapRadius
    userID := Link.UserId }
  let AreaID := TMapFind self.AreaClassToIdMap
    (if Link.AreaClass ≠ none then Link.AreaClass else DefaultWalkableArea)
  match AreaID with
  | some AreaID =>
    { NewInfo with area := ToUChar AreaID, polyFlag := ReadAt self.FlagsPerArea AreaID 0 }
  | none => NewInfo

/-- Source `FOffMeshData::AddLinks`. -/
def FOffMeshData.AddLinks (self : FOffMeshData) (DefaultWalkableArea : Option Nat)
    (Links : List FNavigationLink) (LocalToWorld : FTransform) (AgentMask : Nat) : FOffMeshData :=
  Links.foldl
    (fun self Link =>
      if Link.SupportedAgentsBits &&& AgentMask = 0 then self
      else
        { self with
          LinkParams := self.LinkParams ++ [self.LinkInfo DefaultWalkableArea LocalToWorld Link] })
    self

/-- The body of the loop of `AddSegmentLinks` for a link that the agent mask
supports: the parameters passed to `LinkParams.Add`. -/
def FOffMeshData.SegmentLinkInfo (self : FOffMeshData) (LocalToWorld : FTransform)
    (Link : FNavigationSegmentLink) : dtOffMeshLinkCreateParams :=
  let NewInfo := dtOffMeshLinkCreateParams.Zeroed
  let NewInfo := { NewInfo with
    vertsA0 := StoreUnrealPoint (LocalToWorld.TransformPosition Link.LeftStart)
    vertsA1 := StoreUnrealPoint (LocalToWorld.TransformPosition Link.LeftEnd)
    vertsB0 := StoreUnrealPoint (LocalToWorld.TransformPosition Link.RightStart)
    vertsB1 := StoreUnrealPoint (LocalToWorld.TransformPosition Link.RightEnd) }
  let NewInfo := { NewInfo with
    type := DT_OFFMESH_CON_SEGMENT
      ||| (if Link.Direction = ENavLinkDirection.BothWays then DT_OFFMESH_CON_BIDIR else 0)
    snapRadius := Link.SnapRadius
    userID := Link.UserId }
  let AreaID := TMapFind self.AreaClassToIdMap Link.AreaClass
  match AreaID with
  | some AreaID =>
    { NewInfo with area := ToUChar AreaID, polyFlag := ReadAt self.FlagsPerArea AreaID 0 }
  | none => NewInfo

/-- Source `FOffMeshData::AddSegmentLinks`. -/
def FOffMeshData.AddSegmentLinks (self : FOffMeshData) (Links : List FNavigationSegmentLink)
    (LocalToWorld : FTransform) (AgentMask : Nat) : FOffMeshData :=
  Links.foldl
    (fun self Link =>
      if Link.SupportedAgentsBits &&& AgentMask = 0 then self
      else
        { self with LinkParams := self.LinkParams ++ [self.SegmentLinkInfo LocalToWorld Link] })
    self

/-! ## Growing a convex hull -/

/-- Component-wise `operator*(const FVector&)`. -/
def FVector.mul (a b : FVector) : FVector := ⟨a.X * b.X, a.Y * b.Y, a.Z * b.Z⟩

/-- Engine `FVector::GetAbs`. -/
def FVector.GetAbs (a : FVector) : FVector := ⟨|a.X|, |a.Y|, |a.Z|⟩

/-- Engine `FVector::DotProduct`. -/
def FVector.DotProduct (a b : FVector) : ℚ := a.X * b.X + a.Y * b.Y + a.Z * b.Z

/-- Engine `FVector::SizeSquared2D`. -/
def FVector.SizeSquared2D (a : FVector) : ℚ := a.X * a.X + a.Y * a.Y

/-- The vector routines of the engine that take a square root or rotate:
`GetSafeNormal`, `GetSafeNormal2D`, and the rotation of a vector about the Z axis by
an angle in degrees, `FQuat(FVector(0, 0, 1), DegreesToRadians(Angle)).RotateVector`. -/
structure FEngineMath where
  GetSafeNormal : FVector → FVector
  GetSafeNormal2D : FVector → FVector
  RotateAboutZ : ℚ → FVector → FVector

/-- The local `FSimpleLine` of `GrowConvexHull`. -/
structure FSimpleLine where
  P1 : FVector
  P2 : FVector
deriving DecidableEq, Repr

/-- Source `FSimpleLine::Intersection`. -/
def FSimpleLine.Intersection (Line1 Line2 : FSimpleLine) : FVector :=
  let A1 := Line1.P2.X - Line1.P1.X
  let B1 := Line2.P1.X - Line2.P2.X
  let C1 := Line2.P1.X - Line1.P1.X
  let A2 := Line1.P2.Y - Line1.P1.Y
  let B2 := Line2.P1.Y - Line2.P2.Y
  let C2 := Line2.P1.Y - Line1.P1.Y
  let Denominator := A2 * B1 - A1 * B2
  if Denominator ≠ 0 then
    let t := (B1 * C2 - B2 * C1) / Denominator
    Line1.P1.add ((Line1.P2.sub Line1.P1).scale t)
  else FVector.ZeroVector

/-- The first loop of `GrowConvexHull`: the rotation angle of the first triple of
consecutive vertices that turns, `none` when `RotationAngle` stays `MAX_FLT`. -/
def DetectRotationAngle (Math : FEngineMath) (AllVerts : List FVector) : Option ℚ :=
  (List.range (AllVerts.length - 2)).findSome? (fun Index =>
    let V1 := AllVerts.getD (Index + 0) FVector.ZeroVector
    let V2 := AllVerts.getD (Index + 1) FVector.ZeroVector
    let V3 := AllVerts.getD (Index + 2) FVector.ZeroVector
    let V01 := Math.GetSafeNormal (V1.sub V2)
    let V12 := Math.GetSafeNormal (V2.sub V3)
    let NV1 := Math.RotateAboutZ 90 V01
    let d := FVector.DotProduct NV1 V12
    if d < 0 then some (-90) else if d > 0 then some 90 else none)

/-- Source `GrowConvexHull`; the result is `OutResult` with the grown vertices
appended. -/
def GrowConvexHull (Math : FEngineMath) (ExpandBy : ℚ) (Verts : List FVector)
    (OutResult : List FVector) : List FVector :=
  if Verts.length < 3 then OutResult
  else
    let AllVerts :=
      Verts ++ [Verts.getD 0 FVector.ZeroVector, Verts.getD 1 FVector.ZeroVector]
    let VertsCount := AllVerts.length
    match DetectRotationAngle Math AllVerts with
    | none => OutResult
    | some RotationAngle =>
      let ExpansionThreshold := 2 * ExpandBy
      let ExpansionThresholdSQ := ExpansionThreshold * ExpansionThreshold
      ((List.range (VertsCount - 2)).foldl
        (fun (st : List FVector × FSimpleLine) Index =>
          let V1 := AllVerts.getD (Index + 0) FVector.ZeroVector
          let V2 := AllVerts.getD (Index + 1) FVector.ZeroVector
          let V3 := AllVerts.getD (Index + 2) FVector.ZeroVector
          let Line1 : FSimpleLine :=
            if Index > 0 then st.2
            else
              let V01 := Math.GetSafeNormal (V1.sub V2)
              let N1 := Math.GetSafeNormal (Math.RotateAboutZ RotationAngle V01)
              let MoveDir1 := N1.scale ExpandBy
              ⟨V1.add MoveDir1, V2.add MoveDir1⟩
          let V12 := Math.GetSafeNormal (V2.sub V3)
          let N2 := Math.GetSafeNormal (Math.RotateAboutZ RotationAngle V12)
          let MoveDir2 := N2.scale ExpandBy
          let Line2 : FSimpleLine := ⟨V2.add MoveDir2, V3.add MoveDir2⟩
          let NewPoint := FSimpleLine.Intersection Line1 Line2
          let OutResult :=
            if NewPoint = FVector.ZeroVector then st.1 ++ [V2.add MoveDir2]
            else
              let VectorToNewPoint := NewPoint.sub V2
              let DistToNewVector := VectorToNewPoint.SizeSquared2D
              if DistToNewVector > ExpansionThresholdSQ then
                st.1 ++ [V2.add (((Math.GetSafeNormal2D VectorToNewPoint).scale ExpandBy).scale
                  (14142 / 10000))]
              else st.1 ++ [NewPoint]
          (OutResult, Line2))
        (OutResult, ⟨FVector.ZeroVector, FVector.ZeroVector⟩)).1

/-! ## Dynamic areas -/

/-- Engine `FTransform::Identity`. -/
def FTransform.Identity : FTransform :=
  { TransformPosition := fun V => V
    Determinant := 1
    Scale3D := ⟨1, 1, 1⟩
    Location := FVector.ZeroVector
    TransformBox := fun Box => Box }

/-- Engine `FBox::BuildAABB`. -/
def FBox.BuildAABB (Origin Extent : FVector) : FBox := FBox.mk2 (Origin.sub Extent) (Origin.add Extent)

/-- Engine `FBox::ExpandBy(const FVector&)`. -/
def FBox.ExpandBy (b : FBox) (V : FVector) : FBox := FBox.mk2 (b.Min.sub V) (b.Max.add V)

/-- Engine `FBox::GetCenterAndExtents`: the centre and the half sizes. -/
def FBox.GetCenterAndExtents (b : FBox) : FVector × FVector :=
  let Extents := (b.Max.sub b.Min).scale (1 / 2)
  (b.Min.add Extents, Extents)

/-- Engine `ENavigationShapeType`. -/
inductive ENavigationShapeType where
  | Unknown
  | Cylinder
  | Box
  | Convex
deriving DecidableEq, Repr

/-- Engine `FCylinderNavAreaData`. -/
structure FCylinderNavAreaData where
  Origin : FVector
  Radius : ℚ
  Height : ℚ
deriving DecidableEq, Repr

/-- Engine `FBoxNavAreaData`. -/
structure FBoxNavAreaData where
  Origin : FVector
  Extent : FVector
deriving DecidableEq, Repr

/-- Engine `FConvexNavAreaData`. -/
structure FConvexNavAreaData where
  Points : List FVector
  MinZ : ℚ
  MaxZ : ℚ
deriving DecidableEq, Repr

/-- Engine `FAreaNavModifier`, as `MarkDynamicArea` observes it: `GetAreaClass`,
`GetAreaClassToReplace` (`none` is the null class), `GetBounds`,
`ShouldIncludeAgentHeight`, `GetShapeType` and what `GetCylinder`, `GetBox` and
`GetConvex` yield. -/
structure FAreaNavModifier where
  AreaClass : Option Nat
  AreaClassToReplace : Option Nat
  Bounds : FBox
  bIncludeAgentHeight : Bool
  ShapeType : ENavigationShapeType
  Cylinder : FCylinderNavAreaData
  Box : FBoxNavAreaData
  Convex : FConvexNavAreaData
deriving DecidableEq, Repr

/-- Source `PartialTransformConvexHull`. -/
def PartialTransformConvexHull (ConvexData : FConvexNavAreaData) (LocalToWorld : FTransform) :
    FConvexNavAreaData :=
  let ScaleXY := LocalToWorld.Scale3D.GetAbs
  let ScaleXY := { ScaleXY with Z := 1 }
  let TranslationXY := LocalToWorld.Location
  let TranslationXY := { TranslationXY with Z := 0 }
  { Points := ConvexData.Points.map (fun Point => (Point.mul ScaleXY).add TranslationXY)
    MaxZ := ConvexData.MaxZ + LocalToWorld.Location.Z
    MinZ := ConvexData.MinZ + LocalToWorld.Location.Z }

/-- Detour `dtTileCacheLayerHeader`: the bounds and the size of the cell grid. -/
structure dtTileCacheLayerHeader where
  bmin : FVector
  bmax : FVector
  width : Nat
  height : Nat
deriving DecidableEq, Repr

/-- Detour `dtTileCacheLayer`: the header and, per cell, a height and an area
identifier. -/
structure dtTileCacheLayer where
  header : dtTileCacheLayerHeader
  heights : List Nat
  areas : List Nat
deriving DecidableEq, Repr

/-- The rasterisers of the Detour tile cache, outside the sources: which cells of a
layer (by index into `areas`) lie inside a cylinder, a box or a convex prism, given
the cell grid of the layer, its origin and the cell size and height. -/
structure FDetourTileCache where
  CylinderCells :
    dtTileCacheLayerHeader → List Nat → FVector → ℚ → ℚ → FVector → ℚ → ℚ → Nat → Bool
  BoxCells :
    dtTileCacheLayerHeader → List Nat → FVector → ℚ → ℚ → FVector → FVector → Nat → Bool
  ConvexCells :
    dtTileCacheLayerHeader → List Nat → FVector → ℚ → ℚ → List ℚ → Int → ℚ → ℚ → Nat → Bool

/-- Writing an area identifier to every cell of a footprint. -/
def MarkCells (Cells : Nat → Bool) (layer : dtTileCacheLayer) (areaId : Nat) : dtTileCacheLayer :=
  { layer with areas := layer.areas.enum.map (fun ia => if Cells ia.1 then areaId else ia.2) }

/-- Writing an area identifier to every cell of a footprint that holds the filter
identifier. -/
def ReplaceCells (Cells : Nat → Bool) (layer : dtTileCacheLayer) (areaId filterAreaId : Nat) :
    dtTileCacheLayer :=
  { layer with
    areas := layer.areas.enum.map
      (fun ia => if Cells ia.1 && decide (ia.2 = filterAreaId) then areaId else ia.2) }

/-- Modelled from the spec: Detour `dtMarkCylinderArea`, which is not among the
sources. The modifier is rasterised onto the layer: every cell inside the cylinder
gets the area identifier. -/
def dtMarkCylinderArea (Detour : FDetourTileCache) (layer : dtTileCacheLayer) (orig : FVector)
    (cs ch : ℚ) (pos : FVector) (radius height : ℚ) (areaId : Nat) : dtTileCacheLayer :=
  MarkCells (Detour.CylinderCells layer.header layer.heights orig cs ch pos radius height)
    layer areaId

/-- Modelled from the spec: Detour `dtReplaceCylinderArea`, which is not among the
sources. Replace-area semantics: every cell inside the cylinder that holds the area
identifier to replace gets the new area identifier; no other cell changes. -/
def dtReplaceCylinderArea (Detour : FDetourTileCache) (layer : dtTileCacheLayer) (orig : FVector)
    (cs ch : ℚ) (pos : FVector) (radius height : ℚ) (areaId filterAreaId : Nat) :
    dtTileCacheLayer :=
  ReplaceCells (Detour.CylinderCells layer.header layer.heights orig cs ch pos radius height)
    layer areaId filterAreaId

/-- Modelled from the spec: Detour `dtMarkBoxArea`, which is not among the sources.
Every cell inside the box gets the area identifier. -/
def dtMarkBoxArea (Detour : FDetourTileCache) (layer : dtTileCacheLayer) (orig : FVector)
    (cs ch : ℚ) (pos extent : FVector) (areaId : Nat) : dtTileCacheLayer :=
  MarkCells (Detour.BoxCells layer.header layer.heights orig cs ch pos extent) layer areaId

/-- Modelled from the spec: Detour `dtReplaceBoxArea`, which is not among the
sources. Replace-area semantics: every cell inside the box that holds the area
identifier to replace gets the new area identifier; no other cell changes. -/
def dtReplaceBoxArea (Detour : FDetourTileCache) (layer : dtTileCacheLayer) (orig : FVector)
    (cs ch : ℚ) (pos extent : FVector) (areaId filterAreaId : Nat) : dtTileCacheLayer :=
  ReplaceCells (Detour.BoxCells layer.header layer.heights orig cs ch pos extent)
    layer areaId filterAreaId

/-- Modelled from the spec: Detour `dtMarkConvexArea`, which is not among the
sources. Every cell inside the convex prism gets the area identifier. -/
def dtMarkConvexArea (Detour : FDetourTileCache) (layer : dtTileCacheLayer) (orig : FVector)
    (cs ch : ℚ) (verts : List ℚ) (nverts : Int) (hmin hmax : ℚ) (areaId : Nat) :
    dtTileCacheLayer :=
  MarkCells (Detour.ConvexCells layer.header layer.heights orig cs ch verts nverts hmin hmax)
    layer areaId

/-- Modelled from the spec: Detour `dtReplaceConvexArea`, which is not among the
sources. Replace-area semantics: every cell inside the convex prism that holds the
area identifier to replace gets the new area identifier; no other cell changes. -/
def dtReplaceConvexArea (Detour : FDetourTileCache) (layer : dtTileCacheLayer) (orig : FVector)
    (cs ch : ℚ) (verts : List ℚ) (nverts : Int) (hmin hmax : ℚ) (areaId filterAreaId : Nat) :
    dtTileCacheLayer :=
  ReplaceCells (Detour.ConvexCells layer.header layer.heights orig cs ch verts nverts hmin hmax)
    layer areaId filterAreaId

/-- Source `FRecastNavMeshCachedData`, the member `AdditionalCachedData` of the tile
generator: the map from area class to area identifier, the sort switch, and the
owning navmesh actor, seen as its `SortAreasForGenerator` (`none` when there is no
owner). -/
structure FRecastNavMeshCachedData where
  AreaClassToIdMap : List (Option Nat × Int)
  bUseSortFunction : Bool
  ActorOwner :
    Option (List FRecastAreaNavModifierElement → List FRecastAreaNavModifierElement)

/-- Source `FRecastTileGenerator::MarkDynamicArea`. -/
def FRecastTileGenerator.MarkDynamicArea (g : FRecastTileGenerator) (Math : FEngineMath)
    (Detour : FDetourTileCache) (AdditionalCachedData : FRecastNavMeshCachedData)
    (Modifier : FAreaNavModifier) (LocalToWorld : FTransform) (Layer : dtTileCacheLayer) :
    dtTileCacheLayer :=
  let AreaID := TMapFind AdditionalCachedData.AreaClassToIdMap Modifier.AreaClass
  let ReplaceID := TMapFind AdditionalCachedData.AreaClassToIdMap Modifier.AreaClassToReplace
  match AreaID with
  | none => Layer
  | some AreaID =>
    let LayerUnrealBounds := Recast2UnrealBox ⟨Layer.header.bmin, Layer.header.bmax, true⟩
    let ModifierBounds := LocalToWorld.TransformBox Modifier.Bounds
    let ModifierBounds : FBox :=
      if Modifier.bIncludeAgentHeight then
        { ModifierBounds with
          Min := { ModifierBounds.Min with Z := ModifierBounds.Min.Z - g.TileConfig.AgentHeight } }
      else ModifierBounds
    if !LayerUnrealBounds.Intersect ModifierBounds then Layer
    else
      let ExpandBy := g.TileConfig.AgentRadius
      let LayerRecastOrig := Layer.header.bmin
      let OffsetZ :=
        g.TileConfig.ch + (if Modifier.bIncludeAgentHeight then g.TileConfig.AgentHeight else 0)
      match Modifier.ShapeType with
      | ENavigationShapeType.Cylinder =>
        let CylinderData := Modifier.Cylinder
        let Scale3D := LocalToWorld.Scale3D.GetAbs
        let Height := CylinderData.Height * Scale3D.Z
        let Radius := CylinderData.Radius * max Scale3D.X Scale3D.Y
        let Origin := LocalToWorld.TransformPosition CylinderData.Origin
        let Origin := { Origin with Z := Origin.Z - OffsetZ }
        let Height := Height + OffsetZ * 2
        let Radius := Radius + ExpandBy
        let RecastPos := Unreal2RecastPoint Origin
        match ReplaceID with
        | some ReplaceID =>
          dtReplaceCylinderArea Detour Layer LayerRecastOrig g.TileConfig.cs g.TileConfig.ch
            RecastPos Radius Height (ToUChar AreaID) (ToUChar ReplaceID)
        | none =>
          dtMarkCylinderArea Detour Layer LayerRecastOrig g.TileConfig.cs g.TileConfig.ch
            RecastPos Radius Height (ToUChar AreaID)
      | ENavigationShapeType.Box =>
        let BoxData := Modifier.Box
        let WorldBox := LocalToWorld.TransformBox (FBox.BuildAABB BoxData.Origin BoxData.Extent)
        let WorldBox := WorldBox.ExpandBy ⟨ExpandBy, ExpandBy, OffsetZ⟩
        let RacastBox := Unreal2RecastBox WorldBox
        let RecastPos := RacastBox.GetCenterAndExtents.1
        let RecastExtent := RacastBox.GetCenterAndExtents.2
        match ReplaceID with
        | some ReplaceID =>
          dtReplaceBoxArea Detour Layer LayerRecastOrig g.TileConfig.cs g.TileConfig.ch
            RecastPos RecastExtent (ToUChar AreaID) (ToUChar ReplaceID)
        | none =>
          dtMarkBoxArea Detour Layer LayerRecastOrig g.TileConfig.cs g.TileConfig.ch
            RecastPos RecastExtent (ToUChar AreaID)
      | ENavigationShapeType.Convex =>
        let ConvexData := PartialTransformConvexHull Modifier.Convex LocalToWorld
        let ConvexVerts := GrowConvexHull Math ExpandBy ConvexData.Points []
        let MinZ := ConvexData.MinZ - OffsetZ
        let MaxZ := ConvexData.MaxZ + g.TileConfig.ch
        if ConvexVerts.length ≠ 0 then
          let ConvexCoords := ConvexVerts.flatMap (fun V =>
            [(Unreal2RecastPoint V).X, (Unreal2RecastPoint V).Y, (Unreal2RecastPoint V).Z])
          match ReplaceID with
          | some ReplaceID =>
            dtReplaceConvexArea Detour Layer LayerRecastOrig g.TileConfig.cs g.TileConfig.ch
              ConvexCoords (ConvexVerts.length : Int) MinZ MaxZ (ToUChar AreaID) (ToUChar ReplaceID)
          | none =>
            dtMarkConvexArea Detour Layer LayerRecastOrig g.TileConfig.cs g.TileConfig.ch
              ConvexCoords (ConvexVerts.length : Int) MinZ MaxZ (ToUChar AreaID)
        else Layer
      | ENavigationShapeType.Unknown => Layer

/-- Source `FRecastTileGenerator::MarkDynamicAreas`; it may sort the member
`Modifiers` in place, so it returns the generator with the layer. `AreaOf` and
`TransformOf` give the modifier and the transform that the identifiers and matrices
kept in the gathered elements stand for. -/
def FRecastTileGenerator.MarkDynamicAreas (g : FRecastTileGenerator) (Math : FEngineMath)
    (Detour : FDetourTileCache) (AdditionalCachedData : FRecastNavMeshCachedData)
    (AreaOf : Nat → FAreaNavModifier) (TransformOf : List ℚ → FTransform)
    (Layer : dtTileCacheLayer) : FRecastTileGenerator × dtTileCacheLayer :=
  if g.Modifiers.length = 0 then (g, Layer)
  else
    let g : FRecastTileGenerator :=
      if AdditionalCachedData.bUseSortFunction = true ∧ g.Modifiers.length > 1 then
        match AdditionalCachedData.ActorOwner with
        | some SortAreasForGenerator => { g with Modifiers := SortAreasForGenerator g.Modifiers }
        | none => g
      else g
    (g, g.Modifiers.foldl
      (fun Layer Element =>
        Element.Areas.foldl
          (fun Layer Area =>
            let Layer := Element.PerInstanceTransform.foldl
              (fun Layer LocalToWorld =>
                g.MarkDynamicArea Math Detour AdditionalCachedData (AreaOf Area)
                  (TransformOf LocalToWorld) Layer)
              Layer
            if Element.PerInstanceTransform.length = 0 then
              g.MarkDynamicArea Math Detour AdditionalCachedData (AreaOf Area)
                FTransform.Identity Layer
            else Layer)
          Layer)
      Layer)

/-- The calls of `MarkDynamicArea` that the loops of `MarkDynamicAreas` make for a
list of modifier elements, in order. -/
def MarkingCalls (AreaOf : Nat → FAreaNavModifier) (TransformOf : List ℚ → FTransform)
    (Modifiers : List FRecastAreaNavModifierElement) : List (FAreaNavModifier × FTransform) :=
  Modifiers.flatMap (fun Element =>
    Element.Areas.flatMap (fun Area =>
      Element.PerInstanceTransform.map (fun LocalToWorld => (AreaOf Area, TransformOf LocalToWorld))
        ++ (if Element.PerInstanceTransform.length = 0 then [(AreaOf Area, FTransform.Identity)]
            else [])))

/-- The footprint of a modifier on a layer: the cells that a call of `MarkDynamicArea`
hands to Detour, none when the call returns before it reaches Detour. -/
def FRecastTileGenerator.DynamicAreaCells (g : FRecastTileGenerator) (Math : FEngineMath)
    (Detour : FDetourTileCache) (AdditionalCachedData : FRecastNavMeshCachedData)
    (Modifier : FAreaNavModifier) (LocalToWorld : FTransform) (Layer : dtTileCacheLayer) :
    Nat → Bool :=
  let ModifierBounds := LocalToWorld.TransformBox Modifier.Bounds
  let ModifierBounds : FBox :=
    if Modifier.bIncludeAgentHeight then
      { ModifierBounds with
        Min := { ModifierBounds.Min with Z := ModifierBounds.Min.Z - g.TileConfig.AgentHeight } }
    else ModifierBounds
  let OffsetZ :=
    g.TileConfig.ch + (if Modifier.bIncludeAgentHeight then g.TileConfig.AgentHeight else 0)
  if (TMapFind AdditionalCachedData.AreaClassToIdMap Modifier.AreaClass).isNone
      || !(Recast2UnrealBox ⟨Layer.header.bmin, Layer.header.bmax, true⟩).Intersect ModifierBounds
  then fun _ => false
  else
    match Modifier.ShapeType with
    | ENavigationShapeType.Cylinder =>
      Detour.CylinderCells Layer.header Layer.heights Layer.header.bmin g.TileConfig.cs
        g.TileConfig.ch
        (Unreal2RecastPoint
          { LocalToWorld.TransformPosition Modifier.Cylinder.Origin with
            Z := (LocalToWorld.TransformPosition Modifier.Cylinder.Origin).Z - OffsetZ })
        (Modifier.Cylinder.Radius * max LocalToWorld.Scale3D.GetAbs.X LocalToWorld.Scale3D.GetAbs.Y
          + g.TileConfig.AgentRadius)
        (Modifier.Cylinder.Height * LocalToWorld.Scale3D.GetAbs.Z + OffsetZ * 2)
    | ENavigationShapeType.Box =>
      Detour.BoxCells Layer.header Layer.heights Layer.header.bmin g.TileConfig.cs g.TileConfig.ch
        (Unreal2RecastBox
          ((LocalToWorld.TransformBox
            (FBox.BuildAABB Modifier.Box.Origin Modifier.Box.Extent)).ExpandBy
              ⟨g.TileConfig.AgentRadius, g.TileConfig.AgentRadius, OffsetZ⟩)).GetCenterAndExtents.1
        (Unreal2RecastBox
          ((LocalToWorld.TransformBox
            (FBox.BuildAABB Modifier.Box.Origin Modifier.Box.Extent)).ExpandBy
              ⟨g.TileConfig.AgentRadius, g.TileConfig.AgentRadius, OffsetZ⟩)).GetCenterAndExtents.2
    | ENavigationShapeType.Convex =>
      let ConvexData := PartialTransformConvexHull Modifier.Convex LocalToWorld
      let ConvexVerts := GrowConvexHull Math g.TileConfig.AgentRadius ConvexData.Points []
      if ConvexVerts.length ≠ 0 then
        Detour.ConvexCells Layer.header Layer.heights Layer.header.bmin g.TileConfig.cs
          g.TileConfig.ch
          (ConvexVerts.flatMap (fun V =>
            [(Unreal2RecastPoint V).X, (Unreal2RecastPoint V).Y, (Unreal2RecastPoint V).Z]))
          (ConvexVerts.length : Int) (ConvexData.MinZ - OffsetZ) (ConvexData.MaxZ + g.TileConfig.ch)
      else fun _ => false
    | ENavigationShapeType.Unknown => fun _ => false

/-! ## Capsules, height-field samples, seed distances and the tile count -/

/-- The trigonometry of the engine that the capsule exporter calls: `FMath::Sin`,
`FMath::Cos`, the constant `PI`, and the rotation matrix of a yaw angle in degrees,
`FRotationMatrix(FRotator(0, Yaw, 0))`, seen as the position transform it performs. -/
structure FEngineTrigonometry where
  Sin : ℚ → ℚ
  Cos : ℚ → ℚ
  PI : ℚ
  YawRotation : ℚ → FVector → FVector

/-- Engine `FKSphylElem`, as the exporter reads it: `GetTransform()`, `Radius` and
`Length`. -/
structure FKSphylElem where
  Transform : FTransform
  Radius : ℚ
  Length : ℚ

/-- Engine `UBodySetup`: the capsule elements of its aggregate geometry,
`AggGeom.SphylElems`. -/
structure UBodySetup where
  SphylElems : List FKSphylElem

/-- The arc of `NumRings + 1` vertices that `ExportRigidBodySphylElements` builds for
one capsule: two quarter circles, moved half the capsule length up and down. -/
def SphylArcVerts (Trig : FEngineTrigonometry) (SphylInfo : FKSphylElem) (NumSides NumRings : Nat) :
    List FVector :=
  (List.range (NumRings + 1)).map (fun RingIdx =>
    let Angle : ℚ :=
      if RingIdx ≤ NumSides / 4 then
        ((RingIdx : ℚ) / (((NumRings : Int) - 1 : Int) : ℚ)) * Trig.PI
      else ((((RingIdx : Int) - 1 : Int) : ℚ) / (((NumRings : Int) - 1 : Int) : ℚ)) * Trig.PI
    let ZOffset : ℚ :=
      if RingIdx ≤ NumSides / 4 then (1 / 2) * SphylInfo.Length else -(1 / 2) * SphylInfo.Length
    let SpherePos : FVector :=
      ⟨0, SphylInfo.Radius * Trig.Sin Angle, SphylInfo.Radius * Trig.Cos Angle⟩
    SpherePos.add ⟨0, 0, ZOffset⟩)

/-- Body of the loop of `ExportRigidBodySphylElements` for one capsule element, on the
export buffers and the shape buffer. A matrix is seen as the position transform it
performs, so `ArcRot * ElemTM` rotates first. -/
def ExportSphylElement (Trig : FEngineTrigonometry) (LocalToWorld : FTransform)
    (st : FExportBuffers × List Int) (SphylInfo : FKSphylElem) : FExportBuffers × List Int :=
  let ElemTM : FVector → FVector :=
    fun V => LocalToWorld.TransformPosition (SphylInfo.Transform.TransformPosition V)
  let VertBase : Int := ((st.1.VertexBuffer.length / 3 : Nat) : Int)
  let ShapeBuffer := st.2 ++ [VertBase]
  let NumSides : Nat := 16
  let NumRings : Nat := NumSides / 2 + 1
  let ArcVerts := SphylArcVerts Trig SphylInfo NumSides NumRings
  let B1 := (List.range (NumSides + 1)).foldl
    (fun B SideIdx =>
      let ArcTM : FVector → FVector :=
        fun V => ElemTM (Trig.YawRotation (360 * ((SideIdx : ℚ) / (NumSides : ℚ))) V)
      (List.range (NumRings + 1)).foldl
        (fun B VertIdx =>
          let UnrealVert := ArcTM (ArcVerts.getD VertIdx FVector.ZeroVector)
          B.AddVertex UnrealVert UnrealVert)
        B)
    st.1
  let B2 := (List.range NumSides).foldl
    (fun B (SideIdx : Nat) =>
      let a0start : Int := VertBase + (((SideIdx + 0) * (NumRings + 1) : Nat) : Int)
      let a1start : Int := VertBase + (((SideIdx + 1) * (NumRings + 1) : Nat) : Int)
      (List.range NumRings).foldl
        (fun B (RingIdx : Nat) =>
          (B.AddTriangle (a0start + (RingIdx : Int) + 0) (a1start + (RingIdx : Int) + 0)
              (a0start + (RingIdx : Int) + 1)).AddTriangle
            (a1start + (RingIdx : Int) + 0) (a1start + (RingIdx : Int) + 1)
            (a0start + (RingIdx : Int) + 1))
        B)
    B1
  (B2, ShapeBuffer)

/-- Source `RecastGeometryExport::ExportRigidBodySphylElements`, on the export buffers
and the shape buffer. -/
def ExportRigidBodySphylElements (Trig : FEngineTrigonometry) (BodySetup : UBodySetup)
    (LocalToWorld : FTransform) (st : FExportBuffers × List Int) : FExportBuffers × List Int :=
  BodySetup.SphylElems.foldl (ExportSphylElement Trig LocalToWorld) st

/-- The sample index that the vertex loop of `ExportPxHeightField` computes for
column `X` and row `Y`. -/
def HeightFieldVertexSampleIdx (bMirrored : Bool) (NumCols X Y : Int) : Int :=
  (if bMirrored then X else NumCols - X - 1) * NumCols + Y

/-- The sample index that the quad loop of `ExportPxHeightField` computes for column
`X` and row `Y`. -/
def HeightFieldQuadSampleIdx (NumCols X Y : Int) : Int :=
  (NumCols - X - 1) * NumCols + Y

/-- Every sample index that `ExportPxHeightField` computes for a height field of the
given size, in the order of its two loops. -/
def HeightFieldSampleIndices (bMirrored : Bool) (NumRows NumCols : Int) : List Int :=
  (loopRange 0 (NumRows - 1)).flatMap
      (fun Y => (loopRange 0 (NumCols - 1)).map
        (fun X => HeightFieldVertexSampleIdx bMirrored NumCols X Y))
    ++ (loopRange 0 (NumRows - 1 - 1)).flatMap
      (fun Y => (loopRange 0 (NumCols - 1 - 1)).map
        (fun X => HeightFieldQuadSampleIdx NumCols X Y))

/-- The centre of the box of a grid tile, in the horizontal plane. -/
def TileCenter2D (self : FRecastNavMeshGenerator) (Coord : FIntPoint) : ℚ × ℚ :=
  let TileBox := CalculateTileBounds Coord.X Coord.Y FVector.ZeroVector
    self.TotalNavBounds (TileSizeInWorldUnits self.Config)
  ((TileBox.Min.X + TileBox.Max.X) * (1 / 2), (TileBox.Min.Y + TileBox.Max.Y) * (1 / 2))

/-- Source `GetTilesCountHelper`: the number of tiles of the live mesh, zero for the
null mesh. Every tile the container holds has a header and data. -/
def GetTilesCountHelper (DetourMesh : Option dtNavMesh) : Int :=
  match DetourMesh with
  | some Mesh => (Mesh.tiles.length : Int)
  | none => 0

/-- The first half of the body of the loop of `AddGeneratedTiles`, named for the
proofs: the layer that the mesh holds at the location is removed. -/
def RemoveOldTileLayer (TileX TileY LayerIndex : Int) (st : List Nat × Int × dtNavMesh) :
    List Nat × Int × dtNavMesh :=
  match st.2.2.getTileRefAt TileX TileY LayerIndex with
  | some OldTileRef => (AddUnique st.1 OldTileRef, st.2.1 - 1, st.2.2.removeTile OldTileRef)
  | none => st

/-- The second half of the body of the loop of `AddGeneratedTiles`, named for the
proofs: a valid layer is added to the mesh. -/
def InsertTileLayer (TileLayer : FNavMeshTileData) (st : List Nat × Int × dtNavMesh) :
    List Nat × Int × dtNavMesh :=
  if TileLayer.IsValid then
    match TileLayer.Data with
    | some Data =>
      match st.2.2.addTile Data with
      | (_, none) => st
      | (DetourMesh, some ResultTileRef) => (AddUnique st.1 ResultTileRef, st.2.1 + 1, DetourMesh)
    | none => st
  else st

/-- What a piece of an export function does to the buffers, named for the proofs: it
appends `NumFloats` floats to the vertex buffer and `NumIndices` indices to the
index buffer, and every index it appends satisfies `Q`. -/
def AppendsToBuffers (f : FExportBuffers → FExportBuffers) (NumFloats NumIndices : Nat)
    (Q : Int → Prop) : Prop :=
  ∀ B, ∃ (V : List ℚ) (I : List Int),
    (f B).VertexBuffer = B.VertexBuffer ++ V ∧ V.length = NumFloats
      ∧ (f B).IndexBuffer = B.IndexBuffer ++ I ∧ I.length = NumIndices ∧ ∀ x ∈ I, Q x

/-! ## Sample data -/

namespace Sample

/-- A configuration: unit cells, tiles of ten cells, a border of one cell. -/
def Config : FRecastBuildConfig :=
  { cs := 1, tileSize := 10, borderSize := 1, AgentHeight := 2, maxVertsPerPoly := 6,
    MaxPolysPerTile := 100, ch := 1, AgentRadius := 1 }

/-- Total navigation bounds: the cube from -100 to 100. -/
def Bounds : FBox := ⟨⟨-100, -100, -100⟩, ⟨100, 100, 100⟩, true⟩

/-- A library whose rasterisation fails on every tile and which builds no mesh. -/
def FailingLibrary : FRecastLibrary :=
  { RasterizeLayers := fun _ => FRasterizeOutcome.Failed
    BuildLayerMesh := fun _ _ _ => FNavLayerOutcome.Failed }

/-- A world with one piece of collision geometry (a triangle) inside tile (0, 0). -/
def World : UWorld :=
  { PlayerLocations := []
    NavOctree :=
      [{ Bounds := ⟨⟨-5, -5, 0⟩, ⟨-1, -1, 1⟩, true⟩
         bShouldUseGeometry := true
         bHasGeometry := true
         CollisionData := some ([1, 0, 1, 4, 0, 1, 1, 0, 4], [0, 1, 2])
         NavDataPerInstanceTransformDelegate := none
         Links := []
         Areas := [] }]
    bVoxelCacheEnabled := false }

/-- A manager with empty queues, no cached layers and an empty mesh of four slots. -/
def EmptyManager : FRecastNavMeshGenerator :=
  { Config := Config
    TotalNavBounds := Bounds
    InclusionBounds := [Bounds]
    PendingDirtyTiles := []
    RunningDirtyTiles := []
    IntermediateLayerDataMap := []
    DetourMesh := some ⟨[], [0, 1, 2, 3]⟩
    NumActiveTiles := 0
    MaxTileGeneratorTasks := 2 }

/-- A manager whose live mesh holds one layer at tile (0, 0) and which has a
full-geometry rebuild of that tile pending. -/
def ManagerWithLayer : FRecastNavMeshGenerator :=
  { EmptyManager with
    PendingDirtyTiles := [⟨⟨0, 0⟩, 0, true, []⟩]
    DetourMesh := some ⟨[⟨0, ⟨0, 0, 0, [7]⟩⟩], [1, 2, 3]⟩
    NumActiveTiles := 1 }

/-- Flags of an ordinary geometry change. -/
def GeometryFlags : ENavigationDirtyFlag :=
  { Geometry := true, DynamicModifier := false, UseAgentHeight := false, NavigationBounds := false }

/-- Flags of a change of dynamic modifiers only. -/
def ModifierFlags : ENavigationDirtyFlag :=
  { Geometry := false, DynamicModifier := true, UseAgentHeight := false, NavigationBounds := false }

/-- A dirty area well inside tile (0, 0), which spans the interval from -10 to 0 on
both horizontal engine axes. -/
def AreaInside : FNavigationDirtyArea :=
  { Bounds := ⟨⟨-6, -6, 0⟩, ⟨-4, -4, 1⟩, true⟩, Flags := GeometryFlags }

/-- The same box as a change of dynamic modifiers. -/
def ModifierAreaInside : FNavigationDirtyArea :=
  { Bounds := ⟨⟨-6, -6, 0⟩, ⟨-4, -4, 1⟩, true⟩, Flags := ModifierFlags }

/-- A dirty area inside tile (0, 0), one unit away from two of its edges. -/
def AreaNearCorner : FNavigationDirtyArea :=
  { Bounds := ⟨⟨-9, -9, 0⟩, ⟨-8, -8, 1⟩, true⟩, Flags := GeometryFlags }

/-- A dirty area inside tile (0, 0) that touches the edge shared with tile (1, 0)
(engine X = -10) and ends one unit before the edge shared with tile (0, -1)
(engine Y = 0). -/
def AreaOnEdge : FNavigationDirtyArea :=
  { Bounds := ⟨⟨-10, -3, 0⟩, ⟨-8, -1, 1⟩, true⟩, Flags := GeometryFlags }

/-- A dirty area inside tile (0, 0) that touches the edge shared with tile (1, 0)
and stays four units away from the other edges. -/
def AreaOnEdgeOnly : FNavigationDirtyArea :=
  { Bounds := ⟨⟨-10, -6, 0⟩, ⟨-8, -4, 1⟩, true⟩, Flags := GeometryFlags }

/-- Bounding box of a low layer of tile (0, 0). -/
def LowBox : FBox := ⟨⟨-10, -10, 0⟩, ⟨0, 0, 10⟩, true⟩

/-- Bounding box of a high layer of tile (0, 0). -/
def HighBox : FBox := ⟨⟨-10, -10, 50⟩, ⟨0, 0, 60⟩, true⟩

/-- A dirty box that meets the low layer only. -/
def LowDirtyBox : FBox := ⟨⟨-6, -6, 0⟩, ⟨-4, -4, 1⟩, true⟩

/-- A library that rasterises every tile with geometry into a low and a high layer
and builds a one-polygon mesh for every layer. -/
def BuildingLibrary : FRecastLibrary :=
  { RasterizeLayers := fun _ => FRasterizeOutcome.Layers [([1], 1, LowBox), ([2], 1, HighBox)]
    BuildLayerMesh := fun _ iLayer _ => FNavLayerOutcome.PolyMesh 1 3 (some ([9 + iLayer], 1)) }

/-- A manager whose live mesh holds a low and a high layer at tile (0, 0), with the
compressed layers of both cached. -/
def ManagerTwoLayers : FRecastNavMeshGenerator :=
  { EmptyManager with
    IntermediateLayerDataMap :=
      [(⟨0, 0⟩, [⟨some ⟨0, 0, 0, [1]⟩, 1, 0, LowBox⟩, ⟨some ⟨0, 0, 1, [2]⟩, 1, 1, HighBox⟩])]
    DetourMesh := some ⟨[⟨1, ⟨0, 0, 1, [8]⟩⟩, ⟨0, ⟨0, 0, 0, [7]⟩⟩], [2, 3]⟩
    NumActiveTiles := 2 }

/-- A manager in which tile (0, 0) is being built and has been marked dirty again:
one running task and one pending element for the coordinate. -/
def ManagerBlocked : FRecastNavMeshGenerator :=
  RunCalls FailingLibrary EmptyManager
    [FManagerCall.MarkDirtyTiles none [AreaInside],
      FManagerCall.ProcessTileTasks World (fun _ => false) 1,
      FManagerCall.MarkDirtyTiles none [AreaInside]]

/-- The pending element of tile (0, 0) after a geometry change. -/
def PendingOrigin : FPendingTileElement := ⟨⟨0, 0⟩, MAX_flt, true, []⟩

/-- The running element of an area-only rebuild of tile (0, 0) of the manager with
two layers: its generator reuses the cached compressed layers. -/
def PartialRebuild : FRunningTileElement :=
  ⟨⟨0, 0⟩, false, (CreateTileGenerator ManagerTwoLayers World ⟨0, 0⟩ [LowDirtyBox]).1⟩

/-- The tile generator of a full rebuild of tile (0, 0) of the manager with one
layer, as set up: it has gathered the triangle of the world. -/
def FullRebuild : FRecastTileGenerator :=
  (CreateTileGenerator ManagerWithLayer World ⟨0, 0⟩ []).1

/-- A world with a triangle of collision geometry in each of the tiles (0, 0), (1, 0)
and (2, 0). -/
def WideWorld : UWorld :=
  { PlayerLocations := []
    NavOctree :=
      [{ Bounds := ⟨⟨-5, -5, 0⟩, ⟨-1, -1, 1⟩, true⟩
         bShouldUseGeometry := true
         bHasGeometry := true
         CollisionData := some ([1, 0, 1, 4, 0, 1, 1, 0, 4], [0, 1, 2])
         NavDataPerInstanceTransformDelegate := none
         Links := []
         Areas := [] },
       { Bounds := ⟨⟨-15, -5, 0⟩, ⟨-11, -1, 1⟩, true⟩
         bShouldUseGeometry := true
         bHasGeometry := true
         CollisionData := some ([11, 0, 1, 14, 0, 1, 11, 0, 4], [0, 1, 2])
         NavDataPerInstanceTransformDelegate := none
         Links := []
         Areas := [] },
       { Bounds := ⟨⟨-25, -5, 0⟩, ⟨-21, -1, 1⟩, true⟩
         bShouldUseGeometry := true
         bHasGeometry := true
         CollisionData := some ([21, 0, 1, 24, 0, 1, 21, 0, 4], [0, 1, 2])
         NavDataPerInstanceTransformDelegate := none
         Links := []
         Areas := [] }]
    bVoxelCacheEnabled := false }

/-- A geometry dirty area over the three triangles of the wide world. -/
def WideArea : FNavigationDirtyArea :=
  { Bounds := ⟨⟨-25, -5, 0⟩, ⟨-1, -1, 1⟩, true⟩, Flags := GeometryFlags }

/-- The manager after the wide area has been marked dirty: its queue holds the tiles
the area touches, and at most two tasks may run. -/
def ManagerWide : FRecastNavMeshGenerator :=
  MarkDirtyTiles EmptyManager none [WideArea]

/-- A dirty mark, a tick that finds no task done, and a blocking completion whose
tasks finish only when they are waited for. -/
def GeneratorCalls : List FGeneratorCall :=
  [FGeneratorCall.MarkDirtyTiles none [WideArea],
    FGeneratorCall.TickAsyncBuild WideWorld (fun _ => false),
    FGeneratorCall.EnsureBuildCompletion WideWorld (fun _ _ => false) 40]

/-- A layout with 32-byte tile records (three `int32` fields, padding and two
pointers), 4-byte spans, a 32-byte geometry cache object (vertex count, face count,
four bytes of slope override, padding and two pointers), and floats written as the
`int32` of their numerator, which is exact on the integer values used here. -/
def CacheLayout : FCacheLayout :=
  { SizeofTileInfo := 32
    SizeofSpanCache := 4
    WriteTileInfo := fun x y n =>
      Int32ToBytes x ++ Int32ToBytes y ++ Int32ToBytes n ++ List.replicate 20 0
    ReadTileX := fun bs => BytesToInt32 (ReadBytes bs 0 4)
    ReadTileY := fun bs => BytesToInt32 (ReadBytes bs 4 4)
    ReadNumSpans := fun bs => BytesToInt32 (ReadBytes bs 8 4)
    SizeofGeometryCache := 32
    WriteGeometryCache := fun f v s =>
      Int32ToBytes v ++ Int32ToBytes f ++ Memcpy s 4 ++ List.replicate 20 0
    ReadNumFaces := fun bs => BytesToInt32 (ReadBytes bs 4 4)
    ReadNumVerts := fun bs => BytesToInt32 (ReadBytes bs 0 4)
    ReadSlopeOverride := fun bs => ReadBytes bs 8 4
    FloatToBytes := fun v => Int32ToBytes v.num
    BytesToFloat := fun bs => (BytesToInt32 bs : ℚ) }

/-- The tile generator of tile (0, 0), as constructed. -/
def TileOrigin : FRecastTileGenerator := FRecastTileGenerator.Construct EmptyManager ⟨0, 0⟩

/-- The tile generator of tile (1, 0), as constructed. -/
def TileEast : FRecastTileGenerator := FRecastTileGenerator.Construct EmptyManager ⟨1, 0⟩

/-- Three calls of `AddVoxelCache`: tile (0, 0) with two spans, tile (1, 0) with none,
and tile (0, 0) once more with one span. -/
def VoxelCalls : List (FRecastTileGenerator × List Nat × Int) :=
  [(TileOrigin, [1, 2, 3, 4, 5, 6, 7, 8], 2), (TileEast, [], 0), (TileOrigin, [9, 9, 9, 9], 1)]

/-- An exporter holding one triangle, a stray float and a stray index. -/
def Exporter : FRecastGeometryExport :=
  { Data := ⟨LowBox, []⟩
    VertexBuffer := [0, 0, 0, 1, 0, 0, 0, 1, 0, 5]
    IndexBuffer := [0, 1, 2, 7]
    SlopeOverride := [0, 0, 0, 0] }

/-- An exporter with two floats and one face: no whole vertex. -/
def ExporterWithoutVertex : FRecastGeometryExport :=
  { Data := ⟨LowBox, [1, 2, 3]⟩
    VertexBuffer := [1, 2]
    IndexBuffer := [0, 1, 2]
    SlopeOverride := [0, 0, 0, 0] }

/-- Export buffers that hold one vertex and no triangle. -/
def Buffers : FExportBuffers :=
  { VertexBuffer := [7, 8, 9], IndexBuffer := [], UnrealBounds := ⟨⟨7, 8, 9⟩, ⟨7, 8, 9⟩, true⟩ }

/-- A mirroring transform: it negates X, so its determinant is negative. -/
def Mirror : FTransform :=
  { TransformPosition := fun V => ⟨-V.X, V.Y, V.Z⟩
    Determinant := -1
    Scale3D := ⟨-1, 1, 1⟩
    Location := FVector.ZeroVector
    TransformBox := fun Box => ⟨⟨-Box.Max.X, Box.Min.Y, Box.Min.Z⟩, ⟨-Box.Min.X, Box.Max.Y, Box.Max.Z⟩,
      Box.IsValid⟩ }

/-- The three corners of a triangle. -/
def Triangle : List FVector := [⟨0, 0, 0⟩, ⟨1, 0, 0⟩, ⟨0, 1, 0⟩]

/-- Off-mesh data with two area classes in its map. -/
def OffMeshData : FOffMeshData :=
  { LinkParams := [], AreaClassToIdMap := [(some 0, 0), (some 1, 1)], FlagsPerArea := [1, 3] }

/-- A point link whose area class, 7, is not in the map. -/
def JumpLink : FNavigationLink :=
  { Left := ⟨0, 0, 0⟩, Right := ⟨1, 0, 0⟩, SupportedAgentsBits := 1,
    Direction := ENavLinkDirection.BothWays, SnapRadius := 30, UserId := 42, AreaClass := some 7 }

/-- A segment link whose area class, 7, is not in the map. -/
def JumpSegment : FNavigationSegmentLink :=
  { LeftStart := ⟨0, 0, 0⟩, LeftEnd := ⟨0, 1, 0⟩, RightStart := ⟨1, 0, 0⟩, RightEnd := ⟨1, 1, 0⟩,
    SupportedAgentsBits := 1, Direction := ENavLinkDirection.LeftToRight, SnapRadius := 30,
    UserId := 43, AreaClass := some 7 }

/-- Engine math on the samples: vectors are left as they are and rotations are the
quarter turns. -/
def Math : FEngineMath :=
  { GetSafeNormal := fun V => V
    GetSafeNormal2D := fun V => V
    RotateAboutZ := fun Angle V => if Angle < 0 then ⟨V.Y, -V.X, V.Z⟩ else ⟨-V.Y, V.X, V.Z⟩ }

/-- A rasteriser on a single row of cells along the Recast X axis: a box holds the
cells whose centre lies within its extent; cylinders and prisms hold no cell. -/
def Detour : FDetourTileCache :=
  { CylinderCells := fun _ _ _ _ _ _ _ _ _ => false
    BoxCells := fun _ _ orig cs _ pos extent Cell =>
      decide (|orig.X + ((Cell : ℚ) + 1 / 2) * cs - pos.X| ≤ extent.X)
    ConvexCells := fun _ _ _ _ _ _ _ _ _ _ => false }

/-- A box modifier of area class `Area` that replaces area class 1; the box is centred
at engine X = `CentreX` and has half size 1. -/
def BoxModifier (Area : Nat) (CentreX : ℚ) : FAreaNavModifier :=
  { AreaClass := some Area
    AreaClassToReplace := some 1
    Bounds := FBox.BuildAABB ⟨CentreX, -1, 1⟩ ⟨1, 1, 1⟩
    bIncludeAgentHeight := false
    ShapeType := ENavigationShapeType.Box
    Cylinder := ⟨FVector.ZeroVector, 0, 0⟩
    Box := ⟨⟨CentreX, -1, 1⟩, ⟨1, 1, 1⟩⟩
    Convex := ⟨[], 0, 0⟩ }

/-- What the area identifiers of the samples stand for: 5 is a box around engine
X = -1, every other identifier a box around engine X = -3. -/
def AreaOf (Area : Nat) : FAreaNavModifier :=
  if Area = 5 then BoxModifier 5 (-1) else BoxModifier 6 (-3)

/-- The cached data of the samples: areas 1, 5 and 6 are known, and the owner sorts
the modifiers by reversing them. -/
def CachedData : FRecastNavMeshCachedData :=
  { AreaClassToIdMap := [(some 1, 1), (some 5, 5), (some 6, 6)]
    bUseSortFunction := true
    ActorOwner := some List.reverse }

/-- A tile generator that gathered the modifier of area 6 before that of area 5. -/
def MarkingGenerator : FRecastTileGenerator :=
  { TileOrigin with Modifiers := [⟨[6], []⟩, ⟨[5], []⟩] }

/-- A layer of four cells in a row, all of area 1. -/
def Layer : dtTileCacheLayer :=
  { header := ⟨⟨0, 0, 0⟩, ⟨4, 4, 4⟩, 4, 1⟩, heights := [0, 0, 0, 0], areas := [1, 1, 1, 1] }

/-- A library that builds for every layer a mesh of one polygon with 70000 vertices,
more than a 16-bit index addresses. -/
def OverflowLibrary : FRecastLibrary :=
  { RasterizeLayers := fun _ => FRasterizeOutcome.Layers [([1], 1, LowBox), ([2], 1, HighBox)]
    BuildLayerMesh := fun _ iLayer _ => FNavLayerOutcome.PolyMesh 1 70000 (some ([9 + iLayer], 1)) }

/-- A library that builds for every layer a mesh of 1000 polygons, ten times
`MaxPolysPerTile` of the sample configuration, with three vertices. -/
def CrowdedLibrary : FRecastLibrary :=
  { RasterizeLayers := fun _ => FRasterizeOutcome.Layers [([1], 1, LowBox), ([2], 1, HighBox)]
    BuildLayerMesh := fun _ iLayer _ => FNavLayerOutcome.PolyMesh 1000 3 (some ([9 + iLayer], 1)) }

/-- An inclusion bound that meets tile (0, 0) without containing it. -/
def CornerBound : FBox := ⟨⟨-5, -5, -100⟩, ⟨50, 50, 100⟩, true⟩

/-- A manager with two inclusion bounds: the total bounds, which contain every tile,
and after them the corner bound. -/
def ManagerTwoBounds : FRecastNavMeshGenerator :=
  { EmptyManager with InclusionBounds := [Bounds, CornerBound] }

/-- An inclusion bound strictly inside tile (0, 0). -/
def InnerBound : FBox := ⟨⟨-9, -9, -100⟩, ⟨-1, -1, 100⟩, true⟩

/-- A manager whose only inclusion bound lies strictly inside tile (0, 0). -/
def ManagerInnerBound : FRecastNavMeshGenerator :=
  { EmptyManager with InclusionBounds := [InnerBound] }

/-- A manager whose only inclusion bound is the corner bound. -/
def ManagerCornerBound : FRecastNavMeshGenerator :=
  { EmptyManager with InclusionBounds := [CornerBound] }

/-- An inclusion bound inside tile (1, 0), which spans the interval from -20 to -10 on
the engine X axis: it ends half a unit before the edge shared with tile (0, 0). -/
def MovedBound : FBox := ⟨⟨-19, -9, -100⟩, ⟨-21 / 2, -1, 100⟩, true⟩

/-- The manager with two cached layers at tile (0, 0) after its navigation bounds
have been replaced by a bound that no longer meets the tile. -/
def ManagerMovedBounds : FRecastNavMeshGenerator :=
  { ManagerTwoLayers with InclusionBounds := [MovedBound] }

/-- A change of dynamic modifiers inside the moved bound, half a unit away from
tile (0, 0). -/
def ModifierAreaBeyondEdge : FNavigationDirtyArea :=
  { Bounds := ⟨⟨-12, -6, 0⟩, ⟨-21 / 2, -4, 1⟩, true⟩, Flags := ModifierFlags }

/-- The dirty box that `MarkDirtyTiles` stores for the change beyond the edge: its
box grown by the border. -/
def GrownDirtyBox : FBox := ⟨⟨-14, -8, -2⟩, ⟨-17 / 2, -2, 3⟩, true⟩

/-- A height field of two rows and three columns with six samples, none a hole. -/
def WideField : PxHeightField :=
  { NbRows := 2
    NbColumns := 3
    Cells := [⟨10, 0⟩, ⟨11, 0⟩, ⟨12, 0⟩, ⟨13, 0⟩, ⟨14, 0⟩, ⟨15, 0⟩] }

/-- A manager whose mesh holds two layers at tile (0, 0) and one at tile (1, 0). -/
def ManagerThreeTiles : FRecastNavMeshGenerator :=
  { EmptyManager with
    DetourMesh := some ⟨[⟨2, ⟨1, 0, 0, [6]⟩⟩, ⟨1, ⟨0, 0, 1, [8]⟩⟩, ⟨0, ⟨0, 0, 0, [7]⟩⟩], [3]⟩
    NumActiveTiles := 3 }

/-- A geometry change near a corner of tile (0, 0), a round of tile tasks that
finish at once, and then a change of dynamic modifiers inside the tile. -/
def ManagerCalls : List FManagerCall :=
  [FManagerCall.MarkDirtyTiles none [AreaNearCorner],
    FManagerCall.ProcessTileTasks World (fun _ => true) 1,
    FManagerCall.MarkDirtyTiles (some World) [ModifierAreaInside]]

/-- A world without any navigation-relevant element. -/
def EmptyWorld : UWorld :=
  { PlayerLocations := [], NavOctree := [], bVoxelCacheEnabled := false }

/-- The blocked manager after a call in which the running task of tile (0, 0) was
found finished and collected: the tile is pending and no longer being built. -/
def ManagerCollected : FRecastNavMeshGenerator :=
  (ProcessTileTasks ManagerBlocked World FailingLibrary (fun _ => true) 1).2

/-- A configuration whose cell size is the single-precision value nearest to one
tenth, with tiles of ten cells and a border of one cell. -/
def TenthConfig : FRecastBuildConfig :=
  { cs := 13421773 / 134217728, tileSize := 10, borderSize := 1, AgentHeight := 2,
    maxVertsPerPoly := 6, MaxPolysPerTile := 100, ch := 1, AgentRadius := 1 }

end Sample

end RecastNavMeshGenerator

/-! # Theorems -/

namespace RecastNavMeshGenerator

/-! ## Single-precision rounding is monotone -/

theorem TwoPow_eq (e : Int) : TwoPow e = (2 : ℚ) ^ e := by
  unfold TwoPow
  split_ifs with h
  · obtain ⟨n, rfl⟩ := Int.eq_ofNat_of_zero_le h
    simp [zpow_natCast]
  · obtain ⟨n, rfl⟩ := Int.exists_eq_neg_ofNat (le_of_lt (not_le.1 h))
    simp [zpow_neg, zpow_natCast]

theorem TwoPow_pos (e : Int) : 0 < TwoPow e := by
  rw [TwoPow_eq]
  positivity

theorem TwoPow_le (a b : Int) (h : a ≤ b) : TwoPow a ≤ TwoPow b := by
  rw [TwoPow_eq, TwoPow_eq]
  exact zpow_le_zpow_right₀ (by norm_num) h

theorem TwoPow_lt_iff (a b : Int) : TwoPow a < TwoPow b ↔ a < b := by
  rw [TwoPow_eq, TwoPow_eq]
  exact zpow_lt_zpow_iff_right₀ (by norm_num)

theorem TwoPow_add (a b : Int) : TwoPow (a + b) = TwoPow a * TwoPow b := by
  rw [TwoPow_eq, TwoPow_eq, TwoPow_eq, zpow_add₀ (by norm_num)]

theorem TwoPow_natCast (n : Nat) : TwoPow (n : Int) = ((2 ^ n : Nat) : ℚ) := by
  rw [TwoPow_eq, zpow_natCast]
  push_cast
  rfl

theorem Log2Loop_spec :
    ∀ (Fuel n : Nat), n ≤ Fuel → n ≠ 0 →
      2 ^ Log2Loop Fuel n ≤ n ∧ n < 2 ^ (Log2Loop Fuel n + 1) := by
  intro Fuel
  induction Fuel with
  | zero => intro n h h0; exact absurd (Nat.le_zero.1 h) h0
  | succ Fuel ih =>
    intro n h h0
    unfold Log2Loop
    split_ifs with h2
    · have h1 : n = 1 := by omega
      subst h1
      simp
    · obtain ⟨a, b⟩ := ih (n / 2) (by omega) (by omega)
      simp only [pow_succ] at b ⊢
      generalize 2 ^ Log2Loop Fuel (n / 2) = p at a b ⊢
      constructor <;> omega

theorem Log2Floor_spec (n : Nat) (h : n ≠ 0) :
    2 ^ Log2Floor n ≤ n ∧ n < 2 ^ (Log2Floor n + 1) :=
  Log2Loop_spec n n (le_refl n) h

/-- The exponent brackets the magnitude. -/
theorem FloatExponent_spec (q : ℚ) (hq : q ≠ 0) :
    TwoPow (FloatExponent q) ≤ |q| ∧ |q| < TwoPow (FloatExponent q + 1) := by
  have hnum : q.num.natAbs ≠ 0 := by
    simpa using Rat.num_ne_zero.2 hq
  obtain ⟨a1, a2⟩ := Log2Floor_spec q.num.natAbs hnum
  obtain ⟨d1, d2⟩ := Log2Floor_spec q.den q.den_nz
  have habs : |q| = (q.num.natAbs : ℚ) / (q.den : ℚ) := by
    conv_lhs => rw [← Rat.num_div_den q]
    rw [abs_div, Nat.abs_cast, Nat.cast_natAbs, Int.cast_abs]
  have hd : (0 : ℚ) < (q.den : ℚ) := by exact_mod_cast q.den_pos
  have a1q : ((2 : ℚ) ^ Log2Floor q.num.natAbs) ≤ (q.num.natAbs : ℚ) := by exact_mod_cast a1
  have a2q : (q.num.natAbs : ℚ) < ((2 : ℚ) ^ (Log2Floor q.num.natAbs + 1)) := by exact_mod_cast a2
  have d1q : ((2 : ℚ) ^ Log2Floor q.den) ≤ (q.den : ℚ) := by exact_mod_cast d1
  have d2q : (q.den : ℚ) < ((2 : ℚ) ^ (Log2Floor q.den + 1)) := by exact_mod_cast d2
  have hup : |q| < TwoPow ((Log2Floor q.num.natAbs : Int) - (Log2Floor q.den : Int) + 1) := by
    rw [habs, TwoPow_eq,
      show ((Log2Floor q.num.natAbs : Int) - (Log2Floor q.den : Int) + 1)
        = (((Log2Floor q.num.natAbs + 1 : Nat) : Int)) - ((Log2Floor q.den : Nat) : Int) by
        push_cast; ring,
      zpow_sub₀ (by norm_num), zpow_natCast, zpow_natCast, div_lt_div_iff₀ hd (by positivity)]
    calc (q.num.natAbs : ℚ) * 2 ^ Log2Floor q.den
        ≤ (q.num.natAbs : ℚ) * (q.den : ℚ) := by
          apply mul_le_mul_of_nonneg_left d1q (by positivity)
      _ < 2 ^ (Log2Floor q.num.natAbs + 1) * (q.den : ℚ) := by
          apply mul_lt_mul_of_pos_right a2q hd
  have hlow : TwoPow ((Log2Floor q.num.natAbs : Int) - (Log2Floor q.den : Int) - 1) ≤ |q| := by
    rw [habs, TwoPow_eq,
      show ((Log2Floor q.num.natAbs : Int) - (Log2Floor q.den : Int) - 1)
        = (((Log2Floor q.num.natAbs : Nat) : Int)) - ((Log2Floor q.den + 1 : Nat) : Int) by
        push_cast; ring,
      zpow_sub₀ (by norm_num), zpow_natCast, zpow_natCast, div_le_div_iff₀ (by positivity) hd]
    calc (2 : ℚ) ^ Log2Floor q.num.natAbs * (q.den : ℚ)
        ≤ (q.num.natAbs : ℚ) * (q.den : ℚ) := by
          apply mul_le_mul_of_nonneg_right a1q (le_of_lt hd)
      _ ≤ (q.num.natAbs : ℚ) * 2 ^ (Log2Floor q.den + 1) := by
          apply mul_le_mul_of_nonneg_left (le_of_lt d2q) (by positivity)
  unfold FloatExponent
  dsimp only
  split_ifs with h
  · exact ⟨h, hup⟩
  · refine ⟨hlow, ?_⟩
    rw [sub_add_cancel]
    exact not_le.1 h

theorem RoundHalfEven_floor_le (q : ℚ) : ⌊q⌋ ≤ RoundHalfEven q := by
  unfold RoundHalfEven
  split_ifs <;> omega

theorem RoundHalfEven_le_floor_succ (q : ℚ) : RoundHalfEven q ≤ ⌊q⌋ + 1 := by
  unfold RoundHalfEven
  split_ifs <;> omega

theorem RoundHalfEven_intCast (n : Int) : RoundHalfEven (n : ℚ) = n := by
  unfold RoundHalfEven
  rw [Int.floor_intCast]
  simp

theorem RoundHalfEven_mono (a b : ℚ) (h : a ≤ b) : RoundHalfEven a ≤ RoundHalfEven b := by
  have hf : ⌊a⌋ ≤ ⌊b⌋ := Int.floor_mono h
  rcases lt_or_eq_of_le hf with hlt | heq
  · calc RoundHalfEven a ≤ ⌊a⌋ + 1 := RoundHalfEven_le_floor_succ a
      _ ≤ ⌊b⌋ := hlt
      _ ≤ RoundHalfEven b := RoundHalfEven_floor_le b
  · unfold RoundHalfEven
    rw [← heq]
    split_ifs <;> first | omega | linarith

/-- Rounding to a grid of step `u` keeps a value between the grid points that
surround it. -/
theorem RoundHalfEven_grid_le (q u : ℚ) (m : Int) (hu : 0 < u) (h : q ≤ (m : ℚ) * u) :
    (RoundHalfEven (q / u) : ℚ) * u ≤ (m : ℚ) * u := by
  have h1 : q / u ≤ (m : ℚ) := (div_le_iff₀ hu).2 h
  have h2 := RoundHalfEven_mono _ _ h1
  rw [RoundHalfEven_intCast] at h2
  exact mul_le_mul_of_nonneg_right (by exact_mod_cast h2) (le_of_lt hu)

theorem RoundHalfEven_grid_ge (q u : ℚ) (m : Int) (hu : 0 < u) (h : (m : ℚ) * u ≤ q) :
    (m : ℚ) * u ≤ (RoundHalfEven (q / u) : ℚ) * u := by
  have h1 : (m : ℚ) ≤ q / u := (le_div_iff₀ hu).2 h
  have h2 := RoundHalfEven_mono _ _ h1
  rw [RoundHalfEven_intCast] at h2
  exact mul_le_mul_of_nonneg_right (by exact_mod_cast h2) (le_of_lt hu)

theorem TwoPow_grid (e : Int) (n : Nat) :
    TwoPow (e + (n : Int)) = (((2 ^ n : Nat) : Int) : ℚ) * TwoPow e := by
  rw [TwoPow_add, TwoPow_natCast, mul_comm]
  push_cast
  rfl

theorem FloatRoundPos_nonneg (q : ℚ) (hq : 0 < q) : 0 ≤ FloatRoundPos q := by
  unfold FloatRoundPos
  dsimp only
  have := RoundHalfEven_grid_ge q (TwoPow (max (FloatExponent q) (-126) - 23)) 0
    (TwoPow_pos _) (by simpa using le_of_lt hq)
  simpa using this

/-- A rounded value does not leave the binade of its argument upward. -/
theorem FloatRoundPos_le (q : ℚ) (hq : 0 < q) :
    FloatRoundPos q ≤ TwoPow (max (FloatExponent q) (-126) + 1) := by
  have hs := (FloatExponent_spec q (ne_of_gt hq)).2
  rw [abs_of_pos hq] at hs
  have h1 : q ≤ TwoPow (max (FloatExponent q) (-126) + 1) :=
    le_trans (le_of_lt hs) (TwoPow_le _ _ (by have := le_max_left (FloatExponent q) (-126); omega))
  have hg : TwoPow (max (FloatExponent q) (-126) + 1)
      = (((2 ^ 24 : Nat) : Int) : ℚ) * TwoPow (max (FloatExponent q) (-126) - 23) := by
    rw [← TwoPow_grid]
    congr 1
    push_cast
    ring
  unfold FloatRoundPos
  dsimp only
  rw [hg] at h1 ⊢
  exact RoundHalfEven_grid_le _ _ _ (TwoPow_pos _) h1

/-- A rounded value does not leave the binade of its argument downward. -/
theorem FloatRoundPos_ge (q : ℚ) (h : TwoPow (max (FloatExponent q) (-126)) ≤ q) :
    TwoPow (max (FloatExponent q) (-126)) ≤ FloatRoundPos q := by
  have hg : TwoPow (max (FloatExponent q) (-126))
      = (((2 ^ 23 : Nat) : Int) : ℚ) * TwoPow (max (FloatExponent q) (-126) - 23) := by
    rw [← TwoPow_grid]
    congr 1
    push_cast
    ring
  unfold FloatRoundPos
  dsimp only
  rw [hg] at h
  conv_lhs => rw [hg]
  exact RoundHalfEven_grid_ge _ _ _ (TwoPow_pos _) h

theorem FloatExponent_mono (a b : ℚ) (ha : 0 < a) (hab : a ≤ b) :
    FloatExponent a ≤ FloatExponent b := by
  have hb : 0 < b := lt_of_lt_of_le ha hab
  have h1 := (FloatExponent_spec a (ne_of_gt ha)).1
  have h2 := (FloatExponent_spec b (ne_of_gt hb)).2
  rw [abs_of_pos ha] at h1
  rw [abs_of_pos hb] at h2
  have := (TwoPow_lt_iff _ _).1 (lt_of_le_of_lt (le_trans h1 hab) h2)
  omega

theorem FloatRoundPos_mono (a b : ℚ) (ha : 0 < a) (hab : a ≤ b) :
    FloatRoundPos a ≤ FloatRoundPos b := by
  have hb : 0 < b := lt_of_lt_of_le ha hab
  have he := FloatExponent_mono a b ha hab
  have he2 : max (FloatExponent a) (-126) ≤ max (FloatExponent b) (-126) :=
    max_le_max he (le_refl _)
  rcases lt_or_eq_of_le he2 with hlt | heq
  · have hbn : max (FloatExponent b) (-126) = FloatExponent b := by
      have := le_max_right (FloatExponent a) (-126)
      rcases max_cases (FloatExponent b) (-126) with ⟨h, _⟩ | ⟨h, _⟩
      · exact h
      · omega
    have hbq : TwoPow (max (FloatExponent b) (-126)) ≤ b := by
      rw [hbn]
      have := (FloatExponent_spec b (ne_of_gt hb)).1
      rwa [abs_of_pos hb] at this
    calc FloatRoundPos a ≤ TwoPow (max (FloatExponent a) (-126) + 1) := FloatRoundPos_le a ha
      _ ≤ TwoPow (max (FloatExponent b) (-126)) := TwoPow_le _ _ (by omega)
      _ ≤ FloatRoundPos b := FloatRoundPos_ge b hbq
  · unfold FloatRoundPos
    dsimp only
    rw [heq]
    have hu := TwoPow_pos (max (FloatExponent b) (-126) - 23)
    have h1 : a / TwoPow (max (FloatExponent b) (-126) - 23)
        ≤ b / TwoPow (max (FloatExponent b) (-126) - 23) :=
      div_le_div_of_nonneg_right hab (le_of_lt hu)
    have h2 := RoundHalfEven_mono _ _ h1
    exact mul_le_mul_of_nonneg_right (by exact_mod_cast h2) (le_of_lt hu)

theorem FloatRound_zero : FloatRound 0 = 0 := by
  unfold FloatRound
  rw [if_pos rfl]

theorem FloatRound_nonneg (q : ℚ) (hq : 0 ≤ q) : 0 ≤ FloatRound q := by
  unfold FloatRound
  split_ifs with h0 hp
  · exact le_refl _
  · exact FloatRoundPos_nonneg q hp
  · exact absurd (lt_of_le_of_ne hq (Ne.symm h0)) hp

theorem FloatRound_nonpos (q : ℚ) (hq : q ≤ 0) : FloatRound q ≤ 0 := by
  unfold FloatRound
  split_ifs with h0 hp
  · exact le_refl _
  · exact absurd hp (not_lt.2 hq)
  · have : 0 < -q := by
      have := lt_of_le_of_ne hq h0
      linarith
    have := FloatRoundPos_nonneg (-q) this
    linarith

/-- Rounding to single precision is monotone. -/
theorem FloatRound_mono (a b : ℚ) (hab : a ≤ b) : FloatRound a ≤ FloatRound b := by
  rcases lt_trichotomy a 0 with ha | ha | ha
  · rcases lt_trichotomy b 0 with hb | hb | hb
    · have h1 : FloatRound a = -FloatRoundPos (-a) := by
        unfold FloatRound
        rw [if_neg (ne_of_lt ha), if_neg (not_lt.2 (le_of_lt ha))]
      have h2 : FloatRound b = -FloatRoundPos (-b) := by
        unfold FloatRound
        rw [if_neg (ne_of_lt hb), if_neg (not_lt.2 (le_of_lt hb))]
      rw [h1, h2]
      have := FloatRoundPos_mono (-b) (-a) (by linarith) (by linarith)
      linarith
    · exact le_trans (FloatRound_nonpos a (le_of_lt ha)) (FloatRound_nonneg b (le_of_eq hb.symm))
    · exact le_trans (FloatRound_nonpos a (le_of_lt ha)) (FloatRound_nonneg b (le_of_lt hb))
  · rw [ha]
    rw [FloatRound_zero]
    exact FloatRound_nonneg b (by linarith)
  · have hb : 0 < b := lt_of_lt_of_le ha hab
    have h1 : FloatRound a = FloatRoundPos a := by
      unfold FloatRound
      rw [if_neg (ne_of_gt ha), if_pos ha]
    have h2 : FloatRound b = FloatRoundPos b := by
      unfold FloatRound
      rw [if_neg (ne_of_gt hb), if_pos hb]
    rw [h1, h2]
    exact FloatRoundPos_mono a b ha hab

end RecastNavMeshGenerator

namespace RecastNavMeshGenerator

/-! ## Single-precision values are fixed by the rounding -/

end RecastNavMeshGenerator

namespace RecastNavMeshGenerator

/-! ## Frame lemmas: what the helper operations leave alone -/

theorem TakeIntermediateLayersData_pending (s : FRecastNavMeshGenerator) (c : FIntPoint) :
    (FRecastTileGenerator.TakeIntermediateLayersData s c).2.PendingDirtyTiles
      = s.PendingDirtyTiles := by
  unfold FRecastTileGenerator.TakeIntermediateLayersData
  split <;> rfl

theorem TakeIntermediateLayersData_running (s : FRecastNavMeshGenerator) (c : FIntPoint) :
    (FRecastTileGenerator.TakeIntermediateLayersData s c).2.RunningDirtyTiles
      = s.RunningDirtyTiles := by
  unfold FRecastTileGenerator.TakeIntermediateLayersData
  split <;> rfl

theorem Setup_manager (g : FRecastTileGenerator) (s : FRecastNavMeshGenerator) (W : UWorld)
    (d : List FBox) :
    (g.Setup s W d).2 = (FRecastTileGenerator.TakeIntermediateLayersData s ⟨g.TileX, g.TileY⟩).2 := by
  unfold FRecastTileGenerator.Setup
  dsimp only
  split_ifs <;> rfl

theorem CreateTileGenerator_pending (s : FRecastNavMeshGenerator) (W : UWorld) (c : FIntPoint)
    (d : List FBox) :
    (CreateTileGenerator s W c d).2.PendingDirtyTiles = s.PendingDirtyTiles := by
  simp [CreateTileGenerator, Setup_manager, TakeIntermediateLayersData_pending]

theorem CreateTileGenerator_running (s : FRecastNavMeshGenerator) (W : UWorld) (c : FIntPoint)
    (d : List FBox) :
    (CreateTileGenerator s W c d).2.RunningDirtyTiles = s.RunningDirtyTiles := by
  simp [CreateTileGenerator, Setup_manager, TakeIntermediateLayersData_running]

theorem RemoveTileLayers_pending (s : FRecastNavMeshGenerator) (x y : Int) :
    (RemoveTileLayers s x y).2.PendingDirtyTiles = s.PendingDirtyTiles := by
  unfold RemoveTileLayers
  cases h : s.DetourMesh <;> simp only [] <;> try split
  all_goals rfl

theorem RemoveTileLayers_running (s : FRecastNavMeshGenerator) (x y : Int) :
    (RemoveTileLayers s x y).2.RunningDirtyTiles = s.RunningDirtyTiles := by
  unfold RemoveTileLayers
  cases h : s.DetourMesh <;> simp only [] <;> try split
  all_goals rfl

theorem AddGeneratedTiles_pending (s : FRecastNavMeshGenerator) (g : FRecastTileGenerator) :
    (AddGeneratedTiles s g).2.PendingDirtyTiles = s.PendingDirtyTiles := by
  unfold AddGeneratedTiles
  simp only
  split <;> split <;> simp [RemoveTileLayers_pending]

theorem AddGeneratedTiles_running (s : FRecastNavMeshGenerator) (g : FRecastTileGenerator) :
    (AddGeneratedTiles s g).2.RunningDirtyTiles = s.RunningDirtyTiles := by
  unfold AddGeneratedTiles
  simp only
  split <;> split <;> simp [RemoveTileLayers_running]

end RecastNavMeshGenerator

namespace RecastNavMeshGenerator

/-! ## The two loops of `ProcessTileTasks` -/

theorem SubmitPendingLoop_succ (W : UWorld) (N : Int) (k : Nat) (self : FRecastNavMeshGenerator)
    (n : Int) (U : List Nat) :
    SubmitPendingLoop W N (k + 1) (self, n, U) =
      if n < N then
        match self.PendingDirtyTiles[k]? with
        | none => SubmitPendingLoop W N k (self, n, U)
        | some p =>
          if RunningContains self.RunningDirtyTiles p.Coord then
            SubmitPendingLoop W N k (self, n, U)
          else if (CreateTileGenerator self W p.Coord p.DirtyAreas).1.HasDataToBuild then
            SubmitPendingLoop W N k (SubmittedState W self k p, n + 1, U)
          else
            SubmitPendingLoop W N k (RemovedState W self k p, n,
              U ++ (RemoveTileLayers (CreateTileGenerator self W p.Coord p.DirtyAreas).2
                p.Coord.X p.Coord.Y).1)
      else (self, n, U) := by
  rw [SubmitPendingLoop]
  rfl

@[simp] theorem SubmittedState_pending (W : UWorld) (self : FRecastNavMeshGenerator) (k : Nat)
    (p : FPendingTileElement) :
    (SubmittedState W self k p).PendingDirtyTiles = self.PendingDirtyTiles.eraseIdx k := by
  simp [SubmittedState, CreateTileGenerator_pending]

@[simp] theorem SubmittedState_running (W : UWorld) (self : FRecastNavMeshGenerator) (k : Nat)
    (p : FPendingTileElement) :
    (SubmittedState W self k p).RunningDirtyTiles
      = self.RunningDirtyTiles
          ++ [⟨p.Coord, false, (CreateTileGenerator self W p.Coord p.DirtyAreas).1⟩] := by
  simp [SubmittedState, CreateTileGenerator_running]

@[simp] theorem RemovedState_pending (W : UWorld) (self : FRecastNavMeshGenerator) (k : Nat)
    (p : FPendingTileElement) :
    (RemovedState W self k p).PendingDirtyTiles = self.PendingDirtyTiles.eraseIdx k := by
  simp [RemovedState, RemoveTileLayers_pending, CreateTileGenerator_pending]

@[simp] theorem RemovedState_running (W : UWorld) (self : FRecastNavMeshGenerator) (k : Nat)
    (p : FPendingTileElement) :
    (RemovedState W self k p).RunningDirtyTiles = self.RunningDirtyTiles := by
  simp [RemovedState, RemoveTileLayers_running, CreateTileGenerator_running]

/-- Invariant rule for the submit loop. -/
theorem SubmitPendingLoop_invariant (W : UWorld) (N : Int)
    (I : FRecastNavMeshGenerator → Prop)
    (hSubmit : ∀ self k p, I self → self.PendingDirtyTiles[k]? = some p →
      RunningContains self.RunningDirtyTiles p.Coord = false → I (SubmittedState W self k p))
    (hRemove : ∀ self k p, I self → self.PendingDirtyTiles[k]? = some p →
      RunningContains self.RunningDirtyTiles p.Coord = false → I (RemovedState W self k p)) :
    ∀ (k : Nat) (self : FRecastNavMeshGenerator) (n : Int) (U : List Nat),
      I self → I (SubmitPendingLoop W N k (self, n, U)).1 := by
  intro k
  induction k with
  | zero => intro self n U h; simpa [SubmitPendingLoop] using h
  | succ k ih =>
    intro self n U h
    rw [SubmitPendingLoop_succ]
    split_ifs with hn
    · cases hp : self.PendingDirtyTiles[k]? with
      | none => simpa using ih self n U h
      | some p =>
        simp only []
        split_ifs with hb hd
        · exact ih self n U h
        · exact ih _ _ _ (hSubmit self k p h hp (by simpa using hb))
        · exact ih _ _ _ (hRemove self k p h hp (by simpa using hb))
    · exact h

theorem RunningContains_iff (R : List FRunningTileElement) (c : FIntPoint) :
    RunningContains R c = true ↔ c ∈ R.map (fun r => r.Coord) := by
  simp only [RunningContains, List.any_eq_true, decide_eq_true_eq, List.mem_map]

theorem SubmitPendingLoop_running_nodup (W : UWorld) (N : Int) (k : Nat)
    (self : FRecastNavMeshGenerator) (n : Int) (U : List Nat)
    (h : (RunningCoords self).Nodup) :
    (RunningCoords (SubmitPendingLoop W N k (self, n, U)).1).Nodup := by
  refine SubmitPendingLoop_invariant W N (fun s => (RunningCoords s).Nodup) ?_ ?_ k self n U h
  · intro s k p hI _ hb
    have hnot : p.Coord ∉ s.RunningDirtyTiles.map (fun r => r.Coord) := by
      intro hmem
      have := (RunningContains_iff _ _).2 hmem
      simp [hb] at this
    simp only [RunningCoords, SubmittedState_running, List.map_append, List.map_cons, List.map_nil]
    rw [List.nodup_append]
    refine ⟨hI, by simp, ?_⟩
    intro a ha hb2
    simp only [List.mem_singleton] at hb2
    subst hb2
    exact hnot ha
  · intro s k p hI _ _
    simpa [RunningCoords] using hI

theorem SubmitPendingLoop_pending_sublist (W : UWorld) (N : Int) (k : Nat)
    (self : FRecastNavMeshGenerator) (n : Int) (U : List Nat) :
    List.Sublist (SubmitPendingLoop W N k (self, n, U)).1.PendingDirtyTiles
      self.PendingDirtyTiles := by
  refine SubmitPendingLoop_invariant W N
    (fun s => List.Sublist s.PendingDirtyTiles self.PendingDirtyTiles) ?_ ?_ k self n U
    (List.Sublist.refl _)
  · intro s k p hI _ _
    simp only [SubmittedState_pending]
    exact (List.eraseIdx_sublist _ _).trans hI
  · intro s k p hI _ _
    simp only [RemovedState_pending]
    exact (List.eraseIdx_sublist _ _).trans hI

end RecastNavMeshGenerator

namespace RecastNavMeshGenerator

theorem CollectLoop_succ (Lib : FRecastLibrary) (IsDone : Nat → Bool) (k : Nat)
    (self : FRecastNavMeshGenerator) (U : List Nat) :
    CollectLoop Lib IsDone (k + 1) (self, U) =
      match self.RunningDirtyTiles[k]? with
      | none => CollectLoop Lib IsDone k (self, U)
      | some Element =>
        if IsDone k then CollectLoop Lib IsDone k (CollectedState Lib self k Element U)
        else CollectLoop Lib IsDone k (self, U) := by
  rw [CollectLoop]
  rfl

@[simp] theorem CollectedState_pending (Lib : FRecastLibrary) (self : FRecastNavMeshGenerator)
    (Idx : Nat) (Element : FRunningTileElement) (U : List Nat) :
    (CollectedState Lib self Idx Element U).1.PendingDirtyTiles = self.PendingDirtyTiles := by
  unfold CollectedState
  dsimp only
  split_ifs <;> simp [AddGeneratedTiles_pending]

@[simp] theorem CollectedState_running (Lib : FRecastLibrary) (self : FRecastNavMeshGenerator)
    (Idx : Nat) (Element : FRunningTileElement) (U : List Nat) :
    (CollectedState Lib self Idx Element U).1.RunningDirtyTiles
      = self.RunningDirtyTiles.eraseIdx Idx := by
  unfold CollectedState
  dsimp only
  split_ifs <;> simp [AddGeneratedTiles_running]

/-- Invariant rule for the collect loop. -/
theorem CollectLoop_invariant (Lib : FRecastLibrary) (IsDone : Nat → Bool)
    (I : FRecastNavMeshGenerator → Prop)
    (hCollect : ∀ self k Element U, I self → self.RunningDirtyTiles[k]? = some Element →
      I (CollectedState Lib self k Element U).1) :
    ∀ (k : Nat) (self : FRecastNavMeshGenerator) (U : List Nat),
      I self → I (CollectLoop Lib IsDone k (self, U)).1 := by
  intro k
  induction k with
  | zero => intro self U h; simpa [CollectLoop] using h
  | succ k ih =>
    intro self U h
    rw [CollectLoop_succ]
    cases hp : self.RunningDirtyTiles[k]? with
    | none => simpa using ih self U h
    | some Element =>
      simp only []
      split_ifs with hd
      · exact ih _ _ (hCollect self k Element U h hp)
      · exact ih self U h

theorem CollectLoop_pending (Lib : FRecastLibrary) (IsDone : Nat → Bool) (k : Nat)
    (self : FRecastNavMeshGenerator) (U : List Nat) :
    (CollectLoop Lib IsDone k (self, U)).1.PendingDirtyTiles = self.PendingDirtyTiles := by
  refine CollectLoop_invariant Lib IsDone
    (fun s => s.PendingDirtyTiles = self.PendingDirtyTiles) ?_ k self U rfl
  intro s k E U hI _
  simpa using hI

theorem CollectLoop_running_sublist (Lib : FRecastLibrary) (IsDone : Nat → Bool) (k : Nat)
    (self : FRecastNavMeshGenerator) (U : List Nat) :
    List.Sublist (CollectLoop Lib IsDone k (self, U)).1.RunningDirtyTiles
      self.RunningDirtyTiles := by
  refine CollectLoop_invariant Lib IsDone
    (fun s => List.Sublist s.RunningDirtyTiles self.RunningDirtyTiles) ?_ k self U
    (List.Sublist.refl _)
  intro s k E U hI _
  simp only [CollectedState_running]
  exact (List.eraseIdx_sublist _ _).trans hI

theorem ProcessTileTasks_running_nodup (self : FRecastNavMeshGenerator) (W : UWorld)
    (Lib : FRecastLibrary) (IsDone : Nat → Bool) (N : Int) (h : (RunningCoords self).Nodup) :
    (RunningCoords (ProcessTileTasks self W Lib IsDone N).2).Nodup := by
  unfold ProcessTileTasks
  dsimp only
  have h1 := SubmitPendingLoop_running_nodup W N self.PendingDirtyTiles.length self 0 [] h
  exact List.Nodup.sublist
    ((CollectLoop_running_sublist Lib IsDone _ _ _).map _) h1

theorem ProcessTileTasks_pending_sublist (self : FRecastNavMeshGenerator) (W : UWorld)
    (Lib : FRecastLibrary) (IsDone : Nat → Bool) (N : Int) :
    List.Sublist (ProcessTileTasks self W Lib IsDone N).2.PendingDirtyTiles
      self.PendingDirtyTiles := by
  unfold ProcessTileTasks
  dsimp only
  rw [CollectLoop_pending]
  exact SubmitPendingLoop_pending_sublist W N _ self 0 []

theorem SortPendingBuildTiles_running (self : FRecastNavMeshGenerator) (CurWorld : Option UWorld) :
    (SortPendingBuildTiles self CurWorld).RunningDirtyTiles = self.RunningDirtyTiles := by
  unfold SortPendingBuildTiles
  cases CurWorld with
  | none => rfl
  | some W => dsimp only; split_ifs <;> rfl

theorem MarkDirtyTiles_running (self : FRecastNavMeshGenerator) (CurWorld : Option UWorld)
    (DirtyAreas : List FNavigationDirtyArea) :
    (MarkDirtyTiles self CurWorld DirtyAreas).RunningDirtyTiles = self.RunningDirtyTiles := by
  unfold MarkDirtyTiles
  dsimp only
  split_ifs
  · rw [SortPendingBuildTiles_running]
  · rfl

/-- Claim C3 (at most one in-flight build per coordinate): in every manager state
reached from one without running tasks (in particular from an empty one) by any
sequence of MarkDirtyTiles and ProcessTileTasks calls, whatever the world, the
completion of tasks and the budgets are, no two elements of RunningDirtyTiles have
the same grid coordinate. -/
theorem RunningDirtyTiles_one_build_per_coordinate (Lib : FRecastLibrary)
    (self : FRecastNavMeshGenerator) (hRunning : self.RunningDirtyTiles = [])
    (Calls : List FManagerCall) :
    ((RunCalls Lib self Calls).RunningDirtyTiles.map (fun r => r.Coord)).Nodup := by
  have key : ∀ (Calls : List FManagerCall) (s : FRecastNavMeshGenerator),
      (RunningCoords s).Nodup → (RunningCoords (RunCalls Lib s Calls)).Nodup := by
    intro Calls
    induction Calls with
    | nil => intro s h; simpa [RunCalls] using h
    | cons c rest ih =>
      intro s h
      simp only [RunCalls, List.foldl_cons]
      apply ih
      cases c with
      | MarkDirtyTiles CurWorld DirtyAreas =>
        simpa [ApplyCall, RunningCoords, MarkDirtyTiles_running] using h
      | ProcessTileTasks World IsDone N =>
        exact ProcessTileTasks_running_nodup s World Lib IsDone N h
  exact key Calls self (by simp [RunningCoords, hRunning])

end RecastNavMeshGenerator

namespace RecastNavMeshGenerator

/-- In a list without repeated keys, two positions holding equal keys coincide. -/
theorem nodup_map_index_eq {α β : Type} (f : α → β) (l : List α) (h : (l.map f).Nodup)
    (i j : Nat) (a b : α) (hi : l[i]? = some a) (hj : l[j]? = some b) (hab : f a = f b) :
    i = j := by
  by_contra hne
  have hi2 : (l.map f)[i]? = some (f a) := by simp [hi]
  have hj2 : (l.map f)[j]? = some (f b) := by simp [hj]
  have hil : i < (l.map f).length := by
    have := (List.getElem?_eq_some_iff.1 hi2).1; exact this
  have hjl : j < (l.map f).length := by
    have := (List.getElem?_eq_some_iff.1 hj2).1; exact this
  rcases Nat.lt_or_gt_of_ne hne with hlt | hgt
  · exact (List.nodup_iff_getElem?_ne_getElem?.1 h i j hlt hjl) (by rw [hi2, hj2, hab])
  · exact (List.nodup_iff_getElem?_ne_getElem?.1 h j i hgt hil) (by rw [hi2, hj2, hab])

/-- In a list without repeated keys, erasing the position of an element removes it. -/
theorem nodup_map_not_mem_eraseIdx {α β : Type} (f : α → β) (l : List α)
    (h : (l.map f).Nodup) (k : Nat) (e : α) (hk : l[k]? = some e) : e ∉ l.eraseIdx k := by
  intro hmem
  rcases List.mem_eraseIdx_iff_getElem?.1 hmem with ⟨j, hjk, hj⟩
  exact hjk (nodup_map_index_eq f l h j k e e hj hk rfl)

end RecastNavMeshGenerator

namespace RecastNavMeshGenerator

/-! ## Retention and follow-up of a blocked pending element -/

theorem SubmitPendingLoop_running_mono (W : UWorld) (N : Int) (k : Nat)
    (self : FRecastNavMeshGenerator) (n : Int) (U : List Nat) (c : FIntPoint)
    (h : c ∈ RunningCoords self) :
    c ∈ RunningCoords (SubmitPendingLoop W N k (self, n, U)).1 := by
  refine SubmitPendingLoop_invariant W N (fun s => c ∈ RunningCoords s) ?_ ?_ k self n U h
  · intro s k p hI _ _
    simp only [RunningCoords, SubmittedState_running, List.map_append, List.mem_append]
    exact Or.inl hI
  · intro s k p hI _ _
    simpa [RunningCoords] using hI

theorem SubmitPendingLoop_blocked_stays (W : UWorld) (N : Int) (k : Nat)
    (self : FRecastNavMeshGenerator) (n : Int) (U : List Nat) (e : FPendingTileElement)
    (he : e ∈ self.PendingDirtyTiles) (hb : e.Coord ∈ RunningCoords self) :
    e ∈ (SubmitPendingLoop W N k (self, n, U)).1.PendingDirtyTiles := by
  have key := SubmitPendingLoop_invariant W N
    (fun s => e ∈ s.PendingDirtyTiles ∧ e.Coord ∈ RunningCoords s) ?_ ?_ k self n U ⟨he, hb⟩
  · exact key.1
  · intro s k p hI hp hnb
    have hne : p ≠ e := by
      rintro rfl
      have := (RunningContains_iff s.RunningDirtyTiles p.Coord).2 hI.2
      simp [hnb] at this
    refine ⟨?_, ?_⟩
    · simp only [SubmittedState_pending]
      rcases List.getElem?_of_mem hI.1 with ⟨j, hj⟩
      refine List.mem_eraseIdx_iff_getElem?.2 ⟨j, ?_, hj⟩
      rintro rfl
      rw [hp] at hj
      exact hne (Option.some.inj hj)
    · simp only [RunningCoords, SubmittedState_running, List.map_append, List.mem_append]
      exact Or.inl hI.2
  · intro s k p hI hp hnb
    have hne : p ≠ e := by
      rintro rfl
      have := (RunningContains_iff s.RunningDirtyTiles p.Coord).2 hI.2
      simp [hnb] at this
    refine ⟨?_, ?_⟩
    · simp only [RemovedState_pending]
      rcases List.getElem?_of_mem hI.1 with ⟨j, hj⟩
      refine List.mem_eraseIdx_iff_getElem?.2 ⟨j, ?_, hj⟩
      rintro rfl
      rw [hp] at hj
      exact hne (Option.some.inj hj)
    · simpa [RunningCoords] using hI.2

theorem ProcessTileTasks_blocked_stays (self : FRecastNavMeshGenerator) (W : UWorld)
    (Lib : FRecastLibrary) (IsDone : Nat → Bool) (N : Int) (e : FPendingTileElement)
    (he : e ∈ self.PendingDirtyTiles) (hb : e.Coord ∈ RunningCoords self) :
    e ∈ (ProcessTileTasks self W Lib IsDone N).2.PendingDirtyTiles := by
  unfold ProcessTileTasks
  dsimp only
  rw [CollectLoop_pending]
  exact SubmitPendingLoop_blocked_stays W N _ self 0 [] e he hb

/-- One run of the submit loop on an element `e` at position `i` that is not
blocked: either `e` leaves the queue, or the budget is used up, `e` keeps its
position and stays unblocked, and every started task shortened the queue. -/
theorem SubmitPendingLoop_progress (W : UWorld) (N : Int) (e : FPendingTileElement) (i : Nat) :
    ∀ (k : Nat) (self : FRecastNavMeshGenerator) (n : Int) (U : List Nat),
      i < k → k ≤ self.PendingDirtyTiles.length → self.PendingDirtyTiles[i]? = some e →
      (PendingCoords self).Nodup → e.Coord ∉ RunningCoords self →
      e ∉ (SubmitPendingLoop W N k (self, n, U)).1.PendingDirtyTiles
        ∨ ((SubmitPendingLoop W N k (self, n, U)).1.PendingDirtyTiles[i]? = some e
            ∧ e.Coord ∉ RunningCoords (SubmitPendingLoop W N k (self, n, U)).1
            ∧ N ≤ (SubmitPendingLoop W N k (self, n, U)).2.1
            ∧ ((SubmitPendingLoop W N k (self, n, U)).1.PendingDirtyTiles.length : Int)
                + (SubmitPendingLoop W N k (self, n, U)).2.1
                ≤ (self.PendingDirtyTiles.length : Int) + n) := by
  intro k
  induction k with
  | zero => intro self n U hik; omega
  | succ k ih =>
    intro self n U hik hkl hie hnd0 hnr
    have hnd : (self.PendingDirtyTiles.map (fun p => p.Coord)).Nodup := hnd0
    rw [SubmitPendingLoop_succ]
    split_ifs with hn
    · obtain ⟨p, hp⟩ : ∃ p, self.PendingDirtyTiles[k]? = some p :=
        ⟨self.PendingDirtyTiles[k], List.getElem?_eq_getElem (by omega)⟩
      rw [hp]
      simp only []
      have hnotblocked : RunningContains self.RunningDirtyTiles e.Coord = false := by
        cases hc : RunningContains self.RunningDirtyTiles e.Coord with
        | false => rfl
        | true => exact absurd ((RunningContains_iff _ _).1 hc) hnr
      -- facts shared by the two branches that erase position `k`
      have herase_len : (self.PendingDirtyTiles.eraseIdx k).length + 1
          = self.PendingDirtyTiles.length := by
        rw [List.length_eraseIdx_of_lt (by omega)]; omega
      have hnd2 : ((self.PendingDirtyTiles.eraseIdx k).map (fun p => p.Coord)).Nodup :=
        List.Nodup.sublist ((List.eraseIdx_sublist _ _).map _) hnd
      rcases Nat.lt_or_ge i k with hlt | hge
      · -- the element lies further towards the head
        have hpe : p.Coord ≠ e.Coord := by
          intro hc
          have := nodup_map_index_eq (fun p => p.Coord) _ hnd k i p e hp hie hc
          omega
        have hie2 : (self.PendingDirtyTiles.eraseIdx k)[i]? = some e := by
          rw [List.getElem?_eraseIdx_of_lt _ _ _ hlt]; exact hie
        split_ifs with hb hd
        · exact ih self n U hlt (by omega) hie hnd0 hnr
        · have h := ih (SubmittedState W self k p) (n + 1) U hlt
            (by simp only [SubmittedState_pending]; omega)
            (by simpa using hie2) (by simpa [PendingCoords] using hnd2)
            (by
              simp only [RunningCoords, SubmittedState_running, List.map_append, List.map_cons,
                List.map_nil, List.mem_append, List.mem_singleton, not_or]
              exact ⟨hnr, fun hc => hpe hc.symm⟩)
          rcases h with h | ⟨h1, h2, h3, h4⟩
          · exact Or.inl h
          · refine Or.inr ⟨h1, h2, h3, ?_⟩
            simp only [SubmittedState_pending] at h4
            omega
        · have h := ih (RemovedState W self k p) n
            (U ++ (RemoveTileLayers (CreateTileGenerator self W p.Coord p.DirtyAreas).2
              p.Coord.X p.Coord.Y).1) hlt
            (by simp only [RemovedState_pending]; omega)
            (by simpa using hie2) (by simpa [PendingCoords] using hnd2)
            (by simpa [RunningCoords] using hnr)
          rcases h with h | ⟨h1, h2, h3, h4⟩
          · exact Or.inl h
          · refine Or.inr ⟨h1, h2, h3, ?_⟩
            simp only [RemovedState_pending] at h4
            omega
      · -- the element is the one at position `k`
        have hik2 : i = k := by omega
        subst hik2
        have hpe : p = e := by rw [hp] at hie; exact Option.some.inj hie
        subst hpe
        have hgone : p ∉ self.PendingDirtyTiles.eraseIdx i :=
          nodup_map_not_mem_eraseIdx (fun p => p.Coord) _ hnd i p hp
        rw [hnotblocked]
        simp only [Bool.false_eq_true, if_false]
        split_ifs with hd
        · left
          intro hmem
          have := (SubmitPendingLoop_pending_sublist W N i (SubmittedState W self i p)
            (n + 1) U).subset hmem
          simp only [SubmittedState_pending] at this
          exact hgone this
        · left
          intro hmem
          have := (SubmitPendingLoop_pending_sublist W N i (RemovedState W self i p) n
            (U ++ (RemoveTileLayers (CreateTileGenerator self W p.Coord p.DirtyAreas).2
              p.Coord.X p.Coord.Y).1)).subset hmem
          simp only [RemovedState_pending] at this
          exact hgone this
    · exact Or.inr ⟨hie, hnr, not_lt.1 hn, le_refl _⟩

end RecastNavMeshGenerator

namespace RecastNavMeshGenerator

theorem ProcessTileTasks_pending_nodup (self : FRecastNavMeshGenerator) (W : UWorld)
    (Lib : FRecastLibrary) (IsDone : Nat → Bool) (N : Int) (h : (PendingCoords self).Nodup) :
    (PendingCoords (ProcessTileTasks self W Lib IsDone N).2).Nodup :=
  List.Nodup.sublist ((ProcessTileTasks_pending_sublist self W Lib IsDone N).map _) h

/-- One `ProcessTileTasks` call with a positive budget on an unblocked pending
element: it leaves the queue, or it keeps its position in a strictly shorter queue
and stays unblocked. -/
theorem ProcessTileTasks_progress (self : FRecastNavMeshGenerator) (W : UWorld)
    (Lib : FRecastLibrary) (IsDone : Nat → Bool) (N : Int) (e : FPendingTileElement) (i : Nat)
    (hN : 1 ≤ N) (hie : self.PendingDirtyTiles[i]? = some e) (hnd : (PendingCoords self).Nodup)
    (hnr : e.Coord ∉ RunningCoords self) :
    e ∉ (ProcessTileTasks self W Lib IsDone N).2.PendingDirtyTiles
      ∨ ((ProcessTileTasks self W Lib IsDone N).2.PendingDirtyTiles[i]? = some e
          ∧ e.Coord ∉ RunningCoords (ProcessTileTasks self W Lib IsDone N).2
          ∧ (ProcessTileTasks self W Lib IsDone N).2.PendingDirtyTiles.length
              < self.PendingDirtyTiles.length) := by
  have hil : i < self.PendingDirtyTiles.length := (List.getElem?_eq_some_iff.1 hie).1
  have h := SubmitPendingLoop_progress W N e i self.PendingDirtyTiles.length self 0 []
    hil (le_refl _) hie hnd hnr
  unfold ProcessTileTasks
  dsimp only
  rw [CollectLoop_pending]
  rcases h with h | ⟨h1, h2, h3, h4⟩
  · exact Or.inl h
  · refine Or.inr ⟨h1, ?_, by omega⟩
    intro hmem
    exact h2 ((CollectLoop_running_sublist Lib IsDone _ _ _).map (fun r => r.Coord) |>.subset hmem)

theorem RunTicks_pending_sublist (Lib : FRecastLibrary) :
    ∀ (Ticks : List (UWorld × (Nat → Bool) × Int)) (self : FRecastNavMeshGenerator),
      List.Sublist (RunTicks Lib self Ticks).PendingDirtyTiles self.PendingDirtyTiles := by
  intro Ticks
  induction Ticks with
  | nil => intro self; exact List.Sublist.refl _
  | cons t rest ih =>
    intro self
    simp only [RunTicks, List.foldl_cons]
    exact (ih _).trans (ProcessTileTasks_pending_sublist self t.1 Lib t.2.1 t.2.2)

theorem RunTicks_follow_up (Lib : FRecastLibrary) (e : FPendingTileElement) (i : Nat) :
    ∀ (Ticks : List (UWorld × (Nat → Bool) × Int)) (self : FRecastNavMeshGenerator),
      self.PendingDirtyTiles[i]? = some e → (PendingCoords self).Nodup →
      e.Coord ∉ RunningCoords self → (∀ t ∈ Ticks, 1 ≤ t.2.2) →
      self.PendingDirtyTiles.length - i ≤ Ticks.length →
      e ∉ (RunTicks Lib self Ticks).PendingDirtyTiles := by
  intro Ticks
  induction Ticks with
  | nil =>
    intro self hie _ _ _ hlen
    have hil : i < self.PendingDirtyTiles.length := (List.getElem?_eq_some_iff.1 hie).1
    simp only [List.length_nil] at hlen
    omega
  | cons t rest ih =>
    intro self hie hnd hnr hbud hlen
    simp only [RunTicks, List.foldl_cons]
    have hstep := ProcessTileTasks_progress self t.1 Lib t.2.1 t.2.2 e i
      (hbud t (List.mem_cons_self _ _)) hie hnd hnr
    rcases hstep with hgone | ⟨h1, h2, h3⟩
    · intro hmem
      exact hgone ((RunTicks_pending_sublist Lib rest _).subset hmem)
    · refine ih _ h1 (ProcessTileTasks_pending_nodup self t.1 Lib t.2.1 t.2.2 hnd) h2
        (fun t' ht' => hbud t' (List.mem_cons_of_mem _ ht')) ?_
      simp only [List.length_cons] at hlen
      omega

end RecastNavMeshGenerator

namespace RecastNavMeshGenerator

/-! ## The merge of dirty tiles -/

theorem MergeDirtyTile_coords (D : List FPendingTileElement) (x : FPendingTileElement) :
    (MergeDirtyTile D x).map (fun p => p.Coord)
      = if x.Coord ∈ D.map (fun p => p.Coord) then D.map (fun p => p.Coord)
        else D.map (fun p => p.Coord) ++ [x.Coord] := by
  induction D with
  | nil => simp [MergeDirtyTile]
  | cons d rest ih =>
    by_cases h : d.Coord = x.Coord
    · simp [MergeDirtyTile, h, MergedElement]
    · have h2 : ¬ x.Coord = d.Coord := fun hc => h hc.symm
      simp only [MergeDirtyTile, h, if_false, List.map_cons, ih, List.mem_cons, h2, false_or]
      split_ifs <;> simp

theorem MergeDirtyTile_nodup (D : List FPendingTileElement) (x : FPendingTileElement)
    (h : (D.map (fun p => p.Coord)).Nodup) :
    ((MergeDirtyTile D x).map (fun p => p.Coord)).Nodup := by
  rw [MergeDirtyTile_coords]
  split_ifs with hx
  · exact h
  · rw [List.nodup_append]
    refine ⟨h, by simp, ?_⟩
    intro a ha hb
    simp only [List.mem_singleton] at hb
    subst hb
    exact hx ha

theorem MergeDirtyTile_mem (D : List FPendingTileElement) (x r : FPendingTileElement)
    (h : (D.map (fun p => p.Coord)).Nodup) (hr : r ∈ MergeDirtyTile D x) :
    (r ∈ D ∧ r.Coord ≠ x.Coord)
      ∨ (∃ d ∈ D, d.Coord = x.Coord ∧ r = MergedElement d x)
      ∨ (x.Coord ∉ D.map (fun p => p.Coord) ∧ r = x) := by
  induction D with
  | nil =>
    simp only [MergeDirtyTile, List.mem_singleton] at hr
    exact Or.inr (Or.inr ⟨by simp, hr⟩)
  | cons d rest ih =>
    have hnd : d.Coord ∉ rest.map (fun p => p.Coord) ∧ (rest.map (fun p => p.Coord)).Nodup :=
      List.nodup_cons.1 h
    by_cases hc : d.Coord = x.Coord
    · simp only [MergeDirtyTile, hc, if_true, List.mem_cons] at hr
      rcases hr with hr | hr
      · exact Or.inr (Or.inl ⟨d, List.mem_cons_self _ _, hc, hr⟩)
      · refine Or.inl ⟨List.mem_cons_of_mem _ hr, ?_⟩
        intro hrc
        apply hnd.1
        rw [hc, ← hrc]
        exact List.mem_map_of_mem _ hr
    · simp only [MergeDirtyTile, hc, if_false, List.mem_cons] at hr
      rcases hr with hr | hr
      · subst hr
        exact Or.inl ⟨List.mem_cons_self _ _, hc⟩
      · rcases ih hnd.2 hr with ⟨h1, h2⟩ | ⟨d', hd', h1, h2⟩ | ⟨h1, h2⟩
        · exact Or.inl ⟨List.mem_cons_of_mem _ h1, h2⟩
        · exact Or.inr (Or.inl ⟨d', List.mem_cons_of_mem _ hd', h1, h2⟩)
        · refine Or.inr (Or.inr ⟨?_, h2⟩)
          simp only [List.map_cons, List.mem_cons, not_or]
          exact ⟨fun hx => hc hx.symm, h1⟩

end RecastNavMeshGenerator

namespace RecastNavMeshGenerator

theorem MergedFrom_append_other (r x : FPendingTileElement) (L : List FPendingTileElement)
    (h : MergedFrom r L) (hne : r.Coord ≠ x.Coord) : MergedFrom r (L ++ [x]) := by
  obtain ⟨h1, h2, h3⟩ := h
  refine ⟨?_, h2, ?_⟩
  · rw [h1]
    constructor
    · rintro ⟨y, hy, hc, hf⟩
      exact ⟨y, List.mem_append_left _ hy, hc, hf⟩
    · rintro ⟨y, hy, hc, hf⟩
      rcases List.mem_append.1 hy with hy | hy
      · exact ⟨y, hy, hc, hf⟩
      · simp only [List.mem_singleton] at hy
        subst hy
        exact absurd hc.symm hne
  · intro hf y hy hc b hb
    rcases List.mem_append.1 hy with hy | hy
    · exact h3 hf y hy hc b hb
    · simp only [List.mem_singleton] at hy
      subst hy
      exact absurd hc.symm hne

theorem MergedFrom_merged (d x : FPendingTileElement) (L : List FPendingTileElement)
    (h : MergedFrom d L) (hc : d.Coord = x.Coord) : MergedFrom (MergedElement d x) (L ++ [x]) := by
  obtain ⟨h1, h2, h3⟩ := h
  have hcoord : (MergedElement d x).Coord = d.Coord := rfl
  have hflag : (MergedElement d x).bRebuildGeometry
      = (d.bRebuildGeometry || x.bRebuildGeometry) := rfl
  refine ⟨?_, ?_, ?_⟩
  · rw [hflag, hcoord, Bool.or_eq_true, h1]
    constructor
    · rintro (⟨y, hy, hyc, hf⟩ | hf)
      · exact ⟨y, List.mem_append_left _ hy, hyc, hf⟩
      · exact ⟨x, by simp, hc.symm, hf⟩
    · rintro ⟨y, hy, hyc, hf⟩
      rcases List.mem_append.1 hy with hy | hy
      · exact Or.inl ⟨y, hy, hyc, hf⟩
      · simp only [List.mem_singleton] at hy
        subst hy
        exact Or.inr hf
  · intro hf
    rw [hflag] at hf
    simp [MergedElement, hf]
  · intro hf y hy hyc b hb
    rw [hflag] at hf
    have hd : d.bRebuildGeometry = false := by
      cases hdf : d.bRebuildGeometry <;> simp [hdf] at hf ⊢
    have hda : (MergedElement d x).DirtyAreas = d.DirtyAreas ++ x.DirtyAreas := by
      simp [MergedElement, hf]
    rw [hda]
    rcases List.mem_append.1 hy with hy | hy
    · exact List.mem_append_left _ (h3 hd y hy (by rw [hyc, hcoord]) b hb)
    · simp only [List.mem_singleton] at hy
      subst hy
      exact List.mem_append_right _ hb

theorem MergedFrom_new (x : FPendingTileElement) (L : List FPendingTileElement)
    (hx : x.bRebuildGeometry = true → x.DirtyAreas = [])
    (hfresh : ∀ y ∈ L, y.Coord ≠ x.Coord) : MergedFrom x (L ++ [x]) := by
  refine ⟨?_, hx, ?_⟩
  · constructor
    · intro hf
      exact ⟨x, by simp, rfl, hf⟩
    · rintro ⟨y, hy, hyc, hf⟩
      rcases List.mem_append.1 hy with hy | hy
      · exact absurd hyc (hfresh y hy)
      · simp only [List.mem_singleton] at hy
        subst hy
        exact hf
  · intro _ y hy hyc b hb
    rcases List.mem_append.1 hy with hy | hy
    · exact absurd hyc (hfresh y hy)
    · simp only [List.mem_singleton] at hy
      subst hy
      exact hb

/-- One merge step keeps the set keyed by coordinate and every element the merge of
what was put in for its coordinate. -/
theorem MergeDirtyTile_invariant (D L : List FPendingTileElement) (x : FPendingTileElement)
    (hnd : (D.map (fun p => p.Coord)).Nodup) (hD : ∀ r ∈ D, MergedFrom r L)
    (hcov : ∀ y ∈ L, y.Coord ∈ D.map (fun p => p.Coord))
    (hx : x.bRebuildGeometry = true → x.DirtyAreas = []) :
    ((MergeDirtyTile D x).map (fun p => p.Coord)).Nodup
      ∧ (∀ r ∈ MergeDirtyTile D x, MergedFrom r (L ++ [x]))
      ∧ (∀ y ∈ L ++ [x], y.Coord ∈ (MergeDirtyTile D x).map (fun p => p.Coord)) := by
  refine ⟨MergeDirtyTile_nodup D x hnd, ?_, ?_⟩
  · intro r hr
    rcases MergeDirtyTile_mem D x r hnd hr with ⟨h1, h2⟩ | ⟨d, hd, h1, h2⟩ | ⟨h1, h2⟩
    · exact MergedFrom_append_other r x L (hD r h1) h2
    · subst h2
      exact MergedFrom_merged d x L (hD d hd) h1
    · subst h2
      refine MergedFrom_new r L hx ?_
      intro y hy hyc
      exact h1 (hyc ▸ hcov y hy)
  · intro y hy
    rw [MergeDirtyTile_coords]
    rcases List.mem_append.1 hy with hy | hy
    · split_ifs
      · exact hcov y hy
      · exact List.mem_append_left _ (hcov y hy)
    · simp only [List.mem_singleton] at hy
      subst hy
      split_ifs with h
      · exact h
      · simp

theorem foldl_MergeDirtyTile_invariant :
    ∀ (X D L : List FPendingTileElement),
      (D.map (fun p => p.Coord)).Nodup → (∀ r ∈ D, MergedFrom r L) →
      (∀ y ∈ L, y.Coord ∈ D.map (fun p => p.Coord)) →
      (∀ x ∈ X, x.bRebuildGeometry = true → x.DirtyAreas = []) →
      ((X.foldl MergeDirtyTile D).map (fun p => p.Coord)).Nodup
        ∧ (∀ r ∈ X.foldl MergeDirtyTile D, MergedFrom r (L ++ X))
        ∧ (∀ y ∈ L ++ X, y.Coord ∈ (X.foldl MergeDirtyTile D).map (fun p => p.Coord)) := by
  intro X
  induction X with
  | nil =>
    intro D L hnd hD hcov _
    simp only [List.foldl_nil, List.append_nil]
    exact ⟨hnd, hD, hcov⟩
  | cons x rest ih =>
    intro D L hnd hD hcov hX
    obtain ⟨h1, h2, h3⟩ := MergeDirtyTile_invariant D L x hnd hD hcov
      (hX x (List.mem_cons_self _ _))
    have := ih (MergeDirtyTile D x) (L ++ [x]) h1 h2 h3
      (fun y hy => hX y (List.mem_cons_of_mem _ hy))
    simp only [List.append_assoc, List.singleton_append] at this
    exact this

/-! ## The loops of `MarkDirtyTiles` as one list of elements -/

theorem MarkDirtyArea_eq_foldl (self : FRecastNavMeshGenerator)
    (D : List FPendingTileElement) (a : FNavigationDirtyArea) :
    MarkDirtyArea self D a = (AreaElements self a).foldl MergeDirtyTile D := by
  unfold MarkDirtyArea AreaElements
  cases hA : AdjustDirtyArea self a with
  | none => rfl
  | some At =>
    obtain ⟨A, t⟩ := At
    simp only []
    have inner : ∀ (y : Int) (xs : List Int) (D : List FPendingTileElement),
        xs.foldl (fun D x => MarkDirtyTile self a A t D x y) D
          = ((xs.filter (fun x => !TileIsSkipped self a t x y)).map
              (fun x => NewPendingElement a A x y)).foldl MergeDirtyTile D := by
      intro y xs
      induction xs with
      | nil => intro D; rfl
      | cons x rest ih =>
        intro D
        simp only [List.foldl_cons, List.filter_cons]
        cases hs : TileIsSkipped self a t x y
        · simp only [MarkDirtyTile, hs, Bool.false_eq_true, if_false, Bool.not_false, if_true,
            List.map_cons, List.foldl_cons]
          exact ih _
        · simp only [MarkDirtyTile, hs, if_true, Bool.not_true, Bool.false_eq_true, if_false]
          exact ih _
    generalize loopRange (TileRange self.Config A).YMin (TileRange self.Config A).YMax = ys
    generalize loopRange (TileRange self.Config A).XMin (TileRange self.Config A).XMax = xs
    induction ys generalizing D with
    | nil => rfl
    | cons y rest ih =>
      simp only [List.foldl_cons, List.flatMap_cons, List.foldl_append]
      rw [inner y xs D]
      exact ih _

theorem foldl_MarkDirtyArea_eq (self : FRecastNavMeshGenerator) :
    ∀ (Areas : List FNavigationDirtyArea) (D : List FPendingTileElement),
      Areas.foldl (MarkDirtyArea self) D
        = (Areas.flatMap (AreaElements self)).foldl MergeDirtyTile D := by
  intro Areas
  induction Areas with
  | nil => intro D; rfl
  | cons a rest ih =>
    intro D
    simp only [List.foldl_cons, List.flatMap_cons, List.foldl_append]
    rw [MarkDirtyArea_eq_foldl]
    exact ih _

end RecastNavMeshGenerator

namespace RecastNavMeshGenerator

theorem AreaElements_mem (self : FRecastNavMeshGenerator) (a : FNavigationDirtyArea)
    (x : FPendingTileElement) (hx : x ∈ AreaElements self a) :
    x.bRebuildGeometry = AreaRebuildsGeometry a
      ∧ x.DirtyAreas = (if AreaRebuildsGeometry a = false then [AreaDirtyBox self a] else []) := by
  unfold AreaElements at hx
  unfold AreaDirtyBox
  cases hA : AdjustDirtyArea self a with
  | none => rw [hA] at hx; simp at hx
  | some At =>
    obtain ⟨A, t⟩ := At
    rw [hA] at hx
    simp only [List.mem_flatMap, List.mem_map, List.mem_filter] at hx
    obtain ⟨y, _, cx, _, rfl⟩ := hx
    exact ⟨rfl, rfl⟩

theorem AreaElements_clean (self : FRecastNavMeshGenerator) (a : FNavigationDirtyArea)
    (x : FPendingTileElement) (hx : x ∈ AreaElements self a) :
    x.bRebuildGeometry = true → x.DirtyAreas = [] := by
  obtain ⟨h1, h2⟩ := AreaElements_mem self a x hx
  intro hf
  rw [h2, ← h1, hf]
  simp

theorem UpdateSeedDistance_fields (self : FRecastNavMeshGenerator) (Seeds : List (ℚ × ℚ))
    (e : FPendingTileElement) :
    (UpdateSeedDistance self Seeds e).Coord = e.Coord
      ∧ (UpdateSeedDistance self Seeds e).bRebuildGeometry = e.bRebuildGeometry
      ∧ (UpdateSeedDistance self Seeds e).DirtyAreas = e.DirtyAreas := by
  unfold UpdateSeedDistance
  dsimp only
  generalize (CalculateTileBounds e.Coord.X e.Coord.Y FVector.ZeroVector self.TotalNavBounds
    (TileSizeInWorldUnits self.Config)) = TB
  have key : ∀ (Seeds : List (ℚ × ℚ)) (c : ℚ × ℚ) (e0 : FPendingTileElement),
      (Seeds.foldl (fun Element SeedLocation =>
          if DistSquared c SeedLocation < Element.SeedDistance then
            { Element with SeedDistance := DistSquared c SeedLocation }
          else Element) e0).Coord = e0.Coord
      ∧ (Seeds.foldl (fun Element SeedLocation =>
          if DistSquared c SeedLocation < Element.SeedDistance then
            { Element with SeedDistance := DistSquared c SeedLocation }
          else Element) e0).bRebuildGeometry = e0.bRebuildGeometry
      ∧ (Seeds.foldl (fun Element SeedLocation =>
          if DistSquared c SeedLocation < Element.SeedDistance then
            { Element with SeedDistance := DistSquared c SeedLocation }
          else Element) e0).DirtyAreas = e0.DirtyAreas := by
    intro Seeds c
    induction Seeds with
    | nil => intro e0; exact ⟨rfl, rfl, rfl⟩
    | cons s rest ih =>
      intro e0
      simp only [List.foldl_cons]
      split_ifs
      · exact ih _
      · exact ih _
  exact key Seeds _ e

/-- Sorting keeps the pending elements up to their order and seed distance. -/
theorem SortPendingBuildTiles_perm (self : FRecastNavMeshGenerator) (CurWorld : Option UWorld) :
    ((SortPendingBuildTiles self CurWorld).PendingDirtyTiles.map
        (fun p => (p.Coord, p.bRebuildGeometry, p.DirtyAreas))).Perm
      (self.PendingDirtyTiles.map (fun p => (p.Coord, p.bRebuildGeometry, p.DirtyAreas))) := by
  unfold SortPendingBuildTiles
  cases CurWorld with
  | none => exact List.Perm.refl _
  | some W =>
    dsimp only
    generalize (if W.PlayerLocations.length = 0 then [((0 : ℚ), (0 : ℚ))]
      else W.PlayerLocations) = Seeds
    split_ifs with h
    · refine ((List.perm_insertionSort _ _).map _).trans ?_
      rw [List.map_map]
      apply List.Perm.of_eq
      apply List.map_congr_left
      intro p _
      obtain ⟨h1, h2, h3⟩ := UpdateSeedDistance_fields self Seeds p
      simp only [Function.comp, h1, h2, h3]
    · exact List.Perm.refl _

/-- The pending queue after `MarkDirtyTiles`, up to order and seed distances: the
merge of the new elements of every area, then of the elements pending before. -/
theorem MarkDirtyTiles_perm (self : FRecastNavMeshGenerator) (CurWorld : Option UWorld)
    (Areas : List FNavigationDirtyArea) :
    ((MarkDirtyTiles self CurWorld Areas).PendingDirtyTiles.map
        (fun p => (p.Coord, p.bRebuildGeometry, p.DirtyAreas))).Perm
      (((Areas.flatMap (AreaElements self) ++ self.PendingDirtyTiles).foldl MergeDirtyTile []).map
        (fun p => (p.Coord, p.bRebuildGeometry, p.DirtyAreas))) := by
  unfold MarkDirtyTiles
  dsimp only
  rw [foldl_MarkDirtyArea_eq, List.foldl_append]
  split_ifs
  · exact SortPendingBuildTiles_perm _ _
  · exact List.Perm.refl _

end RecastNavMeshGenerator

namespace RecastNavMeshGenerator

/-- Every element pending after `MarkDirtyTiles` is the merge of the new elements
and the previously pending elements of its coordinate, and coordinates are not
repeated. -/
theorem MarkDirtyTiles_merged (self : FRecastNavMeshGenerator) (CurWorld : Option UWorld)
    (Areas : List FNavigationDirtyArea)
    (hInv : ∀ p ∈ self.PendingDirtyTiles, p.bRebuildGeometry = true → p.DirtyAreas = []) :
    (PendingCoords (MarkDirtyTiles self CurWorld Areas)).Nodup
      ∧ ∀ r ∈ (MarkDirtyTiles self CurWorld Areas).PendingDirtyTiles,
          MergedFrom r (Areas.flatMap (AreaElements self) ++ self.PendingDirtyTiles) := by
  have hclean : ∀ x ∈ Areas.flatMap (AreaElements self) ++ self.PendingDirtyTiles,
      x.bRebuildGeometry = true → x.DirtyAreas = [] := by
    intro x hx
    rcases List.mem_append.1 hx with hx | hx
    · obtain ⟨a, _, hxa⟩ := List.mem_flatMap.1 hx
      exact AreaElements_clean self a x hxa
    · exact hInv x hx
  obtain ⟨h1, h2, _⟩ := foldl_MergeDirtyTile_invariant
    (Areas.flatMap (AreaElements self) ++ self.PendingDirtyTiles) [] []
    (by simp) (by simp) (by simp) hclean
  simp only [List.nil_append] at h2
  have hperm := MarkDirtyTiles_perm self CurWorld Areas
  refine ⟨?_, ?_⟩
  · have hp := hperm.map (fun k : FIntPoint × Bool × List FBox => k.1)
    simp only [List.map_map] at hp
    exact (List.Perm.nodup_iff hp).2 h1
  · intro r hr
    have hk : (r.Coord, r.bRebuildGeometry, r.DirtyAreas)
        ∈ ((Areas.flatMap (AreaElements self) ++ self.PendingDirtyTiles).foldl
            MergeDirtyTile []).map (fun p => (p.Coord, p.bRebuildGeometry, p.DirtyAreas)) :=
      hperm.subset (List.mem_map_of_mem _ hr)
    obtain ⟨d, hd, hdk⟩ := List.mem_map.1 hk
    simp only [Prod.mk.injEq] at hdk
    obtain ⟨hc, hf, ha⟩ := hdk
    have hm := h2 d hd
    unfold MergedFrom at hm ⊢
    rw [hc, hf, ha] at hm
    exact hm

/-- Claim C10 (dirty-mark coalescing): after MarkDirtyTiles on a manager whose
pending elements with a true rebuild-geometry flag carry no dirty boxes,
PendingDirtyTiles holds at most one element per grid coordinate; the flag of that
element is true exactly when a new dirty area touching the coordinate asks for a
geometry rebuild or the element already pending for it had the flag; its dirty-box
list is empty when the flag is true, and otherwise contains the dirty box of every
new area touching the coordinate and every dirty box of the element already
pending. -/
theorem MarkDirtyTiles_coalesces (self : FRecastNavMeshGenerator) (CurWorld : Option UWorld)
    (DirtyAreas : List FNavigationDirtyArea)
    (hInv : ∀ p ∈ self.PendingDirtyTiles, p.bRebuildGeometry = true → p.DirtyAreas = []) :
    ((MarkDirtyTiles self CurWorld DirtyAreas).PendingDirtyTiles.map (fun p => p.Coord)).Nodup
      ∧ ∀ r ∈ (MarkDirtyTiles self CurWorld DirtyAreas).PendingDirtyTiles,
          (r.bRebuildGeometry = true ↔
              (∃ a ∈ DirtyAreas, r.Coord ∈ AreaCoords self a ∧ AreaRebuildsGeometry a = true)
                ∨ (∃ p ∈ self.PendingDirtyTiles, p.Coord = r.Coord ∧ p.bRebuildGeometry = true))
            ∧ (r.bRebuildGeometry = true → r.DirtyAreas = [])
            ∧ (r.bRebuildGeometry = false →
                (∀ a ∈ DirtyAreas, r.Coord ∈ AreaCoords self a →
                    AreaDirtyBox self a ∈ r.DirtyAreas)
                  ∧ (∀ p ∈ self.PendingDirtyTiles, p.Coord = r.Coord →
                      ∀ b ∈ p.DirtyAreas, b ∈ r.DirtyAreas)) := by
  obtain ⟨hnd, hall⟩ := MarkDirtyTiles_merged self CurWorld DirtyAreas hInv
  refine ⟨hnd, ?_⟩
  intro r hr
  obtain ⟨h1, h2, h3⟩ := hall r hr
  refine ⟨?_, h2, ?_⟩
  · rw [h1]
    constructor
    · rintro ⟨x, hx, hc, hf⟩
      rcases List.mem_append.1 hx with hx | hx
      · obtain ⟨a, ha, hxa⟩ := List.mem_flatMap.1 hx
        refine Or.inl ⟨a, ha, ?_, ?_⟩
        · rw [← hc]; exact List.mem_map_of_mem _ hxa
        · rw [← (AreaElements_mem self a x hxa).1]; exact hf
      · exact Or.inr ⟨x, hx, hc, hf⟩
    · rintro (⟨a, ha, hc, hf⟩ | ⟨p, hp, hc, hf⟩)
      · obtain ⟨x, hxa, hxc⟩ := List.mem_map.1 hc
        refine ⟨x, List.mem_append_left _ (List.mem_flatMap.2 ⟨a, ha, hxa⟩), hxc, ?_⟩
        rw [(AreaElements_mem self a x hxa).1]; exact hf
      · exact ⟨p, List.mem_append_right _ hp, hc, hf⟩
  · intro hf
    refine ⟨?_, ?_⟩
    · intro a ha hc
      obtain ⟨x, hxa, hxc⟩ := List.mem_map.1 hc
      have hxL : x ∈ DirtyAreas.flatMap (AreaElements self) ++ self.PendingDirtyTiles :=
        List.mem_append_left _ (List.mem_flatMap.2 ⟨a, ha, hxa⟩)
      obtain ⟨hxf, hxd⟩ := AreaElements_mem self a x hxa
      have hxfalse : x.bRebuildGeometry = false := by
        cases hb : x.bRebuildGeometry with
        | false => rfl
        | true =>
          have : r.bRebuildGeometry = true := h1.2 ⟨x, hxL, hxc, hb⟩
          rw [hf] at this
          exact absurd this (by simp)
      apply h3 hf x hxL hxc
      rw [hxd, ← hxf, hxfalse]
      simp
    · intro p hp hc b hb
      exact h3 hf p (List.mem_append_right _ hp) hc b hb

end RecastNavMeshGenerator

namespace RecastNavMeshGenerator

theorem mem_loopRange (lo hi z : Int) : z ∈ loopRange lo hi ↔ lo ≤ z ∧ z ≤ hi := by
  unfold loopRange
  simp only [List.mem_map, List.mem_range]
  constructor
  · rintro ⟨i, hi', rfl⟩
    have h1 : (i : Int) < hi + 1 - lo := Int.lt_toNat.1 hi'
    constructor <;> omega
  · rintro ⟨h1, h2⟩
    refine ⟨(z - lo).toNat, ?_, ?_⟩
    · apply Int.lt_toNat.2
      rw [Int.toNat_of_nonneg (by omega)]
      omega
    · rw [Int.toNat_of_nonneg (by omega)]
      omega

theorem AreaCoords_none (self : FRecastNavMeshGenerator) (a : FNavigationDirtyArea)
    (hA : AdjustDirtyArea self a = none) : AreaCoords self a = [] := by
  unfold AreaCoords AreaElements
  rw [hA]
  rfl

theorem AreaCoords_mem (self : FRecastNavMeshGenerator) (a : FNavigationDirtyArea)
    (c : FIntPoint) (A : FBox) (t : Bool) (hA : AdjustDirtyArea self a = some (A, t)) :
    c ∈ AreaCoords self a ↔
      (TileRange self.Config A).XMin ≤ c.X ∧ c.X ≤ (TileRange self.Config A).XMax
        ∧ (TileRange self.Config A).YMin ≤ c.Y ∧ c.Y ≤ (TileRange self.Config A).YMax
        ∧ TileIsSkipped self a t c.X c.Y = false := by
  unfold AreaCoords AreaElements
  rw [hA]
  simp only [List.mem_map, List.mem_flatMap, List.mem_filter, mem_loopRange,
    Bool.not_eq_true']
  constructor
  · rintro ⟨e, ⟨y, hy, x, ⟨hx, hs⟩, rfl⟩, rfl⟩
    exact ⟨hx.1, hx.2, hy.1, hy.2, hs⟩
  · rintro ⟨hx1, hx2, hy1, hy2, hs⟩
    exact ⟨NewPendingElement a A c.X c.Y, ⟨c.Y, ⟨hy1, hy2⟩, c.X, ⟨⟨hx1, hx2⟩, hs⟩, rfl⟩, rfl⟩

theorem foldl_MergeDirtyTile_coords_subset :
    ∀ (X D : List FPendingTileElement) (c : FIntPoint),
      c ∈ (X.foldl MergeDirtyTile D).map (fun p => p.Coord) →
      c ∈ D.map (fun p => p.Coord) ∨ c ∈ X.map (fun p => p.Coord) := by
  intro X
  induction X with
  | nil => intro D c h; exact Or.inl h
  | cons x rest ih =>
    intro D c h
    simp only [List.foldl_cons] at h
    rcases ih _ c h with h | h
    · rw [MergeDirtyTile_coords] at h
      split_ifs at h
      · exact Or.inl h
      · rcases List.mem_append.1 h with h | h
        · exact Or.inl h
        · simp only [List.mem_singleton] at h
          exact Or.inr (by simp [h])
    · exact Or.inr (by simp only [List.map_cons, List.mem_cons]; exact Or.inr h)

end RecastNavMeshGenerator

namespace RecastNavMeshGenerator

theorem foldl_MergeDirtyTile_coords_superset :
    ∀ (X D : List FPendingTileElement) (c : FIntPoint),
      c ∈ D.map (fun p => p.Coord) ∨ c ∈ X.map (fun p => p.Coord) →
      c ∈ (X.foldl MergeDirtyTile D).map (fun p => p.Coord) := by
  intro X
  induction X with
  | nil =>
    intro D c h
    rcases h with h | h
    · exact h
    · simp at h
  | cons x rest ih =>
    intro D c h
    simp only [List.foldl_cons]
    apply ih
    simp only [List.map_cons, List.mem_cons] at h
    rw [MergeDirtyTile_coords]
    rcases h with h | h | h
    · left
      split_ifs
      · exact h
      · exact List.mem_append_left _ h
    · left
      subst h
      split_ifs with hx
      · exact hx
      · simp
    · exact Or.inr h

/-- The coordinates pending after `MarkDirtyTiles`: those the new areas touch and
those pending before. -/
theorem MarkDirtyTiles_coords (self : FRecastNavMeshGenerator) (CurWorld : Option UWorld)
    (Areas : List FNavigationDirtyArea) (c : FIntPoint) :
    c ∈ PendingCoords (MarkDirtyTiles self CurWorld Areas) ↔
      (∃ a ∈ Areas, c ∈ AreaCoords self a) ∨ c ∈ PendingCoords self := by
  have hp := (MarkDirtyTiles_perm self CurWorld Areas).map
    (fun k : FIntPoint × Bool × List FBox => k.1)
  simp only [List.map_map] at hp
  have hmem : c ∈ PendingCoords (MarkDirtyTiles self CurWorld Areas) ↔
      c ∈ ((Areas.flatMap (AreaElements self) ++ self.PendingDirtyTiles).foldl
        MergeDirtyTile []).map (fun p => p.Coord) := hp.mem_iff
  rw [hmem]
  have hsplit : c ∈ (Areas.flatMap (AreaElements self) ++ self.PendingDirtyTiles).map
      (fun p => p.Coord) ↔ (∃ a ∈ Areas, c ∈ AreaCoords self a) ∨ c ∈ PendingCoords self := by
    simp only [List.map_append, List.mem_append, PendingCoords, AreaCoords, List.mem_map,
      List.mem_flatMap]
    constructor
    · rintro (⟨e, ⟨a, ha, he⟩, rfl⟩ | h)
      · exact Or.inl ⟨a, ha, e, he, rfl⟩
      · exact Or.inr h
    · rintro (⟨a, ha, e, he, rfl⟩ | h)
      · exact Or.inl ⟨e, ⟨a, ha, he⟩, rfl⟩
      · exact Or.inr h
  rw [← hsplit]
  constructor
  · intro h
    rcases foldl_MergeDirtyTile_coords_subset _ [] c h with h | h
    · simp at h
    · exact h
  · intro h
    exact foldl_MergeDirtyTile_coords_superset _ [] c (Or.inr h)

theorem floor_div_tile (T v : ℚ) (x : Int) (hT : 0 < T) (h1 : (x : ℚ) * T ≤ v)
    (h2 : v < ((x : ℚ) + 1) * T) : ⌊v / T⌋ = x := by
  rw [Int.floor_eq_iff]
  exact ⟨(le_div_iff₀ hT).2 h1, (div_lt_iff₀ hT).2 h2⟩

theorem Unreal2RecastBox_ordered (B : FBox) :
    (Unreal2RecastBox B).Min.X ≤ (Unreal2RecastBox B).Max.X
      ∧ (Unreal2RecastBox B).Min.Z ≤ (Unreal2RecastBox B).Max.Z := by
  simp only [Unreal2RecastBox, FBox.ofPoints2, Unreal2RecastPoint]
  exact ⟨min_le_max, min_le_max⟩

/-- The position in tiles grows with the coordinate. -/
theorem TilePosition_mono (Config : FRecastBuildConfig) (Origin a b : ℚ)
    (hT : 0 < TileSizeInWorldUnits Config) (h : a ≤ b) :
    TilePosition Config a Origin ≤ TilePosition Config b Origin := by
  unfold TilePosition
  apply FloatRound_mono
  apply div_le_div_of_nonneg_right _ (le_of_lt hT)
  apply FloatRound_mono
  linarith

/-- The tile range of adjusted bounds whose Recast-space corners have their positions
in given tiles. -/
theorem TileRange_eq (Config : FRecastBuildConfig) (A : FBox) (x0 x1 y0 y1 : Int)
    (hx0 : (x0 : ℚ) ≤ TilePosition Config (Unreal2RecastBox A).Min.X 0)
    (hx0' : TilePosition Config (Unreal2RecastBox A).Min.X 0 < (x0 : ℚ) + 1)
    (hx1 : (x1 : ℚ) ≤ TilePosition Config (Unreal2RecastBox A).Max.X 0)
    (hx1' : TilePosition Config (Unreal2RecastBox A).Max.X 0 < (x1 : ℚ) + 1)
    (hy0 : (y0 : ℚ) ≤ TilePosition Config (Unreal2RecastBox A).Min.Z 0)
    (hy0' : TilePosition Config (Unreal2RecastBox A).Min.Z 0 < (y0 : ℚ) + 1)
    (hy1 : (y1 : ℚ) ≤ TilePosition Config (Unreal2RecastBox A).Max.Z 0)
    (hy1' : TilePosition Config (Unreal2RecastBox A).Max.Z 0 < (y1 : ℚ) + 1) :
    TileRange Config A = ⟨x0, x1, y0, y1⟩ := by
  unfold TileRange
  simp only [FVector.ZeroVector]
  rw [Int.floor_eq_iff.2 ⟨hx0, hx0'⟩, Int.floor_eq_iff.2 ⟨hx1, hx1'⟩,
    Int.floor_eq_iff.2 ⟨hy0, hy0'⟩, Int.floor_eq_iff.2 ⟨hy1, hy1'⟩]

end RecastNavMeshGenerator

namespace RecastNavMeshGenerator

theorem AreaDirtyBox_of_some (self : FRecastNavMeshGenerator) (a : FNavigationDirtyArea)
    (A : FBox) (t : Bool) (hA : AdjustDirtyArea self a = some (A, t)) :
    AreaDirtyBox self a = A := by
  unfold AreaDirtyBox
  rw [hA]

theorem TileIsSkipped_of_intersects (self : FRecastNavMeshGenerator) (a : FNavigationDirtyArea)
    (t : Bool) (x y : Int)
    (h : IntercestBounds
      (CalculateTileBounds x y FVector.ZeroVector self.TotalNavBounds
        (TileSizeInWorldUnits self.Config)) self.InclusionBounds = true) :
    TileIsSkipped self a t x y = false := by
  unfold TileIsSkipped
  rw [h]
  simp

/-- Claim C5 (locality), amended: for every grid tile (x, y) and every dirty area
whose adjusted bounds (its box for an area with the NavigationBounds flag,
otherwise its intersection with the total bounds grown by GrowBoundingBox) lie
within the tile as MarkDirtyTiles places them, that is, in Recast space the
position in tiles of the lower corner (its coordinate divided by
TileSizeInWorldUnits, in single precision) is at least x and y and that of the
upper corner is below x + 1 and y + 1, MarkDirtyTiles called on an empty pending
queue with that single area leaves no coordinate other than (x, y) in
PendingDirtyTiles. -/
theorem MarkDirtyTiles_locality (self : FRecastNavMeshGenerator) (CurWorld : Option UWorld)
    (DirtyArea : FNavigationDirtyArea) (x y : Int)
    (hT : 0 < TileSizeInWorldUnits self.Config) (hP : self.PendingDirtyTiles = [])
    (hX : (x : ℚ)
          ≤ TilePosition self.Config (Unreal2RecastBox (AreaDirtyBox self DirtyArea)).Min.X 0
        ∧ TilePosition self.Config (Unreal2RecastBox (AreaDirtyBox self DirtyArea)).Max.X 0
          < (x : ℚ) + 1)
    (hY : (y : ℚ)
          ≤ TilePosition self.Config (Unreal2RecastBox (AreaDirtyBox self DirtyArea)).Min.Z 0
        ∧ TilePosition self.Config (Unreal2RecastBox (AreaDirtyBox self DirtyArea)).Max.Z 0
          < (y : ℚ) + 1) :
    ∀ r ∈ (MarkDirtyTiles self CurWorld [DirtyArea]).PendingDirtyTiles,
      r.Coord = (⟨x, y⟩ : FIntPoint) := by
  intro r hr
  have hc : r.Coord ∈ PendingCoords (MarkDirtyTiles self CurWorld [DirtyArea]) :=
    List.mem_map_of_mem _ hr
  rw [MarkDirtyTiles_coords] at hc
  rcases hc with ⟨a, ha, hc⟩ | hc
  · simp only [List.mem_singleton] at ha
    subst ha
    cases hA : AdjustDirtyArea self a with
    | none => rw [AreaCoords_none self a hA] at hc; simp at hc
    | some At =>
      obtain ⟨A, t⟩ := At
      rw [AreaDirtyBox_of_some self a A t hA] at hX hY
      obtain ⟨ox, oz⟩ := Unreal2RecastBox_ordered A
      have px := TilePosition_mono self.Config 0 _ _ hT ox
      have pz := TilePosition_mono self.Config 0 _ _ hT oz
      have hR := TileRange_eq self.Config A x x y y hX.1 (lt_of_le_of_lt px hX.2)
        (le_trans hX.1 px) hX.2 hY.1 (lt_of_le_of_lt pz hY.2) (le_trans hY.1 pz) hY.2
      rw [AreaCoords_mem self a r.Coord A t hA, hR] at hc
      obtain ⟨h1, h2, h3, h4, _⟩ := hc
      have hxe : r.Coord.X = x := le_antisymm h2 h1
      have hye : r.Coord.Y = y := le_antisymm h4 h3
      cases hrc : r.Coord with
      | mk cx cy =>
        rw [hrc] at hxe hye
        simp only at hxe hye
        rw [hxe, hye]
  · simp [PendingCoords, hP] at hc

/-- Claim C6 (inclusive shared edge), amended: for every pair of horizontally or
vertically adjacent grid tiles (x, y) and (x + dx, y + dy), a dirty area that is
not skipped and whose adjusted bounds start in the lower tile and end in the upper
tile as MarkDirtyTiles places them (the position in tiles of the lower corner, its
Recast-space coordinate divided by TileSizeInWorldUnits in single precision, lies
in [x, x + 1) and [y, y + 1), that of the upper corner in [x + dx, x + dx + 1) and
[y + dy, y + dy + 1), so that ending exactly on the shared edge counts as the
upper tile, and the box stays within that one row or column) makes MarkDirtyTiles
(empty pending queue, both tile boxes meeting an inclusion bound) enqueue exactly
those two coordinates. -/
theorem MarkDirtyTiles_shared_edge (self : FRecastNavMeshGenerator) (CurWorld : Option UWorld)
    (DirtyArea : FNavigationDirtyArea) (x y dx dy : Int)
    (hT : 0 < TileSizeInWorldUnits self.Config) (hP : self.PendingDirtyTiles = [])
    (hdir : (dx = 1 ∧ dy = 0) ∨ (dx = 0 ∧ dy = 1))
    (hA : (AdjustDirtyArea self DirtyArea).isSome = true)
    (hX : (x : ℚ)
          ≤ TilePosition self.Config (Unreal2RecastBox (AreaDirtyBox self DirtyArea)).Min.X 0
        ∧ TilePosition self.Config (Unreal2RecastBox (AreaDirtyBox self DirtyArea)).Min.X 0
          < (x : ℚ) + 1
        ∧ ((x + dx : Int) : ℚ)
          ≤ TilePosition self.Config (Unreal2RecastBox (AreaDirtyBox self DirtyArea)).Max.X 0
        ∧ TilePosition self.Config (Unreal2RecastBox (AreaDirtyBox self DirtyArea)).Max.X 0
          < ((x + dx : Int) : ℚ) + 1)
    (hY : (y : ℚ)
          ≤ TilePosition self.Config (Unreal2RecastBox (AreaDirtyBox self DirtyArea)).Min.Z 0
        ∧ TilePosition self.Config (Unreal2RecastBox (AreaDirtyBox self DirtyArea)).Min.Z 0
          < (y : ℚ) + 1
        ∧ ((y + dy : Int) : ℚ)
          ≤ TilePosition self.Config (Unreal2RecastBox (AreaDirtyBox self DirtyArea)).Max.Z 0
        ∧ TilePosition self.Config (Unreal2RecastBox (AreaDirtyBox self DirtyArea)).Max.Z 0
          < ((y + dy : Int) : ℚ) + 1)
    (hIn1 : IntercestBounds
      (CalculateTileBounds x y FVector.ZeroVector self.TotalNavBounds
        (TileSizeInWorldUnits self.Config)) self.InclusionBounds = true)
    (hIn2 : IntercestBounds
      (CalculateTileBounds (x + dx) (y + dy) FVector.ZeroVector self.TotalNavBounds
        (TileSizeInWorldUnits self.Config)) self.InclusionBounds = true) :
    ((MarkDirtyTiles self CurWorld [DirtyArea]).PendingDirtyTiles.map (fun p => p.Coord)).Perm
      [(⟨x, y⟩ : FIntPoint), ⟨x + dx, y + dy⟩] := by
  obtain ⟨hnd, _⟩ := MarkDirtyTiles_merged self CurWorld [DirtyArea] (by simp [hP])
  have hnd2 : ([(⟨x, y⟩ : FIntPoint), ⟨x + dx, y + dy⟩]).Nodup := by
    simp only [List.nodup_cons, List.mem_singleton, List.not_mem_nil, not_false_eq_true,
      List.nodup_nil, and_true, FIntPoint.mk.injEq, not_and]
    intro h1 h2
    rcases hdir with ⟨h, _⟩ | ⟨_, h⟩ <;> omega
  refine (List.perm_ext_iff_of_nodup hnd hnd2).2 ?_
  intro c
  rw [MarkDirtyTiles_coords self CurWorld [DirtyArea] c]
  cases hA' : AdjustDirtyArea self DirtyArea with
  | none => rw [hA'] at hA; simp at hA
  | some At =>
    obtain ⟨A, t⟩ := At
    rw [AreaDirtyBox_of_some self DirtyArea A t hA'] at hX hY
    have hR := TileRange_eq self.Config A x (x + dx) y (y + dy) hX.1 hX.2.1 hX.2.2.1 hX.2.2.2
      hY.1 hY.2.1 hY.2.2.1 hY.2.2.2
    simp only [List.mem_singleton, exists_eq_left, PendingCoords, hP, List.map_nil,
      List.not_mem_nil, or_false, List.mem_cons]
    rw [AreaCoords_mem self DirtyArea c A t hA', hR]
    simp only
    constructor
    · rintro ⟨h1, h2, h3, h4, _⟩
      cases c with
      | mk cx cy =>
        simp only [FIntPoint.mk.injEq] at h1 h2 h3 h4 ⊢
        rcases hdir with ⟨hd1, hd2⟩ | ⟨hd1, hd2⟩ <;> omega
    · rintro (rfl | rfl)
      · refine ⟨le_refl _, ?_, le_refl _, ?_, TileIsSkipped_of_intersects self DirtyArea t x y hIn1⟩
        · rcases hdir with ⟨hd1, hd2⟩ | ⟨hd1, hd2⟩ <;> dsimp only <;> omega
        · rcases hdir with ⟨hd1, hd2⟩ | ⟨hd1, hd2⟩ <;> dsimp only <;> omega
      · refine ⟨?_, le_refl _, ?_, le_refl _,
          TileIsSkipped_of_intersects self DirtyArea t (x + dx) (y + dy) hIn2⟩
        · rcases hdir with ⟨hd1, hd2⟩ | ⟨hd1, hd2⟩ <;> dsimp only <;> omega
        · rcases hdir with ⟨hd1, hd2⟩ | ⟨hd1, hd2⟩ <;> dsimp only <;> omega

end RecastNavMeshGenerator

namespace RecastNavMeshGenerator

/-! ## The live mesh under removal and insertion -/

theorem removeTile_tiles (m : dtNavMesh) (ref : Nat) :
    (m.removeTile ref).tiles = m.tiles.filter (fun t => decide (t.index ≠ ref)) := by
  unfold dtNavMesh.removeTile
  split_ifs with h
  · rfl
  · symm
    rw [List.filter_eq_self]
    intro t ht
    simp only [List.any_eq_true, decide_eq_true_eq, not_exists, not_and] at h
    simpa using h t ht

theorem removeTile_free (m : dtNavMesh) (ref : Nat) :
    m.nextFree.length ≤ (m.removeTile ref).nextFree.length := by
  unfold dtNavMesh.removeTile
  split_ifs <;> simp

/-- The removal loop of `RemoveTileLayers` over a list of tiles. -/
theorem removeLoop_spec :
    ∀ (Ts : List dtMeshTile) (st : List Nat × Int × dtNavMesh),
      (Ts.foldl (fun st Tile =>
          (AddUnique st.1 Tile.index, st.2.1 - 1, st.2.2.removeTile Tile.index)) st).2.2.tiles
        = st.2.2.tiles.filter (fun t => decide (t.index ∉ Ts.map (fun t => t.index)))
      ∧ st.2.2.nextFree.length
        ≤ (Ts.foldl (fun st Tile =>
          (AddUnique st.1 Tile.index, st.2.1 - 1, st.2.2.removeTile Tile.index)) st).2.2.nextFree.length := by
  intro Ts
  induction Ts with
  | nil => intro st; simp
  | cons T rest ih =>
    intro st
    simp only [List.foldl_cons]
    obtain ⟨h1, h2⟩ := ih (AddUnique st.1 T.index, st.2.1 - 1, st.2.2.removeTile T.index)
    refine ⟨?_, le_trans (removeTile_free _ _) h2⟩
    rw [h1]
    simp only [removeTile_tiles, List.filter_filter, List.map_cons, List.mem_cons, not_or]
    apply List.filter_congr
    intro t _
    simp only [Bool.decide_and, Bool.and_comm]

/-- After `RemoveTileLayers` the live mesh holds no layer at the coordinate, and no
free slot has been lost. -/
theorem RemoveTileLayers_mesh (self : FRecastNavMeshGenerator) (m : dtNavMesh) (x y : Int)
    (hm : self.DetourMesh = some m) :
    ∃ m1, (RemoveTileLayers self x y).2.DetourMesh = some m1
      ∧ m1.getTilesAt x y = [] ∧ m.nextFree.length ≤ m1.nextFree.length := by
  unfold RemoveTileLayers
  rw [hm]
  dsimp only
  split_ifs with hN
  · obtain ⟨h1, h2⟩ := removeLoop_spec (m.getTilesAt x y) ([], self.NumActiveTiles, m)
    refine ⟨_, rfl, ?_, h2⟩
    simp only [dtNavMesh.getTilesAt] at h1 ⊢
    rw [h1, List.filter_filter, List.filter_eq_nil_iff]
    intro t ht
    simp only [Bool.and_eq_true, decide_eq_true_eq, List.mem_map, List.mem_filter, not_exists,
      not_and, not_forall, Classical.not_imp, not_not]
    rintro ⟨hx, hy⟩
    exact ⟨t, ⟨ht, hx, hy⟩, rfl⟩
  · refine ⟨m, hm, ?_, le_refl _⟩
    have : (m.getTilesAt x y).length = 0 := by
      simp only [dtNavMesh.getTileCountAt] at hN
      omega
    exact List.length_eq_zero.1 this

end RecastNavMeshGenerator

namespace RecastNavMeshGenerator

/-- The blobs of the valid entries of a list of tile data, in order. -/
theorem valid_blobs_append (P : List FNavMeshTileData) (d : FNavMeshTileData) :
    ((P ++ [d]).filter (fun d => d.IsValid)).filterMap (fun d => d.Data)
      = (P.filter (fun d => d.IsValid)).filterMap (fun d => d.Data)
        ++ (if d.IsValid then d.Data.toList else []) := by
  rw [List.filter_append, List.filterMap_append]
  congr 1
  by_cases hv : d.IsValid = true
  · simp only [List.filter_cons, hv, if_true, List.filter_nil, List.filterMap_cons, List.filterMap_nil]
    cases d.Data <;> rfl
  · simp [List.filter_cons, hv]

theorem AddTileLayer_skip_invalid (g : FRecastTileGenerator) (X Y : Int)
    (st : List Nat × Int × dtNavMesh) (d : FNavMeshTileData)
    (href : st.2.2.getTileRefAt X Y d.LayerIndex = none) (hv : d.IsValid = false) :
    AddTileLayer g X Y st d = st := by
  unfold AddTileLayer
  dsimp only
  rw [href, hv]
  simp

theorem AddTileLayer_insert (g : FRecastTileGenerator) (X Y : Int)
    (st : List Nat × Int × dtNavMesh) (d : FNavMeshTileData) (b : FTileBlob) (slot : Nat)
    (free : List Nat)
    (hch : g.IsLayerChanged d.LayerIndex = true)
    (href : st.2.2.getTileRefAt X Y d.LayerIndex = none) (hv : d.IsValid = true)
    (hb : d.Data = some b) (hloc : b.tx = X ∧ b.ty = Y ∧ b.tlayer = d.LayerIndex)
    (hfree : st.2.2.nextFree = slot :: free) :
    (AddTileLayer g X Y st d).2.2 = ⟨⟨slot, b⟩ :: st.2.2.tiles, free⟩ := by
  unfold AddTileLayer
  dsimp only
  rw [hch, href, hv, hb]
  simp only [Bool.not_true, Bool.false_eq_true, if_false, if_true]
  have hadd : st.2.2.addTile b = (⟨⟨slot, b⟩ :: st.2.2.tiles, free⟩, some slot) := by
    unfold dtNavMesh.addTile
    rw [hloc.1, hloc.2.1, hloc.2.2, href, hfree]
    rfl
  rw [hadd]

theorem layerLoop_spec (g : FRecastTileGenerator) (X Y : Int) :
    ∀ (rest P : List FNavMeshTileData) (st : List Nat × Int × dtNavMesh),
      ((P ++ rest).map (fun d => d.LayerIndex)).Nodup →
      (∀ d ∈ P ++ rest, ∀ b, d.Data = some b → b.tx = X ∧ b.ty = Y ∧ b.tlayer = d.LayerIndex) →
      (∀ d ∈ rest, g.IsLayerChanged d.LayerIndex = true) →
      (st.2.2.getTilesAt X Y).map (fun t => t.data)
        = ((P.filter (fun d => d.IsValid)).filterMap (fun d => d.Data)).reverse →
      (rest.filter (fun d => d.IsValid)).length ≤ st.2.2.nextFree.length →
      ((rest.foldl (AddTileLayer g X Y) st).2.2.getTilesAt X Y).map (fun t => t.data)
        = (((P ++ rest).filter (fun d => d.IsValid)).filterMap (fun d => d.Data)).reverse := by
  intro rest
  induction rest with
  | nil => intro P st _ _ _ hinv _; simpa using hinv
  | cons d rest ih =>
    intro P st hnd hblob hch hinv hfree
    simp only [List.foldl_cons]
    have hnd' : ((P ++ [d] ++ rest).map (fun d => d.LayerIndex)).Nodup := by
      simpa [List.append_assoc] using hnd
    have hblob' : ∀ d' ∈ P ++ [d] ++ rest, ∀ b, d'.Data = some b →
        b.tx = X ∧ b.ty = Y ∧ b.tlayer = d'.LayerIndex := by
      intro d' hd'
      exact hblob d' (by simpa [List.append_assoc] using hd')
    -- no layer of the coordinate carries the index of `d`
    have href : st.2.2.getTileRefAt X Y d.LayerIndex = none := by
      unfold dtNavMesh.getTileRefAt
      rw [Option.map_eq_none', List.find?_eq_none]
      intro t ht
      have hdata : t.data ∈ (st.2.2.getTilesAt X Y).map (fun t => t.data) :=
        List.mem_map_of_mem _ ht
      rw [hinv, List.mem_reverse, List.mem_filterMap] at hdata
      obtain ⟨p, hp, hpd⟩ := hdata
      have hpP : p ∈ P := (List.mem_filter.1 hp).1
      have hl := (hblob p (List.mem_append_left _ hpP) t.data hpd).2.2
      simp only [decide_eq_true_eq]
      rw [hl]
      intro heq
      have hdis := (List.nodup_append.1 (by simpa [List.map_append] using hnd)).2.2
      exact hdis (List.mem_map_of_mem (fun d => d.LayerIndex) hpP)
        (by simp [heq]) 
    have hd_ch := hch d (List.mem_cons_self _ _)
    have hrest_ch : ∀ d' ∈ rest, g.IsLayerChanged d'.LayerIndex = true :=
      fun d' hd' => hch d' (List.mem_cons_of_mem _ hd')
    refine (ih (P ++ [d]) (AddTileLayer g X Y st d) hnd' hblob' hrest_ch ?_ ?_).trans
      (by rw [List.append_assoc]; rfl)
    · rw [valid_blobs_append]
      cases hv : d.IsValid with
      | false =>
        rw [AddTileLayer_skip_invalid g X Y st d href hv]
        simpa using hinv
      | true =>
        obtain ⟨b, hb⟩ : ∃ b, d.Data = some b := by
          simp only [FNavMeshTileData.IsValid, Bool.and_eq_true] at hv
          exact Option.isSome_iff_exists.1 hv.1
        have hloc := hblob d (by simp) b hb
        obtain ⟨slot, free, hfr⟩ : ∃ slot free, st.2.2.nextFree = slot :: free := by
          cases hnf : st.2.2.nextFree with
          | nil => simp [List.filter_cons, hv, hnf] at hfree
          | cons slot free => exact ⟨slot, free, rfl⟩
        rw [AddTileLayer_insert g X Y st d b slot free hd_ch href hv hb hloc hfr]
        simp only [dtNavMesh.getTilesAt, List.filter_cons, hloc.1, hloc.2.1, decide_True,
          Bool.and_self, if_true, List.map_cons, hb, Option.toList_some, List.reverse_append,
          List.reverse_cons, List.reverse_nil, List.nil_append, List.singleton_append,
          List.cons.injEq, true_and]
        exact hinv
    · cases hv : d.IsValid with
      | false =>
        rw [AddTileLayer_skip_invalid g X Y st d href hv]
        simpa [List.filter_cons, hv] using hfree
      | true =>
        obtain ⟨b, hb⟩ : ∃ b, d.Data = some b := by
          simp only [FNavMeshTileData.IsValid, Bool.and_eq_true] at hv
          exact Option.isSome_iff_exists.1 hv.1
        have hloc := hblob d (by simp) b hb
        obtain ⟨slot, free, hfr⟩ : ∃ slot free, st.2.2.nextFree = slot :: free := by
          cases hnf : st.2.2.nextFree with
          | nil => simp [List.filter_cons, hv, hnf] at hfree
          | cons slot free => exact ⟨slot, free, rfl⟩
        rw [AddTileLayer_insert g X Y st d b slot free hd_ch href hv hb hloc hfr]
        simp only [List.filter_cons, hv, if_true, List.length_cons, hfr] at hfree ⊢
        omega

end RecastNavMeshGenerator

namespace RecastNavMeshGenerator

theorem valid_blobs_length (L : List FNavMeshTileData) :
    ((L.filter (fun d => d.IsValid)).filterMap (fun d => d.Data)).length
      = (L.filter (fun d => d.IsValid)).length := by
  induction L with
  | nil => rfl
  | cons d rest ih =>
    cases hv : d.IsValid with
    | false => simpa [List.filter_cons, hv] using ih
    | true =>
      obtain ⟨b, hb⟩ : ∃ b, d.Data = some b := by
        simp only [FNavMeshTileData.IsValid, Bool.and_eq_true] at hv
        exact Option.isSome_iff_exists.1 hv.1
      simp only [List.filter_cons, hv, if_true, List.filterMap_cons, hb, List.length_cons, ih]

/-- The merge of a fully regenerated tile generator with well-formed navigation data
(layer indices not repeated, every entry flagged as changed, blobs placed at the
tile and layer) into a mesh with enough free slots. -/
theorem AddGeneratedTiles_replaces_layers (self : FRecastNavMeshGenerator)
    (TileGenerator : FRecastTileGenerator) (m : dtNavMesh)
    (hMesh : self.DetourMesh = some m)
    (hFull : TileGenerator.IsFullyRegenerated = true)
    (hChanged : ∀ d ∈ TileGenerator.NavigationData,
      TileGenerator.IsLayerChanged d.LayerIndex = true)
    (hIndex : (TileGenerator.NavigationData.map (fun d => d.LayerIndex)).Nodup)
    (hBlob : ∀ d ∈ TileGenerator.NavigationData, ∀ b ∈ d.Data,
      b.tx = TileGenerator.TileX ∧ b.ty = TileGenerator.TileY ∧ b.tlayer = d.LayerIndex)
    (hFree : (TileGenerator.NavigationData.filter (fun d => d.IsValid)).length
      ≤ m.nextFree.length) :
    ∃ m', (AddGeneratedTiles self TileGenerator).2.DetourMesh = some m'
      ∧ (m'.getTilesAt TileGenerator.TileX TileGenerator.TileY).map (fun t => t.data)
          = ((TileGenerator.NavigationData.filter (fun d => d.IsValid)).filterMap
              (fun d => d.Data)).reverse
      ∧ m'.getTileCountAt TileGenerator.TileX TileGenerator.TileY
          = ((TileGenerator.NavigationData.filter (fun d => d.IsValid)).length : Int) := by
  obtain ⟨m1, hm1, hempty, hfree1⟩ :=
    RemoveTileLayers_mesh self m TileGenerator.TileX TileGenerator.TileY hMesh
  have hloop := layerLoop_spec TileGenerator TileGenerator.TileX TileGenerator.TileY
    TileGenerator.NavigationData []
    ((RemoveTileLayers self TileGenerator.TileX TileGenerator.TileY).1,
      (RemoveTileLayers self TileGenerator.TileX TileGenerator.TileY).2.NumActiveTiles, m1)
    (by simpa using hIndex)
    (by
      intro d hd b hb
      exact hBlob d (by simpa using hd) b (Option.mem_def.2 hb))
    hChanged (by simp [hempty])
    (le_trans hFree hfree1)
  simp only [List.nil_append] at hloop
  refine ⟨_, ?_, hloop, ?_⟩
  · unfold AddGeneratedTiles
    simp only [hFull, if_true, hm1]
  · unfold dtNavMesh.getTileCountAt
    have := congrArg List.length hloop
    simp only [List.length_map, List.length_reverse, valid_blobs_length] at this
    rw [this]

end RecastNavMeshGenerator

namespace RecastNavMeshGenerator

/-! ## What `GenerateNavigationData` writes -/

theorem GenerateNavigationDataLoop_spec (Lib : FRecastLibrary) (g : FRecastTileGenerator) :
    ∀ (L : List (Nat × FNavMeshTileData)) (acc out : List FNavMeshTileData),
      FRecastTileGenerator.GenerateNavigationDataLoop Lib g L acc = some out →
      ∃ added, out = acc ++ added
        ∧ List.Sublist (added.map (fun d => d.LayerIndex)) (L.map (fun il => (il.1 : Int)))
        ∧ ∀ d ∈ added, (∃ n : Nat, d.LayerIndex = (n : Int) ∧ g.DirtyLayers.getD n false = true)
            ∧ ∀ b ∈ d.Data, b.tx = g.TileX ∧ b.ty = g.TileY ∧ b.tlayer = d.LayerIndex := by
  intro L
  induction L with
  | nil =>
    intro acc out h
    simp only [FRecastTileGenerator.GenerateNavigationDataLoop, Option.some.injEq] at h
    exact ⟨[], by simp [h], by simp, by simp⟩
  | cons il rest ih =>
    intro acc out h
    obtain ⟨iLayer, CompressedData⟩ := il
    rw [FRecastTileGenerator.GenerateNavigationDataLoop] at h
    by_cases hd : g.DirtyLayers.getD iLayer false = false
    · rw [if_pos hd] at h
      obtain ⟨added, h1, h2, h3⟩ := ih acc out h
      exact ⟨added, h1, h2.trans (List.sublist_cons_self _ _), h3⟩
    · rw [if_neg hd] at h
      have hdt : g.DirtyLayers.getD iLayer false = true := by
        cases hc : g.DirtyLayers.getD iLayer false with
        | false => exact absurd hc hd
        | true => rfl
      cases hout : Lib.BuildLayerMesh g iLayer CompressedData with
      | Failed => rw [hout] at h; simp at h
      | PolyMesh npolys nverts Created =>
        rw [hout] at h
        simp only [] at h
        have finish : ∀ (entry : FNavMeshTileData), entry.LayerIndex = (iLayer : Int) →
            (∀ b ∈ entry.Data, b.tx = g.TileX ∧ b.ty = g.TileY ∧ b.tlayer = entry.LayerIndex) →
            FRecastTileGenerator.GenerateNavigationDataLoop Lib g rest (acc ++ [entry]) = some out →
            ∃ added, out = acc ++ added
              ∧ List.Sublist (added.map (fun d => d.LayerIndex))
                  (((iLayer, CompressedData) :: rest).map (fun il => (il.1 : Int)))
              ∧ ∀ d ∈ added,
                  (∃ n : Nat, d.LayerIndex = (n : Int) ∧ g.DirtyLayers.getD n false = true)
                  ∧ ∀ b ∈ d.Data, b.tx = g.TileX ∧ b.ty = g.TileY ∧ b.tlayer = d.LayerIndex := by
          intro entry hidx hblob hrec
          obtain ⟨added, h1, h2, h3⟩ := ih (acc ++ [entry]) out hrec
          refine ⟨entry :: added, by simp [h1], ?_, ?_⟩
          · simp only [List.map_cons, hidx]
            exact h2.cons₂ _
          · intro d hdm
            rcases List.mem_cons.1 hdm with rfl | hdm
            · exact ⟨⟨iLayer, hidx, hdt⟩, hblob⟩
            · exact h3 d hdm
        split_ifs at h with hc hv
        · cases Created with
          | none => simp at h
          | some nd =>
            obtain ⟨NavData, NavDataSize⟩ := nd
            simp only [] at h
            refine finish _ rfl ?_ h
            intro b hb
            simp only [Option.mem_def, Option.some.injEq] at hb
            subst hb
            exact ⟨rfl, rfl, rfl⟩
        · refine finish _ rfl ?_ h
          intro b hb
          simp at hb

theorem enum_fst_nodup {α : Type} (l : List α) :
    (l.enum.map (fun il => (il.1 : Int))).Nodup := by
  have h : l.enum.map (fun il => (il.1 : Int))
      = (l.enum.map Prod.fst).map (fun n : Nat => (n : Int)) := by
    rw [List.map_map]; rfl
  rw [h, List.enum_map_fst]
  exact (List.nodup_range _).map (fun a b hab => by exact_mod_cast hab)

/-- The navigation data a successful `GenerateNavigationData` writes: one entry per
dirty layer, tagged with its position, flagged as changed, its blob (if any)
placed at the tile and layer. -/
theorem GenerateNavigationData_wellformed (Lib : FRecastLibrary) (g : FRecastTileGenerator)
    (h : (g.GenerateNavigationData Lib).1 = true) :
    (∀ d ∈ (g.GenerateNavigationData Lib).2.NavigationData,
        (g.GenerateNavigationData Lib).2.IsLayerChanged d.LayerIndex = true)
      ∧ ((g.GenerateNavigationData Lib).2.NavigationData.map (fun d => d.LayerIndex)).Nodup
      ∧ (∀ d ∈ (g.GenerateNavigationData Lib).2.NavigationData, ∀ b ∈ d.Data,
          b.tx = (g.GenerateNavigationData Lib).2.TileX
            ∧ b.ty = (g.GenerateNavigationData Lib).2.TileY ∧ b.tlayer = d.LayerIndex) := by
  unfold FRecastTileGenerator.GenerateNavigationData at h ⊢
  cases hloop : FRecastTileGenerator.GenerateNavigationDataLoop Lib g g.CompressedLayers.enum [] with
  | none => rw [hloop] at h; simp at h
  | some out =>
    obtain ⟨added, h1, h2, h3⟩ := GenerateNavigationDataLoop_spec Lib g _ [] out hloop
    simp only [List.nil_append] at h1
    subst h1
    simp only []
    refine ⟨?_, ?_, ?_⟩
    · intro d hd
      obtain ⟨⟨n, hn, hdl⟩, _⟩ := h3 d hd
      unfold FRecastTileGenerator.IsLayerChanged
      rw [hn]
      simp only [Int.toNat_ofNat]
      rw [if_neg (by omega)]
      exact hdl
    · exact List.Nodup.sublist h2 (enum_fst_nodup _)
    · intro d hd
      exact (h3 d hd).2

end RecastNavMeshGenerator

namespace RecastNavMeshGenerator

theorem GenerateCompressedLayers_frame (Lib : FRecastLibrary) (g : FRecastTileGenerator) :
    (g.GenerateCompressedLayers Lib).2.bRegenerateCompressedLayers = g.bRegenerateCompressedLayers
      ∧ (g.GenerateCompressedLayers Lib).2.TileX = g.TileX
      ∧ (g.GenerateCompressedLayers Lib).2.TileY = g.TileY := by
  unfold FRecastTileGenerator.GenerateCompressedLayers
  dsimp only
  split_ifs
  · cases Lib.RasterizeLayers g <;> exact ⟨rfl, rfl, rfl⟩
  · exact ⟨rfl, rfl, rfl⟩

theorem GenerateNavigationData_frame (Lib : FRecastLibrary) (g : FRecastTileGenerator) :
    (g.GenerateNavigationData Lib).2.bRegenerateCompressedLayers = g.bRegenerateCompressedLayers
      ∧ (g.GenerateNavigationData Lib).2.TileX = g.TileX
      ∧ (g.GenerateNavigationData Lib).2.TileY = g.TileY := by
  unfold FRecastTileGenerator.GenerateNavigationData
  cases FRecastTileGenerator.GenerateNavigationDataLoop Lib g g.CompressedLayers.enum [] <;>
    exact ⟨rfl, rfl, rfl⟩

/-- The result of a successful `DoWork`: well-formed navigation data, and the
regeneration flag and tile coordinate of the generator as it was set up. -/
theorem DoWork_wellformed (Lib : FRecastLibrary) (g : FRecastTileGenerator)
    (h : (g.DoWork Lib).bSucceeded = true) :
    (∀ d ∈ (g.DoWork Lib).NavigationData, (g.DoWork Lib).IsLayerChanged d.LayerIndex = true)
      ∧ ((g.DoWork Lib).NavigationData.map (fun d => d.LayerIndex)).Nodup
      ∧ (∀ d ∈ (g.DoWork Lib).NavigationData, ∀ b ∈ d.Data,
          b.tx = (g.DoWork Lib).TileX ∧ b.ty = (g.DoWork Lib).TileY ∧ b.tlayer = d.LayerIndex)
      ∧ (g.DoWork Lib).IsFullyRegenerated = g.bRegenerateCompressedLayers
      ∧ (g.DoWork Lib).TileX = g.TileX ∧ (g.DoWork Lib).TileY = g.TileY := by
  have hS : (g.GenerateTile Lib).1 = true := h
  have key : ∀ r : Bool × FRecastTileGenerator,
      r.2.bRegenerateCompressedLayers = g.bRegenerateCompressedLayers → r.2.TileX = g.TileX →
      r.2.TileY = g.TileY →
      (if r.1 = true then r.2.GenerateNavigationData Lib else r).1 = true →
      (∀ d ∈ (if r.1 = true then r.2.GenerateNavigationData Lib else r).2.NavigationData,
          (if r.1 = true then r.2.GenerateNavigationData Lib else r).2.IsLayerChanged
            d.LayerIndex = true)
        ∧ ((if r.1 = true then r.2.GenerateNavigationData Lib else r).2.NavigationData.map
            (fun d => d.LayerIndex)).Nodup
        ∧ (∀ d ∈ (if r.1 = true then r.2.GenerateNavigationData Lib else r).2.NavigationData,
            ∀ b ∈ d.Data,
              b.tx = (if r.1 = true then r.2.GenerateNavigationData Lib else r).2.TileX
                ∧ b.ty = (if r.1 = true then r.2.GenerateNavigationData Lib else r).2.TileY
                ∧ b.tlayer = d.LayerIndex)
        ∧ (if r.1 = true then r.2.GenerateNavigationData Lib else r).2.bRegenerateCompressedLayers
            = g.bRegenerateCompressedLayers
        ∧ (if r.1 = true then r.2.GenerateNavigationData Lib else r).2.TileX = g.TileX
        ∧ (if r.1 = true then r.2.GenerateNavigationData Lib else r).2.TileY = g.TileY := by
    intro r hr hx hy hs
    by_cases hr1 : r.1 = true
    · rw [if_pos hr1] at hs ⊢
      obtain ⟨w1, w2, w3⟩ := GenerateNavigationData_wellformed Lib r.2 hs
      obtain ⟨f1, f2, f3⟩ := GenerateNavigationData_frame Lib r.2
      exact ⟨w1, w2, w3, f1.trans hr, f2.trans hx, f3.trans hy⟩
    · rw [if_neg hr1] at hs
      exact absurd hs hr1
  unfold FRecastTileGenerator.GenerateTile at hS
  dsimp only at hS
  have goal := key _ ?_ ?_ ?_ hS
  · exact goal
  all_goals
    obtain ⟨f1, f2, f3⟩ := GenerateCompressedLayers_frame Lib { g with CompressedLayers := [] }
    split_ifs <;> first | rfl | assumption

end RecastNavMeshGenerator

namespace RecastNavMeshGenerator

/-! ## Tile generation outcomes -/

theorem GenerateTile_failed_partial (Lib : FRecastLibrary) (g : FRecastTileGenerator)
    (hPartial : g.bRegenerateCompressedLayers = false) (hFailed : (g.GenerateTile Lib).1 = false) :
    (g.GenerateTile Lib).2 = g := by
  unfold FRecastTileGenerator.GenerateTile at hFailed ⊢
  simp only [hPartial, Bool.false_eq_true, if_false, if_true] at hFailed ⊢
  unfold FRecastTileGenerator.GenerateNavigationData at hFailed ⊢
  cases hloop : FRecastTileGenerator.GenerateNavigationDataLoop Lib g g.CompressedLayers.enum [] with
  | none => rfl
  | some nd => rw [hloop] at hFailed; simp at hFailed

theorem AddGeneratedTiles_nothing (self : FRecastNavMeshGenerator) (g : FRecastTileGenerator)
    (hPartial : g.IsFullyRegenerated = false) (hEmpty : g.NavigationData = []) :
    (AddGeneratedTiles self g).2 = self := by
  unfold AddGeneratedTiles
  simp only [hPartial, Bool.false_eq_true, if_false, hEmpty, List.foldl_nil]
  cases h : self.DetourMesh with
  | none => rfl
  | some m =>
    simp only []
    cases self
    simp only at h
    subst h
    rfl

/-- Claim C1 (non-destructive failure), amended: if a tile generator that is not
fully regenerated (it reuses cached compressed layers) and holds no navigation data
from before finishes with failure, then collecting its task in ProcessTileTasks
leaves the live mesh as it was, so every coordinate still holds exactly the same
layers. -/
theorem FailedPartialRebuild_keeps_layers (Lib : FRecastLibrary)
    (self : FRecastNavMeshGenerator) (Idx : Nat) (Element : FRunningTileElement)
    (UpdatedTiles : List Nat)
    (hPartial : Element.AsyncTask.IsFullyRegenerated = false)
    (hFresh : Element.AsyncTask.NavigationData = [])
    (hFailed : (Element.AsyncTask.DoWork Lib).bSucceeded = false) :
    (CollectedState Lib self Idx Element UpdatedTiles).1.DetourMesh = self.DetourMesh := by
  have hF : (Element.AsyncTask.GenerateTile Lib).1 = false := hFailed
  have hg := GenerateTile_failed_partial Lib Element.AsyncTask hPartial hF
  have hnothing : (AddGeneratedTiles self (Element.AsyncTask.DoWork Lib)).2 = self := by
    apply AddGeneratedTiles_nothing
    · show (Element.AsyncTask.GenerateTile Lib).2.bRegenerateCompressedLayers = false
      rw [hg]; exact hPartial
    · show (Element.AsyncTask.GenerateTile Lib).2.NavigationData = []
      rw [hg]; exact hFresh
  unfold CollectedState
  dsimp only
  split_ifs <;> simp only [hnothing]

/-- Claim C9 (an empty tile is a success): for every tile generator that must
regenerate its compressed layers and has gathered no raw geometry, GenerateTile
returns true with zero compressed layers and zero navigation-data entries,
whatever the navigation library would do. -/
theorem GenerateTile_empty_tile_succeeds (Lib : FRecastLibrary) (g : FRecastTileGenerator)
    (hRegenerate : g.bRegenerateCompressedLayers = true) (hNoGeometry : g.RawGeometry = []) :
    (g.GenerateTile Lib).1 = true
      ∧ (g.GenerateTile Lib).2.CompressedLayers = []
      ∧ (g.GenerateTile Lib).2.NavigationData = [] := by
  have hA : ∀ g' : FRecastTileGenerator, g'.RawGeometry = [] →
      FRecastTileGenerator.GenerateCompressedLayers Lib g' = (true, g') := by
    intro g' h
    unfold FRecastTileGenerator.GenerateCompressedLayers
    simp [h]
  have hB : ∀ g' : FRecastTileGenerator, g'.CompressedLayers = [] →
      FRecastTileGenerator.GenerateNavigationData Lib g' = (true, { g' with NavigationData := [] }) := by
    intro g' h
    unfold FRecastTileGenerator.GenerateNavigationData
    simp [h, List.enum, FRecastTileGenerator.GenerateNavigationDataLoop]
  unfold FRecastTileGenerator.GenerateTile
  dsimp only
  rw [if_pos hRegenerate, hA { g with CompressedLayers := [] } hNoGeometry]
  dsimp only
  rw [if_pos rfl, if_pos rfl, hB _ rfl]
  exact ⟨rfl, rfl, rfl⟩

theorem FloatRound_le_of_le (a x : ℚ) (hx : IsFloat x) (h : a ≤ x) : FloatRound a ≤ x := by
  have := FloatRound_mono a x h
  rwa [hx] at this

theorem le_FloatRound_of_le (a x : ℚ) (hx : IsFloat x) (h : x ≤ a) : x ≤ FloatRound a := by
  have := FloatRound_mono x a h
  rwa [hx] at this

/-- The offset of `GrowBoundingBox` is not negative when the border size and the cell
size are not. -/
theorem BBoxGrowOffset_nonneg (Config : FRecastBuildConfig) (hBorder : 0 ≤ Config.borderSize)
    (hCell : 0 ≤ Config.cs) : 0 ≤ BBoxGrowOffset Config := by
  have hb : (0 : ℚ) ≤ (Config.borderSize : ℚ) := by exact_mod_cast hBorder
  unfold BBoxGrowOffset
  exact FloatRound_nonneg _
    (mul_nonneg (FloatRound_nonneg _ (mul_nonneg (by norm_num) (FloatRound_nonneg _ hb))) hCell)

/-- Claim C7 (bounds monotonicity): for every box B, its coordinates being
single-precision values as those of every FBox are, and every configuration with
border size, cell size and agent height all non-negative, GrowBoundingBox of B
contains B for both values of the agent-height flag: its minimum is below or equal
to the minimum of B and its maximum above or equal to the maximum of B on every
axis. -/
theorem GrowBoundingBox_contains_box (Config : FRecastBuildConfig) (B : FBox)
    (bIncludeAgentHeight : Bool) (hBorder : 0 ≤ Config.borderSize) (hCell : 0 ≤ Config.cs)
    (hAgent : 0 ≤ Config.AgentHeight) (hFloat : B.IsFloat) :
    (GrowBoundingBox Config B bIncludeAgentHeight).Min.X ≤ B.Min.X
      ∧ (GrowBoundingBox Config B bIncludeAgentHeight).Min.Y ≤ B.Min.Y
      ∧ (GrowBoundingBox Config B bIncludeAgentHeight).Min.Z ≤ B.Min.Z
      ∧ B.Max.X ≤ (GrowBoundingBox Config B bIncludeAgentHeight).Max.X
      ∧ B.Max.Y ≤ (GrowBoundingBox Config B bIncludeAgentHeight).Max.Y
      ∧ B.Max.Z ≤ (GrowBoundingBox Config B bIncludeAgentHeight).Max.Z := by
  have hoff := BBoxGrowOffset_nonneg Config hBorder hCell
  have hz : (0 : ℚ) ≤ (if bIncludeAgentHeight then Config.AgentHeight else 0) := by
    split <;> simp [hAgent]
  obtain ⟨⟨m1, m2, m3⟩, ⟨M1, M2, M3⟩⟩ := hFloat
  simp only [GrowBoundingBox, FBox.mk2, FVector.subF, FVector.addF, FVector.splat]
  have low : ∀ (x z : ℚ), IsFloat x → 0 ≤ z →
      FloatRound (FloatRound (x - BBoxGrowOffset Config) - z) ≤ x := by
    intro x z hx hz0
    have h1 := FloatRound_le_of_le (x - BBoxGrowOffset Config) x hx (by linarith)
    exact FloatRound_le_of_le _ x hx (by linarith)
  have high : ∀ (x : ℚ), IsFloat x → x ≤ FloatRound (x + BBoxGrowOffset Config) := by
    intro x hx
    exact le_FloatRound_of_le _ x hx (by linarith)
  exact ⟨low _ _ m1 (le_refl _), low _ _ m2 (le_refl _), low _ _ m3 hz, high _ M1, high _ M2,
    high _ M3⟩

end RecastNavMeshGenerator

namespace RecastNavMeshGenerator

/-- Claim C2 (layer reconciliation), amended: after AddGeneratedTiles merges a tile
generator that was fully regenerated and succeeded into a live mesh with at least
as many free tile slots as the generator has valid navigation-data entries, the
live mesh holds at that coordinate exactly the valid entries of the generator (one
layer per layer with a non-empty polygon mesh), so none of the layers present
before the merge remains. -/
theorem AddGeneratedTiles_full_regeneration (self : FRecastNavMeshGenerator)
    (Lib : FRecastLibrary) (g : FRecastTileGenerator) (m : dtNavMesh)
    (hMesh : self.DetourMesh = some m)
    (hFull : g.bRegenerateCompressedLayers = true)
    (hSucceeded : (g.DoWork Lib).bSucceeded = true)
    (hFree : ((g.DoWork Lib).NavigationData.filter (fun d => d.IsValid)).length
      ≤ m.nextFree.length) :
    ∃ m', (AddGeneratedTiles self (g.DoWork Lib)).2.DetourMesh = some m'
      ∧ (m'.getTilesAt g.TileX g.TileY).map (fun t => t.data)
          = (((g.DoWork Lib).NavigationData.filter (fun d => d.IsValid)).filterMap
              (fun d => d.Data)).reverse
      ∧ m'.getTileCountAt g.TileX g.TileY
          = (((g.DoWork Lib).NavigationData.filter (fun d => d.IsValid)).length : Int) := by
  obtain ⟨w1, w2, w3, w4, w5, w6⟩ := DoWork_wellformed Lib g hSucceeded
  have h := AddGeneratedTiles_replaces_layers self (g.DoWork Lib) m hMesh (w4.trans hFull)
    w1 w2 w3 hFree
  rw [w5, w6] at h
  exact h

/-- Starting from an empty queue, the pending queue never repeats a coordinate, and
a pending element that asks for a geometry rebuild carries no dirty areas. -/
theorem RunCalls_pending_invariant (Lib : FRecastLibrary) :
    ∀ (Calls : List FManagerCall) (self : FRecastNavMeshGenerator),
      (PendingCoords self).Nodup →
      (∀ p ∈ self.PendingDirtyTiles, p.bRebuildGeometry = true → p.DirtyAreas = []) →
      (PendingCoords (RunCalls Lib self Calls)).Nodup
        ∧ ∀ p ∈ (RunCalls Lib self Calls).PendingDirtyTiles,
            p.bRebuildGeometry = true → p.DirtyAreas = [] := by
  intro Calls
  induction Calls with
  | nil => intro self h1 h2; exact ⟨h1, h2⟩
  | cons c rest ih =>
    intro self h1 h2
    simp only [RunCalls, List.foldl_cons]
    cases c with
    | MarkDirtyTiles CurWorld DirtyAreas =>
      obtain ⟨m1, m2⟩ := MarkDirtyTiles_merged self CurWorld DirtyAreas h2
      exact ih _ m1 (fun p hp => (m2 p hp).2.1)
    | ProcessTileTasks World IsDone N =>
      refine ih _ (ProcessTileTasks_pending_nodup self World Lib IsDone N h1) ?_
      intro p hp
      exact h2 p ((ProcessTileTasks_pending_sublist self World Lib IsDone N).subset hp)

end RecastNavMeshGenerator

namespace RecastNavMeshGenerator

/-! ## The claims at sample inputs -/

/-- Claim C1, counterexample: the live mesh holds one layer at tile (0, 0); the tile
generator of a full-geometry rebuild of that tile fails (rasterisation fails,
bSucceeded is false); after ProcessTileTasks has collected the task the live mesh
holds no layer at tile (0, 0). -/
theorem FailedFullRebuild_removes_layers :
    Sample.ManagerWithLayer.DetourMesh.map (fun m => m.getTileCountAt 0 0) = some 1
      ∧ (ProcessTileTasks Sample.ManagerWithLayer Sample.World Sample.FailingLibrary
            (fun _ => false) 1).2.RunningDirtyTiles.map
          (fun r => (r.Coord, (r.AsyncTask.DoWork Sample.FailingLibrary).bSucceeded))
          = [((⟨0, 0⟩ : FIntPoint), false)]
      ∧ (ProcessTileTasks Sample.ManagerWithLayer Sample.World Sample.FailingLibrary
            (fun _ => true) 1).2.DetourMesh.map (fun m => m.getTileCountAt 0 0) = some 0 := by
  decide!

/-- Claim C1, amended, at a sample input: a failed area-only rebuild of tile (0, 0). -/
theorem FailedPartialRebuild_keeps_layers_witness :
    (CollectedState Sample.FailingLibrary
        (CreateTileGenerator Sample.ManagerTwoLayers Sample.World ⟨0, 0⟩ [Sample.LowDirtyBox]).2
        0 Sample.PartialRebuild []).1.DetourMesh
      = (CreateTileGenerator Sample.ManagerTwoLayers Sample.World ⟨0, 0⟩
          [Sample.LowDirtyBox]).2.DetourMesh :=
  FailedPartialRebuild_keeps_layers Sample.FailingLibrary _ 0 Sample.PartialRebuild []
    (by decide!) (by decide!) (by decide!)

/-- Claim C2, counterexample: the live mesh holds two layers at tile (0, 0); an
area-only rebuild whose dirty box meets the low layer produces one navigation-data
entry; after the merge the live mesh holds two layers, the new low layer and the
high layer that was there before. -/
theorem PartialRebuild_keeps_old_layer :
    ((CreateTileGenerator Sample.ManagerTwoLayers Sample.World ⟨0, 0⟩
          [Sample.LowDirtyBox]).1.DoWork Sample.BuildingLibrary).NavigationData.length = 1
      ∧ (AddGeneratedTiles
          (CreateTileGenerator Sample.ManagerTwoLayers Sample.World ⟨0, 0⟩ [Sample.LowDirtyBox]).2
          ((CreateTileGenerator Sample.ManagerTwoLayers Sample.World ⟨0, 0⟩
            [Sample.LowDirtyBox]).1.DoWork Sample.BuildingLibrary)).2.DetourMesh
        = some ⟨[⟨0, ⟨0, 0, 0, [9]⟩⟩, ⟨1, ⟨0, 0, 1, [8]⟩⟩], [2, 3]⟩ := by
  decide!

/-- Claim C2, amended, at a sample input: a successful full rebuild of tile (0, 0)
with two layers merged into a mesh that held one. -/
theorem AddGeneratedTiles_full_regeneration_witness :
    ∃ m', (AddGeneratedTiles Sample.ManagerWithLayer
          (Sample.FullRebuild.DoWork Sample.BuildingLibrary)).2.DetourMesh = some m'
      ∧ (m'.getTilesAt Sample.FullRebuild.TileX Sample.FullRebuild.TileY).map (fun t => t.data)
          = (((Sample.FullRebuild.DoWork Sample.BuildingLibrary).NavigationData.filter
              (fun d => d.IsValid)).filterMap (fun d => d.Data)).reverse
      ∧ m'.getTileCountAt Sample.FullRebuild.TileX Sample.FullRebuild.TileY
          = (((Sample.FullRebuild.DoWork Sample.BuildingLibrary).NavigationData.filter
              (fun d => d.IsValid)).length : Int) :=
  AddGeneratedTiles_full_regeneration Sample.ManagerWithLayer Sample.BuildingLibrary
    Sample.FullRebuild ⟨[⟨0, ⟨0, 0, 0, [7]⟩⟩], [1, 2, 3]⟩ rfl (by decide!) (by decide!)
    (by decide!)

/-- Claim C3 at a sample input: two dirty marks and two ticks, the second mark on a
tile that is being built. -/
theorem RunningDirtyTiles_one_build_per_coordinate_witness :
    ((RunCalls Sample.FailingLibrary Sample.EmptyManager
        [FManagerCall.MarkDirtyTiles none [Sample.AreaNearCorner],
          FManagerCall.ProcessTileTasks Sample.World (fun _ => false) 2,
          FManagerCall.MarkDirtyTiles none [Sample.AreaInside],
          FManagerCall.ProcessTileTasks Sample.World (fun _ => false) 2]).RunningDirtyTiles.map
        (fun r => r.Coord)).Nodup :=
  RunningDirtyTiles_one_build_per_coordinate Sample.FailingLibrary Sample.EmptyManager rfl _

/-- Claim C5, counterexample: a geometry dirty area whose box lies inside tile
(0, 0), one unit from two of its edges, is grown by the border and marks the four
tiles (0, 0), (1, 0), (0, 1) and (1, 1). -/
theorem MarkDirtyTiles_locality_counterexample :
    DoesBoxContainBox
        (CalculateTileBounds 0 0 FVector.ZeroVector Sample.EmptyManager.TotalNavBounds
          (TileSizeInWorldUnits Sample.EmptyManager.Config))
        Sample.AreaNearCorner.Bounds = true
      ∧ Sample.EmptyManager.PendingDirtyTiles = []
      ∧ (MarkDirtyTiles Sample.EmptyManager none [Sample.AreaNearCorner]).PendingDirtyTiles.map
          (fun p => p.Coord) = [⟨0, 0⟩, ⟨1, 0⟩, ⟨0, 1⟩, ⟨1, 1⟩] := by
  decide!

/-- Claim C5, amended, at a sample input: an area well inside tile (0, 0). -/
theorem MarkDirtyTiles_locality_witness :
    Sample.EmptyManager.PendingDirtyTiles = []
      ∧ ∀ r ∈ (MarkDirtyTiles Sample.EmptyManager none [Sample.AreaInside]).PendingDirtyTiles,
          r.Coord = (⟨0, 0⟩ : FIntPoint) :=
  ⟨rfl, MarkDirtyTiles_locality Sample.EmptyManager none Sample.AreaInside 0 0 (by decide!) rfl
    (by decide!) (by decide!)⟩

/-- Claim C6, counterexample: a geometry dirty area whose box lies in tile (0, 0),
touches the edge shared with tile (1, 0) and ends one unit before the edge shared
with tile (0, -1), both tiles inside the inclusion bounds, is grown by the border
and marks four tiles, not two. -/
theorem MarkDirtyTiles_shared_edge_counterexample :
    DoesBoxContainBox
        (CalculateTileBounds 0 0 FVector.ZeroVector Sample.EmptyManager.TotalNavBounds
          (TileSizeInWorldUnits Sample.EmptyManager.Config))
        Sample.AreaOnEdge.Bounds = true
      ∧ Sample.AreaOnEdge.Bounds.Min.X
          = (CalculateTileBounds 1 0 FVector.ZeroVector Sample.EmptyManager.TotalNavBounds
              (TileSizeInWorldUnits Sample.EmptyManager.Config)).Max.X
      ∧ IntercestBounds
          (CalculateTileBounds 0 0 FVector.ZeroVector Sample.EmptyManager.TotalNavBounds
            (TileSizeInWorldUnits Sample.EmptyManager.Config))
          Sample.EmptyManager.InclusionBounds = true
      ∧ IntercestBounds
          (CalculateTileBounds 1 0 FVector.ZeroVector Sample.EmptyManager.TotalNavBounds
            (TileSizeInWorldUnits Sample.EmptyManager.Config))
          Sample.EmptyManager.InclusionBounds = true
      ∧ (MarkDirtyTiles Sample.EmptyManager none [Sample.AreaOnEdge]).PendingDirtyTiles.map
          (fun p => p.Coord) = [⟨0, -1⟩, ⟨1, -1⟩, ⟨0, 0⟩, ⟨1, 0⟩] := by
  decide!

/-- Claim C6, amended, at a sample input: an area on the edge shared by the tiles
(0, 0) and (1, 0), away from the other edges. -/
theorem MarkDirtyTiles_shared_edge_witness :
    ((MarkDirtyTiles Sample.EmptyManager none [Sample.AreaOnEdgeOnly]).PendingDirtyTiles.map
        (fun p => p.Coord)).Perm [(⟨0, 0⟩ : FIntPoint), ⟨0 + 1, 0 + 0⟩] :=
  MarkDirtyTiles_shared_edge Sample.EmptyManager none Sample.AreaOnEdgeOnly 0 0 1 0
    (by decide!) rfl (by decide) (by decide!) (by decide!) (by decide!) (by decide!) (by decide!)

/-- Claim C7 at a sample input. -/
theorem GrowBoundingBox_contains_box_witness :
    (GrowBoundingBox Sample.Config Sample.LowBox true).Min.X ≤ Sample.LowBox.Min.X
      ∧ (GrowBoundingBox Sample.Config Sample.LowBox true).Min.Y ≤ Sample.LowBox.Min.Y
      ∧ (GrowBoundingBox Sample.Config Sample.LowBox true).Min.Z ≤ Sample.LowBox.Min.Z
      ∧ Sample.LowBox.Max.X ≤ (GrowBoundingBox Sample.Config Sample.LowBox true).Max.X
      ∧ Sample.LowBox.Max.Y ≤ (GrowBoundingBox Sample.Config Sample.LowBox true).Max.Y
      ∧ Sample.LowBox.Max.Z ≤ (GrowBoundingBox Sample.Config Sample.LowBox true).Max.Z :=
  GrowBoundingBox_contains_box Sample.Config Sample.LowBox true (by decide!) (by decide!)
    (by decide!) (by decide!)

/-- Claim C9 at a sample input: a tile far from all geometry. -/
theorem GenerateTile_empty_tile_succeeds_witness :
    ((CreateTileGenerator Sample.EmptyManager Sample.World ⟨5, 5⟩ []).1.GenerateTile
        Sample.FailingLibrary).1 = true
      ∧ ((CreateTileGenerator Sample.EmptyManager Sample.World ⟨5, 5⟩ []).1.GenerateTile
        Sample.FailingLibrary).2.CompressedLayers = []
      ∧ ((CreateTileGenerator Sample.EmptyManager Sample.World ⟨5, 5⟩ []).1.GenerateTile
        Sample.FailingLibrary).2.NavigationData = [] :=
  GenerateTile_empty_tile_succeeds Sample.FailingLibrary
    (CreateTileGenerator Sample.EmptyManager Sample.World ⟨5, 5⟩ []).1 (by decide!) (by decide!)

/-- Claim C10 at a sample input: a modifier change and a geometry change marked
while tile (0, 0) is pending. -/
theorem MarkDirtyTiles_coalesces_witness :
    ((MarkDirtyTiles Sample.ManagerBlocked none
        [Sample.ModifierAreaInside, Sample.AreaNearCorner]).PendingDirtyTiles.map
        (fun p => p.Coord)).Nodup :=
  (MarkDirtyTiles_coalesces Sample.ManagerBlocked none
    [Sample.ModifierAreaInside, Sample.AreaNearCorner] (by decide!)).1

end RecastNavMeshGenerator

namespace RecastNavMeshGenerator

/-! ## The concurrency ceiling -/

theorem TakeIntermediateLayersData_max (s : FRecastNavMeshGenerator) (c : FIntPoint) :
    (FRecastTileGenerator.TakeIntermediateLayersData s c).2.MaxTileGeneratorTasks
      = s.MaxTileGeneratorTasks := by
  unfold FRecastTileGenerator.TakeIntermediateLayersData
  split <;> rfl

theorem CreateTileGenerator_max (s : FRecastNavMeshGenerator) (W : UWorld) (c : FIntPoint)
    (d : List FBox) :
    (CreateTileGenerator s W c d).2.MaxTileGeneratorTasks = s.MaxTileGeneratorTasks := by
  simp [CreateTileGenerator, Setup_manager, TakeIntermediateLayersData_max]

theorem RemoveTileLayers_max (s : FRecastNavMeshGenerator) (x y : Int) :
    (RemoveTileLayers s x y).2.MaxTileGeneratorTasks = s.MaxTileGeneratorTasks := by
  unfold RemoveTileLayers
  cases h : s.DetourMesh with
  | none => rfl
  | some m =>
    dsimp only
    split <;> rfl

theorem AddGeneratedTiles_max (s : FRecastNavMeshGenerator) (g : FRecastTileGenerator) :
    (AddGeneratedTiles s g).2.MaxTileGeneratorTasks = s.MaxTileGeneratorTasks := by
  unfold AddGeneratedTiles
  simp only
  split <;> split <;> simp [RemoveTileLayers_max]

theorem SubmittedState_max (W : UWorld) (self : FRecastNavMeshGenerator) (k : Nat)
    (p : FPendingTileElement) :
    (SubmittedState W self k p).MaxTileGeneratorTasks = self.MaxTileGeneratorTasks := by
  simp [SubmittedState, CreateTileGenerator_max]

theorem RemovedState_max (W : UWorld) (self : FRecastNavMeshGenerator) (k : Nat)
    (p : FPendingTileElement) :
    (RemovedState W self k p).MaxTileGeneratorTasks = self.MaxTileGeneratorTasks := by
  simp [RemovedState, RemoveTileLayers_max, CreateTileGenerator_max]

theorem CollectedState_max (Lib : FRecastLibrary) (self : FRecastNavMeshGenerator)
    (Idx : Nat) (Element : FRunningTileElement) (U : List Nat) :
    (CollectedState Lib self Idx Element U).1.MaxTileGeneratorTasks
      = self.MaxTileGeneratorTasks := by
  unfold CollectedState
  dsimp only
  split_ifs <;> simp [AddGeneratedTiles_max]

theorem ProcessTileTasks_max (self : FRecastNavMeshGenerator) (W : UWorld)
    (Lib : FRecastLibrary) (IsDone : Nat → Bool) (N : Int) :
    (ProcessTileTasks self W Lib IsDone N).2.MaxTileGeneratorTasks
      = self.MaxTileGeneratorTasks := by
  unfold ProcessTileTasks
  dsimp only
  have h1 := SubmitPendingLoop_invariant W N
    (fun s => s.MaxTileGeneratorTasks = self.MaxTileGeneratorTasks)
    (fun s k p hI _ _ => by dsimp only at hI ⊢; rw [SubmittedState_max]; exact hI)
    (fun s k p hI _ _ => by dsimp only at hI ⊢; rw [RemovedState_max]; exact hI)
    self.PendingDirtyTiles.length self 0 [] rfl
  exact CollectLoop_invariant Lib IsDone
    (fun s => s.MaxTileGeneratorTasks = self.MaxTileGeneratorTasks)
    (fun s k E U hI _ => by dsimp only at hI ⊢; rw [CollectedState_max]; exact hI) _ _ _ h1

theorem MarkDirtyTiles_max (self : FRecastNavMeshGenerator) (CurWorld : Option UWorld)
    (DirtyAreas : List FNavigationDirtyArea) :
    (MarkDirtyTiles self CurWorld DirtyAreas).MaxTileGeneratorTasks
      = self.MaxTileGeneratorTasks := by
  unfold MarkDirtyTiles SortPendingBuildTiles
  dsimp only
  split_ifs
  · cases CurWorld with
    | none => rfl
    | some W => dsimp only; split_ifs <;> rfl
  · rfl

/-- Counters of the submit loop: each started task adds one running element and
takes one pending element out, and the count of started tasks stays within the
budget. -/
theorem SubmitPendingLoop_count (W : UWorld) (N : Int) :
    ∀ (k : Nat) (s : FRecastNavMeshGenerator) (n : Int) (U : List Nat),
      ((SubmitPendingLoop W N k (s, n, U)).1.RunningDirtyTiles.length : Int)
          = (s.RunningDirtyTiles.length : Int) + ((SubmitPendingLoop W N k (s, n, U)).2.1 - n)
        ∧ (SubmitPendingLoop W N k (s, n, U)).2.1 ≤ max N n
        ∧ n ≤ (SubmitPendingLoop W N k (s, n, U)).2.1
        ∧ ((SubmitPendingLoop W N k (s, n, U)).1.PendingDirtyTiles.length : Int)
            + ((SubmitPendingLoop W N k (s, n, U)).2.1 - n) ≤ (s.PendingDirtyTiles.length : Int) := by
  intro k
  induction k with
  | zero => intro s n U; simp [SubmitPendingLoop]
  | succ k ih =>
    intro s n U
    rw [SubmitPendingLoop_succ]
    by_cases hn : n < N
    · rw [if_pos hn]
      cases hp : s.PendingDirtyTiles[k]? with
      | none => exact ih s n U
      | some p =>
        have hklt : k < s.PendingDirtyTiles.length := (List.getElem?_eq_some_iff.1 hp).1
        have hlen : ((s.PendingDirtyTiles.eraseIdx k).length : Int)
            = (s.PendingDirtyTiles.length : Int) - 1 := by
          rw [List.length_eraseIdx_of_lt hklt]
          omega
        simp only []
        split_ifs with hb hd
        · exact ih s n U
        · obtain ⟨h1, h2, h3, h4⟩ := ih (SubmittedState W s k p) (n + 1) U
          simp only [SubmittedState_running, SubmittedState_pending, List.length_append,
            List.length_singleton, Nat.cast_add, Nat.cast_one, hlen] at h1 h4
          refine ⟨by omega, ?_, by omega, by omega⟩
          refine le_trans h2 ?_
          rw [max_le_iff]
          exact ⟨le_max_left _ _, le_trans (by omega) (le_max_left _ _)⟩
        · obtain ⟨h1, h2, h3, h4⟩ := ih (RemovedState W s k p) n
            (U ++ (RemoveTileLayers (CreateTileGenerator s W p.Coord p.DirtyAreas).2
              p.Coord.X p.Coord.Y).1)
          simp only [RemovedState_running, RemovedState_pending, hlen] at h1 h4
          exact ⟨h1, h2, h3, by omega⟩
    · rw [if_neg hn]
      simp

theorem CollectLoop_length_le (Lib : FRecastLibrary) (IsDone : Nat → Bool) (k : Nat)
    (self : FRecastNavMeshGenerator) (U : List Nat) :
    (CollectLoop Lib IsDone k (self, U)).1.RunningDirtyTiles.length
      ≤ self.RunningDirtyTiles.length :=
  (CollectLoop_running_sublist Lib IsDone k self U).length_le

/-- One tick keeps the running list within the larger of its length before and the
ceiling. -/
theorem TickAsyncBuild_within_ceiling (self : FRecastNavMeshGenerator) (World : UWorld)
    (Lib : FRecastLibrary) (IsDone : Nat → Bool)
    (h : (self.RunningDirtyTiles.length : Int) ≤ self.MaxTileGeneratorTasks) :
    ((TickAsyncBuild self World Lib IsDone (GetNumRunningBuildTasks self)).2.RunningDirtyTiles.length
        : Int) ≤ self.MaxTileGeneratorTasks := by
  unfold TickAsyncBuild ProcessTileTasks GetNumRunningBuildTasks
  dsimp only
  obtain ⟨h1, h2, _, _⟩ := SubmitPendingLoop_count World
    (self.MaxTileGeneratorTasks - (self.RunningDirtyTiles.length : Int))
    self.PendingDirtyTiles.length self 0 []
  have h3 := CollectLoop_length_le Lib IsDone
    (SubmitPendingLoop World (self.MaxTileGeneratorTasks - (self.RunningDirtyTiles.length : Int))
      self.PendingDirtyTiles.length (self, 0, [])).1.RunningDirtyTiles.length
    (SubmitPendingLoop World (self.MaxTileGeneratorTasks - (self.RunningDirtyTiles.length : Int))
      self.PendingDirtyTiles.length (self, 0, [])).1
    (SubmitPendingLoop World (self.MaxTileGeneratorTasks - (self.RunningDirtyTiles.length : Int))
      self.PendingDirtyTiles.length (self, 0, [])).2.2
  have h4 : max (self.MaxTileGeneratorTasks - (self.RunningDirtyTiles.length : Int)) 0
      = self.MaxTileGeneratorTasks - (self.RunningDirtyTiles.length : Int) :=
    max_eq_left (by omega)
  rw [h4] at h2
  have h5 := Int.ofNat_le.2 h3
  simp only [Int.ofNat_eq_coe] at h5
  omega

/-- When the loop of `EnsureBuildCompletion` ends, nothing is running or pending. -/
theorem EnsureBuildCompletionLoop_done (World : UWorld) (Lib : FRecastLibrary)
    (IsDone : Nat → Nat → Bool) :
    ∀ (Fuel Pass NumCompleted : Nat) (self s' : FRecastNavMeshGenerator),
      EnsureBuildCompletionLoop World Lib IsDone Fuel Pass NumCompleted self = some s' →
      s'.RunningDirtyTiles = [] ∧ s'.PendingDirtyTiles = []
        ∧ s'.MaxTileGeneratorTasks = self.MaxTileGeneratorTasks := by
  intro Fuel
  induction Fuel with
  | zero => intro Pass NumCompleted self s' h; simp [EnsureBuildCompletionLoop] at h
  | succ Fuel ih =>
    intro Pass NumCompleted self s' h
    rw [EnsureBuildCompletionLoop] at h
    split_ifs at h with hr
    · obtain ⟨h1, h2, h3⟩ := ih _ _ _ _ h
      exact ⟨h1, h2, by rw [h3, ProcessTileTasks_max]⟩
    · have hs := Option.some.inj h
      rw [← hs]
      unfold GetNumRemaningBuildTasks at hr
      refine ⟨?_, ?_, ProcessTileTasks_max _ _ _ _ _⟩
      · apply List.eq_nil_of_length_eq_zero; omega
      · apply List.eq_nil_of_length_eq_zero; omega

theorem ApplyGeneratorCall_within_ceiling (Lib : FRecastLibrary)
    (self s' : FRecastNavMeshGenerator) (Call : FGeneratorCall)
    (h : (self.RunningDirtyTiles.length : Int) ≤ self.MaxTileGeneratorTasks)
    (hs : ApplyGeneratorCall Lib self Call = some s') :
    (s'.RunningDirtyTiles.length : Int) ≤ s'.MaxTileGeneratorTasks := by
  cases Call with
  | MarkDirtyTiles CurWorld DirtyAreas =>
    have := Option.some.inj hs
    rw [← this, MarkDirtyTiles_running, MarkDirtyTiles_max]
    exact h
  | TickAsyncBuild World IsDone =>
    have := Option.some.inj hs
    rw [← this]
    have hm : (TickAsyncBuild self World Lib IsDone
        (GetNumRunningBuildTasks self)).2.MaxTileGeneratorTasks = self.MaxTileGeneratorTasks :=
      ProcessTileTasks_max _ _ _ _ _
    rw [hm]
    exact TickAsyncBuild_within_ceiling self World Lib IsDone h
  | EnsureBuildCompletion World IsDone Fuel =>
    obtain ⟨h1, _, h3⟩ := EnsureBuildCompletionLoop_done World Lib IsDone Fuel 0 0 self s' hs
    rw [h1, h3]
    simp only [List.length_nil, Nat.cast_zero]
    omega

/-- Claim C11 (concurrency ceiling), amended: from a generator whose running list
is within MaxTileGeneratorTasks (in particular an initialised generator without
tasks), in every state in which the last call of a sequence of MarkDirtyTiles,
TickAsyncBuild and EnsureBuildCompletion calls has returned, the navigation system
reporting the running-task count of this generator, the number of elements of
RunningDirtyTiles does not exceed MaxTileGeneratorTasks. The states inside a
running EnsureBuildCompletion call are not covered: its loop calls
ProcessTileTasks with the fixed budget 16, which does not read the ceiling. -/
theorem RunningDirtyTiles_within_ceiling (Lib : FRecastLibrary) (Calls : List FGeneratorCall) :
    ∀ (self s' : FRecastNavMeshGenerator),
      (self.RunningDirtyTiles.length : Int) ≤ self.MaxTileGeneratorTasks →
      RunGeneratorCalls Lib self Calls = some s' →
      (s'.RunningDirtyTiles.length : Int) ≤ s'.MaxTileGeneratorTasks := by
  induction Calls with
  | nil =>
    intro self s' h hs
    have := Option.some.inj hs
    rw [← this]
    exact h
  | cons Call Calls ih =>
    intro self s' h hs
    rw [RunGeneratorCalls] at hs
    cases hc : ApplyGeneratorCall Lib self Call with
    | none => rw [hc] at hs; simp at hs
    | some Next =>
      rw [hc] at hs
      exact ih Next s' (ApplyGeneratorCall_within_ceiling Lib self Next Call h hc) hs

end RecastNavMeshGenerator

namespace RecastNavMeshGenerator

/-! ## `EnsureBuildCompletion` returns -/

/-- The collect loop removes every running element whose task is done: with the
tasks of the first `c` positions done, at least `min k c` elements go. -/
theorem CollectLoop_completed (Lib : FRecastLibrary) (IsDone : Nat → Bool) :
    ∀ (k c : Nat) (s : FRecastNavMeshGenerator) (U : List Nat),
      c ≤ s.RunningDirtyTiles.length → (∀ i, i < c → IsDone i = true) →
      (CollectLoop Lib IsDone k (s, U)).1.RunningDirtyTiles.length + min k c
        ≤ s.RunningDirtyTiles.length := by
  intro k
  induction k with
  | zero => intro c s U _ _; simp [CollectLoop]
  | succ k ih =>
    intro c s U hc hdone
    rw [CollectLoop_succ]
    cases hp : s.RunningDirtyTiles[k]? with
    | none =>
      have hk : s.RunningDirtyTiles.length ≤ k := by
        by_contra hlt
        have := List.getElem?_eq_getElem (not_le.1 hlt)
        rw [hp] at this
        exact Option.noConfusion this
      have := ih c s U hc hdone
      simp only []
      have h1 : min (k + 1) c = min k c := by omega
      rw [h1]
      exact this
    | some E =>
      have hklt : k < s.RunningDirtyTiles.length := (List.getElem?_eq_some_iff.1 hp).1
      simp only []
      by_cases hd : IsDone k = true
      · rw [if_pos hd]
        have hlen : (CollectedState Lib s k E U).1.RunningDirtyTiles.length
            = s.RunningDirtyTiles.length - 1 := by
          rw [CollectedState_running, List.length_eraseIdx_of_lt hklt]
        have := ih (min k c) (CollectedState Lib s k E U).1 (CollectedState Lib s k E U).2
          (by rw [hlen]; omega) (fun i hi => hdone i (by omega))
        rw [Prod.mk.eta, hlen] at this
        have h1 : min k (min k c) = min k c := by omega
        rw [h1] at this
        omega
      · rw [if_neg hd]
        have hkc : c ≤ k := by
          by_contra hlt
          exact hd (hdone k (not_le.1 hlt))
        have := ih c s U hc hdone
        have h1 : min (k + 1) c = min k c := by omega
        rw [h1]
        exact this

/-- With nothing running and budget left, the submit loop takes the last pending
element out of the queue. -/
theorem SubmitPendingLoop_takes_last (W : UWorld) (N : Int) (s : FRecastNavMeshGenerator)
    (n : Int) (U : List Nat) (hr : s.RunningDirtyTiles = []) (hp : 0 < s.PendingDirtyTiles.length)
    (hn : n < N) :
    (SubmitPendingLoop W N s.PendingDirtyTiles.length (s, n, U)).1.PendingDirtyTiles.length
      < s.PendingDirtyTiles.length := by
  obtain ⟨k, hk⟩ : ∃ k, s.PendingDirtyTiles.length = k + 1 := ⟨s.PendingDirtyTiles.length - 1, by omega⟩
  rw [hk, SubmitPendingLoop_succ, if_pos hn]
  have hklt : k < s.PendingDirtyTiles.length := by omega
  rw [List.getElem?_eq_getElem hklt]
  simp only [hr, RunningContains, List.any_nil, Bool.false_eq_true, if_false]
  have hlen : (s.PendingDirtyTiles.eraseIdx k).length = k := by
    rw [List.length_eraseIdx_of_lt hklt]; omega
  split_ifs with hd
  · have := (SubmitPendingLoop_pending_sublist W N k
      (SubmittedState W s k s.PendingDirtyTiles[k]) (n + 1) U).length_le
    rw [SubmittedState_pending, hlen] at this
    omega
  · have := (SubmitPendingLoop_pending_sublist W N k
      (RemovedState W s k s.PendingDirtyTiles[k]) n
      (U ++ (RemoveTileLayers (CreateTileGenerator s W s.PendingDirtyTiles[k].Coord
        s.PendingDirtyTiles[k].DirtyAreas).2 s.PendingDirtyTiles[k].Coord.X
        s.PendingDirtyTiles[k].Coord.Y).1)).length_le
    rw [RemovedState_pending, hlen] at this
    omega

/-- A pass of `ProcessTileTasks` never increases twice the pending count plus the
running count. -/
theorem ProcessTileTasks_measure_le (self : FRecastNavMeshGenerator) (W : UWorld)
    (Lib : FRecastLibrary) (IsDone : Nat → Bool) (N : Int) :
    2 * (ProcessTileTasks self W Lib IsDone N).2.PendingDirtyTiles.length
        + (ProcessTileTasks self W Lib IsDone N).2.RunningDirtyTiles.length
      ≤ 2 * self.PendingDirtyTiles.length + self.RunningDirtyTiles.length := by
  unfold ProcessTileTasks
  dsimp only
  rw [CollectLoop_pending]
  obtain ⟨h1, _, h3, h4⟩ := SubmitPendingLoop_count W N self.PendingDirtyTiles.length self 0 []
  have h5 := CollectLoop_length_le Lib IsDone
    (SubmitPendingLoop W N self.PendingDirtyTiles.length (self, 0, [])).1.RunningDirtyTiles.length
    (SubmitPendingLoop W N self.PendingDirtyTiles.length (self, 0, [])).1
    (SubmitPendingLoop W N self.PendingDirtyTiles.length (self, 0, [])).2.2
  omega

/-- A pass of `ProcessTileTasks` with a positive budget in which the tasks of all
running elements are done makes twice the pending count plus the running count
smaller, unless both are zero. -/
theorem ProcessTileTasks_measure_lt (self : FRecastNavMeshGenerator) (W : UWorld)
    (Lib : FRecastLibrary) (IsDone : Nat → Bool) (N : Int) (hN : 0 < N)
    (hdone : ∀ i, i < self.RunningDirtyTiles.length → IsDone i = true)
    (hpos : 0 < 2 * self.PendingDirtyTiles.length + self.RunningDirtyTiles.length) :
    2 * (ProcessTileTasks self W Lib IsDone N).2.PendingDirtyTiles.length
        + (ProcessTileTasks self W Lib IsDone N).2.RunningDirtyTiles.length
      < 2 * self.PendingDirtyTiles.length + self.RunningDirtyTiles.length := by
  unfold ProcessTileTasks
  dsimp only
  rw [CollectLoop_pending]
  obtain ⟨h1, _, h3, h4⟩ := SubmitPendingLoop_count W N self.PendingDirtyTiles.length self 0 []
  have h5 := CollectLoop_completed Lib IsDone
    (SubmitPendingLoop W N self.PendingDirtyTiles.length (self, 0, [])).1.RunningDirtyTiles.length
    self.RunningDirtyTiles.length
    (SubmitPendingLoop W N self.PendingDirtyTiles.length (self, 0, [])).1
    (SubmitPendingLoop W N self.PendingDirtyTiles.length (self, 0, [])).2.2
    (by omega) hdone
  by_cases hr : self.RunningDirtyTiles.length = 0
  · have hr2 : self.RunningDirtyTiles = [] := List.eq_nil_of_length_eq_zero hr
    have h6 := SubmitPendingLoop_takes_last W N self 0 [] hr2 (by omega) hN
    omega
  · omega

/-- Once the running tasks known to be complete are all the running elements, the
loop of `EnsureBuildCompletion` ends within as many passes as twice the pending
count plus the running count, plus one. -/
theorem EnsureBuildCompletionLoop_returns (World : UWorld) (Lib : FRecastLibrary)
    (IsDone : Nat → Nat → Bool) :
    ∀ (Fuel Pass : Nat) (self : FRecastNavMeshGenerator),
      2 * self.PendingDirtyTiles.length + self.RunningDirtyTiles.length < Fuel →
      (EnsureBuildCompletionLoop World Lib IsDone Fuel Pass self.RunningDirtyTiles.length
        self).isSome = true := by
  intro Fuel
  induction Fuel with
  | zero => intro Pass self h; omega
  | succ Fuel ih =>
    intro Pass self h
    rw [EnsureBuildCompletionLoop]
    split_ifs with hrem
    · apply ih
      have hpos : 0 < 2 * self.PendingDirtyTiles.length + self.RunningDirtyTiles.length := by
        by_contra h0
        have hle := ProcessTileTasks_measure_le self World Lib
          (fun Idx => decide (Idx < self.RunningDirtyTiles.length) || IsDone Pass Idx) 16
        unfold GetNumRemaningBuildTasks at hrem
        omega
      have hlt := ProcessTileTasks_measure_lt self World Lib
        (fun Idx => decide (Idx < self.RunningDirtyTiles.length) || IsDone Pass Idx) 16
        (by norm_num) (fun i hi => by simp [hi]) hpos
      omega
    · rfl

/-- The call `EnsureBuildCompletion` returns: the loop ends within as many passes as
twice the pending count plus the running count, plus two. -/
theorem EnsureBuildCompletion_returns (self : FRecastNavMeshGenerator) (World : UWorld)
    (Lib : FRecastLibrary) (IsDone : Nat → Nat → Bool) (Fuel : Nat)
    (h : 2 * self.PendingDirtyTiles.length + self.RunningDirtyTiles.length + 2 ≤ Fuel) :
    (EnsureBuildCompletion self World Lib IsDone Fuel).isSome = true := by
  obtain ⟨F, hF⟩ : ∃ F, Fuel = F + 1 := ⟨Fuel - 1, by omega⟩
  rw [hF, EnsureBuildCompletion, EnsureBuildCompletionLoop]
  split_ifs with hrem
  · apply EnsureBuildCompletionLoop_returns
    have hle := ProcessTileTasks_measure_le self World Lib
      (fun Idx => decide (Idx < 0) || IsDone 0 Idx) 16
    omega
  · rfl

end RecastNavMeshGenerator

namespace RecastNavMeshGenerator

/-! ## Budget and scan order of the submit loop -/

theorem take_eraseIdx_self {α : Type} (l : List α) (k : Nat) (hk : k ≤ l.length) :
    (l.eraseIdx k).take k = l.take k := by
  rw [List.eraseIdx_eq_take_drop_succ, List.take_append_of_le_length (by simp [hk])]
  simp [List.take_take]

theorem drop_eraseIdx_self {α : Type} (l : List α) (k : Nat) (hk : k ≤ l.length) :
    (l.eraseIdx k).drop k = l.drop (k + 1) := by
  rw [List.eraseIdx_eq_take_drop_succ]
  have h : (l.take k).length = k := by simp [hk]
  rw [List.drop_append_eq_append_drop, h]
  simp [List.drop_eq_nil_of_le, h]

theorem take_eraseIdx_le {α : Type} (l : List α) (j k : Nat) (hj : j ≤ k) (hk : k ≤ l.length) :
    (l.eraseIdx k).take j = l.take j := by
  have h := congrArg (List.take j) (take_eraseIdx_self l k hk)
  simpa [List.take_take, Nat.min_eq_left hj] using h

theorem drop_take_succ {α : Type} (l : List α) (j k : Nat) (p : α) (hj : j ≤ k)
    (hp : l[k]? = some p) :
    (l.take (k + 1)).drop j = (l.take k).drop j ++ [p] := by
  have hk : k < l.length := (List.getElem?_eq_some_iff.1 hp).1
  have h1 : l.take (k + 1) = l.take k ++ [p] := by
    rw [List.take_succ, hp]
    rfl
  rw [h1, List.drop_append_eq_append_drop]
  have h2 : (l.take k).length = k := by simp [Nat.le_of_lt hk]
  have h3 : j - (l.take k).length = 0 := by omega
  rw [h3]
  rfl

theorem drop_eq_cons_of_getElem? {α : Type} (l : List α) (k : Nat) (p : α)
    (hp : l[k]? = some p) : l.drop k = p :: l.drop (k + 1) := by
  have hk : k < l.length := (List.getElem?_eq_some_iff.1 hp).1
  have hv : l[k] = p := (List.getElem?_eq_some_iff.1 hp).2
  rw [List.drop_eq_getElem_cons hk, hv]

/-- What one run of the submit loop from position `k` does to the queue and to the
running list: it stops at a position `j`, leaves the queue before `j` and from `k` on
alone, takes out every scanned element whose coordinate is not in flight, and
starts tasks in scan order. -/
theorem SubmitPendingLoop_scan (W : UWorld) (N : Int) :
    ∀ (k : Nat) (s : FRecastNavMeshGenerator) (n : Int) (U : List Nat),
      k ≤ s.PendingDirtyTiles.length → (PendingCoords s).Nodup →
      ∃ (j : Nat) (X : List FRunningTileElement), j ≤ k
        ∧ (SubmitPendingLoop W N k (s, n, U)).1.PendingDirtyTiles
            = s.PendingDirtyTiles.take j
              ++ ((s.PendingDirtyTiles.take k).drop j).filter
                  (fun p => RunningContains s.RunningDirtyTiles p.Coord)
              ++ s.PendingDirtyTiles.drop k
        ∧ (SubmitPendingLoop W N k (s, n, U)).1.RunningDirtyTiles = s.RunningDirtyTiles ++ X
        ∧ (SubmitPendingLoop W N k (s, n, U)).2.1 = n + (X.length : Int)
        ∧ (j = 0 ∨ N ≤ (SubmitPendingLoop W N k (s, n, U)).2.1)
        ∧ (SubmitPendingLoop W N k (s, n, U)).2.1 ≤ max N n
        ∧ List.Sublist (X.map (fun r => r.Coord))
            ((((s.PendingDirtyTiles.take k).drop j).reverse.filter
                (fun p => !RunningContains s.RunningDirtyTiles p.Coord)).map (fun p => p.Coord)) := by
  intro k
  induction k with
  | zero =>
    intro s n U _ _
    refine ⟨0, [], le_refl _, ?_, ?_, ?_, Or.inl rfl, ?_, ?_⟩ <;> simp [SubmitPendingLoop]
  | succ k ih =>
    intro s n U hk hnd
    have hklt : k < s.PendingDirtyTiles.length := hk
    obtain ⟨p, hp⟩ : ∃ p, s.PendingDirtyTiles[k]? = some p :=
      ⟨s.PendingDirtyTiles[k], List.getElem?_eq_getElem hklt⟩
    rw [SubmitPendingLoop_succ]
    by_cases hn : n < N
    · rw [if_pos hn, hp]
      simp only []
      -- elements scanned later have another coordinate than `p`
      have hother : ∀ q ∈ s.PendingDirtyTiles.take k, q.Coord ≠ p.Coord := by
        intro q hq hqp
        obtain ⟨i, hi⟩ := List.getElem?_of_mem hq
        have hik : i < k := by
          have := (List.getElem?_eq_some_iff.1 hi).1
          simp at this
          omega
        have hi2 : s.PendingDirtyTiles[i]? = some q := by
          rw [List.getElem?_take_of_lt hik] at hi
          exact hi
        have hnd0 : (s.PendingDirtyTiles.map (fun p => p.Coord)).Nodup := hnd
        have := nodup_map_index_eq (fun p => p.Coord) s.PendingDirtyTiles hnd0 i k q p hi2 hp hqp
        omega
      by_cases hb : RunningContains s.RunningDirtyTiles p.Coord = true
      · rw [if_pos hb]
        obtain ⟨j, X, hj, h1, h2, h3, h4, h5, h6⟩ := ih s n U (Nat.le_of_lt hklt) hnd
        refine ⟨j, X, Nat.le_succ_of_le hj, ?_, h2, h3, h4, h5, ?_⟩
        · rw [h1, drop_take_succ _ j k p hj hp, drop_eq_cons_of_getElem? _ k p hp]
          simp [List.filter_append, hb]
        · rw [drop_take_succ _ j k p hj hp]
          simpa [List.reverse_append, List.filter_cons, hb] using h6
      · rw [if_neg hb]
        have hb2 : RunningContains s.RunningDirtyTiles p.Coord = false := by
          simpa using hb
        have hlen : k ≤ (s.PendingDirtyTiles.eraseIdx k).length := by
          rw [List.length_eraseIdx_of_lt hklt]; omega
        have hnd2 : ((s.PendingDirtyTiles.eraseIdx k).map (fun p => p.Coord)).Nodup :=
          List.Nodup.sublist ((List.eraseIdx_sublist _ _).map _) hnd
        by_cases hd : (CreateTileGenerator s W p.Coord p.DirtyAreas).1.HasDataToBuild = true
        · rw [if_pos hd]
          obtain ⟨j, X, hj, h1, h2, h3, h4, h5, h6⟩ :=
            ih (SubmittedState W s k p) (n + 1) U (by simpa using hlen)
              (by simpa [PendingCoords] using hnd2)
          have hfilt : ∀ q ∈ (s.PendingDirtyTiles.take k).drop j,
              RunningContains (SubmittedState W s k p).RunningDirtyTiles q.Coord
                = RunningContains s.RunningDirtyTiles q.Coord := by
            intro q hq
            have hq2 := hother q (List.mem_of_mem_drop hq)
            simp [RunningContains, List.any_append, hq2.symm]
          simp only [SubmittedState_pending, take_eraseIdx_self _ k (Nat.le_of_lt hklt),
            drop_eraseIdx_self _ k (Nat.le_of_lt hklt),
            take_eraseIdx_le _ j k hj (Nat.le_of_lt hklt)] at h1 h6
          refine ⟨j, ⟨p.Coord, false, (CreateTileGenerator s W p.Coord p.DirtyAreas).1⟩ :: X,
            Nat.le_succ_of_le hj, ?_, ?_, ?_, h4, ?_, ?_⟩
          · rw [h1, drop_take_succ _ j k p hj hp]
            simp only [List.filter_append, List.filter_cons, hb2, List.filter_nil,
              List.append_nil, Bool.false_eq_true, if_false]
            congr 2
            exact List.filter_congr hfilt
          · rw [h2]; simp
          · rw [h3]; simp only [List.length_cons]; push_cast; ring
          · refine le_trans h5 ?_
            rw [max_le_iff]
            exact ⟨le_max_left _ _, le_trans (by omega) (le_max_left _ _)⟩
          · rw [drop_take_succ _ j k p hj hp]
            simp only [List.reverse_append, List.reverse_cons, List.reverse_nil, List.nil_append,
              List.singleton_append, List.filter_cons, hb2, Bool.not_false, if_true,
              List.map_cons]
            refine List.Sublist.cons₂ _ ?_
            have hfilt2 : ((s.PendingDirtyTiles.take k).drop j).reverse.filter
                  (fun e => !RunningContains (SubmittedState W s k p).RunningDirtyTiles e.Coord)
                = ((s.PendingDirtyTiles.take k).drop j).reverse.filter
                  (fun e => !RunningContains s.RunningDirtyTiles e.Coord) := by
              apply List.filter_congr
              intro q hq
              rw [hfilt q (List.mem_reverse.1 hq)]
            rw [← hfilt2]
            exact h6
        · rw [if_neg hd]
          obtain ⟨j, X, hj, h1, h2, h3, h4, h5, h6⟩ :=
            ih (RemovedState W s k p) n
              (U ++ (RemoveTileLayers (CreateTileGenerator s W p.Coord p.DirtyAreas).2
                p.Coord.X p.Coord.Y).1) (by simpa using hlen)
              (by simpa [PendingCoords] using hnd2)
          simp only [RemovedState_pending, RemovedState_running,
            take_eraseIdx_self _ k (Nat.le_of_lt hklt),
            drop_eraseIdx_self _ k (Nat.le_of_lt hklt),
            take_eraseIdx_le _ j k hj (Nat.le_of_lt hklt)] at h1 h2 h6
          refine ⟨j, X, Nat.le_succ_of_le hj, ?_, h2, h3, h4, h5, ?_⟩
          · rw [h1, drop_take_succ _ j k p hj hp]
            simp [List.filter_append, hb2]
          · rw [drop_take_succ _ j k p hj hp]
            simp only [List.reverse_append, List.reverse_cons, List.reverse_nil, List.nil_append,
              List.singleton_append, List.filter_cons, hb2, Bool.not_false, if_true,
              List.map_cons]
            exact List.Sublist.cons _ h6
    · rw [if_neg hn]
      have hnil : (s.PendingDirtyTiles.take (k + 1)).drop (k + 1) = [] :=
        List.drop_eq_nil_of_le (by simp)
      refine ⟨k + 1, [], le_refl _, ?_, ?_, ?_, Or.inr (not_lt.1 hn), le_max_right _ _, ?_⟩
        <;> simp [hnil]

/-- Claim C12 (tick budget and order): for every integer budget N, on a queue without
repeated coordinates, the queue splits into a head and a tail such that
ProcessTileTasks(N) leaves the head untouched, leaves of the tail exactly the
elements whose coordinate is in flight, in their order, and takes the others out;
the tasks started are at most max(N, 0), are appended to the running list in the
order of a scan of the tail from the end of the queue toward its head, and the head
is empty unless N tasks were started. -/
theorem ProcessTileTasks_budget_and_order (self : FRecastNavMeshGenerator) (World : UWorld)
    (Lib : FRecastLibrary) (IsDone : Nat → Bool) (N : Int)
    (hnd : (self.PendingDirtyTiles.map (fun p => p.Coord)).Nodup) :
    ∃ (Head Tail : List FPendingTileElement) (Started : List FRunningTileElement),
      self.PendingDirtyTiles = Head ++ Tail
      ∧ (ProcessTileTasks self World Lib IsDone N).2.PendingDirtyTiles
          = Head ++ Tail.filter (fun p => RunningContains self.RunningDirtyTiles p.Coord)
      ∧ (SubmitPendingLoop World N self.PendingDirtyTiles.length (self, 0, [])).1.RunningDirtyTiles
          = self.RunningDirtyTiles ++ Started
      ∧ (SubmitPendingLoop World N self.PendingDirtyTiles.length (self, 0, [])).2.1
          = (Started.length : Int)
      ∧ (Started.length : Int) ≤ max N 0
      ∧ (Head = [] ∨ N ≤ (Started.length : Int))
      ∧ List.Sublist (Started.map (fun r => r.Coord))
          ((Tail.reverse.filter
              (fun p => !RunningContains self.RunningDirtyTiles p.Coord)).map (fun p => p.Coord)) := by
  obtain ⟨j, X, hj, h1, h2, h3, h4, h5, h6⟩ :=
    SubmitPendingLoop_scan World N self.PendingDirtyTiles.length self 0 [] (le_refl _) hnd
  simp only [List.take_length, List.drop_length, List.append_nil, zero_add] at h1 h3 h6
  refine ⟨self.PendingDirtyTiles.take j, self.PendingDirtyTiles.drop j, X,
    (List.take_append_drop j _).symm, ?_, h2, h3, ?_, ?_, h6⟩
  · unfold ProcessTileTasks
    dsimp only
    rw [CollectLoop_pending, h1]
  · rw [← h3]; exact h5
  · rcases h4 with h0 | hN
    · left; simp [h0]
    · right; rw [← h3]; exact hN

end RecastNavMeshGenerator

namespace RecastNavMeshGenerator

/-! ## What `Setup` makes of its inputs -/

theorem AppendGeometry_frame (g : FRecastTileGenerator) (c : Option (List ℚ × List Int))
    (d : Option (FBox → List (List ℚ))) :
    ({ g.AppendGeometry c d with RawGeometry := [], Modifiers := [], OffmeshLinks := [] }
        : FRecastTileGenerator)
      = { g with RawGeometry := [], Modifiers := [], OffmeshLinks := [] } := by
  unfold FRecastTileGenerator.AppendGeometry
  cases c with
  | none => rfl
  | some vi =>
    cases d with
    | none => rfl
    | some e =>
      dsimp only
      split_ifs <;> rfl

theorem AppendModifier_frame (g : FRecastTileGenerator) (E : FNavigationOctreeElement) :
    ({ g.AppendModifier E with RawGeometry := [], Modifiers := [], OffmeshLinks := [] }
        : FRecastTileGenerator)
      = { g with RawGeometry := [], Modifiers := [], OffmeshLinks := [] } := by
  unfold FRecastTileGenerator.AppendModifier
  dsimp only
  split_ifs
  · rfl
  · cases E.NavDataPerInstanceTransformDelegate with
    | none => rfl
    | some e =>
      dsimp only
      split_ifs <;> rfl

/-- Gathering touches the raw geometry, the modifiers and the off-mesh links of the
tile generator, and nothing else. -/
theorem GatherGeometry_frame (g : FRecastTileGenerator) (P : FRecastNavMeshGenerator)
    (W : UWorld) (b : Bool) :
    ({ g.GatherGeometry P W b with RawGeometry := [], Modifiers := [], OffmeshLinks := [] }
        : FRecastTileGenerator)
      = { g with RawGeometry := [], Modifiers := [], OffmeshLinks := [] } := by
  have key : ∀ (L : List FNavigationOctreeElement) (g0 : FRecastTileGenerator),
      ({ L.foldl
          (fun g Element =>
            if Element.bShouldUseGeometry then
              let bExportGeometry := b && Element.bHasGeometry
              let g :=
                if bExportGeometry then
                  if W.bVoxelCacheEnabled then g
                  else g.AppendGeometry Element.CollisionData
                    Element.NavDataPerInstanceTransformDelegate
                else g
              g.AppendModifier Element
            else g) g0 with RawGeometry := [], Modifiers := [], OffmeshLinks := [] }
          : FRecastTileGenerator)
        = { g0 with RawGeometry := [], Modifiers := [], OffmeshLinks := [] } := by
    intro L
    induction L with
    | nil => intro g0; rfl
    | cons E L ih =>
      intro g0
      rw [List.foldl_cons, ih]
      dsimp only
      by_cases h1 : E.bShouldUseGeometry = true
      · rw [if_pos h1, AppendModifier_frame]
        by_cases h2 : (b && E.bHasGeometry) = true
        · rw [if_pos h2]
          by_cases h3 : W.bVoxelCacheEnabled = true
          · rw [if_pos h3]
          · rw [if_neg h3, AppendGeometry_frame]
        · rw [if_neg h2]
      · rw [if_neg h1]
  unfold FRecastTileGenerator.GatherGeometry
  exact key _ g

theorem GatherGeometry_TileX (g : FRecastTileGenerator)
    (P : FRecastNavMeshGenerator) (W : UWorld) (b : Bool) :
    (g.GatherGeometry P W b).TileX = g.TileX := by
  have h := congrArg FRecastTileGenerator.TileX (GatherGeometry_frame g P W b)
  exact h

theorem GatherGeometry_TileY (g : FRecastTileGenerator)
    (P : FRecastNavMeshGenerator) (W : UWorld) (b : Bool) :
    (g.GatherGeometry P W b).TileY = g.TileY := by
  have h := congrArg FRecastTileGenerator.TileY (GatherGeometry_frame g P W b)
  exact h

theorem GatherGeometry_TileConfig (g : FRecastTileGenerator)
    (P : FRecastNavMeshGenerator) (W : UWorld) (b : Bool) :
    (g.GatherGeometry P W b).TileConfig = g.TileConfig := by
  have h := congrArg FRecastTileGenerator.TileConfig (GatherGeometry_frame g P W b)
  exact h

theorem GatherGeometry_TileBB (g : FRecastTileGenerator)
    (P : FRecastNavMeshGenerator) (W : UWorld) (b : Bool) :
    (g.GatherGeometry P W b).TileBB = g.TileBB := by
  have h := congrArg FRecastTileGenerator.TileBB (GatherGeometry_frame g P W b)
  exact h

theorem GatherGeometry_bSucceeded (g : FRecastTileGenerator)
    (P : FRecastNavMeshGenerator) (W : UWorld) (b : Bool) :
    (g.GatherGeometry P W b).bSucceeded = g.bSucceeded := by
  have h := congrArg FRecastTileGenerator.bSucceeded (GatherGeometry_frame g P W b)
  exact h

theorem GatherGeometry_bRegenerateCompressedLayers (g : FRecastTileGenerator)
    (P : FRecastNavMeshGenerator) (W : UWorld) (b : Bool) :
    (g.GatherGeometry P W b).bRegenerateCompressedLayers = g.bRegenerateCompressedLayers := by
  have h := congrArg FRecastTileGenerator.bRegenerateCompressedLayers (GatherGeometry_frame g P W b)
  exact h

theorem GatherGeometry_bFullyEncapsulatedByInclusionBounds (g : FRecastTileGenerator)
    (P : FRecastNavMeshGenerator) (W : UWorld) (b : Bool) :
    (g.GatherGeometry P W b).bFullyEncapsulatedByInclusionBounds = g.bFullyEncapsulatedByInclusionBounds := by
  have h := congrArg FRecastTileGenerator.bFullyEncapsulatedByInclusionBounds (GatherGeometry_frame g P W b)
  exact h

theorem GatherGeometry_InclusionBounds (g : FRecastTileGenerator)
    (P : FRecastNavMeshGenerator) (W : UWorld) (b : Bool) :
    (g.GatherGeometry P W b).InclusionBounds = g.InclusionBounds := by
  have h := congrArg FRecastTileGenerator.InclusionBounds (GatherGeometry_frame g P W b)
  exact h

theorem GatherGeometry_CompressedLayers (g : FRecastTileGenerator)
    (P : FRecastNavMeshGenerator) (W : UWorld) (b : Bool) :
    (g.GatherGeometry P W b).CompressedLayers = g.CompressedLayers := by
  have h := congrArg FRecastTileGenerator.CompressedLayers (GatherGeometry_frame g P W b)
  exact h

theorem GatherGeometry_DirtyLayers (g : FRecastTileGenerator)
    (P : FRecastNavMeshGenerator) (W : UWorld) (b : Bool) :
    (g.GatherGeometry P W b).DirtyLayers = g.DirtyLayers := by
  have h := congrArg FRecastTileGenerator.DirtyLayers (GatherGeometry_frame g P W b)
  exact h

theorem GatherGeometry_NavigationData (g : FRecastTileGenerator)
    (P : FRecastNavMeshGenerator) (W : UWorld) (b : Bool) :
    (g.GatherGeometry P W b).NavigationData = g.NavigationData := by
  have h := congrArg FRecastTileGenerator.NavigationData (GatherGeometry_frame g P W b)
  exact h

/-- The tile generator that `Setup` returns, apart from what it gathered, is
determined by the build configuration, the total bounds, the inclusion bounds and
the cached layers of the manager, and by the dirty boxes. -/
theorem CreateTileGenerator_inputs (P1 P2 : FRecastNavMeshGenerator) (W1 W2 : UWorld)
    (Coord : FIntPoint) (DirtyAreas : List FBox)
    (hConfig : P1.Config = P2.Config) (hTotal : P1.TotalNavBounds = P2.TotalNavBounds)
    (hIncl : P1.InclusionBounds = P2.InclusionBounds)
    (hCached : (FRecastTileGenerator.TakeIntermediateLayersData P1 Coord).1
      = (FRecastTileGenerator.TakeIntermediateLayersData P2 Coord).1) :
    ({ (CreateTileGenerator P1 W1 Coord DirtyAreas).1 with
        RawGeometry := [], Modifiers := [], OffmeshLinks := [] } : FRecastTileGenerator)
      = { (CreateTileGenerator P2 W2 Coord DirtyAreas).1 with
          RawGeometry := [], Modifiers := [], OffmeshLinks := [] } := by
  unfold CreateTileGenerator FRecastTileGenerator.Setup FRecastTileGenerator.Construct
  dsimp only
  rw [hConfig, hTotal, hIncl, hCached]
  split_ifs <;>
    simp only [GatherGeometry_TileX,
      GatherGeometry_TileY,
      GatherGeometry_TileConfig,
      GatherGeometry_TileBB,
      GatherGeometry_bSucceeded,
      GatherGeometry_bRegenerateCompressedLayers,
      GatherGeometry_bFullyEncapsulatedByInclusionBounds,
      GatherGeometry_InclusionBounds,
      GatherGeometry_CompressedLayers,
      GatherGeometry_DirtyLayers,
      GatherGeometry_NavigationData]

end RecastNavMeshGenerator

namespace RecastNavMeshGenerator

/-! ## Area-only rebuilds -/

theorem MarkLayerDirty_length (DL : List Bool) (i : Int) :
    (FRecastTileGenerator.MarkLayerDirty DL i).length = DL.length := by
  unfold FRecastTileGenerator.MarkLayerDirty
  split_ifs <;> simp

theorem MarkLayerDirty_getD (DL : List Bool) (i : Int) (j : Nat) :
    (FRecastTileGenerator.MarkLayerDirty DL i).getD j false
      = (DL.getD j false
          || (decide (0 ≤ i) && decide (i.toNat = j) && decide (j < DL.length))) := by
  unfold FRecastTileGenerator.MarkLayerDirty
  by_cases hi : i < 0
  · rw [if_pos hi]
    have : decide (0 ≤ i) = false := by simp [hi]
    simp [this]
  · rw [if_neg hi]
    have h0 : decide (0 ≤ i) = true := by simp; omega
    simp only [List.getD_eq_getElem?_getD, List.getElem?_set, h0, Bool.true_and]
    by_cases hij : i.toNat = j
    · subst hij
      by_cases hl : i.toNat < DL.length
      · simp [hl]
      · simp [hl, List.getElem?_eq_none (not_lt.1 hl)]
    · simp [hij]

/-- The dirty flags after the boxes of one layer have been tested. -/
theorem DirtyBoxes_fold (L : FNavMeshTileData) (DirtyAreas : List FBox) :
    ∀ (DL : List Bool),
      (DirtyAreas.foldl
          (fun DirtyLayers DirtyBox =>
            if DirtyBox.Intersect L.LayerBBox then
              FRecastTileGenerator.MarkLayerDirty DirtyLayers L.LayerIndex
            else DirtyLayers) DL).length = DL.length
      ∧ ∀ j, (DirtyAreas.foldl
          (fun DirtyLayers DirtyBox =>
            if DirtyBox.Intersect L.LayerBBox then
              FRecastTileGenerator.MarkLayerDirty DirtyLayers L.LayerIndex
            else DirtyLayers) DL).getD j false
        = (DL.getD j false
            || (DirtyAreas.any (fun DirtyBox => DirtyBox.Intersect L.LayerBBox)
                && (decide (0 ≤ L.LayerIndex) && decide (L.LayerIndex.toNat = j)
                    && decide (j < DL.length)))) := by
  induction DirtyAreas with
  | nil => intro DL; simp
  | cons d rest ih =>
    intro DL
    rw [List.foldl_cons]
    by_cases hd : d.Intersect L.LayerBBox = true
    · rw [if_pos hd]
      obtain ⟨h1, h2⟩ := ih (FRecastTileGenerator.MarkLayerDirty DL L.LayerIndex)
      refine ⟨by rw [h1, MarkLayerDirty_length], ?_⟩
      intro j
      rw [h2 j, MarkLayerDirty_getD, MarkLayerDirty_length]
      simp only [List.any_cons, hd, Bool.true_or, Bool.true_and]
      cases DL.getD j false <;> cases rest.any (fun DirtyBox => DirtyBox.Intersect L.LayerBBox)
        <;> simp
    · rw [if_neg hd]
      obtain ⟨h1, h2⟩ := ih DL
      refine ⟨h1, ?_⟩
      intro j
      rw [h2 j]
      have hd2 : d.Intersect L.LayerBBox = false := by simpa using hd
      simp [List.any_cons, hd2]

/-- The dirty flags after the boxes of all layers have been tested. -/
theorem DirtyLayers_fold (DirtyAreas : List FBox) (Ls : List FNavMeshTileData) :
    ∀ (DL : List Bool),
      (Ls.foldl
          (fun DirtyLayers LayerData =>
            DirtyAreas.foldl
              (fun DirtyLayers DirtyBox =>
                if DirtyBox.Intersect LayerData.LayerBBox then
                  FRecastTileGenerator.MarkLayerDirty DirtyLayers LayerData.LayerIndex
                else DirtyLayers) DirtyLayers) DL).length = DL.length
      ∧ ∀ j, (Ls.foldl
          (fun DirtyLayers LayerData =>
            DirtyAreas.foldl
              (fun DirtyLayers DirtyBox =>
                if DirtyBox.Intersect LayerData.LayerBBox then
                  FRecastTileGenerator.MarkLayerDirty DirtyLayers LayerData.LayerIndex
                else DirtyLayers) DirtyLayers) DL).getD j false
        = (DL.getD j false
            || Ls.any (fun L =>
                DirtyAreas.any (fun DirtyBox => DirtyBox.Intersect L.LayerBBox)
                  && (decide (0 ≤ L.LayerIndex) && decide (L.LayerIndex.toNat = j)
                      && decide (j < DL.length)))) := by
  induction Ls with
  | nil => intro DL; simp
  | cons L rest ih =>
    intro DL
    rw [List.foldl_cons]
    obtain ⟨a1, a2⟩ := DirtyBoxes_fold L DirtyAreas DL
    obtain ⟨h1, h2⟩ := ih (DirtyAreas.foldl
      (fun DirtyLayers DirtyBox =>
        if DirtyBox.Intersect L.LayerBBox then
          FRecastTileGenerator.MarkLayerDirty DirtyLayers L.LayerIndex
        else DirtyLayers) DL)
    refine ⟨by rw [h1, a1], ?_⟩
    intro j
    rw [h2 j, a2 j, a1, List.any_cons, Bool.or_assoc]

/-- The navigation data of a successful loop: one entry for each dirty position, in
order. -/
theorem GenerateNavigationDataLoop_indices (Lib : FRecastLibrary) (g : FRecastTileGenerator) :
    ∀ (Ls : List (Nat × FNavMeshTileData)) (Acc Res : List FNavMeshTileData),
      FRecastTileGenerator.GenerateNavigationDataLoop Lib g Ls Acc = some Res →
      Res.map (fun d => d.LayerIndex)
        = Acc.map (fun d => d.LayerIndex)
          ++ (Ls.filter (fun il => g.DirtyLayers.getD il.1 false)).map (fun il => (il.1 : Int)) := by
  intro Ls
  induction Ls with
  | nil =>
    intro Acc Res h
    simp only [FRecastTileGenerator.GenerateNavigationDataLoop, Option.some.injEq] at h
    simp [h]
  | cons il rest ih =>
    intro Acc Res h
    obtain ⟨i, L⟩ := il
    rw [FRecastTileGenerator.GenerateNavigationDataLoop] at h
    by_cases hd : g.DirtyLayers.getD i false = false
    · rw [if_pos hd] at h
      rw [ih Acc Res h]
      simp only [List.filter_cons, hd, Bool.false_eq_true, if_false]
    · rw [if_neg hd] at h
      have hd2 : g.DirtyLayers.getD i false = true := by simpa using hd
      cases hb : Lib.BuildLayerMesh g i L with
      | Failed => rw [hb] at h; simp at h
      | PolyMesh npolys nverts Created =>
        rw [hb] at h
        simp only [] at h
        split_ifs at h with h1 h2
        · cases Created with
          | none => simp at h
          | some nd =>
            obtain ⟨NavData, NavDataSize⟩ := nd
            simp only [] at h
            rw [ih _ Res h]
            simp only [List.filter_cons, hd2, if_true, List.map_cons, List.map_append,
              List.map_nil, List.append_assoc, List.singleton_append]
        · rw [ih _ Res h]
          simp only [List.filter_cons, hd2, if_true, List.map_cons, List.map_append,
            List.map_nil, List.append_assoc, List.singleton_append]

end RecastNavMeshGenerator

namespace RecastNavMeshGenerator

/-- The inclusion bounds that `Setup` picks are not empty when one of the bounds of
the manager meets the tile box. -/
theorem PickedBounds_ne_nil (TileBB : FBox) (Bs : List FBox) :
    ∀ (acc : List FBox × Bool),
      (acc.1 ≠ [] ∨ ∃ b ∈ Bs, b.Intersect TileBB = true) →
      (Bs.foldl
        (fun acc Bounds =>
          if Bounds.Intersect TileBB then (acc.1 ++ [Bounds], DoesBoxContainBox Bounds TileBB)
          else acc) acc).1 ≠ [] := by
  induction Bs with
  | nil =>
    intro acc h
    rcases h with h | ⟨b, hb, _⟩
    · exact h
    · simp at hb
  | cons B rest ih =>
    intro acc h
    rw [List.foldl_cons]
    apply ih
    by_cases hB : B.Intersect TileBB = true
    · left
      rw [if_pos hB]
      simp
    · rw [if_neg hB]
      rcases h with h | ⟨b, hb, hbi⟩
      · exact Or.inl h
      · rcases List.mem_cons.1 hb with rfl | hb2
        · exact absurd hbi hB
        · exact Or.inr ⟨b, hb2, hbi⟩

/-- What `Setup` yields for an area-only request on a tile inside the navigable
bounds: the regeneration flag is off, the cached layers are taken over, and the
dirty flags are those computed from the dirty boxes. -/
theorem CreateTileGenerator_area_only (P : FRecastNavMeshGenerator) (W : UWorld)
    (Coord : FIntPoint) (DirtyAreas : List FBox)
    (hDirty : DirtyAreas ≠ [])
    (hCached : (FRecastTileGenerator.TakeIntermediateLayersData P Coord).1 ≠ [])
    (hIncl : ∃ b ∈ P.InclusionBounds,
      b.Intersect (CalculateTileBounds Coord.X Coord.Y FVector.ZeroVector P.TotalNavBounds
        (FloatRound (FloatRound (P.Config.tileSize : ℚ) * P.Config.cs))) = true) :
    (CreateTileGenerator P W Coord DirtyAreas).1.bRegenerateCompressedLayers = false
      ∧ (CreateTileGenerator P W Coord DirtyAreas).1.CompressedLayers
          = (FRecastTileGenerator.TakeIntermediateLayersData P Coord).1
      ∧ (CreateTileGenerator P W Coord DirtyAreas).1.DirtyLayers
          = (FRecastTileGenerator.TakeIntermediateLayersData P Coord).1.foldl
              (fun DirtyLayers LayerData =>
                DirtyAreas.foldl
                  (fun DirtyLayers DirtyBox =>
                    if DirtyBox.Intersect LayerData.LayerBBox then
                      FRecastTileGenerator.MarkLayerDirty DirtyLayers LayerData.LayerIndex
                    else DirtyLayers)
                  DirtyLayers)
              (List.replicate (FRecastTileGenerator.TakeIntermediateLayersData P Coord).1.length
                false) := by
  have hr : (decide (DirtyAreas.length = 0)
      || decide ((FRecastTileGenerator.TakeIntermediateLayersData P Coord).1.length = 0))
        = false := by
    simp [hDirty, hCached]
  have hlen : P.InclusionBounds.length > 0 := by
    obtain ⟨b, hb, _⟩ := hIncl
    exact List.length_pos_of_mem hb
  have hpick := PickedBounds_ne_nil
    (CalculateTileBounds Coord.X Coord.Y FVector.ZeroVector P.TotalNavBounds
      (FloatRound (FloatRound (P.Config.tileSize : ℚ) * P.Config.cs))) P.InclusionBounds ([], false) (Or.inr hIncl)
  have hpick2 : (P.InclusionBounds.foldl
        (fun acc Bounds =>
          if Bounds.Intersect (CalculateTileBounds Coord.X Coord.Y FVector.ZeroVector
              P.TotalNavBounds (FloatRound (FloatRound (P.Config.tileSize : ℚ) * P.Config.cs))) then
            (acc.1 ++ [Bounds], DoesBoxContainBox Bounds
              (CalculateTileBounds Coord.X Coord.Y FVector.ZeroVector P.TotalNavBounds
                (FloatRound (FloatRound (P.Config.tileSize : ℚ) * P.Config.cs))))
          else acc) ([], false)).1.length ≠ 0 := by
    intro h0
    exact hpick (List.eq_nil_of_length_eq_zero h0)
  unfold CreateTileGenerator FRecastTileGenerator.Setup FRecastTileGenerator.Construct
  dsimp only
  rw [if_pos hlen, if_pos hpick2, hr]
  simp only [Bool.not_false, if_true, GatherGeometry_bRegenerateCompressedLayers,
    GatherGeometry_CompressedLayers, GatherGeometry_DirtyLayers, and_self]

end RecastNavMeshGenerator

namespace RecastNavMeshGenerator

/-- With layer indices equal to positions, the dirty flag of a position tells whether
the bounding box of the layer at that position meets a dirty box. -/
theorem DirtyLayers_of_wellformed (DirtyAreas : List FBox) (Ls : List FNavMeshTileData)
    (hWell : Ls.map (fun L => L.LayerIndex)
      = (List.range Ls.length).map (fun (i : Nat) => (i : Int)))
    (i : Nat) (L : FNavMeshTileData) (hi : Ls[i]? = some L) :
    L.LayerIndex = (i : Int)
      ∧ (Ls.foldl
          (fun DirtyLayers LayerData =>
            DirtyAreas.foldl
              (fun DirtyLayers DirtyBox =>
                if DirtyBox.Intersect LayerData.LayerBBox then
                  FRecastTileGenerator.MarkLayerDirty DirtyLayers LayerData.LayerIndex
                else DirtyLayers) DirtyLayers)
          (List.replicate Ls.length false)).getD i false
        = DirtyAreas.any (fun DirtyBox => DirtyBox.Intersect L.LayerBBox) := by
  have hpt : ∀ (k : Nat) (M : FNavMeshTileData), Ls[k]? = some M → M.LayerIndex = (k : Int) := by
    intro k M hk
    have hkl : k < Ls.length := (List.getElem?_eq_some_iff.1 hk).1
    have h := congrArg (fun l => l[k]?) hWell
    simp only [List.getElem?_map, hk, Option.map_some', List.getElem?_range hkl] at h
    exact Option.some.inj h
  have hil : i < Ls.length := (List.getElem?_eq_some_iff.1 hi).1
  refine ⟨hpt i L hi, ?_⟩
  rw [(DirtyLayers_fold DirtyAreas Ls (List.replicate Ls.length false)).2 i]
  have h0 : (List.replicate Ls.length false).getD i false = false := by
    simp [List.getD_eq_getElem?_getD, List.getElem?_replicate, hil]
  rw [h0, Bool.false_or]
  cases hany : DirtyAreas.any (fun DirtyBox => DirtyBox.Intersect L.LayerBBox) with
  | true =>
    rw [List.any_eq_true]
    refine ⟨L, List.getElem?_mem hi, ?_⟩
    rw [hany, hpt i L hi]
    simp [hil]
  | false =>
    rw [← Bool.not_eq_true, List.any_eq_true]
    rintro ⟨M, hM, hcond⟩
    obtain ⟨k, hk⟩ := List.getElem?_of_mem hM
    have hMk := hpt k M hk
    simp only [Bool.and_eq_true, decide_eq_true_eq, hMk, Int.toNat_ofNat] at hcond
    obtain ⟨hd, ⟨_, hki⟩, _⟩ := hcond
    subst hki
    rw [hk] at hi
    have := Option.some.inj hi
    subst this
    rw [hany] at hd
    exact Bool.noConfusion hd

/-- Claim C20 (area-only rebuild skips phase A), amended: for every tile generator set
up with a non-empty dirty-box list and non-empty cached compressed layers whose
layer indices are their positions, on a tile that meets at least one inclusion
bound: bRegenerateCompressedLayers is false, GenerateTile leaves the compressed
layers equal to the cached ones, and, when GenerateTile succeeds, the navigation
data has exactly one entry for each layer whose bounding box meets at least one
dirty box, in layer order, and none for the other layers. -/
theorem AreaOnlyRebuild_reuses_compressed_layers (Lib : FRecastLibrary)
    (P : FRecastNavMeshGenerator) (W : UWorld) (Coord : FIntPoint) (DirtyAreas : List FBox)
    (hDirty : DirtyAreas ≠ [])
    (hCached : (FRecastTileGenerator.TakeIntermediateLayersData P Coord).1 ≠ [])
    (hWell : (FRecastTileGenerator.TakeIntermediateLayersData P Coord).1.map (fun L => L.LayerIndex)
      = (List.range (FRecastTileGenerator.TakeIntermediateLayersData P Coord).1.length).map
          (fun (i : Nat) => (i : Int)))
    (hIncl : ∃ b ∈ P.InclusionBounds,
      b.Intersect (CalculateTileBounds Coord.X Coord.Y FVector.ZeroVector P.TotalNavBounds
        (FloatRound (FloatRound (P.Config.tileSize : ℚ) * P.Config.cs))) = true) :
    (CreateTileGenerator P W Coord DirtyAreas).1.bRegenerateCompressedLayers = false
      ∧ ((CreateTileGenerator P W Coord DirtyAreas).1.GenerateTile Lib).2.CompressedLayers
          = (FRecastTileGenerator.TakeIntermediateLayersData P Coord).1
      ∧ (((CreateTileGenerator P W Coord DirtyAreas).1.GenerateTile Lib).1 = true →
          ((CreateTileGenerator P W Coord DirtyAreas).1.GenerateTile Lib).2.NavigationData.map
              (fun d => d.LayerIndex)
            = ((FRecastTileGenerator.TakeIntermediateLayersData P Coord).1.filter
                (fun L => DirtyAreas.any (fun DirtyBox => DirtyBox.Intersect L.LayerBBox))).map
                (fun L => L.LayerIndex)) := by
  obtain ⟨hreg, hlayers, hflags⟩ := CreateTileGenerator_area_only P W Coord DirtyAreas
    hDirty hCached hIncl
  generalize (CreateTileGenerator P W Coord DirtyAreas).1 = g at hreg hlayers hflags
  generalize (FRecastTileGenerator.TakeIntermediateLayersData P Coord).1 = Cached
    at hlayers hflags hWell
  have hgen : g.GenerateTile Lib = g.GenerateNavigationData Lib := by
    unfold FRecastTileGenerator.GenerateTile
    simp [hreg]
  rw [hgen]
  unfold FRecastTileGenerator.GenerateNavigationData
  refine ⟨hreg, ?_, ?_⟩
  · cases FRecastTileGenerator.GenerateNavigationDataLoop Lib g g.CompressedLayers.enum [] <;>
      exact hlayers
  · cases hloop : FRecastTileGenerator.GenerateNavigationDataLoop Lib g g.CompressedLayers.enum []
      with
    | none => intro h; exact absurd h (by simp)
    | some Res =>
      intro _
      have h1 := GenerateNavigationDataLoop_indices Lib g _ _ _ hloop
      simp only [List.map_nil, List.nil_append] at h1
      simp only []
      rw [h1, hlayers, hflags]
      have hmem : ∀ il ∈ Cached.enum,
          (il.2.LayerIndex = (il.1 : Int))
            ∧ (Cached.foldl
                (fun DirtyLayers LayerData =>
                  DirtyAreas.foldl
                    (fun DirtyLayers DirtyBox =>
                      if DirtyBox.Intersect LayerData.LayerBBox then
                        FRecastTileGenerator.MarkLayerDirty DirtyLayers LayerData.LayerIndex
                      else DirtyLayers) DirtyLayers)
                (List.replicate Cached.length false)).getD il.1 false
              = DirtyAreas.any (fun DirtyBox => DirtyBox.Intersect il.2.LayerBBox) := by
        intro il hil
        exact DirtyLayers_of_wellformed DirtyAreas Cached hWell il.1 il.2
          (List.mem_enum_iff_getElem?.1 hil)
      rw [List.filter_congr (fun il hil => (hmem il hil).2)]
      have hmap : ∀ il ∈ Cached.enum.filter
            (fun il => DirtyAreas.any (fun DirtyBox => DirtyBox.Intersect il.2.LayerBBox)),
          ((il.1 : Int)) = ((fun L : FNavMeshTileData => L.LayerIndex) ∘ Prod.snd) il := by
        intro il hil
        exact ((hmem il (List.mem_of_mem_filter hil)).1).symm
      rw [List.map_congr_left hmap, ← List.map_map]
      have hf := List.filter_map (p := fun L : FNavMeshTileData =>
        DirtyAreas.any (fun DirtyBox => DirtyBox.Intersect L.LayerBBox)) Prod.snd Cached.enum
      rw [List.enum_map_snd] at hf
      rw [hf]
      rfl

end RecastNavMeshGenerator

namespace RecastNavMeshGenerator

/-! ## Bytes -/

theorem Int32ToBytes_length (v : Int) : (Int32ToBytes v).length = 4 := rfl

theorem BytesToInt32_Int32ToBytes (v : Int) (h1 : -2147483648 ≤ v) (h2 : v < 2147483648) :
    BytesToInt32 (Int32ToBytes v) = v := by
  unfold BytesToInt32 Int32ToBytes
  simp only [List.getD_cons_zero, List.getD_cons_succ]
  have hu : (((v % 4294967296).toNat : Nat) : Int) = v % 4294967296 :=
    Int.toNat_of_nonneg (Int.emod_nonneg _ (by norm_num))
  generalize (v % 4294967296).toNat = u at hu
  split_ifs with hlt
  · push_cast
    omega
  · push_cast
    omega

theorem ReadBytes_append (pre xs post : List Nat) :
    ReadBytes (pre ++ xs ++ post) pre.length xs.length = xs := by
  unfold ReadBytes
  rw [List.append_assoc, List.drop_left, List.take_left]

theorem ReadBytes_head (xs post : List Nat) :
    ReadBytes (xs ++ post) 0 xs.length = xs := by
  unfold ReadBytes
  rw [List.drop_zero, List.take_left]

theorem Memcpy_exact (Source : List Nat) : Memcpy Source Source.length = Source := by
  unfold Memcpy
  simp

end RecastNavMeshGenerator

namespace RecastNavMeshGenerator

/-! ## The voxel cache -/

/-- One `AddVoxelCache` call on a buffer that holds a count prefix and some records:
the count goes up by one and the new record is appended. -/
theorem AddVoxelCache_step (Layout : FCacheLayout) (Call : FRecastTileGenerator × List Nat × Int)
    (k : Int) (B : List Nat) (hk0 : 0 ≤ k) (hk : k + 1 < 2147483648)
    (hv : ValidVoxelCall Layout Call) :
    Call.1.AddVoxelCache Layout (Int32ToBytes k ++ B) Call.2.1 Call.2.2
      = Int32ToBytes (k + 1) ++ B
          ++ (Layout.WriteTileInfo Call.1.TileX Call.1.TileY Call.2.2 ++ Call.2.1) := by
  obtain ⟨_, _, _, _, hs⟩ := hv
  unfold FRecastTileGenerator.AddVoxelCache
  have hne : ¬ (Int32ToBytes k ++ B).length = 0 := by
    rw [List.length_append, Int32ToBytes_length]; omega
  have hread : ReadBytes (Int32ToBytes k ++ B) 0 4 = Int32ToBytes k :=
    ReadBytes_head (Int32ToBytes k) B
  have hdrop : (Int32ToBytes k ++ B).drop 4 = B := List.drop_left' (Int32ToBytes_length k)
  have hsz : ((Layout.SizeofSpanCache : Int) * Call.2.2).toNat = Call.2.1.length := by
    rw [← hs]; exact Int.toNat_ofNat _
  simp only [if_neg hne, hread, hdrop, hsz, Memcpy_exact,
    BytesToInt32_Int32ToBytes k (by omega) (by omega), List.append_assoc]

/-- The first `AddVoxelCache` call on an empty buffer. -/
theorem AddVoxelCache_first (Layout : FCacheLayout) (Call : FRecastTileGenerator × List Nat × Int)
    (hv : ValidVoxelCall Layout Call) :
    Call.1.AddVoxelCache Layout [] Call.2.1 Call.2.2
      = Int32ToBytes 1
          ++ (Layout.WriteTileInfo Call.1.TileX Call.1.TileY Call.2.2 ++ Call.2.1) := by
  have h := AddVoxelCache_step Layout Call 0 [] (le_refl _) (by norm_num) hv
  simp only [List.append_nil, zero_add] at h
  rw [← h]
  unfold FRecastTileGenerator.AddVoxelCache
  rfl

/-- A sequence of `AddVoxelCache` calls on a buffer that holds a count prefix and some
records. -/
theorem AddVoxelCaches_records (Layout : FCacheLayout) :
    ∀ (Calls : List (FRecastTileGenerator × List Nat × Int)) (k : Int) (B : List Nat),
      0 ≤ k → k + (Calls.length : Int) < 2147483648 →
      (∀ Call ∈ Calls, ValidVoxelCall Layout Call) →
      AddVoxelCaches Layout (Int32ToBytes k ++ B) Calls
        = Int32ToBytes (k + (Calls.length : Int)) ++ B ++ VoxelCacheRecords Layout Calls := by
  intro Calls
  induction Calls with
  | nil => intro k B _ _ _; simp [AddVoxelCaches, VoxelCacheRecords]
  | cons Call rest ih =>
    intro k B hk0 hk hv
    have hlen : ((Call :: rest).length : Int) = (rest.length : Int) + 1 := by
      simp
    rw [hlen] at hk
    have h1 := AddVoxelCache_step Layout Call k B hk0 (by omega) (hv Call (List.mem_cons_self _ _))
    have h2 := ih (k + 1)
      (B ++ (Layout.WriteTileInfo Call.1.TileX Call.1.TileY Call.2.2 ++ Call.2.1))
      (by omega) (by omega) (fun c hc => hv c (List.mem_cons_of_mem _ hc))
    unfold AddVoxelCaches at h2 ⊢
    rw [List.foldl_cons, h1, List.append_assoc (Int32ToBytes (k + 1)), h2, hlen]
    have hk2 : k + 1 + (rest.length : Int) = k + ((rest.length : Int) + 1) := by ring
    rw [hk2]
    simp [VoxelCacheRecords, List.flatMap_cons, List.append_assoc]

/-- A sequence of `AddVoxelCache` calls on the empty buffer: the count prefix followed
by the records. -/
theorem AddVoxelCaches_empty (Layout : FCacheLayout)
    (Calls : List (FRecastTileGenerator × List Nat × Int)) (hne : Calls ≠ [])
    (hCount : (Calls.length : Int) < 2147483648)
    (hv : ∀ Call ∈ Calls, ValidVoxelCall Layout Call) :
    AddVoxelCaches Layout [] Calls
      = Int32ToBytes (Calls.length : Int) ++ VoxelCacheRecords Layout Calls := by
  cases Calls with
  | nil => exact absurd rfl hne
  | cons Call rest =>
    have hlen : ((Call :: rest).length : Int) = (rest.length : Int) + 1 := by
      simp
    rw [hlen] at hCount
    have h1 := AddVoxelCache_first Layout Call (hv Call (List.mem_cons_self _ _))
    have h2 := AddVoxelCaches_records Layout rest 1
      (Layout.WriteTileInfo Call.1.TileX Call.1.TileY Call.2.2 ++ Call.2.1)
      (by norm_num) (by omega) (fun c hc => hv c (List.mem_cons_of_mem _ hc))
    unfold AddVoxelCaches at h2 ⊢
    rw [List.foldl_cons, h1, h2, hlen]
    have hk2 : (1 : Int) + (rest.length : Int) = (rest.length : Int) + 1 := by ring
    rw [hk2]
    simp [VoxelCacheRecords, List.flatMap_cons, List.append_assoc]

/-- The constructor of `FRecastVoxelCache` links the records of the calls: each record
reads back the tile coordinate, the span count and the span bytes of its call. -/
theorem LinkTiles_records (Layout : FCacheLayout) (Memory : List Nat) :
    ∀ (Calls : List (FRecastTileGenerator × List Nat × Int)) (pre post : List Nat),
      Memory = pre ++ VoxelCacheRecords Layout Calls ++ post →
      (∀ Call ∈ Calls, ValidVoxelCall Layout Call) →
      (FRecastVoxelCache.LinkTiles Layout Memory Calls.length pre.length).map
          (fun t => (t.TileX, t.TileY, t.NumSpans, SpanBytes Layout Memory t))
        = Calls.map (fun Call => (Call.1.TileX, Call.1.TileY, Call.2.2, Call.2.1)) := by
  intro Calls
  induction Calls with
  | nil => intro pre post _ _; simp [FRecastVoxelCache.LinkTiles]
  | cons Call rest ih =>
    intro pre post hM hv
    obtain ⟨hW, hX, hY, hN, hS⟩ := hv Call (List.mem_cons_self _ _)
    have hsz : ((Layout.SizeofSpanCache : Int) * Call.2.2).toNat = Call.2.1.length := by
      rw [← hS]; exact Int.toNat_ofNat _
    have hM1 : Memory = pre ++ Layout.WriteTileInfo Call.1.TileX Call.1.TileY Call.2.2
        ++ (Call.2.1 ++ VoxelCacheRecords Layout rest ++ post) := by
      rw [hM]; simp [VoxelCacheRecords, List.flatMap_cons, List.append_assoc]
    have hM2 : Memory = (pre ++ Layout.WriteTileInfo Call.1.TileX Call.1.TileY Call.2.2)
        ++ Call.2.1 ++ (VoxelCacheRecords Layout rest ++ post) := by
      rw [hM]; simp [VoxelCacheRecords, List.flatMap_cons, List.append_assoc]
    have hM3 : Memory = (pre ++ Layout.WriteTileInfo Call.1.TileX Call.1.TileY Call.2.2
        ++ Call.2.1) ++ VoxelCacheRecords Layout rest ++ post := by
      rw [hM]; simp [VoxelCacheRecords, List.flatMap_cons, List.append_assoc]
    have hread : ReadBytes Memory pre.length Layout.SizeofTileInfo
        = Layout.WriteTileInfo Call.1.TileX Call.1.TileY Call.2.2 := by
      rw [← hW]
      conv_lhs => rw [hM1]
      exact ReadBytes_append _ _ _
    have hspans : ReadBytes Memory (pre.length + Layout.SizeofTileInfo) Call.2.1.length
        = Call.2.1 := by
      have := ReadBytes_append (pre ++ Layout.WriteTileInfo Call.1.TileX Call.1.TileY Call.2.2)
        Call.2.1 (VoxelCacheRecords Layout rest ++ post)
      rw [← hM2, List.length_append, hW] at this
      exact this
    have hrest := ih (pre ++ Layout.WriteTileInfo Call.1.TileX Call.1.TileY Call.2.2 ++ Call.2.1)
      post hM3 (fun c hc => hv c (List.mem_cons_of_mem _ hc))
    simp only [List.length_append, hW] at hrest
    simp only [List.length_cons, FRecastVoxelCache.LinkTiles, hread, hX, hY, hN]
    by_cases hn : Call.2.2 = 0
    · have hnil : Call.2.1 = [] := by
        apply List.eq_nil_of_length_eq_zero
        rw [hn] at hS
        simpa using hS
      rw [if_neg (by simpa using hn)]
      rw [hnil] at hrest
      simp only [List.length_nil, Nat.add_zero] at hrest
      simp only [List.map_cons]
      rw [hrest, hnil]
      simp only [SpanBytes]
    · rw [if_pos hn]
      simp only [List.map_cons]
      rw [hsz, hrest]
      simp only [SpanBytes, hsz, hspans]

end RecastNavMeshGenerator

namespace RecastNavMeshGenerator

theorem HasVoxelCache_eq_map (Layout : FCacheLayout) (g : FRecastTileGenerator)
    (RawVoxelCache : List Nat) :
    g.HasVoxelCache Layout RawVoxelCache
      = ((FRecastVoxelCache.Construct Layout (GetData RawVoxelCache)).Tiles.find?
          (fun iTile => iTile.TileX == g.TileX && iTile.TileY == g.TileY)).map
          (fun iTile => (SpanBytes Layout RawVoxelCache iTile, iTile.NumSpans)) := by
  unfold FRecastTileGenerator.HasVoxelCache
  dsimp only
  cases (FRecastVoxelCache.Construct Layout (GetData RawVoxelCache)).Tiles.find?
    (fun iTile => iTile.TileX == g.TileX && iTile.TileY == g.TileY) <;> rfl

/-- The cache that the constructor of `FRecastVoxelCache` reads from the buffer built
by a sequence of calls: the count of the calls, and records that read back the
calls. -/
theorem Construct_AddVoxelCaches (Layout : FCacheLayout)
    (Calls : List (FRecastTileGenerator × List Nat × Int))
    (hCount : (Calls.length : Int) < 2147483648)
    (hValid : ∀ Call ∈ Calls, ValidVoxelCall Layout Call) :
    (FRecastVoxelCache.Construct Layout (GetData (AddVoxelCaches Layout [] Calls))).NumTiles
        = (Calls.length : Int)
      ∧ (FRecastVoxelCache.Construct Layout (GetData (AddVoxelCaches Layout [] Calls))).Tiles.map
          (fun t => (t.TileX, t.TileY, t.NumSpans,
            SpanBytes Layout (AddVoxelCaches Layout [] Calls) t))
        = Calls.map (fun Call => (Call.1.TileX, Call.1.TileY, Call.2.2, Call.2.1)) := by
  by_cases hne : Calls = []
  · subst hne
    simp [AddVoxelCaches, GetData, FRecastVoxelCache.Construct]
  · have hbuf := AddVoxelCaches_empty Layout Calls hne hCount hValid
    have hlen : ¬ (AddVoxelCaches Layout [] Calls).length = 0 := by
      rw [hbuf, List.length_append, Int32ToBytes_length]; omega
    have hread : ReadBytes (AddVoxelCaches Layout [] Calls) 0 4
        = Int32ToBytes (Calls.length : Int) := by
      rw [hbuf]
      exact ReadBytes_head (Int32ToBytes (Calls.length : Int)) _
    have hnum : BytesToInt32 (ReadBytes (AddVoxelCaches Layout [] Calls) 0 4)
        = (Calls.length : Int) := by
      rw [hread]
      exact BytesToInt32_Int32ToBytes _ (by omega) hCount
    have hlink := LinkTiles_records Layout (AddVoxelCaches Layout [] Calls) Calls
      (Int32ToBytes (Calls.length : Int)) [] (by rw [hbuf]; simp) hValid
    rw [Int32ToBytes_length] at hlink
    unfold GetData FRecastVoxelCache.Construct
    rw [if_neg hlen]
    simp only [hnum, Int.toNat_ofNat]
    exact ⟨trivial, hlink⟩

/-- Looking a tile up in the buffer built by a sequence of calls finds the first call
stored for its coordinate. -/
theorem HasVoxelCache_AddVoxelCaches (Layout : FCacheLayout)
    (Calls : List (FRecastTileGenerator × List Nat × Int))
    (hCount : (Calls.length : Int) < 2147483648)
    (hValid : ∀ Call ∈ Calls, ValidVoxelCall Layout Call) (g : FRecastTileGenerator) :
    g.HasVoxelCache Layout (AddVoxelCaches Layout [] Calls)
      = (Calls.find? (fun Call => Call.1.TileX == g.TileX && Call.1.TileY == g.TileY)).map
          (fun Call => (Call.2.1, Call.2.2)) := by
  obtain ⟨_, htiles⟩ := Construct_AddVoxelCaches Layout Calls hCount hValid
  rw [HasVoxelCache_eq_map]
  have h1 := List.find?_map (p := fun a : Int × Int × Int × List Nat =>
      a.1 == g.TileX && a.2.1 == g.TileY)
    (fun t : FTileInfo => (t.TileX, t.TileY, t.NumSpans,
      SpanBytes Layout (AddVoxelCaches Layout [] Calls) t))
    (FRecastVoxelCache.Construct Layout (GetData (AddVoxelCaches Layout [] Calls))).Tiles
  have h2 := List.find?_map (p := fun a : Int × Int × Int × List Nat =>
      a.1 == g.TileX && a.2.1 == g.TileY)
    (fun Call : FRecastTileGenerator × List Nat × Int =>
      (Call.1.TileX, Call.1.TileY, Call.2.2, Call.2.1)) Calls
  rw [htiles, h2] at h1
  have h3 := congrArg (Option.map (fun a : Int × Int × Int × List Nat => (a.2.2.2, a.2.2.1))) h1
  simp only [Option.map_map] at h3
  exact h3.symm

/-- Claim C14 (voxel cache round trip): for every byte buffer built from the empty
buffer by a sequence of AddVoxelCache calls that the layout represents (fewer than
2^31 of them), the count that the cache reads from the prefix is the number of
calls; HasVoxelCache for a tile returns true exactly when some call stored its
coordinate and then yields the span data and span count of the first call stored for
it; and storing a further tile does not change the result of looking up a tile
stored earlier. -/
theorem VoxelCache_round_trip (Layout : FCacheLayout)
    (Calls : List (FRecastTileGenerator × List Nat × Int))
    (hCount : (Calls.length : Int) < 2147483648)
    (hValid : ∀ Call ∈ Calls, ValidVoxelCall Layout Call) :
    (FRecastVoxelCache.Construct Layout (GetData (AddVoxelCaches Layout [] Calls))).NumTiles
        = (Calls.length : Int)
      ∧ (∀ g : FRecastTileGenerator,
          g.HasVoxelCache Layout (AddVoxelCaches Layout [] Calls)
            = (Calls.find? (fun Call => Call.1.TileX == g.TileX && Call.1.TileY == g.TileY)).map
                (fun Call => (Call.2.1, Call.2.2)))
      ∧ (∀ (g : FRecastTileGenerator) (Further : FRecastTileGenerator × List Nat × Int),
          ValidVoxelCall Layout Further → (Calls.length : Int) + 1 < 2147483648 →
          (g.HasVoxelCache Layout (AddVoxelCaches Layout [] Calls)).isSome = true →
          g.HasVoxelCache Layout
              (Further.1.AddVoxelCache Layout (AddVoxelCaches Layout [] Calls)
                Further.2.1 Further.2.2)
            = g.HasVoxelCache Layout (AddVoxelCaches Layout [] Calls)) := by
  refine ⟨(Construct_AddVoxelCaches Layout Calls hCount hValid).1,
    HasVoxelCache_AddVoxelCaches Layout Calls hCount hValid, ?_⟩
  intro g Further hF hC hsome
  have happ : Further.1.AddVoxelCache Layout (AddVoxelCaches Layout [] Calls)
      Further.2.1 Further.2.2 = AddVoxelCaches Layout [] (Calls ++ [Further]) := by
    simp [AddVoxelCaches, List.foldl_append]
  have hValid2 : ∀ Call ∈ Calls ++ [Further], ValidVoxelCall Layout Call := by
    intro c hc
    rcases List.mem_append.1 hc with h | h
    · exact hValid c h
    · rw [List.mem_singleton.1 h]; exact hF
  have hCount2 : ((Calls ++ [Further]).length : Int) < 2147483648 := by
    simp only [List.length_append, List.length_singleton, Nat.cast_add, Nat.cast_one]
    exact hC
  rw [happ, HasVoxelCache_AddVoxelCaches Layout _ hCount2 hValid2 g,
    HasVoxelCache_AddVoxelCaches Layout Calls hCount hValid g]
  rw [HasVoxelCache_AddVoxelCaches Layout Calls hCount hValid g] at hsome
  rw [List.find?_append]
  cases hf : Calls.find? (fun Call => Call.1.TileX == g.TileX && Call.1.TileY == g.TileY) with
  | none => rw [hf] at hsome; simp at hsome
  | some c => rfl

end RecastNavMeshGenerator

namespace RecastNavMeshGenerator

/-! ## The collision cache -/

theorem flatMap_length_fixed {α : Type} (f : α → List Nat) (w : Nat) :
    ∀ (l : List α), (∀ x ∈ l, (f x).length = w) → (l.flatMap f).length = w * l.length := by
  intro l
  induction l with
  | nil => intro _; simp
  | cons a rest ih =>
    intro h
    rw [List.flatMap_cons, List.length_append, h a (List.mem_cons_self _ _),
      ih (fun x hx => h x (List.mem_cons_of_mem _ hx)), List.length_cons]
    ring

theorem flatMap_take_fixed {α : Type} (f : α → List Nat) (w : Nat) :
    ∀ (l : List α) (k : Nat), (∀ x ∈ l, (f x).length = w) →
      (l.flatMap f).take (w * k) = (l.take k).flatMap f := by
  intro l
  induction l with
  | nil => intro k _; simp
  | cons a rest ih =>
    intro k h
    cases k with
    | zero => simp
    | succ k =>
      have ha := h a (List.mem_cons_self _ _)
      rw [List.flatMap_cons, List.take_succ_cons, List.flatMap_cons, List.take_append_eq_append_take,
        ha]
      have h1 : w * (k + 1) - w = w * k := by
        rw [Nat.mul_succ]; omega
      have h2 : (f a).take (w * (k + 1)) = f a := by
        apply List.take_of_length_le
        rw [ha, Nat.mul_succ]; omega
      rw [h1, h2, ih k (fun x hx => h x (List.mem_cons_of_mem _ hx))]

/-- Copying whole elements of a fixed width: `Memcpy` of `w * k` bytes of the bytes of
a list with at least `k` elements gives the bytes of its first `k` elements. -/
theorem Memcpy_flatMap {α : Type} (f : α → List Nat) (w : Nat) (l : List α) (k : Nat)
    (h : ∀ x ∈ l, (f x).length = w) (hk : k ≤ l.length) :
    Memcpy (l.flatMap f) (w * k) = (l.take k).flatMap f := by
  unfold Memcpy
  rw [flatMap_take_fixed f w l k h, flatMap_length_fixed f w l h]
  have : w * k - w * l.length = 0 := Nat.sub_eq_zero_of_le (Nat.mul_le_mul_left w hk)
  rw [this]
  simp

theorem ReadFloats_flatMap (Layout : FCacheLayout) (Memory : List Nat) :
    ∀ (vs : List ℚ) (pre post : List Nat),
      Memory = pre ++ vs.flatMap Layout.FloatToBytes ++ post →
      (∀ v ∈ vs, (Layout.FloatToBytes v).length = 4
        ∧ Layout.BytesToFloat (Layout.FloatToBytes v) = v) →
      ReadFloats Layout Memory pre.length vs.length = vs := by
  intro vs
  induction vs with
  | nil => intro pre post _ _; rfl
  | cons v rest ih =>
    intro pre post hM h
    obtain ⟨hl, hr⟩ := h v (List.mem_cons_self _ _)
    have hM1 : Memory = pre ++ Layout.FloatToBytes v
        ++ (rest.flatMap Layout.FloatToBytes ++ post) := by
      rw [hM]; simp [List.flatMap_cons, List.append_assoc]
    have hM2 : Memory = (pre ++ Layout.FloatToBytes v)
        ++ rest.flatMap Layout.FloatToBytes ++ post := by
      rw [hM]; simp [List.flatMap_cons, List.append_assoc]
    have hread : ReadBytes Memory pre.length 4 = Layout.FloatToBytes v := by
      rw [← hl]
      conv_lhs => rw [hM1]
      exact ReadBytes_append _ _ _
    have hrest := ih (pre ++ Layout.FloatToBytes v) post hM2
      (fun x hx => h x (List.mem_cons_of_mem _ hx))
    rw [List.length_append, hl] at hrest
    rw [List.length_cons, ReadFloats, hread, hr, hrest]

theorem ReadInt32s_flatMap (Memory : List Nat) :
    ∀ (vs : List Int) (pre post : List Nat),
      Memory = pre ++ vs.flatMap Int32ToBytes ++ post →
      (∀ v ∈ vs, -2147483648 ≤ v ∧ v < 2147483648) →
      ReadInt32s Memory pre.length vs.length = vs := by
  intro vs
  induction vs with
  | nil => intro pre post _ _; rfl
  | cons v rest ih =>
    intro pre post hM h
    obtain ⟨h1, h2⟩ := h v (List.mem_cons_self _ _)
    have hM1 : Memory = pre ++ Int32ToBytes v ++ (rest.flatMap Int32ToBytes ++ post) := by
      rw [hM]; simp [List.flatMap_cons, List.append_assoc]
    have hM2 : Memory = (pre ++ Int32ToBytes v) ++ rest.flatMap Int32ToBytes ++ post := by
      rw [hM]; simp [List.flatMap_cons, List.append_assoc]
    have hread : ReadBytes Memory pre.length 4 = Int32ToBytes v := by
      conv_lhs => rw [hM1]
      exact ReadBytes_append pre (Int32ToBytes v) _
    have hrest := ih (pre ++ Int32ToBytes v) post hM2
      (fun x hx => h x (List.mem_cons_of_mem _ hx))
    rw [List.length_append, Int32ToBytes_length] at hrest
    rw [List.length_cons, ReadInt32s, hread, BytesToInt32_Int32ToBytes v h1 h2, hrest]

end RecastNavMeshGenerator

namespace RecastNavMeshGenerator

/-- The collision cache stored for an exporter with at least one vertex and one face:
the header, the bytes of the whole vertices and the bytes of the whole faces. -/
theorem StoreCollisionCache_bytes (Layout : FCacheLayout) (GeomExport : FRecastGeometryExport)
    (hEmpty : GeomExport.Data.CollisionData = [])
    (hVerts : 3 ≤ GeomExport.VertexBuffer.length) (hFaces : 3 ≤ GeomExport.IndexBuffer.length)
    (hFloat : ∀ v ∈ GeomExport.VertexBuffer, (Layout.FloatToBytes v).length = 4
      ∧ Layout.BytesToFloat (Layout.FloatToBytes v) = v) :
    (StoreCollisionCache Layout GeomExport).Data.CollisionData
      = Layout.WriteGeometryCache ((GeomExport.IndexBuffer.length / 3 : Nat) : Int)
          ((GeomExport.VertexBuffer.length / 3 : Nat) : Int) GeomExport.SlopeOverride
        ++ (GeomExport.VertexBuffer.take (3 * (GeomExport.VertexBuffer.length / 3))).flatMap
            Layout.FloatToBytes
        ++ (GeomExport.IndexBuffer.take (3 * (GeomExport.IndexBuffer.length / 3))).flatMap
            Int32ToBytes := by
  unfold StoreCollisionCache
  have hNV : ¬ (GeomExport.IndexBuffer.length / 3 = 0 ∨ GeomExport.VertexBuffer.length / 3 = 0) := by
    omega
  dsimp only
  rw [if_neg hNV]
  dsimp only
  have e1 : 4 * 3 * (GeomExport.VertexBuffer.length / 3)
      = 4 * (3 * (GeomExport.VertexBuffer.length / 3)) := by ring
  have e2 : 4 * 3 * (GeomExport.IndexBuffer.length / 3)
      = 4 * (3 * (GeomExport.IndexBuffer.length / 3)) := by ring
  rw [e1, e2, Memcpy_flatMap Layout.FloatToBytes 4 _ _ (fun v hv => (hFloat v hv).1) (by omega),
    Memcpy_flatMap Int32ToBytes 4 _ _ (fun v _ => Int32ToBytes_length v) (by omega), hEmpty]
  simp

/-- Claim C15 (geometry cache round trip): for every exporter whose vertex buffer
holds at least 3 floats and whose index buffer holds at least 3 indices, with the
layout representing its header and floats, the blob that StoreCollisionCache writes
into an empty CollisionData reads back through the FRecastGeometryCache constructor
as NumVerts = floor(VertexBuffer.Num / 3), NumFaces = floor(IndexBuffer.Num / 3),
the slope override of the exporter, Verts equal to the first 3 * NumVerts floats
and Indices equal to the first 3 * NumFaces indices of the buffers; the blob has
sizeof(FRecastGeometryCache) + 12 * NumVerts + 12 * NumFaces bytes. -/
theorem CollisionCache_round_trip (Layout : FCacheLayout) (GeomExport : FRecastGeometryExport)
    (hEmpty : GeomExport.Data.CollisionData = [])
    (hVerts : 3 ≤ GeomExport.VertexBuffer.length) (hFaces : 3 ≤ GeomExport.IndexBuffer.length)
    (hHeader :
      (Layout.WriteGeometryCache ((GeomExport.IndexBuffer.length / 3 : Nat) : Int)
          ((GeomExport.VertexBuffer.length / 3 : Nat) : Int) GeomExport.SlopeOverride).length
        = Layout.SizeofGeometryCache
      ∧ Layout.ReadNumFaces
          (Layout.WriteGeometryCache ((GeomExport.IndexBuffer.length / 3 : Nat) : Int)
            ((GeomExport.VertexBuffer.length / 3 : Nat) : Int) GeomExport.SlopeOverride)
        = ((GeomExport.IndexBuffer.length / 3 : Nat) : Int)
      ∧ Layout.ReadNumVerts
          (Layout.WriteGeometryCache ((GeomExport.IndexBuffer.length / 3 : Nat) : Int)
            ((GeomExport.VertexBuffer.length / 3 : Nat) : Int) GeomExport.SlopeOverride)
        = ((GeomExport.VertexBuffer.length / 3 : Nat) : Int)
      ∧ Layout.ReadSlopeOverride
          (Layout.WriteGeometryCache ((GeomExport.IndexBuffer.length / 3 : Nat) : Int)
            ((GeomExport.VertexBuffer.length / 3 : Nat) : Int) GeomExport.SlopeOverride)
        = GeomExport.SlopeOverride)
    (hFloat : ∀ v ∈ GeomExport.VertexBuffer, (Layout.FloatToBytes v).length = 4
      ∧ Layout.BytesToFloat (Layout.FloatToBytes v) = v)
    (hInt : ∀ i ∈ GeomExport.IndexBuffer, -2147483648 ≤ i ∧ i < 2147483648) :
    (FRecastGeometryCache.Construct Layout
        (StoreCollisionCache Layout GeomExport).Data.CollisionData).NumVerts
        = ((GeomExport.VertexBuffer.length / 3 : Nat) : Int)
      ∧ (FRecastGeometryCache.Construct Layout
          (StoreCollisionCache Layout GeomExport).Data.CollisionData).NumFaces
        = ((GeomExport.IndexBuffer.length / 3 : Nat) : Int)
      ∧ (FRecastGeometryCache.Construct Layout
          (StoreCollisionCache Layout GeomExport).Data.CollisionData).SlopeOverride
        = GeomExport.SlopeOverride
      ∧ ReadFloats Layout (StoreCollisionCache Layout GeomExport).Data.CollisionData
          (FRecastGeometryCache.Construct Layout
            (StoreCollisionCache Layout GeomExport).Data.CollisionData).Verts
          (3 * (GeomExport.VertexBuffer.length / 3))
        = GeomExport.VertexBuffer.take (3 * (GeomExport.VertexBuffer.length / 3))
      ∧ ReadInt32s (StoreCollisionCache Layout GeomExport).Data.CollisionData
          (FRecastGeometryCache.Construct Layout
            (StoreCollisionCache Layout GeomExport).Data.CollisionData).Indices
          (3 * (GeomExport.IndexBuffer.length / 3))
        = GeomExport.IndexBuffer.take (3 * (GeomExport.IndexBuffer.length / 3))
      ∧ (StoreCollisionCache Layout GeomExport).Data.CollisionData.length
        = Layout.SizeofGeometryCache + 12 * (GeomExport.VertexBuffer.length / 3)
          + 12 * (GeomExport.IndexBuffer.length / 3) := by
  obtain ⟨hW, hF, hV, hS⟩ := hHeader
  have hbytes := StoreCollisionCache_bytes Layout GeomExport hEmpty hVerts hFaces hFloat
  have hVtake : (GeomExport.VertexBuffer.take (3 * (GeomExport.VertexBuffer.length / 3))).length
      = 3 * (GeomExport.VertexBuffer.length / 3) := by
    rw [List.length_take]; omega
  have hItake : (GeomExport.IndexBuffer.take (3 * (GeomExport.IndexBuffer.length / 3))).length
      = 3 * (GeomExport.IndexBuffer.length / 3) := by
    rw [List.length_take]; omega
  have hVlen : ((GeomExport.VertexBuffer.take
      (3 * (GeomExport.VertexBuffer.length / 3))).flatMap Layout.FloatToBytes).length
        = 4 * (3 * (GeomExport.VertexBuffer.length / 3)) := by
    rw [flatMap_length_fixed Layout.FloatToBytes 4 _
      (fun v hv => (hFloat v (List.mem_of_mem_take hv)).1), hVtake]
  have hIlen : ((GeomExport.IndexBuffer.take
      (3 * (GeomExport.IndexBuffer.length / 3))).flatMap Int32ToBytes).length
        = 4 * (3 * (GeomExport.IndexBuffer.length / 3)) := by
    rw [flatMap_length_fixed Int32ToBytes 4 _ (fun v _ => Int32ToBytes_length v), hItake]
  generalize (StoreCollisionCache Layout GeomExport).Data.CollisionData = Blob at hbytes ⊢
  have hhead : ReadBytes Blob 0 Layout.SizeofGeometryCache
      = Layout.WriteGeometryCache ((GeomExport.IndexBuffer.length / 3 : Nat) : Int)
          ((GeomExport.VertexBuffer.length / 3 : Nat) : Int) GeomExport.SlopeOverride := by
    rw [hbytes, ← hW, List.append_assoc]
    exact ReadBytes_head _ _
  have hoff : (4 * ((GeomExport.VertexBuffer.length / 3 : Nat) : Int) * 3).toNat
      = 4 * (3 * (GeomExport.VertexBuffer.length / 3)) := by
    omega
  unfold FRecastGeometryCache.Construct
  simp only [hhead, hF, hV, hS, hoff, true_and]
  refine ⟨?_, ?_, ?_⟩
  · have := ReadFloats_flatMap Layout Blob
      (GeomExport.VertexBuffer.take (3 * (GeomExport.VertexBuffer.length / 3)))
      (Layout.WriteGeometryCache ((GeomExport.IndexBuffer.length / 3 : Nat) : Int)
        ((GeomExport.VertexBuffer.length / 3 : Nat) : Int) GeomExport.SlopeOverride)
      ((GeomExport.IndexBuffer.take (3 * (GeomExport.IndexBuffer.length / 3))).flatMap
        Int32ToBytes)
      hbytes (fun v hv => hFloat v (List.mem_of_mem_take hv))
    rw [hW, hVtake] at this
    exact this
  · have := ReadInt32s_flatMap Blob
      (GeomExport.IndexBuffer.take (3 * (GeomExport.IndexBuffer.length / 3)))
      (Layout.WriteGeometryCache ((GeomExport.IndexBuffer.length / 3 : Nat) : Int)
          ((GeomExport.VertexBuffer.length / 3 : Nat) : Int) GeomExport.SlopeOverride
        ++ (GeomExport.VertexBuffer.take (3 * (GeomExport.VertexBuffer.length / 3))).flatMap
            Layout.FloatToBytes)
      [] (by rw [hbytes]; simp) (fun v hv => hInt v (List.mem_of_mem_take hv))
    rw [List.length_append, hW, hVlen, hItake] at this
    exact this
  · rw [hbytes, List.length_append, List.length_append, hW, hVlen, hIlen]
    omega

end RecastNavMeshGenerator

namespace RecastNavMeshGenerator

/-! ## The geometry exporter -/

/-- Claim C16 (degenerate shapes are a no-op): ExportCustomMesh with NumVerts <= 0 or
NumIndices <= 0, ExportVertexSoup with an empty soup, and the PhysX exporters
(convex mesh, triangle mesh, height field) given a null mesh each return the vertex
buffer, the index buffer and the accumulated bounds as they were; StoreCollisionCache
with zero faces or zero vertices leaves the collision cache empty. -/
theorem DegenerateShape_exports_nothing (Layout : FCacheLayout) (InVertices : List FVector)
    (NumVerts : Int) (InIndices : List Int) (NumIndices : Int) (LocalToWorld : FTransform)
    (B : FExportBuffers) (GeomExport : FRecastGeometryExport)
    (hCustom : NumVerts ≤ 0 ∨ NumIndices ≤ 0)
    (hStore : GeomExport.IndexBuffer.length / 3 = 0 ∨ GeomExport.VertexBuffer.length / 3 = 0) :
    ExportCustomMesh InVertices NumVerts InIndices NumIndices LocalToWorld B = B
      ∧ ExportVertexSoup [] B = B
      ∧ ExportPxConvexMesh none LocalToWorld B = B
      ∧ ExportPxTriMesh none LocalToWorld B = B
      ∧ ExportPxHeightField none LocalToWorld B = B
      ∧ (StoreCollisionCache Layout GeomExport).Data.CollisionData = [] := by
  refine ⟨?_, rfl, rfl, rfl, rfl, ?_⟩
  · unfold ExportCustomMesh
    rw [if_pos hCustom]
  · unfold StoreCollisionCache
    dsimp only
    rw [if_pos hStore]

theorem foldl_AddVertex {α : Type} (f g : α → FVector) :
    ∀ (l : List α) (B : FExportBuffers),
      (l.foldl (fun B a => B.AddVertex (f a) (g a)) B).VertexBuffer
          = B.VertexBuffer ++ l.flatMap (fun a => [(f a).X, (f a).Y, (f a).Z])
        ∧ (l.foldl (fun B a => B.AddVertex (f a) (g a)) B).IndexBuffer = B.IndexBuffer := by
  intro l
  induction l with
  | nil => intro B; simp
  | cons a rest ih =>
    intro B
    rw [List.foldl_cons]
    obtain ⟨h1, h2⟩ := ih (B.AddVertex (f a) (g a))
    rw [h1, h2]
    simp [FExportBuffers.AddVertex, List.flatMap_cons]

theorem foldl_AddTriangle {α : Type} (f0 f1 f2 : α → Int) :
    ∀ (l : List α) (B : FExportBuffers),
      (l.foldl (fun B a => B.AddTriangle (f0 a) (f1 a) (f2 a)) B).IndexBuffer
          = B.IndexBuffer ++ l.flatMap (fun a => [f0 a, f1 a, f2 a])
        ∧ (l.foldl (fun B a => B.AddTriangle (f0 a) (f1 a) (f2 a)) B).VertexBuffer
          = B.VertexBuffer := by
  intro l
  induction l with
  | nil => intro B; simp
  | cons a rest ih =>
    intro B
    rw [List.foldl_cons]
    obtain ⟨h1, h2⟩ := ih (B.AddTriangle (f0 a) (f1 a) (f2 a))
    rw [h1, h2]
    simp [FExportBuffers.AddTriangle, List.flatMap_cons]

theorem ReadAt_natCast {α : Type} (Array : List α) (i : Nat) (Default : α) :
    ReadAt Array (i : Int) Default = Array.getD i Default := by
  unfold ReadAt
  rw [if_neg (by omega), Int.toNat_ofNat]

theorem Int32Wrap_of_range (v : Int) (h1 : -2147483648 ≤ v) (h2 : v < 2147483648) :
    Int32Wrap v = v := by
  unfold Int32Wrap
  omega

/-- Claim C17 (custom-mesh export and winding): for every input with NumVerts > 0 and
NumIndices = 3 * NumTris > 0, on a vertex buffer of whole vertices, ExportCustomMesh
appends exactly the NumVerts transformed vertices and NumIndices indices; with off
the vertex count before the call, output triangle k is
(in[3k] + off, in[3k+1] + off, in[3k+2] + off) when the determinant of the transform
is >= 0 and the reversed triple when it is negative, each sum being the int32 sum
the code stores, which is the exact sum whenever that fits an int32; and when every
input index is in [0, NumVerts) and the length of the vertex buffer after the call
fits an int32, as the length of every TArray does, every appended index is the
exact sum and addresses three floats among the appended ones. -/
theorem ExportCustomMesh_appends (InVertices : List FVector) (NumVerts : Nat)
    (InIndices : List Int) (NumTris : Nat) (LocalToWorld : FTransform) (B : FExportBuffers)
    (hVerts : 0 < NumVerts) (hTris : 0 < NumTris)
    (hWhole : B.VertexBuffer.length % 3 = 0) :
    (ExportCustomMesh InVertices (NumVerts : Int) InIndices ((3 * NumTris : Nat) : Int)
        LocalToWorld B).VertexBuffer
        = B.VertexBuffer ++ (List.range NumVerts).flatMap (fun i =>
            [(LocalToWorld.TransformPosition (InVertices.getD i FVector.ZeroVector)).X,
              (LocalToWorld.TransformPosition (InVertices.getD i FVector.ZeroVector)).Y,
              (LocalToWorld.TransformPosition (InVertices.getD i FVector.ZeroVector)).Z])
      ∧ (ExportCustomMesh InVertices (NumVerts : Int) InIndices ((3 * NumTris : Nat) : Int)
          LocalToWorld B).VertexBuffer.length = B.VertexBuffer.length + 3 * NumVerts
      ∧ (ExportCustomMesh InVertices (NumVerts : Int) InIndices ((3 * NumTris : Nat) : Int)
          LocalToWorld B).IndexBuffer
        = B.IndexBuffer ++ (List.range NumTris).flatMap (fun k =>
            if 0 ≤ LocalToWorld.Determinant then
              [Int32Wrap (InIndices.getD (3 * k) 0 + ((B.VertexBuffer.length / 3 : Nat) : Int)),
                Int32Wrap
                  (InIndices.getD (3 * k + 1) 0 + ((B.VertexBuffer.length / 3 : Nat) : Int)),
                Int32Wrap
                  (InIndices.getD (3 * k + 2) 0 + ((B.VertexBuffer.length / 3 : Nat) : Int))]
            else
              [Int32Wrap
                  (InIndices.getD (3 * k + 2) 0 + ((B.VertexBuffer.length / 3 : Nat) : Int)),
                Int32Wrap
                  (InIndices.getD (3 * k + 1) 0 + ((B.VertexBuffer.length / 3 : Nat) : Int)),
                Int32Wrap (InIndices.getD (3 * k) 0 + ((B.VertexBuffer.length / 3 : Nat) : Int))])
      ∧ (ExportCustomMesh InVertices (NumVerts : Int) InIndices ((3 * NumTris : Nat) : Int)
          LocalToWorld B).IndexBuffer.length = B.IndexBuffer.length + 3 * NumTris
      ∧ ((∀ i, i < 3 * NumTris →
            -2147483648 ≤ InIndices.getD i 0 + ((B.VertexBuffer.length / 3 : Nat) : Int)
              ∧ InIndices.getD i 0 + ((B.VertexBuffer.length / 3 : Nat) : Int) < 2147483648) →
          (ExportCustomMesh InVertices (NumVerts : Int) InIndices ((3 * NumTris : Nat) : Int)
              LocalToWorld B).IndexBuffer
            = B.IndexBuffer ++ (List.range NumTris).flatMap (fun k =>
                if 0 ≤ LocalToWorld.Determinant then
                  [InIndices.getD (3 * k) 0 + ((B.VertexBuffer.length / 3 : Nat) : Int),
                    InIndices.getD (3 * k + 1) 0 + ((B.VertexBuffer.length / 3 : Nat) : Int),
                    InIndices.getD (3 * k + 2) 0 + ((B.VertexBuffer.length / 3 : Nat) : Int)]
                else
                  [InIndices.getD (3 * k + 2) 0 + ((B.VertexBuffer.length / 3 : Nat) : Int),
                    InIndices.getD (3 * k + 1) 0 + ((B.VertexBuffer.length / 3 : Nat) : Int),
                    InIndices.getD (3 * k) 0 + ((B.VertexBuffer.length / 3 : Nat) : Int)]))
      ∧ ((∀ i, i < 3 * NumTris → 0 ≤ InIndices.getD i 0 ∧ InIndices.getD i 0 < (NumVerts : Int)) →
          ((B.VertexBuffer.length + 3 * NumVerts : Nat) : Int) ≤ 2147483647 →
          ∀ x ∈ (ExportCustomMesh InVertices (NumVerts : Int) InIndices ((3 * NumTris : Nat) : Int)
              LocalToWorld B).IndexBuffer.drop B.IndexBuffer.length,
            (B.VertexBuffer.length : Int) ≤ 3 * x
              ∧ 3 * x + 3 ≤ ((ExportCustomMesh InVertices (NumVerts : Int) InIndices
                  ((3 * NumTris : Nat) : Int) LocalToWorld B).VertexBuffer.length : Int)) := by
  have hV : (ExportCustomMesh InVertices (NumVerts : Int) InIndices ((3 * NumTris : Nat) : Int)
        LocalToWorld B).VertexBuffer
      = B.VertexBuffer ++ (List.range NumVerts).flatMap (fun i =>
          [(LocalToWorld.TransformPosition (InVertices.getD i FVector.ZeroVector)).X,
            (LocalToWorld.TransformPosition (InVertices.getD i FVector.ZeroVector)).Y,
            (LocalToWorld.TransformPosition (InVertices.getD i FVector.ZeroVector)).Z]) := by
    unfold ExportCustomMesh
    rw [if_neg (by omega)]
    dsimp only
    rw [(foldl_AddTriangle _ _ _ _ _).2]
    have h := (foldl_AddVertex
      (fun i : Int => LocalToWorld.TransformPosition (ReadAt InVertices i FVector.ZeroVector))
      (fun i : Int => LocalToWorld.TransformPosition (ReadAt InVertices i FVector.ZeroVector))
      (loopRange 0 ((NumVerts : Int) - 1)) B).1
    rw [h]
    congr 1
    unfold loopRange
    have hn : ((NumVerts : Int) - 1 + 1 - 0).toNat = NumVerts := by omega
    rw [hn, List.flatMap_map]
    apply List.flatMap_congr
    intro i _
    simp only [Function.comp, zero_add, ReadAt_natCast]
  have hI : (ExportCustomMesh InVertices (NumVerts : Int) InIndices ((3 * NumTris : Nat) : Int)
        LocalToWorld B).IndexBuffer
      = B.IndexBuffer ++ (List.range NumTris).flatMap (fun k =>
          if 0 ≤ LocalToWorld.Determinant then
            [Int32Wrap (InIndices.getD (3 * k) 0 + ((B.VertexBuffer.length / 3 : Nat) : Int)),
              Int32Wrap (InIndices.getD (3 * k + 1) 0 + ((B.VertexBuffer.length / 3 : Nat) : Int)),
              Int32Wrap (InIndices.getD (3 * k + 2) 0 + ((B.VertexBuffer.length / 3 : Nat) : Int))]
          else
            [Int32Wrap (InIndices.getD (3 * k + 2) 0 + ((B.VertexBuffer.length / 3 : Nat) : Int)),
              Int32Wrap (InIndices.getD (3 * k + 1) 0 + ((B.VertexBuffer.length / 3 : Nat) : Int)),
              Int32Wrap (InIndices.getD (3 * k) 0 + ((B.VertexBuffer.length / 3 : Nat) : Int))]) := by
    unfold ExportCustomMesh
    rw [if_neg (by omega)]
    dsimp only
    rw [(foldl_AddTriangle _ _ _ _ _).1, (foldl_AddVertex _ _ _ _).2]
    have hn : ((((3 * NumTris : Nat) : Int) + 2) / 3).toNat = NumTris := by omega
    rw [hn]
    congr 1
    apply List.flatMap_congr
    intro k _
    have e0 : (3 * (k : Int) + 0) = ((3 * k : Nat) : Int) := by push_cast; ring
    have e1 : (3 * (k : Int) + 1) = ((3 * k + 1 : Nat) : Int) := by push_cast; ring
    have e2 : (3 * (k : Int) + 2) = ((3 * k + 2 : Nat) : Int) := by push_cast; ring
    by_cases hdet : LocalToWorld.Determinant < 0
    · have hd : decide (LocalToWorld.Determinant < 0) = true := by simpa using hdet
      simp only [hd, if_true, if_neg (not_le.2 hdet), e0, e1, e2, ReadAt_natCast]
    · have hd : decide (LocalToWorld.Determinant < 0) = false := by simpa using hdet
      simp only [hd, Bool.false_eq_true, if_false, if_pos (not_lt.1 hdet), e0, e1, e2,
        ReadAt_natCast]
  have hVl : (ExportCustomMesh InVertices (NumVerts : Int) InIndices ((3 * NumTris : Nat) : Int)
        LocalToWorld B).VertexBuffer.length = B.VertexBuffer.length + 3 * NumVerts := by
    rw [hV, List.length_append]
    congr 1
    have : ∀ n : Nat, ((List.range n).flatMap (fun i =>
        [(LocalToWorld.TransformPosition (InVertices.getD i FVector.ZeroVector)).X,
          (LocalToWorld.TransformPosition (InVertices.getD i FVector.ZeroVector)).Y,
          (LocalToWorld.TransformPosition (InVertices.getD i FVector.ZeroVector)).Z])).length
        = 3 * n := by
      intro n
      induction n with
      | zero => simp
      | succ n ih =>
        rw [List.range_succ, List.flatMap_append, List.length_append, ih]
        simp
        omega
    exact this NumVerts
  have hIl : (ExportCustomMesh InVertices (NumVerts : Int) InIndices ((3 * NumTris : Nat) : Int)
        LocalToWorld B).IndexBuffer.length = B.IndexBuffer.length + 3 * NumTris := by
    rw [hI, List.length_append]
    congr 1
    have : ∀ (f : Nat → List Int), (∀ k, (f k).length = 3) →
        ∀ n : Nat, ((List.range n).flatMap f).length = 3 * n := by
      intro f hf n
      induction n with
      | zero => simp
      | succ n ih =>
        rw [List.range_succ, List.flatMap_append, List.length_append, ih]
        simp [hf]
        omega
    apply this
    intro k
    split_ifs <;> rfl
  have hExact : (∀ i, i < 3 * NumTris →
        -2147483648 ≤ InIndices.getD i 0 + ((B.VertexBuffer.length / 3 : Nat) : Int)
          ∧ InIndices.getD i 0 + ((B.VertexBuffer.length / 3 : Nat) : Int) < 2147483648) →
      (ExportCustomMesh InVertices (NumVerts : Int) InIndices ((3 * NumTris : Nat) : Int)
          LocalToWorld B).IndexBuffer
        = B.IndexBuffer ++ (List.range NumTris).flatMap (fun k =>
            if 0 ≤ LocalToWorld.Determinant then
              [InIndices.getD (3 * k) 0 + ((B.VertexBuffer.length / 3 : Nat) : Int),
                InIndices.getD (3 * k + 1) 0 + ((B.VertexBuffer.length / 3 : Nat) : Int),
                InIndices.getD (3 * k + 2) 0 + ((B.VertexBuffer.length / 3 : Nat) : Int)]
            else
              [InIndices.getD (3 * k + 2) 0 + ((B.VertexBuffer.length / 3 : Nat) : Int),
                InIndices.getD (3 * k + 1) 0 + ((B.VertexBuffer.length / 3 : Nat) : Int),
                InIndices.getD (3 * k) 0 + ((B.VertexBuffer.length / 3 : Nat) : Int)]) := by
    intro hFit
    rw [hI]
    refine congrArg (fun l => B.IndexBuffer ++ l) ?_
    apply List.flatMap_congr
    intro k hk
    have hkn : k < NumTris := List.mem_range.1 hk
    have f0 := hFit (3 * k) (by omega)
    have f1 := hFit (3 * k + 1) (by omega)
    have f2 := hFit (3 * k + 2) (by omega)
    rw [Int32Wrap_of_range _ f0.1 f0.2, Int32Wrap_of_range _ f1.1 f1.2,
      Int32Wrap_of_range _ f2.1 f2.2]
  refine ⟨hV, hVl, hI, hIl, hExact, ?_⟩
  intro hIn hLen x hx
  have hdiv : (((B.VertexBuffer.length / 3 : Nat) : Int)) * 3 = (B.VertexBuffer.length : Int) := by
    have := Nat.div_add_mod B.VertexBuffer.length 3
    omega
  have hFit : ∀ i, i < 3 * NumTris →
      -2147483648 ≤ InIndices.getD i 0 + ((B.VertexBuffer.length / 3 : Nat) : Int)
        ∧ InIndices.getD i 0 + ((B.VertexBuffer.length / 3 : Nat) : Int) < 2147483648 := by
    intro i hi
    have := hIn i hi
    push_cast at hLen
    constructor <;> omega
  rw [hVl]
  rw [hExact hFit, List.drop_left] at hx
  rw [List.mem_flatMap] at hx
  obtain ⟨k, hk, hxk⟩ := hx
  have hkn : k < NumTris := List.mem_range.1 hk
  have h0 := hIn (3 * k) (by omega)
  have h1 := hIn (3 * k + 1) (by omega)
  have h2 := hIn (3 * k + 2) (by omega)
  split_ifs at hxk <;>
    · simp only [List.mem_cons, List.mem_singleton, List.not_mem_nil, or_false] at hxk
      rcases hxk with rfl | rfl | rfl <;> constructor <;> push_cast <;> omega

end RecastNavMeshGenerator

namespace RecastNavMeshGenerator

/-! ## Off-mesh links -/

theorem LinkInfo_congr (s1 s2 : FOffMeshData) (DefaultWalkableArea : Option Nat)
    (LocalToWorld : FTransform) (Link : FNavigationLink)
    (hMap : s1.AreaClassToIdMap = s2.AreaClassToIdMap) (hFlags : s1.FlagsPerArea = s2.FlagsPerArea) :
    s1.LinkInfo DefaultWalkableArea LocalToWorld Link
      = s2.LinkInfo DefaultWalkableArea LocalToWorld Link := by
  unfold FOffMeshData.LinkInfo
  rw [hMap, hFlags]

theorem SegmentLinkInfo_congr (s1 s2 : FOffMeshData) (LocalToWorld : FTransform)
    (Link : FNavigationSegmentLink)
    (hMap : s1.AreaClassToIdMap = s2.AreaClassToIdMap) (hFlags : s1.FlagsPerArea = s2.FlagsPerArea) :
    s1.SegmentLinkInfo LocalToWorld Link = s2.SegmentLinkInfo LocalToWorld Link := by
  unfold FOffMeshData.SegmentLinkInfo
  rw [hMap, hFlags]

/-- What `AddLinks` appends: the parameters of the links that the agent mask
supports, in order. -/
theorem AddLinks_LinkParams (DefaultWalkableArea : Option Nat) (LocalToWorld : FTransform)
    (AgentMask : Nat) :
    ∀ (Links : List FNavigationLink) (self : FOffMeshData),
      (self.AddLinks DefaultWalkableArea Links LocalToWorld AgentMask).LinkParams
          = self.LinkParams
            ++ (Links.filter (fun Link => decide (Link.SupportedAgentsBits &&& AgentMask ≠ 0))).map
                (self.LinkInfo DefaultWalkableArea LocalToWorld)
        ∧ (self.AddLinks DefaultWalkableArea Links LocalToWorld AgentMask).AreaClassToIdMap
          = self.AreaClassToIdMap
        ∧ (self.AddLinks DefaultWalkableArea Links LocalToWorld AgentMask).FlagsPerArea
          = self.FlagsPerArea := by
  intro Links
  induction Links with
  | nil => intro self; simp [FOffMeshData.AddLinks]
  | cons Link rest ih =>
    intro self
    unfold FOffMeshData.AddLinks
    rw [List.foldl_cons]
    by_cases h : Link.SupportedAgentsBits &&& AgentMask = 0
    · rw [if_pos h]
      have := ih self
      unfold FOffMeshData.AddLinks at this
      rw [List.filter_cons]
      simp only [h, ne_eq, not_true_eq_false, decide_False, Bool.false_eq_true, if_false]
      simpa using this
    · rw [if_neg h]
      have := ih { self with
        LinkParams := self.LinkParams ++ [self.LinkInfo DefaultWalkableArea LocalToWorld Link] }
      unfold FOffMeshData.AddLinks at this
      obtain ⟨h1, h2, h3⟩ := this
      refine ⟨?_, h2, h3⟩
      rw [h1, List.filter_cons]
      simp only [h, ne_eq, not_false_eq_true, decide_True, if_true, List.map_cons,
        List.append_assoc, List.singleton_append]
      congr 2

/-- What `AddSegmentLinks` appends: the parameters of the segment links that the agent
mask supports, in order. -/
theorem AddSegmentLinks_LinkParams (LocalToWorld : FTransform) (AgentMask : Nat) :
    ∀ (Links : List FNavigationSegmentLink) (self : FOffMeshData),
      (self.AddSegmentLinks Links LocalToWorld AgentMask).LinkParams
          = self.LinkParams
            ++ (Links.filter (fun Link => decide (Link.SupportedAgentsBits &&& AgentMask ≠ 0))).map
                (self.SegmentLinkInfo LocalToWorld)
        ∧ (self.AddSegmentLinks Links LocalToWorld AgentMask).AreaClassToIdMap
          = self.AreaClassToIdMap
        ∧ (self.AddSegmentLinks Links LocalToWorld AgentMask).FlagsPerArea
          = self.FlagsPerArea := by
  intro Links
  induction Links with
  | nil => intro self; simp [FOffMeshData.AddSegmentLinks]
  | cons Link rest ih =>
    intro self
    unfold FOffMeshData.AddSegmentLinks
    rw [List.foldl_cons]
    by_cases h : Link.SupportedAgentsBits &&& AgentMask = 0
    · rw [if_pos h]
      have := ih self
      unfold FOffMeshData.AddSegmentLinks at this
      rw [List.filter_cons]
      simp only [h, ne_eq, not_true_eq_false, decide_False, Bool.false_eq_true, if_false]
      simpa using this
    · rw [if_neg h]
      have := ih { self with
        LinkParams := self.LinkParams ++ [self.SegmentLinkInfo LocalToWorld Link] }
      unfold FOffMeshData.AddSegmentLinks at this
      obtain ⟨h1, h2, h3⟩ := this
      refine ⟨?_, h2, h3⟩
      rw [h1, List.filter_cons]
      simp only [h, ne_eq, not_false_eq_true, decide_True, if_true, List.map_cons,
        List.append_assoc, List.singleton_append]
      congr 2

/-- The entry of a link: its user identifier, and a zero area and zero polygon flags
when its area class is not in the map. -/
theorem LinkInfo_unresolved (self : FOffMeshData) (DefaultWalkableArea : Option Nat)
    (LocalToWorld : FTransform) (Link : FNavigationLink) :
    (self.LinkInfo DefaultWalkableArea LocalToWorld Link).userID = Link.UserId
      ∧ (TMapFind self.AreaClassToIdMap
            (if Link.AreaClass ≠ none then Link.AreaClass else DefaultWalkableArea) = none →
          (self.LinkInfo DefaultWalkableArea LocalToWorld Link).area = 0
            ∧ (self.LinkInfo DefaultWalkableArea LocalToWorld Link).polyFlag = 0) := by
  unfold FOffMeshData.LinkInfo
  constructor
  · dsimp only
    split <;> rfl
  · intro h
    dsimp only
    rw [h]
    exact ⟨rfl, rfl⟩

theorem SegmentLinkInfo_unresolved (self : FOffMeshData) (LocalToWorld : FTransform)
    (Link : FNavigationSegmentLink) :
    (self.SegmentLinkInfo LocalToWorld Link).userID = Link.UserId
      ∧ (TMapFind self.AreaClassToIdMap Link.AreaClass = none →
          (self.SegmentLinkInfo LocalToWorld Link).area = 0
            ∧ (self.SegmentLinkInfo LocalToWorld Link).polyFlag = 0) := by
  unfold FOffMeshData.SegmentLinkInfo
  constructor
  · dsimp only
    split <;> rfl
  · intro h
    dsimp only
    rw [h]
    exact ⟨rfl, rfl⟩

/-- Claim C18 (unresolved off-mesh link area), amended: for every list of links and
of segment links, AddLinks and AddSegmentLinks add to LinkParams exactly one entry
for every link that the agent mask supports, in order, and none for the others; the
entry carries the user identifier of its link, and when the area class of the link
is absent from the area-class-to-ID map the entry is still added, with area 0 and
polygon flags 0. -/
theorem OffMeshLinks_one_entry_per_supported_link (self : FOffMeshData)
    (DefaultWalkableArea : Option Nat) (Links : List FNavigationLink)
    (SegmentLinks : List FNavigationSegmentLink) (LocalToWorld : FTransform) (AgentMask : Nat) :
    (∃ Added,
        (self.AddLinks DefaultWalkableArea Links LocalToWorld AgentMask).LinkParams
            = self.LinkParams ++ Added
          ∧ Added.length
            = (Links.filter
                (fun Link => decide (Link.SupportedAgentsBits &&& AgentMask ≠ 0))).length
          ∧ List.Forall₂
              (fun (Link : FNavigationLink) (Info : dtOffMeshLinkCreateParams) =>
                Info.userID = Link.UserId
                  ∧ (TMapFind self.AreaClassToIdMap
                        (if Link.AreaClass ≠ none then Link.AreaClass else DefaultWalkableArea)
                      = none → Info.area = 0 ∧ Info.polyFlag = 0))
              (Links.filter (fun Link => decide (Link.SupportedAgentsBits &&& AgentMask ≠ 0)))
              Added)
      ∧ (∃ Added,
          (self.AddSegmentLinks SegmentLinks LocalToWorld AgentMask).LinkParams
              = self.LinkParams ++ Added
            ∧ Added.length
              = (SegmentLinks.filter
                  (fun Link => decide (Link.SupportedAgentsBits &&& AgentMask ≠ 0))).length
            ∧ List.Forall₂
                (fun (Link : FNavigationSegmentLink) (Info : dtOffMeshLinkCreateParams) =>
                  Info.userID = Link.UserId
                    ∧ (TMapFind self.AreaClassToIdMap Link.AreaClass = none →
                        Info.area = 0 ∧ Info.polyFlag = 0))
                (SegmentLinks.filter
                  (fun Link => decide (Link.SupportedAgentsBits &&& AgentMask ≠ 0)))
                Added) := by
  constructor
  · refine ⟨_, (AddLinks_LinkParams DefaultWalkableArea LocalToWorld AgentMask Links self).1,
      List.length_map _ _, ?_⟩
    rw [List.forall₂_map_right_iff, List.forall₂_same]
    intro Link _
    exact LinkInfo_unresolved self DefaultWalkableArea LocalToWorld Link
  · refine ⟨_, (AddSegmentLinks_LinkParams LocalToWorld AgentMask SegmentLinks self).1,
      List.length_map _ _, ?_⟩
    rw [List.forall₂_map_right_iff, List.forall₂_same]
    intro Link _
    exact SegmentLinkInfo_unresolved self LocalToWorld Link

end RecastNavMeshGenerator

namespace RecastNavMeshGenerator

/-! ## Dynamic areas -/

theorem MarkCells_get (Cells : Nat → Bool) (layer : dtTileCacheLayer) (areaId Cell : Nat) :
    (MarkCells Cells layer areaId).areas[Cell]?
      = layer.areas[Cell]?.map (fun v => if Cells Cell then areaId else v) := by
  unfold MarkCells
  simp only [List.getElem?_map, List.getElem?_enum, Option.map_map]
  rfl

theorem ReplaceCells_get (Cells : Nat → Bool) (layer : dtTileCacheLayer)
    (areaId filterAreaId Cell : Nat) :
    (ReplaceCells Cells layer areaId filterAreaId).areas[Cell]?
      = layer.areas[Cell]?.map
          (fun v => if Cells Cell && decide (v = filterAreaId) then areaId else v) := by
  unfold ReplaceCells
  simp only [List.getElem?_map, List.getElem?_enum, Option.map_map]
  rfl

theorem MarkCells_none (layer : dtTileCacheLayer) (areaId : Nat) :
    MarkCells (fun _ => false) layer areaId = layer := by
  unfold MarkCells
  simp [List.enum_map_snd]

theorem ReplaceCells_none (layer : dtTileCacheLayer) (areaId filterAreaId : Nat) :
    ReplaceCells (fun _ => false) layer areaId filterAreaId = layer := by
  unfold ReplaceCells
  simp [List.enum_map_snd]

/-- A call of `MarkDynamicArea` in terms of the footprint of the modifier: nothing
when the area class is not in the map, a replacement over the footprint when the
class to replace is in the map, and a marking of the footprint otherwise. -/
theorem MarkDynamicArea_eq (g : FRecastTileGenerator) (Math : FEngineMath)
    (Detour : FDetourTileCache) (Cached : FRecastNavMeshCachedData) (Modifier : FAreaNavModifier)
    (LocalToWorld : FTransform) (Layer : dtTileCacheLayer) :
    g.MarkDynamicArea Math Detour Cached Modifier LocalToWorld Layer
      = match TMapFind Cached.AreaClassToIdMap Modifier.AreaClass with
        | none => Layer
        | some AreaID =>
          match TMapFind Cached.AreaClassToIdMap Modifier.AreaClassToReplace with
          | some ReplaceID =>
            ReplaceCells (g.DynamicAreaCells Math Detour Cached Modifier LocalToWorld Layer) Layer
              (ToUChar AreaID) (ToUChar ReplaceID)
          | none =>
            MarkCells (g.DynamicAreaCells Math Detour Cached Modifier LocalToWorld Layer) Layer
              (ToUChar AreaID) := by
  unfold FRecastTileGenerator.MarkDynamicArea FRecastTileGenerator.DynamicAreaCells
  cases hA : TMapFind Cached.AreaClassToIdMap Modifier.AreaClass with
  | none => rfl
  | some AreaID =>
    dsimp only
    by_cases hI : (Recast2UnrealBox ⟨Layer.header.bmin, Layer.header.bmax, true⟩).Intersect
        (if Modifier.bIncludeAgentHeight = true then
          { LocalToWorld.TransformBox Modifier.Bounds with
            Min := { (LocalToWorld.TransformBox Modifier.Bounds).Min with
              Z := (LocalToWorld.TransformBox Modifier.Bounds).Min.Z - g.TileConfig.AgentHeight } }
        else LocalToWorld.TransformBox Modifier.Bounds) = true
    · simp only [hI, Bool.not_true, Bool.false_eq_true, if_false, Option.isNone_some,
        Bool.or_false]
      cases Modifier.ShapeType with
      | Unknown =>
        cases TMapFind Cached.AreaClassToIdMap Modifier.AreaClassToReplace <;>
          simp only [MarkCells_none, ReplaceCells_none]
      | Cylinder =>
        cases TMapFind Cached.AreaClassToIdMap Modifier.AreaClassToReplace <;> rfl
      | Box =>
        cases TMapFind Cached.AreaClassToIdMap Modifier.AreaClassToReplace <;> rfl
      | Convex =>
        dsimp only
        by_cases hV : (GrowConvexHull Math g.TileConfig.AgentRadius
            (PartialTransformConvexHull Modifier.Convex LocalToWorld).Points []).length = 0
        · simp only [hV, ne_eq, not_true_eq_false, if_false]
          cases TMapFind Cached.AreaClassToIdMap Modifier.AreaClassToReplace <;>
            simp only [MarkCells_none, ReplaceCells_none]
        · simp only [hV, ne_eq, not_false_eq_true, if_true]
          cases TMapFind Cached.AreaClassToIdMap Modifier.AreaClassToReplace <;> rfl
    · have hI2 : (Recast2UnrealBox ⟨Layer.header.bmin, Layer.header.bmax, true⟩).Intersect
          (if Modifier.bIncludeAgentHeight = true then
            { LocalToWorld.TransformBox Modifier.Bounds with
              Min := { (LocalToWorld.TransformBox Modifier.Bounds).Min with
                Z := (LocalToWorld.TransformBox Modifier.Bounds).Min.Z
                  - g.TileConfig.AgentHeight } }
          else LocalToWorld.TransformBox Modifier.Bounds) = false := by
        simpa using hI
      simp only [hI2, Bool.not_false, if_true, Bool.or_true]
      cases TMapFind Cached.AreaClassToIdMap Modifier.AreaClassToReplace <;>
        simp only [MarkCells_none, ReplaceCells_none]

/-- The footprint of a modifier depends on the cell grid of the layer, not on its
areas. -/
theorem DynamicAreaCells_congr (g : FRecastTileGenerator) (Math : FEngineMath)
    (Detour : FDetourTileCache) (Cached : FRecastNavMeshCachedData) (Modifier : FAreaNavModifier)
    (LocalToWorld : FTransform) (L1 L2 : dtTileCacheLayer) (hHeader : L1.header = L2.header)
    (hHeights : L1.heights = L2.heights) :
    g.DynamicAreaCells Math Detour Cached Modifier LocalToWorld L1
      = g.DynamicAreaCells Math Detour Cached Modifier LocalToWorld L2 := by
  unfold FRecastTileGenerator.DynamicAreaCells
  rw [hHeader, hHeights]

/-- A call of `MarkDynamicArea` keeps the cell grid of the layer. -/
theorem MarkDynamicArea_grid (g : FRecastTileGenerator) (Math : FEngineMath)
    (Detour : FDetourTileCache) (Cached : FRecastNavMeshCachedData) (Modifier : FAreaNavModifier)
    (LocalToWorld : FTransform) (Layer : dtTileCacheLayer) :
    (g.MarkDynamicArea Math Detour Cached Modifier LocalToWorld Layer).header = Layer.header
      ∧ (g.MarkDynamicArea Math Detour Cached Modifier LocalToWorld Layer).heights
        = Layer.heights := by
  rw [MarkDynamicArea_eq]
  cases TMapFind Cached.AreaClassToIdMap Modifier.AreaClass with
  | none => exact ⟨rfl, rfl⟩
  | some AreaID =>
    cases TMapFind Cached.AreaClassToIdMap Modifier.AreaClassToReplace <;> exact ⟨rfl, rfl⟩

/-- A call of `MarkDynamicArea` whose footprint does not hold a cell leaves the area
of the cell as it was. -/
theorem MarkDynamicArea_outside (g : FRecastTileGenerator) (Math : FEngineMath)
    (Detour : FDetourTileCache) (Cached : FRecastNavMeshCachedData) (Modifier : FAreaNavModifier)
    (LocalToWorld : FTransform) (Layer : dtTileCacheLayer) (Cell : Nat)
    (h : g.DynamicAreaCells Math Detour Cached Modifier LocalToWorld Layer Cell = false) :
    (g.MarkDynamicArea Math Detour Cached Modifier LocalToWorld Layer).areas[Cell]?
      = Layer.areas[Cell]? := by
  rw [MarkDynamicArea_eq]
  cases TMapFind Cached.AreaClassToIdMap Modifier.AreaClass with
  | none => rfl
  | some AreaID =>
    cases TMapFind Cached.AreaClassToIdMap Modifier.AreaClassToReplace with
    | none =>
      dsimp only
      rw [MarkCells_get, h]
      simp
    | some ReplaceID =>
      dsimp only
      rw [ReplaceCells_get, h]
      simp

/-- A replacing call of `MarkDynamicArea` on a cell of its footprint: the cell gets
the area of the modifier when it holds the area to replace, and keeps its area
otherwise. -/
theorem MarkDynamicArea_inside (g : FRecastTileGenerator) (Math : FEngineMath)
    (Detour : FDetourTileCache) (Cached : FRecastNavMeshCachedData) (Modifier : FAreaNavModifier)
    (LocalToWorld : FTransform) (Layer : dtTileCacheLayer) (Cell : Nat) (AreaID ReplaceID : Int)
    (Held : Nat)
    (hArea : TMapFind Cached.AreaClassToIdMap Modifier.AreaClass = some AreaID)
    (hReplace : TMapFind Cached.AreaClassToIdMap Modifier.AreaClassToReplace = some ReplaceID)
    (h : g.DynamicAreaCells Math Detour Cached Modifier LocalToWorld Layer Cell = true)
    (hHeld : Layer.areas[Cell]? = some Held) :
    (g.MarkDynamicArea Math Detour Cached Modifier LocalToWorld Layer).areas[Cell]?
      = some (if Held = ToUChar ReplaceID then ToUChar AreaID else Held) := by
  rw [MarkDynamicArea_eq, hArea, hReplace]
  dsimp only
  rw [ReplaceCells_get, h, hHeld]
  simp

/-- A run of calls none of whose footprints holds a cell keeps the cell grid and
the area of the cell. -/
theorem MarkingCalls_outside (g : FRecastTileGenerator) (Math : FEngineMath)
    (Detour : FDetourTileCache) (Cached : FRecastNavMeshCachedData) (Cell : Nat)
    (Grid : dtTileCacheLayer) :
    ∀ (Calls : List (FAreaNavModifier × FTransform)) (Layer : dtTileCacheLayer),
      Layer.header = Grid.header → Layer.heights = Grid.heights →
      (∀ Call ∈ Calls, g.DynamicAreaCells Math Detour Cached Call.1 Call.2 Grid Cell = false) →
      (Calls.foldl (fun L Call => g.MarkDynamicArea Math Detour Cached Call.1 Call.2 L)
          Layer).header = Grid.header
        ∧ (Calls.foldl (fun L Call => g.MarkDynamicArea Math Detour Cached Call.1 Call.2 L)
            Layer).heights = Grid.heights
        ∧ (Calls.foldl (fun L Call => g.MarkDynamicArea Math Detour Cached Call.1 Call.2 L)
            Layer).areas[Cell]? = Layer.areas[Cell]? := by
  intro Calls
  induction Calls with
  | nil => intro Layer h1 h2 _; exact ⟨h1, h2, rfl⟩
  | cons Call rest ih =>
    intro Layer h1 h2 hout
    rw [List.foldl_cons]
    have hg := MarkDynamicArea_grid g Math Detour Cached Call.1 Call.2 Layer
    have hc : g.DynamicAreaCells Math Detour Cached Call.1 Call.2 Layer Cell = false := by
      rw [DynamicAreaCells_congr g Math Detour Cached Call.1 Call.2 Layer Grid h1 h2]
      exact hout Call (List.mem_cons_self _ _)
    obtain ⟨r1, r2, r3⟩ := ih (g.MarkDynamicArea Math Detour Cached Call.1 Call.2 Layer)
      (hg.1.trans h1) (hg.2.trans h2) (fun c hc => hout c (List.mem_cons_of_mem _ hc))
    exact ⟨r1, r2, r3.trans (MarkDynamicArea_outside g Math Detour Cached Call.1 Call.2 Layer Cell hc)⟩

theorem foldl_flatMap_calls {α β γ : Type} (f : γ → β → γ) (h : α → List β) :
    ∀ (l : List α) (init : γ),
      (l.flatMap h).foldl f init = l.foldl (fun acc x => (h x).foldl f acc) init := by
  intro l
  induction l with
  | nil => intro init; rfl
  | cons a rest ih =>
    intro init
    rw [List.flatMap_cons, List.foldl_append, ih, List.foldl_cons]

/-- The layer that `MarkDynamicAreas` returns is the layer after the calls of
`MarkDynamicArea` for its sorted modifiers, in order. -/
theorem MarkDynamicAreas_eq_calls (g : FRecastTileGenerator) (Math : FEngineMath)
    (Detour : FDetourTileCache) (Cached : FRecastNavMeshCachedData)
    (AreaOf : Nat → FAreaNavModifier) (TransformOf : List ℚ → FTransform)
    (Layer : dtTileCacheLayer) :
    (g.MarkDynamicAreas Math Detour Cached AreaOf TransformOf Layer).2
        = (MarkingCalls AreaOf TransformOf
            (g.MarkDynamicAreas Math Detour Cached AreaOf TransformOf Layer).1.Modifiers).foldl
          (fun L Call => g.MarkDynamicArea Math Detour Cached Call.1 Call.2 L) Layer
      ∧ (g.MarkDynamicAreas Math Detour Cached AreaOf TransformOf Layer).1.TileConfig
        = g.TileConfig := by
  unfold FRecastTileGenerator.MarkDynamicAreas
  by_cases h0 : g.Modifiers.length = 0
  · rw [if_pos h0]
    have : g.Modifiers = [] := List.length_eq_zero.1 h0
    simp [MarkingCalls, this]
  · rw [if_neg h0]
    dsimp only
    have key : ∀ (g2 : FRecastTileGenerator), g2.TileConfig = g.TileConfig →
        g2.Modifiers.foldl
          (fun Layer Element =>
            Element.Areas.foldl
              (fun Layer Area =>
                if Element.PerInstanceTransform.length = 0 then
                  g2.MarkDynamicArea Math Detour Cached (AreaOf Area) FTransform.Identity
                    (Element.PerInstanceTransform.foldl
                      (fun Layer LocalToWorld =>
                        g2.MarkDynamicArea Math Detour Cached (AreaOf Area)
                          (TransformOf LocalToWorld) Layer)
                      Layer)
                else
                  Element.PerInstanceTransform.foldl
                    (fun Layer LocalToWorld =>
                      g2.MarkDynamicArea Math Detour Cached (AreaOf Area)
                        (TransformOf LocalToWorld) Layer)
                    Layer)
              Layer)
          Layer
        = (MarkingCalls AreaOf TransformOf g2.Modifiers).foldl
          (fun L Call => g.MarkDynamicArea Math Detour Cached Call.1 Call.2 L) Layer := by
      intro g2 hcfg
      have hM : ∀ M T L, g2.MarkDynamicArea Math Detour Cached M T L
          = g.MarkDynamicArea Math Detour Cached M T L := by
        intro M T L
        unfold FRecastTileGenerator.MarkDynamicArea
        rw [hcfg]
      unfold MarkingCalls
      rw [foldl_flatMap_calls]
      congr 1
      funext L Element
      rw [foldl_flatMap_calls]
      congr 1
      funext L2 Area
      rw [List.foldl_append, List.foldl_map]
      simp only [hM]
      split_ifs <;> rfl
    split_ifs with hs
    · cases hO : Cached.ActorOwner with
      | none => exact ⟨key g rfl, rfl⟩
      | some Owner => exact ⟨key _ rfl, rfl⟩
    · exact ⟨key g rfl, rfl⟩

end RecastNavMeshGenerator

namespace RecastNavMeshGenerator

/-- Claim C19 (overlapping replace-modifiers), amended: for every layer and every two
calls of MarkDynamicArea in the sorted modifier order whose modifiers have areas in
the map, the same area to replace, and footprints that both hold a cell, when the
cell held the replaced area and no other modifier covers it, after MarkDynamicAreas
the cell carries the area ID of the modifier that comes earlier in the sorted order;
it carries the ID of the later one only when the area of the earlier one is the
replaced area itself. -/
theorem MarkDynamicAreas_overlap_earlier_wins (g : FRecastTileGenerator) (Math : FEngineMath)
    (Detour : FDetourTileCache) (Cached : FRecastNavMeshCachedData)
    (AreaOf : Nat → FAreaNavModifier) (TransformOf : List ℚ → FTransform)
    (Layer : dtTileCacheLayer) (Pre Mid Post : List (FAreaNavModifier × FTransform))
    (Earlier Later : FAreaNavModifier × FTransform) (Cell : Nat)
    (AreaEarlier AreaLater ReplaceID : Int)
    (hCalls : MarkingCalls AreaOf TransformOf
        (g.MarkDynamicAreas Math Detour Cached AreaOf TransformOf Layer).1.Modifiers
      = Pre ++ [Earlier] ++ Mid ++ [Later] ++ Post)
    (hAreaEarlier : TMapFind Cached.AreaClassToIdMap Earlier.1.AreaClass = some AreaEarlier)
    (hAreaLater : TMapFind Cached.AreaClassToIdMap Later.1.AreaClass = some AreaLater)
    (hReplaceEarlier :
      TMapFind Cached.AreaClassToIdMap Earlier.1.AreaClassToReplace = some ReplaceID)
    (hReplaceLater : TMapFind Cached.AreaClassToIdMap Later.1.AreaClassToReplace = some ReplaceID)
    (hEarlier : g.DynamicAreaCells Math Detour Cached Earlier.1 Earlier.2 Layer Cell = true)
    (hLater : g.DynamicAreaCells Math Detour Cached Later.1 Later.2 Layer Cell = true)
    (hOthers : ∀ Call ∈ Pre ++ Mid ++ Post,
      g.DynamicAreaCells Math Detour Cached Call.1 Call.2 Layer Cell = false)
    (hHeld : Layer.areas[Cell]? = some (ToUChar ReplaceID)) :
    (g.MarkDynamicAreas Math Detour Cached AreaOf TransformOf Layer).2.areas[Cell]?
      = some (if ToUChar AreaEarlier = ToUChar ReplaceID then ToUChar AreaLater
          else ToUChar AreaEarlier) := by
  rw [(MarkDynamicAreas_eq_calls g Math Detour Cached AreaOf TransformOf Layer).1, hCalls]
  simp only [List.foldl_append, List.foldl_cons, List.foldl_nil]
  have hPre : ∀ Call ∈ Pre,
      g.DynamicAreaCells Math Detour Cached Call.1 Call.2 Layer Cell = false :=
    fun c hc => hOthers c (by simp [hc])
  have hMid : ∀ Call ∈ Mid,
      g.DynamicAreaCells Math Detour Cached Call.1 Call.2 Layer Cell = false :=
    fun c hc => hOthers c (by simp [hc])
  have hPost : ∀ Call ∈ Post,
      g.DynamicAreaCells Math Detour Cached Call.1 Call.2 Layer Cell = false :=
    fun c hc => hOthers c (by simp [hc])
  -- the layer after the calls before the earlier modifier
  obtain ⟨p1, p2, p3⟩ := MarkingCalls_outside g Math Detour Cached Cell Layer Pre Layer rfl rfl hPre
  generalize Pre.foldl (fun L Call => g.MarkDynamicArea Math Detour Cached Call.1 Call.2 L) Layer
    = L1 at p1 p2 p3 ⊢
  -- the earlier modifier
  have e3 := MarkDynamicArea_inside g Math Detour Cached Earlier.1 Earlier.2 L1 Cell AreaEarlier
    ReplaceID (ToUChar ReplaceID) hAreaEarlier hReplaceEarlier
    (by rw [DynamicAreaCells_congr g Math Detour Cached _ _ L1 Layer p1 p2]; exact hEarlier)
    (p3.trans hHeld)
  rw [if_pos rfl] at e3
  obtain ⟨e1, e2⟩ := MarkDynamicArea_grid g Math Detour Cached Earlier.1 Earlier.2 L1
  generalize g.MarkDynamicArea Math Detour Cached Earlier.1 Earlier.2 L1 = L2 at e1 e2 e3 ⊢
  -- the calls between the two
  obtain ⟨m1, m2, m3⟩ := MarkingCalls_outside g Math Detour Cached Cell Layer Mid L2
    (e1.trans p1) (e2.trans p2) hMid
  generalize Mid.foldl (fun L Call => g.MarkDynamicArea Math Detour Cached Call.1 Call.2 L) L2
    = L3 at m1 m2 m3 ⊢
  -- the later modifier
  have l3 := MarkDynamicArea_inside g Math Detour Cached Later.1 Later.2 L3 Cell AreaLater
    ReplaceID (ToUChar AreaEarlier) hAreaLater hReplaceLater
    (by rw [DynamicAreaCells_congr g Math Detour Cached _ _ L3 Layer m1 m2]; exact hLater)
    (m3.trans e3)
  obtain ⟨l1, l2⟩ := MarkDynamicArea_grid g Math Detour Cached Later.1 Later.2 L3
  generalize g.MarkDynamicArea Math Detour Cached Later.1 Later.2 L3 = L4 at l1 l2 l3 ⊢
  -- the calls after the later modifier
  obtain ⟨_, _, q3⟩ := MarkingCalls_outside g Math Detour Cached Cell Layer Post L4
    (l1.trans m1) (l2.trans m2) hPost
  rw [q3, l3]

end RecastNavMeshGenerator

namespace RecastNavMeshGenerator

/-! ## Scheduling, caches and exporters at sample inputs -/

/-- Claim C11, amended, at a sample input: a dirty mark over eight tiles, a tick and
a blocking completion on a generator that may run two tasks. -/
theorem RunningDirtyTiles_within_ceiling_witness :
    ∃ s', RunGeneratorCalls Sample.BuildingLibrary Sample.EmptyManager Sample.GeneratorCalls
          = some s'
      ∧ (s'.RunningDirtyTiles.length : Int) ≤ s'.MaxTileGeneratorTasks :=
  have h : (RunGeneratorCalls Sample.BuildingLibrary Sample.EmptyManager
      Sample.GeneratorCalls).isSome = true := by decide!
  ⟨_, (Option.some_get h).symm,
    RunningDirtyTiles_within_ceiling Sample.BuildingLibrary Sample.GeneratorCalls
      Sample.EmptyManager _ (by decide!) (Option.some_get h).symm⟩

/-- Claim C11, counterexample: the manager with a ceiling of two tasks and no
running task, in which one MarkDirtyTiles call has queued eight tiles, enters
EnsureBuildCompletion; the first pass of its loop, `ProcessTileTasks(16)` with no
task finished, does not consult the ceiling and leaves eight tasks in
RunningDirtyTiles. The call returns only when none is left. -/
theorem EnsureBuildCompletion_pass_ignores_ceiling :
    Sample.ManagerWide.MaxTileGeneratorTasks = 2
      ∧ Sample.ManagerWide.RunningDirtyTiles = []
      ∧ Sample.ManagerWide.PendingDirtyTiles.length = 8
      ∧ (ProcessTileTasks Sample.ManagerWide Sample.WideWorld Sample.BuildingLibrary
          (fun Idx => decide (Idx < 0) || false) 16).2.RunningDirtyTiles.length = 8
      ∧ (EnsureBuildCompletion Sample.ManagerWide Sample.WideWorld Sample.BuildingLibrary
          (fun _ _ => false) 40).map (fun s => s.RunningDirtyTiles.length) = some 0 := by
  decide!

/-- Claim C12 at a sample input: a budget of two on the queue of eight tiles. -/
theorem ProcessTileTasks_budget_and_order_witness :
    ∃ (Head Tail : List FPendingTileElement) (Started : List FRunningTileElement),
      Sample.ManagerWide.PendingDirtyTiles = Head ++ Tail
        ∧ (ProcessTileTasks Sample.ManagerWide Sample.WideWorld Sample.BuildingLibrary
            (fun _ => false) 2).2.PendingDirtyTiles
          = Head ++ Tail.filter
              (fun p => RunningContains Sample.ManagerWide.RunningDirtyTiles p.Coord)
        ∧ (Started.length : Int) ≤ max 2 0
        ∧ (Head = [] ∨ (2 : Int) ≤ (Started.length : Int)) :=
  let ⟨Head, Tail, Started, h1, h2, _, _, h5, h6, _⟩ :=
    ProcessTileTasks_budget_and_order Sample.ManagerWide Sample.WideWorld Sample.BuildingLibrary
      (fun _ => false) 2 (by decide!)
  ⟨Head, Tail, Started, h1, h2, h5, h6⟩

/-- Claim C14 at a sample input: three stored tiles, two of them for tile (0, 0); the
lookup of tile (0, 0) yields the first. -/
theorem VoxelCache_round_trip_witness :
    (FRecastVoxelCache.Construct Sample.CacheLayout
        (GetData (AddVoxelCaches Sample.CacheLayout [] Sample.VoxelCalls))).NumTiles = 3
      ∧ Sample.TileOrigin.HasVoxelCache Sample.CacheLayout
          (AddVoxelCaches Sample.CacheLayout [] Sample.VoxelCalls)
        = some ([1, 2, 3, 4, 5, 6, 7, 8], 2) :=
  ⟨(VoxelCache_round_trip Sample.CacheLayout Sample.VoxelCalls (by decide!) (by decide!)).1,
    ((VoxelCache_round_trip Sample.CacheLayout Sample.VoxelCalls (by decide!)
      (by decide!)).2.1 Sample.TileOrigin).trans (by decide!)⟩

/-- Claim C15 at a sample input: an exporter with ten floats and four indices stores
three vertices and one face in 80 bytes. -/
theorem CollisionCache_round_trip_witness :
    (FRecastGeometryCache.Construct Sample.CacheLayout
        (StoreCollisionCache Sample.CacheLayout Sample.Exporter).Data.CollisionData).NumVerts = 3
      ∧ (FRecastGeometryCache.Construct Sample.CacheLayout
          (StoreCollisionCache Sample.CacheLayout Sample.Exporter).Data.CollisionData).NumFaces = 1
      ∧ (StoreCollisionCache Sample.CacheLayout Sample.Exporter).Data.CollisionData.length = 80 :=
  have h := CollisionCache_round_trip Sample.CacheLayout Sample.Exporter rfl (by decide!)
    (by decide!) (by decide!) (by decide!) (by decide!)
  ⟨h.1, h.2.1, h.2.2.2.2.2⟩

/-- Claim C16 at a sample input: a custom mesh without vertices, and an exporter
without a whole vertex whose collision data held three bytes. -/
theorem DegenerateShape_exports_nothing_witness :
    ExportCustomMesh Sample.Triangle 0 [0, 1, 2] 3 Sample.Mirror Sample.Buffers = Sample.Buffers
      ∧ ExportVertexSoup [] Sample.Buffers = Sample.Buffers
      ∧ ExportPxConvexMesh none Sample.Mirror Sample.Buffers = Sample.Buffers
      ∧ ExportPxTriMesh none Sample.Mirror Sample.Buffers = Sample.Buffers
      ∧ ExportPxHeightField none Sample.Mirror Sample.Buffers = Sample.Buffers
      ∧ (StoreCollisionCache Sample.CacheLayout
          Sample.ExporterWithoutVertex).Data.CollisionData = [] :=
  DegenerateShape_exports_nothing Sample.CacheLayout Sample.Triangle 0 [0, 1, 2] 3 Sample.Mirror
    Sample.Buffers Sample.ExporterWithoutVertex (Or.inl (le_refl 0)) (Or.inr (by decide!))

/-- Claim C17 at a sample input: one triangle under a mirroring transform, appended
to buffers that hold one vertex: the indices are reversed and moved by one. -/
theorem ExportCustomMesh_appends_witness :
    (ExportCustomMesh Sample.Triangle ((3 : Nat) : Int) [0, 1, 2] ((3 * 1 : Nat) : Int)
        Sample.Mirror Sample.Buffers).IndexBuffer = [3, 2, 1]
      ∧ (ExportCustomMesh Sample.Triangle ((3 : Nat) : Int) [0, 1, 2] ((3 * 1 : Nat) : Int)
          Sample.Mirror Sample.Buffers).VertexBuffer.length = 12 :=
  have h := ExportCustomMesh_appends Sample.Triangle 3 [0, 1, 2] 1 Sample.Mirror Sample.Buffers
    (by decide) (by decide) (by decide!)
  ⟨h.2.2.1.trans (by decide!), h.2.1.trans (by decide!)⟩

/-- Claim C18, counterexample: a point link and a segment link whose area class is
not in the map, both supported by the agent mask; AddLinks and AddSegmentLinks each
add an entry for it, with area 0 and polygon flags 0. -/
theorem UnresolvedLink_is_added :
    TMapFind Sample.OffMeshData.AreaClassToIdMap Sample.JumpLink.AreaClass = none
      ∧ (Sample.OffMeshData.AddLinks (some 0) [Sample.JumpLink] FTransform.Identity
          1).LinkParams.map (fun Info => (Info.userID, Info.area, Info.polyFlag)) = [(42, 0, 0)]
      ∧ TMapFind Sample.OffMeshData.AreaClassToIdMap Sample.JumpSegment.AreaClass = none
      ∧ (Sample.OffMeshData.AddSegmentLinks [Sample.JumpSegment] FTransform.Identity
          1).LinkParams.map (fun Info => (Info.userID, Info.area, Info.polyFlag))
        = [(43, 0, 0)] := by
  decide!

/-- Claim C19, counterexample: two box modifiers that replace area 1, sorted with the
modifier of area 5 before that of area 6; cells 1 and 2 of the layer lie in both
footprints and held area 1; after MarkDynamicAreas they carry area 5, the area of
the modifier that comes earlier. -/
theorem OverlappingModifiers_keep_earlier_area :
    (Sample.MarkingGenerator.MarkDynamicAreas Sample.Math Sample.Detour Sample.CachedData
        Sample.AreaOf (fun _ => FTransform.Identity) Sample.Layer).1.Modifiers
        = [⟨[5], []⟩, ⟨[6], []⟩]
      ∧ (Sample.AreaOf 5).AreaClassToReplace = (Sample.AreaOf 6).AreaClassToReplace
      ∧ TMapFind Sample.CachedData.AreaClassToIdMap (Sample.AreaOf 5).AreaClassToReplace = some 1
      ∧ TMapFind Sample.CachedData.AreaClassToIdMap (Sample.AreaOf 5).AreaClass = some 5
      ∧ TMapFind Sample.CachedData.AreaClassToIdMap (Sample.AreaOf 6).AreaClass = some 6
      ∧ (List.range 4).map
          (Sample.MarkingGenerator.DynamicAreaCells Sample.Math Sample.Detour Sample.CachedData
            (Sample.AreaOf 5) FTransform.Identity Sample.Layer) = [true, true, true, false]
      ∧ (List.range 4).map
          (Sample.MarkingGenerator.DynamicAreaCells Sample.Math Sample.Detour Sample.CachedData
            (Sample.AreaOf 6) FTransform.Identity Sample.Layer) = [false, true, true, true]
      ∧ Sample.Layer.areas = [1, 1, 1, 1]
      ∧ (Sample.MarkingGenerator.MarkDynamicAreas Sample.Math Sample.Detour Sample.CachedData
          Sample.AreaOf (fun _ => FTransform.Identity) Sample.Layer).2.areas = [5, 5, 5, 6] := by
  decide!

/-- Claim C19, amended, at a sample input: cell 1 of the layer under the two box
modifiers. -/
theorem MarkDynamicAreas_overlap_earlier_wins_witness :
    (Sample.MarkingGenerator.MarkDynamicAreas Sample.Math Sample.Detour Sample.CachedData
        Sample.AreaOf (fun _ => FTransform.Identity) Sample.Layer).2.areas[1]? = some 5 :=
  (MarkDynamicAreas_overlap_earlier_wins Sample.MarkingGenerator Sample.Math Sample.Detour
    Sample.CachedData Sample.AreaOf (fun _ => FTransform.Identity) Sample.Layer [] [] []
    (Sample.AreaOf 5, FTransform.Identity) (Sample.AreaOf 6, FTransform.Identity) 1 5 6 1
    rfl (by decide!) (by decide!) (by decide!) (by decide!) (by decide!) (by decide!)
    (by simp) (by decide!)).trans (by decide!)

/-- Claim C20, counterexample: an area-only rebuild of tile (0, 0) whose dirty box
meets the low cached layer, with a library whose mesh building fails: GenerateTile
fails and the navigation data stays empty, although one layer meets the dirty box. -/
theorem FailedAreaOnlyRebuild_has_no_navigation_data :
    (FRecastTileGenerator.TakeIntermediateLayersData Sample.ManagerTwoLayers ⟨0, 0⟩).1.length = 2
      ∧ ((FRecastTileGenerator.TakeIntermediateLayersData Sample.ManagerTwoLayers ⟨0, 0⟩).1.filter
          (fun L => [Sample.LowDirtyBox].any (fun DirtyBox => DirtyBox.Intersect L.LayerBBox))).map
          (fun L => L.LayerIndex) = [0]
      ∧ (CreateTileGenerator Sample.ManagerTwoLayers Sample.World ⟨0, 0⟩
          [Sample.LowDirtyBox]).1.bRegenerateCompressedLayers = false
      ∧ ((CreateTileGenerator Sample.ManagerTwoLayers Sample.World ⟨0, 0⟩
          [Sample.LowDirtyBox]).1.GenerateTile Sample.FailingLibrary).1 = false
      ∧ ((CreateTileGenerator Sample.ManagerTwoLayers Sample.World ⟨0, 0⟩
          [Sample.LowDirtyBox]).1.GenerateTile Sample.FailingLibrary).2.NavigationData = [] := by
  decide!

/-- Claim C20, amended, at a sample input: the area-only rebuild of tile (0, 0) with a
library that builds every layer: the low layer alone gets navigation data. -/
theorem AreaOnlyRebuild_reuses_compressed_layers_witness :
    (CreateTileGenerator Sample.ManagerTwoLayers Sample.World ⟨0, 0⟩
        [Sample.LowDirtyBox]).1.bRegenerateCompressedLayers = false
      ∧ ((CreateTileGenerator Sample.ManagerTwoLayers Sample.World ⟨0, 0⟩
          [Sample.LowDirtyBox]).1.GenerateTile Sample.BuildingLibrary).2.CompressedLayers
        = (FRecastTileGenerator.TakeIntermediateLayersData Sample.ManagerTwoLayers ⟨0, 0⟩).1
      ∧ ((CreateTileGenerator Sample.ManagerTwoLayers Sample.World ⟨0, 0⟩
          [Sample.LowDirtyBox]).1.GenerateTile Sample.BuildingLibrary).2.NavigationData.map
          (fun d => d.LayerIndex) = [0] :=
  have h := AreaOnlyRebuild_reuses_compressed_layers Sample.BuildingLibrary Sample.ManagerTwoLayers
    Sample.World ⟨0, 0⟩ [Sample.LowDirtyBox] (by decide) (by decide!) (by decide!)
    ⟨Sample.Bounds, by decide!, by decide!⟩
  ⟨h.1, h.2.1, (h.2.2 (by decide!)).trans (by decide!)⟩

end RecastNavMeshGenerator

namespace RecastNavMeshGenerator

/-! ## Properties kept by the merge of pending elements -/

/-- A property of pending elements that the update of an existing element keeps is
kept by the merge step. -/
theorem MergeDirtyTile_forall (P : FPendingTileElement → Prop)
    (hP : ∀ E x, P E → P x → P (MergedElement E x)) :
    ∀ (D : List FPendingTileElement) (x : FPendingTileElement),
      (∀ d ∈ D, P d) → P x → ∀ r ∈ MergeDirtyTile D x, P r := by
  intro D
  induction D with
  | nil =>
    intro x _ hx r hr
    simp only [MergeDirtyTile, List.mem_singleton] at hr
    rw [hr]; exact hx
  | cons d rest ih =>
    intro x hD hx r hr
    unfold MergeDirtyTile at hr
    split_ifs at hr with hc
    · rcases List.mem_cons.1 hr with h | h
      · rw [h]; exact hP d x (hD d (List.mem_cons_self _ _)) hx
      · exact hD r (List.mem_cons_of_mem _ h)
    · rcases List.mem_cons.1 hr with h | h
      · rw [h]; exact hD d (List.mem_cons_self _ _)
      · exact ih x (fun e he => hD e (List.mem_cons_of_mem _ he)) hx r h

theorem foldl_MergeDirtyTile_forall (P : FPendingTileElement → Prop)
    (hP : ∀ E x, P E → P x → P (MergedElement E x)) :
    ∀ (X D : List FPendingTileElement),
      (∀ d ∈ D, P d) → (∀ x ∈ X, P x) → ∀ r ∈ X.foldl MergeDirtyTile D, P r := by
  intro X
  induction X with
  | nil => intro D hD _ r hr; exact hD r hr
  | cons x rest ih =>
    intro D hD hX
    rw [List.foldl_cons]
    exact ih (MergeDirtyTile D x)
      (MergeDirtyTile_forall P hP D x hD (hX x (List.mem_cons_self _ _)))
      (fun y hy => hX y (List.mem_cons_of_mem _ hy))

/-- The merged list of `MarkDirtyTiles` before it is sorted. -/
theorem MarkDirtyTiles_forall (P : FPendingTileElement → Prop)
    (hP : ∀ E x, P E → P x → P (MergedElement E x)) (self : FRecastNavMeshGenerator)
    (Areas : List FNavigationDirtyArea)
    (hNew : ∀ a ∈ Areas, ∀ x ∈ AreaElements self a, P x)
    (hOld : ∀ p ∈ self.PendingDirtyTiles, P p) :
    ∀ r ∈ self.PendingDirtyTiles.foldl MergeDirtyTile (Areas.foldl (MarkDirtyArea self) []),
      P r := by
  rw [foldl_MarkDirtyArea_eq]
  apply foldl_MergeDirtyTile_forall P hP _ _ _ hOld
  apply foldl_MergeDirtyTile_forall P hP _ _ (by simp)
  intro x hx
  obtain ⟨a, ha, hxa⟩ := List.mem_flatMap.1 hx
  exact hNew a ha x hxa

/-- The update of an existing element keeps the equivalence between a true rebuild
flag and an empty list of dirty boxes. -/
theorem MergedElement_flag_iff (E x : FPendingTileElement)
    (hE : E.bRebuildGeometry = true ↔ E.DirtyAreas = []) :
    (MergedElement E x).bRebuildGeometry = true ↔ (MergedElement E x).DirtyAreas = [] := by
  unfold MergedElement
  dsimp only
  cases hf : (E.bRebuildGeometry || x.bRebuildGeometry) with
  | true => simp
  | false =>
    simp only [Bool.false_eq_true, if_true, false_iff, List.append_eq_nil, not_and]
    intro h
    have hEf : E.bRebuildGeometry = false := by
      cases hb : E.bRebuildGeometry with
      | false => rfl
      | true => rw [hb] at hf; simp at hf
    have := hE.2 h
    rw [hEf] at this
    exact Bool.noConfusion this

theorem MarkDirtyTiles_flag_iff (self : FRecastNavMeshGenerator) (CurWorld : Option UWorld)
    (Areas : List FNavigationDirtyArea)
    (hInv : ∀ p ∈ self.PendingDirtyTiles, (p.bRebuildGeometry = true ↔ p.DirtyAreas = [])) :
    ∀ p ∈ (MarkDirtyTiles self CurWorld Areas).PendingDirtyTiles,
      (p.bRebuildGeometry = true ↔ p.DirtyAreas = []) := by
  have hfold := MarkDirtyTiles_forall
    (fun p => p.bRebuildGeometry = true ↔ p.DirtyAreas = [])
    (fun E x hE _ => MergedElement_flag_iff E x hE) self Areas
    (by
      intro a _ x hx
      obtain ⟨h1, h2⟩ := AreaElements_mem self a x hx
      rw [h1, h2]
      cases AreaRebuildsGeometry a <;> simp)
    hInv
  intro p hp
  unfold MarkDirtyTiles at hp
  dsimp only at hp
  split_ifs at hp
  · have hperm := SortPendingBuildTiles_perm
      { self with
        PendingDirtyTiles :=
          self.PendingDirtyTiles.foldl MergeDirtyTile (Areas.foldl (MarkDirtyArea self) []) }
      CurWorld
    have hmem : (p.Coord, p.bRebuildGeometry, p.DirtyAreas)
        ∈ (self.PendingDirtyTiles.foldl MergeDirtyTile (Areas.foldl (MarkDirtyArea self) [])).map
          (fun p => (p.Coord, p.bRebuildGeometry, p.DirtyAreas)) :=
      hperm.subset (List.mem_map_of_mem _ hp)
    obtain ⟨q, hq, he⟩ := List.mem_map.1 hmem
    have hqi := hfold q hq
    simp only [Prod.mk.injEq] at he
    rw [← he.2.1, ← he.2.2]
    exact hqi
  · exact hfold p hp

/-- A generator set up without dirty boxes regenerates its compressed layers. -/
theorem CreateTileGenerator_full_request (P : FRecastNavMeshGenerator) (W : UWorld)
    (Coord : FIntPoint) :
    (CreateTileGenerator P W Coord []).1.bRegenerateCompressedLayers = true := by
  unfold CreateTileGenerator FRecastTileGenerator.Setup
  dsimp only
  split_ifs <;> simp [GatherGeometry_bRegenerateCompressedLayers]

/-- Claim C28 (pending-element invariant): in every state reached from an empty queue
by MarkDirtyTiles and ProcessTileTasks calls, each element of PendingDirtyTiles has
bRebuildGeometry true if and only if its list of dirty boxes is empty; hence the tile
generator that any manager state sets up for a pending element with bRebuildGeometry
true, from its coordinate and dirty boxes, has bRegenerateCompressedLayers true. -/
theorem PendingElement_flag_iff_no_dirty_boxes (Lib : FRecastLibrary) (Calls : List FManagerCall) :
    ∀ (self : FRecastNavMeshGenerator), self.PendingDirtyTiles = [] →
      ∀ p ∈ (RunCalls Lib self Calls).PendingDirtyTiles,
        (p.bRebuildGeometry = true ↔ p.DirtyAreas = [])
          ∧ (p.bRebuildGeometry = true →
              ∀ (P : FRecastNavMeshGenerator) (W : UWorld),
                (CreateTileGenerator P W p.Coord p.DirtyAreas).1.bRegenerateCompressedLayers
                  = true) := by
  have key : ∀ (Calls : List FManagerCall) (self : FRecastNavMeshGenerator),
      (∀ p ∈ self.PendingDirtyTiles, (p.bRebuildGeometry = true ↔ p.DirtyAreas = [])) →
      ∀ p ∈ (RunCalls Lib self Calls).PendingDirtyTiles,
        (p.bRebuildGeometry = true ↔ p.DirtyAreas = []) := by
    intro Calls
    induction Calls with
    | nil => intro self h; exact h
    | cons c rest ih =>
      intro self h
      simp only [RunCalls, List.foldl_cons]
      cases c with
      | MarkDirtyTiles CurWorld DirtyAreas =>
        exact ih _ (MarkDirtyTiles_flag_iff self CurWorld DirtyAreas h)
      | ProcessTileTasks World IsDone N =>
        refine ih _ ?_
        intro p hp
        exact h p ((ProcessTileTasks_pending_sublist self World Lib IsDone N).subset hp)
  intro self hEmpty p hp
  have hiff := key Calls self (by rw [hEmpty]; simp) p hp
  refine ⟨hiff, ?_⟩
  intro hflag P W
  rw [hiff.1 hflag]
  exact CreateTileGenerator_full_request P W p.Coord

end RecastNavMeshGenerator

namespace RecastNavMeshGenerator

/-! ## The limits of `GenerateNavigationData` -/

/-- The loop fails when one of its layers is dirty and has a mesh with polygons and
`0xffff` vertices or more. -/
theorem GenerateNavigationDataLoop_vertex_limit (Lib : FRecastLibrary) (g : FRecastTileGenerator)
    (iLayer : Nat) (CompressedData : FNavMeshTileData) (npolys nverts : Int)
    (Created : Option (List Nat × Int))
    (hDirty : g.DirtyLayers.getD iLayer false = true)
    (hMesh : Lib.BuildLayerMesh g iLayer CompressedData
      = FNavLayerOutcome.PolyMesh npolys nverts Created)
    (hPoly : g.TileConfig.maxVertsPerPoly ≤ DT_VERTS_PER_POLYGON) (hPolys : npolys > 0)
    (hVerts : nverts ≥ 0xffff) :
    ∀ (Layers : List (Nat × FNavMeshTileData)) (NavigationData : List FNavMeshTileData),
      (iLayer, CompressedData) ∈ Layers →
      FRecastTileGenerator.GenerateNavigationDataLoop Lib g Layers NavigationData = none := by
  intro Layers
  induction Layers with
  | nil => intro _ h; simp at h
  | cons L rest ih =>
    intro NavigationData hmem
    obtain ⟨i, C⟩ := L
    rw [FRecastTileGenerator.GenerateNavigationDataLoop]
    rcases List.mem_cons.1 hmem with h | h
    · have hi : i = iLayer := (congrArg Prod.fst h).symm
      have hC : C = CompressedData := (congrArg Prod.snd h).symm
      subst hi
      subst hC
      rw [hDirty, hMesh]
      have hv : nverts > 0 := by
        have : (0xffff : Int) > 0 := by norm_num
        omega
      simp only [Bool.true_eq_false, if_false]
      rw [if_pos ⟨hPoly, hPolys, hv⟩, if_pos hVerts]
    · split_ifs
      · exact ih NavigationData h
      · cases Lib.BuildLayerMesh g i C with
        | Failed => rfl
        | PolyMesh np nv Cr =>
          dsimp only
          split_ifs
          · rfl
          · cases Cr with
            | none => rfl
            | some ND => exact ih _ h
          · exact ih _ h

/-- The loop succeeds when every dirty layer has a mesh with fewer than `0xffff`
vertices whose navigation data can be created, whatever its polygon count. -/
theorem GenerateNavigationDataLoop_poly_limit (Lib : FRecastLibrary) (g : FRecastTileGenerator) :
    ∀ (Layers : List (Nat × FNavMeshTileData)) (NavigationData : List FNavMeshTileData),
      (∀ L ∈ Layers, g.DirtyLayers.getD L.1 false = true →
        ∃ (npolys nverts : Int) (NavData : List Nat × Int),
          Lib.BuildLayerMesh g L.1 L.2 = FNavLayerOutcome.PolyMesh npolys nverts (some NavData)
            ∧ nverts < 0xffff) →
      (FRecastTileGenerator.GenerateNavigationDataLoop Lib g Layers NavigationData).isSome
        = true := by
  intro Layers
  induction Layers with
  | nil => intro _ _; rfl
  | cons L rest ih =>
    intro NavigationData h
    obtain ⟨i, C⟩ := L
    have hrest : ∀ L ∈ rest, g.DirtyLayers.getD L.1 false = true →
        ∃ (npolys nverts : Int) (NavData : List Nat × Int),
          Lib.BuildLayerMesh g L.1 L.2 = FNavLayerOutcome.PolyMesh npolys nverts (some NavData)
            ∧ nverts < 0xffff :=
      fun L hL => h L (List.mem_cons_of_mem _ hL)
    rw [FRecastTileGenerator.GenerateNavigationDataLoop]
    by_cases hd : g.DirtyLayers.getD i false = false
    · rw [if_pos hd]
      exact ih NavigationData hrest
    · rw [if_neg hd]
      have hd2 : g.DirtyLayers.getD i false = true := by
        cases hb : g.DirtyLayers.getD i false with
        | true => rfl
        | false => exact absurd hb hd
      obtain ⟨np, nv, ND, hM, hnv⟩ := h (i, C) (List.mem_cons_self _ _) hd2
      rw [hM]
      dsimp only
      split_ifs with h1 h2
      · exact absurd h2 (not_le.2 hnv)
      · exact ih _ hrest
      · exact ih _ hrest

/-- Claim C21 (soft limits): GenerateNavigationData returns false when a dirty layer
has a polygon mesh with at least one polygon and 0xffff vertices or more (so also
when it has more vertices than a 16-bit index addresses), maxVertsPerPoly being
within the Detour limit; and it returns true when every dirty layer has a mesh with
fewer than 0xffff vertices from which the navigation data is created, whatever the
polygon counts are, above MaxPolysPerTile or not. -/
theorem GenerateNavigationData_soft_limits (Lib : FRecastLibrary) (g : FRecastTileGenerator) :
    (∀ (iLayer : Nat) (CompressedData : FNavMeshTileData) (npolys nverts : Int)
        (Created : Option (List Nat × Int)),
        g.CompressedLayers[iLayer]? = some CompressedData →
        g.DirtyLayers.getD iLayer false = true →
        Lib.BuildLayerMesh g iLayer CompressedData
          = FNavLayerOutcome.PolyMesh npolys nverts Created →
        g.TileConfig.maxVertsPerPoly ≤ DT_VERTS_PER_POLYGON → npolys > 0 → nverts ≥ 0xffff →
        (g.GenerateNavigationData Lib).1 = false)
      ∧ ((∀ (iLayer : Nat) (CompressedData : FNavMeshTileData),
            g.CompressedLayers[iLayer]? = some CompressedData →
            g.DirtyLayers.getD iLayer false = true →
            ∃ (npolys nverts : Int) (NavData : List Nat × Int),
              Lib.BuildLayerMesh g iLayer CompressedData
                  = FNavLayerOutcome.PolyMesh npolys nverts (some NavData)
                ∧ nverts < 0xffff) →
          (g.GenerateNavigationData Lib).1 = true) := by
  constructor
  · intro iLayer CompressedData npolys nverts Created hL hD hM hP hNp hNv
    have hmem : (iLayer, CompressedData) ∈ g.CompressedLayers.enum :=
      List.mk_mem_enum_iff_getElem?.2 hL
    unfold FRecastTileGenerator.GenerateNavigationData
    rw [GenerateNavigationDataLoop_vertex_limit Lib g iLayer CompressedData npolys nverts Created
      hD hM hP hNp hNv _ [] hmem]
  · intro h
    have hsome := GenerateNavigationDataLoop_poly_limit Lib g g.CompressedLayers.enum []
      (fun L hL hd => h L.1 L.2 (List.mk_mem_enum_iff_getElem?.1 hL) hd)
    unfold FRecastTileGenerator.GenerateNavigationData
    cases hloop : FRecastTileGenerator.GenerateNavigationDataLoop Lib g g.CompressedLayers.enum []
      with
    | none => rw [hloop] at hsome; simp at hsome
    | some ND => rfl

end RecastNavMeshGenerator

namespace RecastNavMeshGenerator

/-! ## The active-tile counter -/

theorem filter_ne_eq_erase (L : List Nat) (ref : Nat) (hnd : L.Nodup) :
    L.filter (fun i => decide (i ≠ ref)) = L.erase ref := by
  rw [hnd.erase_eq_filter]
  apply List.filter_congr
  intro x _
  by_cases hx : x = ref <;> simp [hx]

theorem map_index_filter (tiles : List dtMeshTile) (ref : Nat) :
    (tiles.filter (fun t => decide (t.index ≠ ref))).map (fun t => t.index)
      = (tiles.map (fun t => t.index)).filter (fun i => decide (i ≠ ref)) := by
  rw [List.filter_map]
  rfl

/-- Removing a tile that the mesh holds, when no two tiles share a slot: one tile
fewer, and the slots stay distinct. -/
theorem removeTile_count (m : dtNavMesh) (ref : Nat)
    (hSlots : (m.tiles.map (fun t => t.index) ++ m.nextFree).Nodup)
    (hRef : ref ∈ m.tiles.map (fun t => t.index)) :
    ((m.removeTile ref).tiles.length : Int) = (m.tiles.length : Int) - 1
      ∧ ((m.removeTile ref).tiles.map (fun t => t.index) ++ (m.removeTile ref).nextFree).Nodup := by
  have hany : m.tiles.any (fun t => decide (t.index = ref)) = true := by
    obtain ⟨t, ht, hti⟩ := List.mem_map.1 hRef
    exact List.any_eq_true.2 ⟨t, ht, by simpa using hti⟩
  have hnd : (m.tiles.map (fun t => t.index)).Nodup := (List.nodup_append.1 hSlots).1
  have hlen : ((m.tiles.filter (fun t => decide (t.index ≠ ref))).length : Int)
      = (m.tiles.length : Int) - 1 := by
    have h1 : (m.tiles.filter (fun t => decide (t.index ≠ ref))).length
        = ((m.tiles.map (fun t => t.index)).filter (fun i => decide (i ≠ ref))).length := by
      rw [← map_index_filter, List.length_map]
    have h2 : (m.tiles.map (fun t => t.index)).filter (fun i => decide (i ≠ ref))
        = (m.tiles.map (fun t => t.index)).erase ref := filter_ne_eq_erase _ ref hnd
    have h3 := List.length_erase_of_mem hRef
    have hpos : 0 < (m.tiles.map (fun t => t.index)).length := List.length_pos_of_mem hRef
    rw [h1, h2, h3, List.length_map] at *
    omega
  unfold dtNavMesh.removeTile
  rw [if_pos hany]
  refine ⟨hlen, ?_⟩
  dsimp only
  rw [map_index_filter]
  have hperm : (((m.tiles.map (fun t => t.index)).filter (fun i => decide (i ≠ ref)))
      ++ ref :: m.nextFree).Perm (m.tiles.map (fun t => t.index) ++ m.nextFree) := by
    have h2 : (m.tiles.map (fun t => t.index)).filter (fun i => decide (i ≠ ref))
        = (m.tiles.map (fun t => t.index)).erase ref := filter_ne_eq_erase _ ref hnd
    rw [h2]
    refine List.perm_middle.trans ?_
    exact (List.perm_cons_erase hRef).symm.append_right _
  exact hperm.nodup_iff.2 hSlots

/-- Adding a tile, when no two tiles share a slot: on success one tile more, on
failure the same mesh; the slots stay distinct. -/
theorem addTile_count (m : dtNavMesh) (data : FTileBlob)
    (hSlots : (m.tiles.map (fun t => t.index) ++ m.nextFree).Nodup) :
    (((m.addTile data).1.tiles.map (fun t => t.index)) ++ (m.addTile data).1.nextFree).Nodup
      ∧ ((m.addTile data).2 = none → (m.addTile data).1 = m)
      ∧ (∀ ref, (m.addTile data).2 = some ref →
          ((m.addTile data).1.tiles.length : Int) = (m.tiles.length : Int) + 1) := by
  unfold dtNavMesh.addTile
  split_ifs with h
  · exact ⟨hSlots, fun _ => rfl, fun ref hr => by simp at hr⟩
  · cases hf : m.nextFree with
    | nil =>
      refine ⟨?_, fun _ => rfl, fun ref hr => by simp at hr⟩
      dsimp only
      rw [hf] at hSlots
      rw [hf]
      exact hSlots
    | cons slot rest =>
      dsimp only
      refine ⟨?_, fun hn => by simp at hn, fun ref _ => by simp⟩
      rw [hf] at hSlots
      simp only [List.map_cons, List.cons_append]
      exact (List.perm_middle.nodup_iff).1 hSlots

/-- The removal loop of `RemoveTileLayers` over tiles of the mesh with distinct slots:
the counter and the number of tiles fall together. -/
theorem removeLoop_count :
    ∀ (Ts : List dtMeshTile) (st : List Nat × Int × dtNavMesh),
      (st.2.2.tiles.map (fun t => t.index) ++ st.2.2.nextFree).Nodup →
      (Ts.map (fun t => t.index)).Nodup →
      (∀ T ∈ Ts, T.index ∈ st.2.2.tiles.map (fun t => t.index)) →
      (Ts.foldl (fun st Tile =>
          (AddUnique st.1 Tile.index, st.2.1 - 1, st.2.2.removeTile Tile.index)) st).2.1
          - ((Ts.foldl (fun st Tile =>
              (AddUnique st.1 Tile.index, st.2.1 - 1, st.2.2.removeTile Tile.index))
              st).2.2.tiles.length : Int)
        = st.2.1 - (st.2.2.tiles.length : Int)
      ∧ ((Ts.foldl (fun st Tile =>
            (AddUnique st.1 Tile.index, st.2.1 - 1, st.2.2.removeTile Tile.index))
            st).2.2.tiles.map (fun t => t.index)
          ++ (Ts.foldl (fun st Tile =>
            (AddUnique st.1 Tile.index, st.2.1 - 1, st.2.2.removeTile Tile.index))
            st).2.2.nextFree).Nodup := by
  intro Ts
  induction Ts with
  | nil => intro st hS _ _; exact ⟨rfl, hS⟩
  | cons T rest ih =>
    intro st hS hnd hmem
    rw [List.foldl_cons]
    have hT := hmem T (List.mem_cons_self _ _)
    obtain ⟨c1, c2⟩ := removeTile_count st.2.2 T.index hS hT
    have hnd2 := List.nodup_cons.1 (by simpa using hnd : (T.index :: rest.map (fun t => t.index)).Nodup)
    have hmem2 : ∀ U ∈ rest, U.index ∈ (st.2.2.removeTile T.index).tiles.map (fun t => t.index) := by
      intro U hU
      rw [removeTile_tiles, map_index_filter, List.mem_filter]
      refine ⟨hmem U (List.mem_cons_of_mem _ hU), ?_⟩
      have hne : U.index ≠ T.index := by
        intro he
        exact hnd2.1 (he ▸ List.mem_map_of_mem _ hU)
      simpa using hne
    obtain ⟨r1, r2⟩ := ih (AddUnique st.1 T.index, st.2.1 - 1, st.2.2.removeTile T.index)
      c2 hnd2.2 hmem2
    refine ⟨?_, r2⟩
    rw [r1]
    dsimp only
    rw [c1]
    ring

/-- `RemoveTileLayers` keeps the counter on the number of tiles. -/
theorem RemoveTileLayers_count (self : FRecastNavMeshGenerator) (TileX TileY : Int)
    (hSlots : ∀ m ∈ self.DetourMesh, (m.tiles.map (fun t => t.index) ++ m.nextFree).Nodup)
    (hCount : self.NumActiveTiles = GetTilesCountHelper self.DetourMesh) :
    (RemoveTileLayers self TileX TileY).2.NumActiveTiles
        = GetTilesCountHelper (RemoveTileLayers self TileX TileY).2.DetourMesh
      ∧ ∀ m ∈ (RemoveTileLayers self TileX TileY).2.DetourMesh,
          (m.tiles.map (fun t => t.index) ++ m.nextFree).Nodup := by
  unfold RemoveTileLayers
  cases hm : self.DetourMesh with
  | none =>
    dsimp only
    rw [hm] at hCount
    exact ⟨by rw [hm]; exact hCount, by rw [hm]; intro m h; simp at h⟩
  | some m =>
    have hS := hSlots m (by rw [hm]; rfl)
    rw [hm] at hCount
    dsimp only
    split_ifs with hN
    · have hsub : List.Sublist (m.getTilesAt TileX TileY) m.tiles := List.filter_sublist _
      have hnd : ((m.getTilesAt TileX TileY).map (fun t => t.index)).Nodup :=
        ((hsub.map _).nodup (List.nodup_append.1 hS).1)
      obtain ⟨r1, r2⟩ := removeLoop_count (m.getTilesAt TileX TileY)
        ([], self.NumActiveTiles, m) hS hnd
        (fun T hT => List.mem_map_of_mem _ (hsub.subset hT))
      dsimp only at r1 r2 ⊢
      refine ⟨?_, ?_⟩
      · simp only [GetTilesCountHelper] at hCount ⊢
        omega
      · intro m1 hm1
        have := Option.some.inj hm1
        rw [← this]
        exact r2
    · dsimp only
      refine ⟨by rw [hm]; exact hCount, ?_⟩
      rw [hm]
      intro m1 hm1
      have := Option.some.inj hm1
      rw [← this]
      exact hS

/-- A reference that `getTileRefAt` finds is the slot of a tile of the mesh. -/
theorem getTileRefAt_mem (m : dtNavMesh) (x y layer : Int) (ref : Nat)
    (h : m.getTileRefAt x y layer = some ref) : ref ∈ m.tiles.map (fun t => t.index) := by
  unfold dtNavMesh.getTileRefAt at h
  cases hf : (m.getTilesAt x y).find? (fun t => decide (t.data.tlayer = layer)) with
  | none => rw [hf] at h; simp at h
  | some t =>
    rw [hf] at h
    have hr : t.index = ref := Option.some.inj h
    have ht : t ∈ m.getTilesAt x y := List.mem_of_find?_eq_some hf
    rw [← hr]
    exact List.mem_map_of_mem _ (List.mem_of_mem_filter ht)

theorem AddTileLayer_eq_halves (g : FRecastTileGenerator) (X Y : Int)
    (st : List Nat × Int × dtNavMesh) (d : FNavMeshTileData) :
    AddTileLayer g X Y st d
      = if !g.IsLayerChanged d.LayerIndex then st
        else InsertTileLayer d (RemoveOldTileLayer X Y d.LayerIndex st) := by
  unfold AddTileLayer InsertTileLayer RemoveOldTileLayer
  rfl

theorem RemoveOldTileLayer_count (X Y LayerIndex : Int) (st : List Nat × Int × dtNavMesh)
    (hS : (st.2.2.tiles.map (fun t => t.index) ++ st.2.2.nextFree).Nodup) :
    (RemoveOldTileLayer X Y LayerIndex st).2.1
          - ((RemoveOldTileLayer X Y LayerIndex st).2.2.tiles.length : Int)
        = st.2.1 - (st.2.2.tiles.length : Int)
      ∧ ((RemoveOldTileLayer X Y LayerIndex st).2.2.tiles.map (fun t => t.index)
          ++ (RemoveOldTileLayer X Y LayerIndex st).2.2.nextFree).Nodup := by
  unfold RemoveOldTileLayer
  cases hr : st.2.2.getTileRefAt X Y LayerIndex with
  | none => exact ⟨rfl, hS⟩
  | some ref =>
    obtain ⟨c1, c2⟩ := removeTile_count st.2.2 ref hS (getTileRefAt_mem _ _ _ _ _ hr)
    refine ⟨?_, c2⟩
    dsimp only
    rw [c1]
    ring

theorem InsertTileLayer_count (d : FNavMeshTileData) (st : List Nat × Int × dtNavMesh)
    (hS : (st.2.2.tiles.map (fun t => t.index) ++ st.2.2.nextFree).Nodup) :
    (InsertTileLayer d st).2.1 - ((InsertTileLayer d st).2.2.tiles.length : Int)
        = st.2.1 - (st.2.2.tiles.length : Int)
      ∧ ((InsertTileLayer d st).2.2.tiles.map (fun t => t.index)
          ++ (InsertTileLayer d st).2.2.nextFree).Nodup := by
  unfold InsertTileLayer
  split_ifs with hV
  · cases hD : d.Data with
    | none => exact ⟨rfl, hS⟩
    | some Data =>
      dsimp only
      obtain ⟨a1, a2, a3⟩ := addTile_count st.2.2 Data hS
      cases hA : st.2.2.addTile Data with
      | mk m1 r =>
        rw [hA] at a1 a2 a3
        cases r with
        | none => exact ⟨rfl, hS⟩
        | some ref =>
          dsimp only at a1 a3 ⊢
          refine ⟨?_, a1⟩
          rw [a3 ref rfl]
          omega
  · exact ⟨rfl, hS⟩

/-- One step of the loop of `AddGeneratedTiles` keeps the difference between the
counter and the number of tiles, and the slots distinct. -/
theorem AddTileLayer_count (g : FRecastTileGenerator) (X Y : Int)
    (st : List Nat × Int × dtNavMesh) (d : FNavMeshTileData)
    (hS : (st.2.2.tiles.map (fun t => t.index) ++ st.2.2.nextFree).Nodup) :
    (AddTileLayer g X Y st d).2.1 - ((AddTileLayer g X Y st d).2.2.tiles.length : Int)
        = st.2.1 - (st.2.2.tiles.length : Int)
      ∧ ((AddTileLayer g X Y st d).2.2.tiles.map (fun t => t.index)
          ++ (AddTileLayer g X Y st d).2.2.nextFree).Nodup := by
  rw [AddTileLayer_eq_halves]
  split_ifs
  · exact ⟨rfl, hS⟩
  · obtain ⟨r1, r2⟩ := RemoveOldTileLayer_count X Y d.LayerIndex st hS
    obtain ⟨i1, i2⟩ := InsertTileLayer_count d (RemoveOldTileLayer X Y d.LayerIndex st) r2
    exact ⟨i1.trans r1, i2⟩

theorem layerLoop_count (g : FRecastTileGenerator) (X Y : Int) :
    ∀ (Layers : List FNavMeshTileData) (st : List Nat × Int × dtNavMesh),
      (st.2.2.tiles.map (fun t => t.index) ++ st.2.2.nextFree).Nodup →
      (Layers.foldl (AddTileLayer g X Y) st).2.1
          - ((Layers.foldl (AddTileLayer g X Y) st).2.2.tiles.length : Int)
        = st.2.1 - (st.2.2.tiles.length : Int) := by
  intro Layers
  induction Layers with
  | nil => intro st _; rfl
  | cons d rest ih =>
    intro st hS
    rw [List.foldl_cons]
    obtain ⟨h1, h2⟩ := AddTileLayer_count g X Y st d hS
    rw [ih _ h2, h1]

/-- Claim C29 (active-tile counter): when no two tiles of the live mesh share a slot
and NumActiveTiles equals the number of tiles in the live mesh, it equals that
number again after RemoveTileLayers and after AddGeneratedTiles, for every tile
generator result, also when the insertion of a layer fails. -/
theorem NumActiveTiles_counts_mesh_tiles (self : FRecastNavMeshGenerator)
    (TileGenerator : FRecastTileGenerator) (TileX TileY : Int)
    (hSlots : ∀ m ∈ self.DetourMesh, (m.tiles.map (fun t => t.index) ++ m.nextFree).Nodup)
    (hCount : self.NumActiveTiles = GetTilesCountHelper self.DetourMesh) :
    (RemoveTileLayers self TileX TileY).2.NumActiveTiles
        = GetTilesCountHelper (RemoveTileLayers self TileX TileY).2.DetourMesh
      ∧ (AddGeneratedTiles self TileGenerator).2.NumActiveTiles
        = GetTilesCountHelper (AddGeneratedTiles self TileGenerator).2.DetourMesh := by
  refine ⟨(RemoveTileLayers_count self TileX TileY hSlots hCount).1, ?_⟩
  unfold AddGeneratedTiles
  dsimp only
  have hr : ∃ r : List Nat × FRecastNavMeshGenerator,
      (if TileGenerator.IsFullyRegenerated = true then
          RemoveTileLayers self TileGenerator.TileX TileGenerator.TileY
        else ([], self)) = r
      ∧ r.2.NumActiveTiles = GetTilesCountHelper r.2.DetourMesh
      ∧ ∀ m ∈ r.2.DetourMesh, (m.tiles.map (fun t => t.index) ++ m.nextFree).Nodup := by
    split_ifs
    · exact ⟨_, rfl, RemoveTileLayers_count self _ _ hSlots hCount⟩
    · exact ⟨_, rfl, hCount, hSlots⟩
  obtain ⟨r, he, h1, h2⟩ := hr
  rw [he]
  cases hm : r.2.DetourMesh with
  | none =>
    dsimp only
    rw [hm]
    rw [hm] at h1
    exact h1
  | some m =>
    dsimp only
    have hS := h2 m (by rw [hm]; rfl)
    have hl := layerLoop_count TileGenerator TileGenerator.TileX TileGenerator.TileY
      TileGenerator.NavigationData (r.1, r.2.NumActiveTiles, m) hS
    rw [hm] at h1
    simp only [GetTilesCountHelper] at h1 hl ⊢
    omega

end RecastNavMeshGenerator

namespace RecastNavMeshGenerator

/-! ## The encapsulation flag and the per-tile inclusion test -/

/-- The flag that the loop of `Setup` over the inclusion bounds leaves: what the last
bound that meets the tile box gives, the initial flag when none meets it. -/
theorem PickedBounds_flag (TileBB : FBox) :
    ∀ (ParentBounds : List FBox) (acc : List FBox × Bool),
      (ParentBounds.foldl
          (fun acc Bounds =>
            if Bounds.Intersect TileBB then (acc.1 ++ [Bounds], DoesBoxContainBox Bounds TileBB)
            else acc)
          acc).2
        = (((ParentBounds.filter (fun Bounds => Bounds.Intersect TileBB)).getLast?).map
            (fun Bounds => DoesBoxContainBox Bounds TileBB)).getD acc.2 := by
  intro ParentBounds
  induction ParentBounds with
  | nil => intro acc; rfl
  | cons b rest ih =>
    intro acc
    rw [List.foldl_cons, List.filter_cons]
    by_cases hb : b.Intersect TileBB = true
    · rw [if_pos hb, if_pos hb, ih]
      cases hr : rest.filter (fun Bounds => Bounds.Intersect TileBB) with
      | nil => rfl
      | cons c more =>
        have hl := List.getLast?_eq_getLast (c :: more) (List.cons_ne_nil c more)
        simp [List.getLast?_cons, hl]
    · rw [if_neg hb, if_neg hb, ih]

/-- The encapsulation flag after `Setup`: true without inclusion bounds; otherwise
what `DoesBoxContainBox` gives for the last inclusion bound that meets the tile box,
and false when no bound meets it. -/
theorem Setup_encapsulation_flag (P : FRecastNavMeshGenerator) (W : UWorld) (Coord : FIntPoint)
    (DirtyAreas : List FBox) :
    (CreateTileGenerator P W Coord DirtyAreas).1.bFullyEncapsulatedByInclusionBounds
      = if P.InclusionBounds.length > 0 then
          (((P.InclusionBounds.filter (fun Bounds => Bounds.Intersect
              (CalculateTileBounds Coord.X Coord.Y FVector.ZeroVector P.TotalNavBounds
                (FloatRound (FloatRound (P.Config.tileSize : ℚ) * P.Config.cs))))).getLast?).map
            (fun Bounds => DoesBoxContainBox Bounds
              (CalculateTileBounds Coord.X Coord.Y FVector.ZeroVector P.TotalNavBounds
                (FloatRound (FloatRound (P.Config.tileSize : ℚ) * P.Config.cs))))).getD false
        else true := by
  unfold CreateTileGenerator FRecastTileGenerator.Setup FRecastTileGenerator.Construct
  dsimp only
  by_cases hp : P.InclusionBounds.length > 0
  · simp only [hp, if_true]
    split_ifs <;>
      simp only [GatherGeometry_bFullyEncapsulatedByInclusionBounds, PickedBounds_flag]
  · simp only [hp, if_false]
    split_ifs <;> simp only [GatherGeometry_bFullyEncapsulatedByInclusionBounds]

/-- Claim C24 (per-tile inclusion test), amended: every tile coordinate that
MarkDirtyTiles enqueues because of a dirty area without the NavigationBounds flag
whose box, cut down to the total bounds, is not contained in a single inclusion
bound, has a tile box (CalculateTileBounds) that intersects at least one inclusion
bound. -/
theorem MarkDirtyTiles_per_tile_inclusion_test (self : FRecastNavMeshGenerator)
    (CurWorld : Option UWorld) (Areas : List FNavigationDirtyArea) (a : FNavigationDirtyArea)
    (c : FIntPoint) (ha : a ∈ Areas) (hFlag : a.Flags.NavigationBounds = false)
    (hNotEncapsulated : FindInclusionBoundEncapsulatingBox self.InclusionBounds
        (CalculateBoxIntercetion self.TotalNavBounds a.Bounds) = INDEX_NONE)
    (hc : c ∈ AreaCoords self a) :
    c ∈ PendingCoords (MarkDirtyTiles self CurWorld Areas)
      ∧ IntercestBounds
          (CalculateTileBounds c.X c.Y FVector.ZeroVector self.TotalNavBounds
            (TileSizeInWorldUnits self.Config))
          self.InclusionBounds = true := by
  refine ⟨(MarkDirtyTiles_coords self CurWorld Areas c).2 (Or.inl ⟨a, ha, hc⟩), ?_⟩
  cases hA : AdjustDirtyArea self a with
  | none =>
    unfold AreaCoords AreaElements at hc
    rw [hA] at hc
    simp at hc
  | some At =>
    obtain ⟨A, t⟩ := At
    have ht : t = true := by
      unfold AdjustDirtyArea at hA
      rw [if_pos hFlag] at hA
      dsimp only at hA
      split_ifs at hA
      have := Option.some.inj hA
      rw [hNotEncapsulated] at this
      have h2 := congrArg Prod.snd this
      simpa using h2.symm
    subst ht
    have hskip := ((AreaCoords_mem self a c A true hA).1 hc).2.2.2.2
    unfold TileIsSkipped at hskip
    rw [hFlag] at hskip
    cases hI : IntercestBounds
        (CalculateTileBounds c.X c.Y FVector.ZeroVector self.TotalNavBounds
          (TileSizeInWorldUnits self.Config)) self.InclusionBounds with
    | true => rfl
    | false => rw [hI] at hskip; simp at hskip

end RecastNavMeshGenerator

namespace RecastNavMeshGenerator

/-! ## The order of the pending queue -/

end RecastNavMeshGenerator

namespace RecastNavMeshGenerator

/-! ## The tessellation of capsules -/

theorem AppendsToBuffers_AddVertex (Coords Bounded : FVector) (Q : Int → Prop) :
    AppendsToBuffers (fun B => B.AddVertex Coords Bounded) 3 0 Q := by
  intro B
  exact ⟨[Coords.X, Coords.Y, Coords.Z], [], rfl, rfl, by simp [FExportBuffers.AddVertex], rfl,
    fun x hx => by simp at hx⟩

theorem AppendsToBuffers_AddTriangle (I0 I1 I2 : Int) (Q : Int → Prop) (h0 : Q I0) (h1 : Q I1)
    (h2 : Q I2) : AppendsToBuffers (fun B => B.AddTriangle I0 I1 I2) 0 3 Q := by
  intro B
  refine ⟨[], [I0, I1, I2], by simp [FExportBuffers.AddTriangle], rfl, rfl, rfl, ?_⟩
  intro x hx
  simp only [List.mem_cons, List.mem_singleton, List.not_mem_nil, or_false] at hx
  rcases hx with rfl | rfl | rfl
  · exact h0
  · exact h1
  · exact h2

/-- One piece after another appends what both append. -/
theorem AppendsToBuffers_then (f g : FExportBuffers → FExportBuffers) (v1 i1 v2 i2 : Nat)
    (Q : Int → Prop) (hf : AppendsToBuffers f v1 i1 Q) (hg : AppendsToBuffers g v2 i2 Q) :
    AppendsToBuffers (fun B => g (f B)) (v1 + v2) (i1 + i2) Q := by
  intro B
  obtain ⟨V1, I1, a1, a2, a3, a4, a5⟩ := hf B
  obtain ⟨V2, I2, b1, b2, b3, b4, b5⟩ := hg (f B)
  refine ⟨V1 ++ V2, I1 ++ I2, ?_, ?_, ?_, ?_, ?_⟩
  · rw [b1, a1, List.append_assoc]
  · rw [List.length_append, a2, b2]
  · rw [b3, a3, List.append_assoc]
  · rw [List.length_append, a4, b4]
  · intro x hx
    rcases List.mem_append.1 hx with h | h
    · exact a5 x h
    · exact b5 x h

/-- A loop whose body appends fixed numbers of floats and indices. -/
theorem AppendsToBuffers_foldl {α : Type} (f : FExportBuffers → α → FExportBuffers)
    (v i : Nat) (Q : Int → Prop) :
    ∀ (l : List α), (∀ a ∈ l, AppendsToBuffers (fun B => f B a) v i Q) →
      AppendsToBuffers (fun B => l.foldl f B) (l.length * v) (l.length * i) Q := by
  intro l
  induction l with
  | nil =>
    intro _ B
    exact ⟨[], [], by simp, by simp, by simp, by simp, fun x hx => by simp at hx⟩
  | cons a rest ih =>
    intro h
    have h1 := AppendsToBuffers_then (fun B => f B a) (fun B => rest.foldl f B) v i
      (rest.length * v) (rest.length * i) Q (h a (List.mem_cons_self _ _))
      (ih (fun b hb => h b (List.mem_cons_of_mem _ hb)))
    intro B
    obtain ⟨V, I, c1, c2, c3, c4, c5⟩ := h1 B
    refine ⟨V, I, c1, ?_, c3, ?_, c5⟩
    · rw [c2, List.length_cons]; ring
    · rw [c4, List.length_cons]; ring

/-- What one capsule element appends: 170 vertices, 288 triangles whose indices lie
among these vertices, and its first vertex index in the shape buffer. -/
theorem ExportSphylElement_appends (Trig : FEngineTrigonometry) (LocalToWorld : FTransform)
    (st : FExportBuffers × List Int) (SphylInfo : FKSphylElem) :
    ∃ (V : List ℚ) (I : List Int),
      (ExportSphylElement Trig LocalToWorld st SphylInfo).1.VertexBuffer
          = st.1.VertexBuffer ++ V
        ∧ V.length = 3 * 170
        ∧ (ExportSphylElement Trig LocalToWorld st SphylInfo).1.IndexBuffer
          = st.1.IndexBuffer ++ I
        ∧ I.length = 3 * 288
        ∧ (∀ x ∈ I, ((st.1.VertexBuffer.length / 3 : Nat) : Int) ≤ x
            ∧ x < ((st.1.VertexBuffer.length / 3 : Nat) : Int) + 170)
        ∧ (ExportSphylElement Trig LocalToWorld st SphylInfo).2
          = st.2 ++ [((st.1.VertexBuffer.length / 3 : Nat) : Int)] := by
  unfold ExportSphylElement
  dsimp only
  generalize ((st.1.VertexBuffer.length / 3 : Nat) : Int) = VertBase
  generalize SphylArcVerts Trig SphylInfo 16 (16 / 2 + 1) = ArcVerts
  have hverts := AppendsToBuffers_foldl
    (fun B (SideIdx : Nat) =>
      (List.range (16 / 2 + 1 + 1)).foldl
        (fun B VertIdx =>
          B.AddVertex
            (LocalToWorld.TransformPosition (SphylInfo.Transform.TransformPosition
              (Trig.YawRotation (360 * ((SideIdx : ℚ) / ((16 : Nat) : ℚ)))
                (ArcVerts.getD VertIdx FVector.ZeroVector))))
            (LocalToWorld.TransformPosition (SphylInfo.Transform.TransformPosition
              (Trig.YawRotation (360 * ((SideIdx : ℚ) / ((16 : Nat) : ℚ)))
                (ArcVerts.getD VertIdx FVector.ZeroVector)))))
        B)
    ((List.range (16 / 2 + 1 + 1)).length * 3) ((List.range (16 / 2 + 1 + 1)).length * 0)
    (fun x => VertBase ≤ x ∧ x < VertBase + 170)
    (List.range (16 + 1))
    (fun SideIdx _ => AppendsToBuffers_foldl _ 3 0 _ _
      (fun VertIdx _ => AppendsToBuffers_AddVertex _ _ _))
  have htris := AppendsToBuffers_foldl
    (fun B (SideIdx : Nat) =>
      (List.range (16 / 2 + 1)).foldl
        (fun B (RingIdx : Nat) =>
          (B.AddTriangle
              (VertBase + (((SideIdx + 0) * (16 / 2 + 1 + 1) : Nat) : Int) + (RingIdx : Int) + 0)
              (VertBase + (((SideIdx + 1) * (16 / 2 + 1 + 1) : Nat) : Int) + (RingIdx : Int) + 0)
              (VertBase + (((SideIdx + 0) * (16 / 2 + 1 + 1) : Nat) : Int) + (RingIdx : Int)
                + 1)).AddTriangle
            (VertBase + (((SideIdx + 1) * (16 / 2 + 1 + 1) : Nat) : Int) + (RingIdx : Int) + 0)
            (VertBase + (((SideIdx + 1) * (16 / 2 + 1 + 1) : Nat) : Int) + (RingIdx : Int) + 1)
            (VertBase + (((SideIdx + 0) * (16 / 2 + 1 + 1) : Nat) : Int) + (RingIdx : Int) + 1))
        B)
    ((List.range (16 / 2 + 1)).length * (0 + 0)) ((List.range (16 / 2 + 1)).length * (3 + 3))
    (fun x => VertBase ≤ x ∧ x < VertBase + 170)
    (List.range 16)
    (fun SideIdx hS => AppendsToBuffers_foldl _ (0 + 0) (3 + 3) _ _
      (fun RingIdx hR => by
        have hS2 : SideIdx < 16 := List.mem_range.1 hS
        have hR2 : RingIdx < 9 := by simpa using hR
        exact AppendsToBuffers_then _ _ 0 3 0 3 _
          (AppendsToBuffers_AddTriangle _ _ _ _
            (by constructor <;> push_cast <;> omega)
            (by constructor <;> push_cast <;> omega)
            (by constructor <;> push_cast <;> omega))
          (AppendsToBuffers_AddTriangle _ _ _ _
            (by constructor <;> push_cast <;> omega)
            (by constructor <;> push_cast <;> omega)
            (by constructor <;> push_cast <;> omega))))
  obtain ⟨V, I, c1, c2, c3, c4, c5⟩ := AppendsToBuffers_then _ _ _ _ _ _ _ hverts htris st.1
  exact ⟨V, I, c1, c2.trans (by simp), c3, c4.trans (by simp), c5, rfl⟩

/-- Claim C25 (capsule tessellation): for every body setup, ExportRigidBodySphylElements
appends for each capsule element exactly 17 * 10 = 170 vertices and 16 * 9 * 2 = 288
triangles, records the first vertex index of the element in the shape buffer, and
every index emitted for the element lies in [VertBase, VertBase + 170) where VertBase
is the vertex count before that element: the vertex count before the call plus 170
for every element before it. -/
theorem ExportRigidBodySphylElements_tessellation (Trig : FEngineTrigonometry)
    (LocalToWorld : FTransform) :
    ∀ (SphylElems : List FKSphylElem) (st : FExportBuffers × List Int),
      ∃ (Vs : List (List ℚ)) (Is : List (List Int)),
        Vs.length = SphylElems.length ∧ Is.length = SphylElems.length
          ∧ (ExportRigidBodySphylElements Trig ⟨SphylElems⟩ LocalToWorld st).1.VertexBuffer
            = st.1.VertexBuffer ++ Vs.flatten
          ∧ (ExportRigidBodySphylElements Trig ⟨SphylElems⟩ LocalToWorld st).1.IndexBuffer
            = st.1.IndexBuffer ++ Is.flatten
          ∧ (∀ V ∈ Vs, V.length = 3 * 170)
          ∧ (∀ k, k < SphylElems.length →
              (Is.getD k []).length = 3 * 288
                ∧ ∀ x ∈ Is.getD k [],
                    ((st.1.VertexBuffer.length / 3 : Nat) : Int) + 170 * (k : Int) ≤ x
                      ∧ x < ((st.1.VertexBuffer.length / 3 : Nat) : Int) + 170 * (k : Int) + 170)
          ∧ (ExportRigidBodySphylElements Trig ⟨SphylElems⟩ LocalToWorld st).2
            = st.2 ++ (List.range SphylElems.length).map
                (fun (k : Nat) => ((st.1.VertexBuffer.length / 3 : Nat) : Int) + 170 * (k : Int)) := by
  intro SphylElems
  induction SphylElems with
  | nil =>
    intro st
    exact ⟨[], [], rfl, rfl, by simp [ExportRigidBodySphylElements],
      by simp [ExportRigidBodySphylElements], fun V hV => by simp at hV,
      fun k hk => by simp at hk, by simp [ExportRigidBodySphylElements]⟩
  | cons S rest ih =>
    intro st
    obtain ⟨V, I, e1, e2, e3, e4, e5, e6⟩ := ExportSphylElement_appends Trig LocalToWorld st S
    obtain ⟨Vs, Is, r1, r2, r3, r4, r5, r6, r7⟩ := ih (ExportSphylElement Trig LocalToWorld st S)
    have hstep : ExportRigidBodySphylElements Trig ⟨S :: rest⟩ LocalToWorld st
        = ExportRigidBodySphylElements Trig ⟨rest⟩ LocalToWorld
            (ExportSphylElement Trig LocalToWorld st S) := by
      simp [ExportRigidBodySphylElements]
    have hbase : (((ExportSphylElement Trig LocalToWorld st S).1.VertexBuffer.length / 3 : Nat)
        : Int) = ((st.1.VertexBuffer.length / 3 : Nat) : Int) + 170 := by
      rw [e1, List.length_append, e2]
      omega
    rw [hbase] at r6 r7
    refine ⟨V :: Vs, I :: Is, by simp [r1], by simp [r2], ?_, ?_, ?_, ?_, ?_⟩
    · rw [hstep, r3, e1, List.flatten_cons, List.append_assoc]
    · rw [hstep, r4, e3, List.flatten_cons, List.append_assoc]
    · intro W hW
      rcases List.mem_cons.1 hW with h | h
      · rw [h]; exact e2
      · exact r5 W h
    · intro k hk
      cases k with
      | zero =>
        refine ⟨e4, ?_⟩
        intro x hx
        have := e5 x hx
        simp only [List.getD_cons_zero] at hx
        constructor <;> push_cast <;> omega
      | succ k =>
        have hk2 : k < rest.length := by simpa using hk
        obtain ⟨q1, q2⟩ := r6 k hk2
        simp only [List.getD_cons_succ]
        refine ⟨q1, ?_⟩
        intro x hx
        have := q2 x hx
        constructor <;> push_cast <;> omega
    · rw [hstep, r7, e6, List.append_assoc]
      refine congrArg (fun l => st.2 ++ l) ?_
      rw [List.length_cons, List.range_succ_eq_map, List.map_cons, List.map_map]
      simp only [List.singleton_append, Nat.cast_zero, mul_zero, add_zero, List.cons.injEq,
        true_and]
      apply List.map_congr_left
      intro k _
      simp only [Function.comp]
      push_cast
      ring

end RecastNavMeshGenerator

namespace RecastNavMeshGenerator

/-! ## The sample lookups of the height-field export -/

/-- For a height field with at least as many rows as columns every sample index of
`ExportPxHeightField` lies inside the sample array. -/
theorem HeightFieldSampleIndices_in_range (bMirrored : Bool) (NumRows NumCols : Int)
    (hCols : 1 ≤ NumCols) (hSquare : NumCols ≤ NumRows) :
    ∀ i ∈ HeightFieldSampleIndices bMirrored NumRows NumCols, 0 ≤ i ∧ i < NumRows * NumCols := by
  have key : ∀ (X2 Y : Int), 0 ≤ X2 → X2 ≤ NumCols - 1 → 0 ≤ Y → Y ≤ NumRows - 1 →
      0 ≤ X2 * NumCols + Y ∧ X2 * NumCols + Y < NumRows * NumCols := by
    intro X2 Y h1 h2 h3 h4
    constructor
    · nlinarith [mul_nonneg h1 (by linarith : (0 : Int) ≤ NumCols)]
    · nlinarith [mul_le_mul_of_nonneg_right h2 (by linarith : (0 : Int) ≤ NumCols),
        mul_nonneg (by linarith : (0 : Int) ≤ NumRows - NumCols)
          (by linarith : (0 : Int) ≤ NumCols - 1)]
  intro i hi
  unfold HeightFieldSampleIndices at hi
  rw [List.mem_append] at hi
  rcases hi with hi | hi
  · simp only [List.mem_flatMap, List.mem_map, mem_loopRange] at hi
    obtain ⟨Y, ⟨hY1, hY2⟩, X, ⟨hX1, hX2⟩, rfl⟩ := hi
    unfold HeightFieldVertexSampleIdx
    cases bMirrored with
    | true => simpa using key X Y hX1 hX2 hY1 hY2
    | false => simpa using key (NumCols - X - 1) Y (by linarith) (by linarith) hY1 hY2
  · simp only [List.mem_flatMap, List.mem_map, mem_loopRange] at hi
    obtain ⟨Y, ⟨hY1, hY2⟩, X, ⟨hX1, hX2⟩, rfl⟩ := hi
    unfold HeightFieldQuadSampleIdx
    exact key (NumCols - X - 1) Y (by linarith) (by linarith) hY1 (by linarith)

/-- Claim C27 (height-field sample lookups), at a height field of 2 rows and 3 columns
under an unmirrored transform: the sample array has 2 * 3 = 6 entries, the vertex
loop of ExportPxHeightField computes the sample indices 6, 3, 0, 7, 4, 1 and the
quad loop 6 and 3, so the indices 6 and 7 are not smaller than the length of the
sample array; the exported vertices at these lookups carry the value that a read
outside the array gives here, 0, and not a height of the field. -/
theorem ExportPxHeightField_reads_past_samples :
    Sample.WideField.Cells.length = 2 * 3
      ∧ HeightFieldSampleIndices false Sample.WideField.NbRows Sample.WideField.NbColumns
        = [6, 3, 0, 7, 4, 1, 6, 3]
      ∧ ¬ (∀ i ∈ HeightFieldSampleIndices false Sample.WideField.NbRows
            Sample.WideField.NbColumns,
          i < Sample.WideField.NbRows * Sample.WideField.NbColumns)
      ∧ FTransform.Identity.Determinant = 1
      ∧ (ExportPxHeightField (some Sample.WideField) FTransform.Identity
          Sample.Buffers).VertexBuffer
        = [7, 8, 9, 0, 0, 0, 1, 0, 13, 2, 0, 10, 0, 1, 0, 1, 1, 14, 2, 1, 11] := by
  refine ⟨rfl, by decide, by decide, rfl, by decide⟩

end RecastNavMeshGenerator

namespace RecastNavMeshGenerator

/-! ## Growing a convex hull -/

/-- The first loop finds no turn exactly when the dot product is zero at every
triple of consecutive vertices. -/
theorem DetectRotationAngle_eq_none_iff (Math : FEngineMath) (AllVerts : List FVector) :
    DetectRotationAngle Math AllVerts = none
      ↔ ∀ Index, Index < AllVerts.length - 2 →
          FVector.DotProduct
              (Math.RotateAboutZ 90
                (Math.GetSafeNormal ((AllVerts.getD (Index + 0) FVector.ZeroVector).sub
                  (AllVerts.getD (Index + 1) FVector.ZeroVector))))
              (Math.GetSafeNormal ((AllVerts.getD (Index + 1) FVector.ZeroVector).sub
                (AllVerts.getD (Index + 2) FVector.ZeroVector))) = 0 := by
  unfold DetectRotationAngle
  rw [List.findSome?_eq_none_iff]
  constructor
  · intro h Index hI
    have := h Index (List.mem_range.2 hI)
    dsimp only at this
    split_ifs at this with h1 h2
    exact le_antisymm (not_lt.1 h2) (not_lt.1 h1)
  · intro h Index hI
    have := h Index (List.mem_range.1 hI)
    dsimp only
    rw [this]
    simp

end RecastNavMeshGenerator

namespace RecastNavMeshGenerator

/-! ## The claims on the samples -/

/-- Witness of claim C21: on the area-only rebuild of the tile with two cached
layers, whose low layer is dirty, a mesh of 70000 vertices makes
GenerateNavigationData return false, and a mesh of 1000 polygons, above
MaxPolysPerTile = 100, with three vertices lets it return true. -/
theorem GenerateNavigationData_soft_limits_witness :
    Sample.Config.MaxPolysPerTile = 100
      ∧ (Sample.PartialRebuild.AsyncTask.GenerateNavigationData Sample.OverflowLibrary).1 = false
      ∧ (Sample.PartialRebuild.AsyncTask.GenerateNavigationData Sample.CrowdedLibrary).1 = true :=
  ⟨rfl,
    (GenerateNavigationData_soft_limits Sample.OverflowLibrary Sample.PartialRebuild.AsyncTask).1
      0 ⟨some ⟨0, 0, 0, [1]⟩, 1, 0, Sample.LowBox⟩ 1 70000 (some ([9], 1))
      (by decide!) (by decide!) (by decide!) (by decide!) (by decide!) (by decide!),
    (GenerateNavigationData_soft_limits Sample.CrowdedLibrary Sample.PartialRebuild.AsyncTask).2
      (fun iLayer _ _ _ => ⟨1000, 3, ([9 + iLayer], 1), rfl, by decide!⟩)⟩

/-- Claim C22 (encapsulation flag), at a manager whose inclusion bounds are the total
bounds followed by the corner bound: the total bounds contain the box of tile (0, 0)
in the sense of DoesBoxContainBox, the corner bound meets the tile box without
containing it, and after Setup bFullyEncapsulatedByInclusionBounds is false: the
flag is what the last inclusion bound that meets the tile gives. -/
theorem Setup_flag_follows_last_bound :
    Sample.ManagerTwoBounds.InclusionBounds = [Sample.Bounds, Sample.CornerBound]
      ∧ (CreateTileGenerator Sample.ManagerTwoBounds Sample.World ⟨0, 0⟩ []).1.TileBB
        = ⟨⟨-10, -10, -100⟩, ⟨0, 0, 100⟩, true⟩
      ∧ DoesBoxContainBox Sample.Bounds ⟨⟨-10, -10, -100⟩, ⟨0, 0, 100⟩, true⟩ = true
      ∧ Sample.CornerBound.Intersect ⟨⟨-10, -10, -100⟩, ⟨0, 0, 100⟩, true⟩ = true
      ∧ DoesBoxContainBox Sample.CornerBound ⟨⟨-10, -10, -100⟩, ⟨0, 0, 100⟩, true⟩ = false
      ∧ (CreateTileGenerator Sample.ManagerTwoBounds Sample.World ⟨0, 0⟩
          []).1.bFullyEncapsulatedByInclusionBounds = false := by
  refine ⟨rfl, by decide!, by decide!, by decide!, by decide!, by decide!⟩

/-- Counterexample to claim C24: with an inclusion bound strictly inside tile (0, 0), a
geometry change near the corner of the tile, whose box the bound contains, makes
MarkDirtyTiles enqueue tile (1, 0), whose tile box meets no inclusion bound. -/
theorem MarkDirtyTiles_enqueues_tile_outside_bounds :
    Sample.AreaNearCorner.Flags.NavigationBounds = false
      ∧ (⟨1, 0⟩ : FIntPoint)
        ∈ PendingCoords (MarkDirtyTiles Sample.ManagerInnerBound none [Sample.AreaNearCorner])
      ∧ IntercestBounds
          (CalculateTileBounds 1 0 FVector.ZeroVector Sample.ManagerInnerBound.TotalNavBounds
            (TileSizeInWorldUnits Sample.ManagerInnerBound.Config))
          Sample.ManagerInnerBound.InclusionBounds = false := by
  refine ⟨rfl, by decide!, by decide!⟩

/-- Witness of claim C24, amended: a geometry change that the corner bound meets and
does not contain, and tile (0, 0). -/
theorem MarkDirtyTiles_per_tile_inclusion_test_witness :
    FindInclusionBoundEncapsulatingBox Sample.ManagerCornerBound.InclusionBounds
        (CalculateBoxIntercetion Sample.ManagerCornerBound.TotalNavBounds
          Sample.AreaInside.Bounds) = INDEX_NONE
      ∧ (⟨0, 0⟩ : FIntPoint) ∈ AreaCoords Sample.ManagerCornerBound Sample.AreaInside
      ∧ (⟨0, 0⟩ : FIntPoint)
        ∈ PendingCoords (MarkDirtyTiles Sample.ManagerCornerBound none [Sample.AreaInside])
      ∧ IntercestBounds
          (CalculateTileBounds 0 0 FVector.ZeroVector Sample.ManagerCornerBound.TotalNavBounds
            (TileSizeInWorldUnits Sample.ManagerCornerBound.Config))
          Sample.ManagerCornerBound.InclusionBounds = true :=
  ⟨by decide!, by decide!,
    MarkDirtyTiles_per_tile_inclusion_test Sample.ManagerCornerBound none [Sample.AreaInside]
      Sample.AreaInside ⟨0, 0⟩ (List.mem_singleton_self _) rfl (by decide!) (by decide!)⟩

/-- Claim C26 (dirty-layer lookups), at the manager with two cached layers at tile
(0, 0) whose navigation bounds have moved away from the tile: a change of dynamic
modifiers inside the new bound, half a unit from the tile, makes MarkDirtyTiles
enqueue tile (0, 0) with a dirty box; the generator that Setup produces for this
element picks no inclusion bound, owns the two cached layers, does not regenerate
them and has data to build, and its DirtyLayers is left empty, so that the loop of
GenerateNavigationData over the two layers looks up DirtyLayers at the indices 0
and 1, which are not smaller than its length 0. -/
theorem Setup_leaves_DirtyLayers_empty :
    (MarkDirtyTiles Sample.ManagerMovedBounds none
          [Sample.ModifierAreaBeyondEdge]).PendingDirtyTiles.map
        (fun p => (p.Coord, p.bRebuildGeometry, p.DirtyAreas))
      = [(⟨0, 0⟩, false, [Sample.GrownDirtyBox]), (⟨1, 0⟩, false, [Sample.GrownDirtyBox])]
      ∧ (CreateTileGenerator Sample.ManagerMovedBounds Sample.World ⟨0, 0⟩
          [Sample.GrownDirtyBox]).1.InclusionBounds = []
      ∧ (CreateTileGenerator Sample.ManagerMovedBounds Sample.World ⟨0, 0⟩
          [Sample.GrownDirtyBox]).1.bRegenerateCompressedLayers = false
      ∧ (CreateTileGenerator Sample.ManagerMovedBounds Sample.World ⟨0, 0⟩
          [Sample.GrownDirtyBox]).1.HasDataToBuild = true
      ∧ (CreateTileGenerator Sample.ManagerMovedBounds Sample.World ⟨0, 0⟩
          [Sample.GrownDirtyBox]).1.CompressedLayers.length = 2
      ∧ (CreateTileGenerator Sample.ManagerMovedBounds Sample.World ⟨0, 0⟩
          [Sample.GrownDirtyBox]).1.DirtyLayers.length = 0 := by
  refine ⟨by decide!, by decide!, by decide!, by decide!, by decide!, by decide!⟩

/-- Witness of claim C28: the queue after a geometry change, a round of tile tasks and
a change of dynamic modifiers, from the empty manager. -/
theorem PendingElement_flag_iff_no_dirty_boxes_witness :
    Sample.EmptyManager.PendingDirtyTiles = []
      ∧ ∀ p ∈ (RunCalls Sample.BuildingLibrary Sample.EmptyManager
            Sample.ManagerCalls).PendingDirtyTiles,
          (p.bRebuildGeometry = true ↔ p.DirtyAreas = [])
            ∧ (p.bRebuildGeometry = true →
                ∀ (P : FRecastNavMeshGenerator) (W : UWorld),
                  (CreateTileGenerator P W p.Coord p.DirtyAreas).1.bRegenerateCompressedLayers
                    = true) :=
  ⟨rfl, PendingElement_flag_iff_no_dirty_boxes Sample.BuildingLibrary Sample.ManagerCalls
    Sample.EmptyManager rfl⟩

/-- Witness of claim C29: the manager whose mesh holds three tiles, tile (0, 0) and the
result of the area-only rebuild of that tile. -/
theorem NumActiveTiles_counts_mesh_tiles_witness :
    Sample.ManagerThreeTiles.NumActiveTiles
        = GetTilesCountHelper Sample.ManagerThreeTiles.DetourMesh
      ∧ (RemoveTileLayers Sample.ManagerThreeTiles 0 0).2.NumActiveTiles
        = GetTilesCountHelper (RemoveTileLayers Sample.ManagerThreeTiles 0 0).2.DetourMesh
      ∧ (AddGeneratedTiles Sample.ManagerThreeTiles
          (FRecastTileGenerator.DoWork Sample.BuildingLibrary
            Sample.PartialRebuild.AsyncTask)).2.NumActiveTiles
        = GetTilesCountHelper (AddGeneratedTiles Sample.ManagerThreeTiles
          (FRecastTileGenerator.DoWork Sample.BuildingLibrary
            Sample.PartialRebuild.AsyncTask)).2.DetourMesh :=
  ⟨by decide!,
    NumActiveTiles_counts_mesh_tiles Sample.ManagerThreeTiles
      (FRecastTileGenerator.DoWork Sample.BuildingLibrary Sample.PartialRebuild.AsyncTask) 0 0
      (by
        intro m hm
        have hm2 : m = ⟨[⟨2, ⟨1, 0, 0, [6]⟩⟩, ⟨1, ⟨0, 0, 1, [8]⟩⟩, ⟨0, ⟨0, 0, 0, [7]⟩⟩], [3]⟩ :=
          (Option.some.inj hm).symm
        subst hm2
        decide!)
      (by decide!)⟩

end RecastNavMeshGenerator

namespace RecastNavMeshGenerator

/-! ## How a pending element leaves the queue -/

theorem find_filter_ne {α : Type} (l : List (FIntPoint × α)) (c d : FIntPoint) (h : d ≠ c) :
    (l.filter (fun kv => decide (kv.1 ≠ d))).find? (fun kv => decide (kv.1 = c))
      = l.find? (fun kv => decide (kv.1 = c)) := by
  induction l with
  | nil => rfl
  | cons a l ih =>
    rw [List.filter_cons]
    by_cases h1 : a.1 = d
    · have h2 : ¬ a.1 = c := by rw [h1]; exact h
      rw [if_neg (by simpa using h1), List.find?_cons_of_neg _ (by simpa using h2), ih]
    · rw [if_pos (by simpa using h1)]
      by_cases h2 : a.1 = c
      · rw [List.find?_cons_of_pos _ (by simpa using h2),
          List.find?_cons_of_pos _ (by simpa using h2)]
      · rw [List.find?_cons_of_neg _ (by simpa using h2),
          List.find?_cons_of_neg _ (by simpa using h2), ih]

theorem filter_ne_of_find_none {α : Type} (l : List (FIntPoint × α)) (c : FIntPoint)
    (h : l.find? (fun kv => decide (kv.1 = c)) = none) :
    l.filter (fun kv => decide (kv.1 ≠ c)) = l := by
  rw [List.filter_eq_self]
  intro a ha
  have := List.find?_eq_none.1 h a ha
  simpa using this

/-- The manager after `TakeIntermediateLayersData`: only the map of cached layers
changes, which loses the entries of the coordinate. -/
theorem TakeIntermediateLayersData_state (s : FRecastNavMeshGenerator) (c : FIntPoint) :
    (FRecastTileGenerator.TakeIntermediateLayersData s c).2
      = { s with
          IntermediateLayerDataMap :=
            s.IntermediateLayerDataMap.filter (fun kv => decide (kv.1 ≠ c)) } := by
  unfold FRecastTileGenerator.TakeIntermediateLayersData
  split
  · rfl
  · next h =>
    rw [filter_ne_of_find_none _ _ h]

/-- The cached layers that `TakeIntermediateLayersData` hands over. -/
theorem TakeIntermediateLayersData_layers (s : FRecastNavMeshGenerator) (c : FIntPoint) :
    (FRecastTileGenerator.TakeIntermediateLayersData s c).1
      = ((s.IntermediateLayerDataMap.find? (fun kv => decide (kv.1 = c))).map
          (fun kv => kv.2)).getD [] := by
  unfold FRecastTileGenerator.TakeIntermediateLayersData
  split
  · next kv h => rw [h]; rfl
  · next h => rw [h]; rfl

theorem CreateTileGenerator_state (s : FRecastNavMeshGenerator) (W : UWorld) (c : FIntPoint)
    (d : List FBox) :
    (CreateTileGenerator s W c d).2
      = { s with
          IntermediateLayerDataMap :=
            s.IntermediateLayerDataMap.filter (fun kv => decide (kv.1 ≠ c)) } := by
  simp only [CreateTileGenerator, Setup_manager, FRecastTileGenerator.Construct,
    TakeIntermediateLayersData_state]

theorem RemoveTileLayers_Config (s : FRecastNavMeshGenerator) (x y : Int) :
    (RemoveTileLayers s x y).2.Config = s.Config := by
  unfold RemoveTileLayers
  cases h : s.DetourMesh <;> simp only [] <;> try split
  all_goals rfl

theorem RemoveTileLayers_TotalNavBounds (s : FRecastNavMeshGenerator) (x y : Int) :
    (RemoveTileLayers s x y).2.TotalNavBounds = s.TotalNavBounds := by
  unfold RemoveTileLayers
  cases h : s.DetourMesh <;> simp only [] <;> try split
  all_goals rfl

theorem RemoveTileLayers_InclusionBounds (s : FRecastNavMeshGenerator) (x y : Int) :
    (RemoveTileLayers s x y).2.InclusionBounds = s.InclusionBounds := by
  unfold RemoveTileLayers
  cases h : s.DetourMesh <;> simp only [] <;> try split
  all_goals rfl

theorem RemoveTileLayers_map (s : FRecastNavMeshGenerator) (x y : Int) :
    (RemoveTileLayers s x y).2.IntermediateLayerDataMap
      = s.IntermediateLayerDataMap.filter (fun kv => decide (kv.1 ≠ (⟨x, y⟩ : FIntPoint))) := by
  unfold RemoveTileLayers
  cases h : s.DetourMesh <;> simp only [] <;> try split
  all_goals rfl

/-- The layers that the mesh holds after `RemoveTileLayers` are layers it held
before. -/
theorem RemoveTileLayers_tiles_subset (s : FRecastNavMeshGenerator) (x y : Int) (m1 : dtNavMesh)
    (h1 : (RemoveTileLayers s x y).2.DetourMesh = some m1) :
    ∃ m, s.DetourMesh = some m ∧ ∀ t ∈ m1.tiles, t ∈ m.tiles := by
  unfold RemoveTileLayers at h1
  cases hm : s.DetourMesh with
  | none =>
    rw [hm] at h1
    simp only [] at h1
    rw [hm] at h1
    exact absurd h1 (by simp)
  | some m =>
    refine ⟨m, rfl, ?_⟩
    rw [hm] at h1
    dsimp only at h1
    split_ifs at h1 with hN
    · obtain ⟨h2, _⟩ := removeLoop_spec (m.getTilesAt x y) ([], s.NumActiveTiles, m)
      simp only [Option.some.injEq] at h1
      intro t ht
      rw [← h1, h2] at ht
      exact (List.mem_filter.1 ht).1
    · simp only [] at h1
      rw [hm] at h1
      simp only [Option.some.injEq] at h1
      intro t ht
      rw [← h1] at ht
      exact ht

/-- A coordinate without layers has none after `RemoveTileLayers` at any
coordinate. -/
theorem RemoveTileLayers_keeps_empty (s : FRecastNavMeshGenerator) (x y a b : Int)
    (h : ∀ m, s.DetourMesh = some m → m.getTilesAt a b = []) :
    ∀ m, (RemoveTileLayers s x y).2.DetourMesh = some m → m.getTilesAt a b = [] := by
  intro m1 h1
  obtain ⟨m, hm, hsub⟩ := RemoveTileLayers_tiles_subset s x y m1 h1
  have h0 := h m hm
  simp only [dtNavMesh.getTilesAt, List.filter_eq_nil_iff] at h0 ⊢
  intro t ht
  exact h0 t (hsub t ht)

theorem GatherGeometry_congr (g : FRecastTileGenerator) (P1 P2 : FRecastNavMeshGenerator)
    (W : UWorld) (b : Bool) (h : P1.Config = P2.Config) :
    g.GatherGeometry P1 W b = g.GatherGeometry P2 W b := by
  unfold FRecastTileGenerator.GatherGeometry
  rw [h]

/-- The tile generator that `CreateTileGenerator` returns is determined by the
build configuration, the total bounds, the inclusion bounds and the cached layers
of the coordinate, together with the world and the dirty boxes. -/
theorem CreateTileGenerator_congr (P1 P2 : FRecastNavMeshGenerator) (W : UWorld)
    (Coord : FIntPoint) (DirtyAreas : List FBox)
    (hConfig : P1.Config = P2.Config) (hTotal : P1.TotalNavBounds = P2.TotalNavBounds)
    (hIncl : P1.InclusionBounds = P2.InclusionBounds)
    (hCached : (FRecastTileGenerator.TakeIntermediateLayersData P1 Coord).1
      = (FRecastTileGenerator.TakeIntermediateLayersData P2 Coord).1) :
    (CreateTileGenerator P1 W Coord DirtyAreas).1 = (CreateTileGenerator P2 W Coord DirtyAreas).1 := by
  unfold CreateTileGenerator FRecastTileGenerator.Setup FRecastTileGenerator.Construct
  dsimp only
  rw [hConfig, hTotal, hIncl, hCached]
  split_ifs <;> first | rfl | exact GatherGeometry_congr _ P1 P2 W _ hConfig

/-- Starting the task of another coordinate does not change the tile generator
that would be created for the coordinate `c`. -/
theorem SubmittedState_generator (W : UWorld) (self : FRecastNavMeshGenerator) (k : Nat)
    (p : FPendingTileElement) (c : FIntPoint) (d : List FBox) (h : p.Coord ≠ c) :
    (CreateTileGenerator (SubmittedState W self k p) W c d).1 = (CreateTileGenerator self W c d).1 := by
  apply CreateTileGenerator_congr
  · simp [SubmittedState, CreateTileGenerator_state]
  · simp [SubmittedState, CreateTileGenerator_state]
  · simp [SubmittedState, CreateTileGenerator_state]
  · rw [TakeIntermediateLayersData_layers, TakeIntermediateLayersData_layers]
    simp only [SubmittedState, CreateTileGenerator_state]
    rw [find_filter_ne _ _ _ h]

/-- Removing the layers of another coordinate does not change the tile generator
that would be created for the coordinate `c`. -/
theorem RemovedState_generator (W : UWorld) (self : FRecastNavMeshGenerator) (k : Nat)
    (p : FPendingTileElement) (c : FIntPoint) (d : List FBox) (h : p.Coord ≠ c) :
    (CreateTileGenerator (RemovedState W self k p) W c d).1 = (CreateTileGenerator self W c d).1 := by
  apply CreateTileGenerator_congr
  · simp [RemovedState, RemoveTileLayers_Config, CreateTileGenerator_state]
  · simp [RemovedState, RemoveTileLayers_TotalNavBounds, CreateTileGenerator_state]
  · simp [RemovedState, RemoveTileLayers_InclusionBounds, CreateTileGenerator_state]
  · rw [TakeIntermediateLayersData_layers, TakeIntermediateLayersData_layers]
    simp only [RemovedState, RemoveTileLayers_map, CreateTileGenerator_state]
    rw [find_filter_ne _ _ _ h, find_filter_ne _ _ _ h]

theorem SubmittedState_mesh (W : UWorld) (self : FRecastNavMeshGenerator) (k : Nat)
    (p : FPendingTileElement) :
    (SubmittedState W self k p).DetourMesh = self.DetourMesh := by
  simp [SubmittedState, CreateTileGenerator_state]

theorem RemovedState_mesh (W : UWorld) (self : FRecastNavMeshGenerator) (k : Nat)
    (p : FPendingTileElement) :
    (RemovedState W self k p).DetourMesh
      = (RemoveTileLayers (CreateTileGenerator self W p.Coord p.DirtyAreas).2
          p.Coord.X p.Coord.Y).2.DetourMesh := by
  simp [RemovedState]

theorem nodup_map_not_mem_map_eraseIdx {α β : Type} (f : α → β) (l : List α)
    (h : (l.map f).Nodup) (k : Nat) (e : α) (hk : l[k]? = some e) :
    f e ∉ (l.eraseIdx k).map f := by
  intro hmem
  rcases List.mem_map.1 hmem with ⟨b, hb, hfb⟩
  rcases List.mem_eraseIdx_iff_getElem?.1 hb with ⟨j, hjk, hj⟩
  exact hjk (nodup_map_index_eq f l h j k b e hj hk hfb)

/-- Once the submit loop has resolved a coordinate as a tile removal, the rest of
the loop starts no task for it and puts no layer at it. -/
theorem SubmitPendingLoop_removed_stays (W : UWorld) (N : Int) (k : Nat)
    (self : FRecastNavMeshGenerator) (n : Int) (U : List Nat) (c : FIntPoint)
    (h1 : c ∉ RunningCoords self) (h2 : c ∉ PendingCoords self)
    (h3 : ∀ m, self.DetourMesh = some m → m.getTilesAt c.X c.Y = []) :
    c ∉ RunningCoords (SubmitPendingLoop W N k (self, n, U)).1
      ∧ ∀ m, (SubmitPendingLoop W N k (self, n, U)).1.DetourMesh = some m →
          m.getTilesAt c.X c.Y = [] := by
  have key := SubmitPendingLoop_invariant W N
    (fun s => c ∉ RunningCoords s ∧ c ∉ PendingCoords s
      ∧ ∀ m, s.DetourMesh = some m → m.getTilesAt c.X c.Y = []) ?_ ?_ k self n U ⟨h1, h2, h3⟩
  · exact ⟨key.1, key.2.2⟩
  · intro s k p hI hp _
    have hpc : p.Coord ≠ c := by
      intro hc
      exact hI.2.1 (List.mem_map.2 ⟨p, List.getElem?_mem hp, hc⟩)
    refine ⟨?_, ?_, ?_⟩
    · simp only [RunningCoords, SubmittedState_running, List.map_append, List.map_cons,
        List.map_nil, List.mem_append, List.mem_singleton, not_or]
      exact ⟨hI.1, fun hc => hpc hc.symm⟩
    · intro hmem
      simp only [PendingCoords, SubmittedState_pending] at hmem
      exact hI.2.1 (((List.eraseIdx_sublist _ _).map _).subset hmem)
    · rw [SubmittedState_mesh]
      exact hI.2.2
  · intro s k p hI hp _
    refine ⟨?_, ?_, ?_⟩
    · simpa [RunningCoords] using hI.1
    · intro hmem
      simp only [PendingCoords, RemovedState_pending] at hmem
      exact hI.2.1 (((List.eraseIdx_sublist _ _).map _).subset hmem)
    · rw [RemovedState_mesh]
      apply RemoveTileLayers_keeps_empty
      intro m hm
      rw [CreateTileGenerator_state] at hm
      exact hI.2.2 m hm

/-- The submit loop on an element `e` at position `i` that is not blocked: if `e`
has left the queue after the loop, the loop created its tile generator and either
started its task or, when the generator has no data to build, removed the layers of
its tile. -/
theorem SubmitPendingLoop_resolves (W : UWorld) (N : Int) (e : FPendingTileElement) (i : Nat) :
    ∀ (k : Nat) (self : FRecastNavMeshGenerator) (n : Int) (U : List Nat),
      i < k → k ≤ self.PendingDirtyTiles.length → self.PendingDirtyTiles[i]? = some e →
      (PendingCoords self).Nodup → e.Coord ∉ RunningCoords self →
      e ∉ (SubmitPendingLoop W N k (self, n, U)).1.PendingDirtyTiles →
      ((CreateTileGenerator self W e.Coord e.DirtyAreas).1.HasDataToBuild = true →
          (⟨e.Coord, false, (CreateTileGenerator self W e.Coord e.DirtyAreas).1⟩ :
              FRunningTileElement)
            ∈ (SubmitPendingLoop W N k (self, n, U)).1.RunningDirtyTiles)
        ∧ ((CreateTileGenerator self W e.Coord e.DirtyAreas).1.HasDataToBuild = false →
          e.Coord ∉ RunningCoords (SubmitPendingLoop W N k (self, n, U)).1
            ∧ ∀ m, (SubmitPendingLoop W N k (self, n, U)).1.DetourMesh = some m →
                m.getTilesAt e.Coord.X e.Coord.Y = []) := by
  intro k
  induction k with
  | zero => intro self n U hik; omega
  | succ k ih =>
    intro self n U hik hkl hie hnd0 hnr
    have hnd : (self.PendingDirtyTiles.map (fun p => p.Coord)).Nodup := hnd0
    rw [SubmitPendingLoop_succ]
    split_ifs with hn
    · obtain ⟨p, hp⟩ : ∃ p, self.PendingDirtyTiles[k]? = some p :=
        ⟨self.PendingDirtyTiles[k], List.getElem?_eq_getElem (by omega)⟩
      rw [hp]
      simp only []
      have hnotblocked : RunningContains self.RunningDirtyTiles e.Coord = false := by
        cases hc : RunningContains self.RunningDirtyTiles e.Coord with
        | false => rfl
        | true => exact absurd ((RunningContains_iff _ _).1 hc) hnr
      have hnd2 : ((self.PendingDirtyTiles.eraseIdx k).map (fun p => p.Coord)).Nodup :=
        List.Nodup.sublist ((List.eraseIdx_sublist _ _).map _) hnd
      rcases Nat.lt_or_ge i k with hlt | hge
      · -- the element lies further towards the head
        have hpe : p.Coord ≠ e.Coord := by
          intro hc
          have := nodup_map_index_eq (fun p => p.Coord) _ hnd k i p e hp hie hc
          omega
        have hie2 : (self.PendingDirtyTiles.eraseIdx k)[i]? = some e := by
          rw [List.getElem?_eraseIdx_of_lt _ _ _ hlt]; exact hie
        have herase_len : (self.PendingDirtyTiles.eraseIdx k).length + 1
            = self.PendingDirtyTiles.length := by
          rw [List.length_eraseIdx_of_lt (by omega)]; omega
        split_ifs with hb hd
        · exact ih self n U hlt (by omega) hie hnd0 hnr
        · have h := ih (SubmittedState W self k p) (n + 1) U hlt
            (by simp only [SubmittedState_pending]; omega)
            (by simpa using hie2) (by simpa [PendingCoords] using hnd2)
            (by
              simp only [RunningCoords, SubmittedState_running, List.map_append, List.map_cons,
                List.map_nil, List.mem_append, List.mem_singleton, not_or]
              exact ⟨hnr, fun hc => hpe hc.symm⟩)
          rw [SubmittedState_generator W self k p e.Coord e.DirtyAreas hpe] at h
          exact h
        · have h := ih (RemovedState W self k p) n
            (U ++ (RemoveTileLayers (CreateTileGenerator self W p.Coord p.DirtyAreas).2
              p.Coord.X p.Coord.Y).1) hlt
            (by simp only [RemovedState_pending]; omega)
            (by simpa using hie2) (by simpa [PendingCoords] using hnd2)
            (by simpa [RunningCoords] using hnr)
          rw [RemovedState_generator W self k p e.Coord e.DirtyAreas hpe] at h
          exact h
      · -- the element is the one at position `k`
        have hik2 : i = k := by omega
        subst hik2
        have hpe : p = e := by rw [hp] at hie; exact Option.some.inj hie
        subst hpe
        rw [hnotblocked]
        simp only [Bool.false_eq_true, if_false]
        split_ifs with hd
        · intro _
          refine ⟨fun _ => ?_, fun hf => ?_⟩
          · have hmem : (⟨p.Coord, false, (CreateTileGenerator self W p.Coord p.DirtyAreas).1⟩ :
                FRunningTileElement) ∈ (SubmittedState W self i p).RunningDirtyTiles := by
              simp only [SubmittedState_running, List.mem_append, List.mem_singleton, or_true]
            exact SubmitPendingLoop_invariant W N
              (fun s => (⟨p.Coord, false, (CreateTileGenerator self W p.Coord p.DirtyAreas).1⟩ :
                FRunningTileElement) ∈ s.RunningDirtyTiles)
              (fun s k q hI _ _ => by
                simp only [SubmittedState_running, List.mem_append]
                exact Or.inl hI)
              (fun s k q hI _ _ => by simpa using hI) i _ _ _ hmem
          · rw [hd] at hf
            exact absurd hf (by simp)
        · intro _
          refine ⟨fun ht => absurd ht hd, fun _ => ?_⟩
          apply SubmitPendingLoop_removed_stays
          · simpa [RunningCoords] using hnr
          · simp only [PendingCoords, RemovedState_pending]
            exact nodup_map_not_mem_map_eraseIdx (fun p => p.Coord) _ hnd i p hp
          · rw [RemovedState_mesh]
            intro m hm
            cases hm0 : (CreateTileGenerator self W p.Coord p.DirtyAreas).2.DetourMesh with
            | none =>
              have hnone : (RemoveTileLayers (CreateTileGenerator self W p.Coord p.DirtyAreas).2
                  p.Coord.X p.Coord.Y).2.DetourMesh = none := by
                unfold RemoveTileLayers
                rw [hm0]
                simp only []
                exact hm0
              rw [hnone] at hm
              exact absurd hm (by simp)
            | some m0 =>
              obtain ⟨m1, hm1, hnil, _⟩ := RemoveTileLayers_mesh _ m0 p.Coord.X p.Coord.Y hm0
              rw [hm1] at hm
              rw [← Option.some.inj hm]
              exact hnil
    · intro hgone
      exact absurd (List.getElem?_mem hie) hgone

/-- One `ProcessTileTasks` call on an unblocked pending element that it takes out
of the queue: its first loop resolves the element. -/
theorem ProcessTileTasks_resolves (self : FRecastNavMeshGenerator) (W : UWorld)
    (Lib : FRecastLibrary) (IsDone : Nat → Bool) (N : Int) (e : FPendingTileElement) (i : Nat)
    (hie : self.PendingDirtyTiles[i]? = some e) (hnd : (PendingCoords self).Nodup)
    (hnr : e.Coord ∉ RunningCoords self)
    (hgone : e ∉ (ProcessTileTasks self W Lib IsDone N).2.PendingDirtyTiles) :
    ResolvesPendingElement W N self e := by
  have hil : i < self.PendingDirtyTiles.length := (List.getElem?_eq_some_iff.1 hie).1
  have hgone2 : e ∉ (SubmitPendingLoop W N self.PendingDirtyTiles.length
      (self, 0, [])).1.PendingDirtyTiles := by
    unfold ProcessTileTasks at hgone
    dsimp only at hgone
    rw [CollectLoop_pending] at hgone
    exact hgone
  have h := SubmitPendingLoop_resolves W N e i self.PendingDirtyTiles.length self 0 []
    hil (le_refl _) hie hnd hnr hgone2
  exact ⟨List.getElem?_mem hie, hgone2, h.1, h.2⟩

/-- Ticks with a positive budget on an unblocked pending element: one of the first
`length - i` ticks resolves it. -/
theorem RunTicks_resolves (Lib : FRecastLibrary) (e : FPendingTileElement) (i : Nat) :
    ∀ (Ticks : List (UWorld × (Nat → Bool) × Int)) (self : FRecastNavMeshGenerator),
      self.PendingDirtyTiles[i]? = some e → (PendingCoords self).Nodup →
      e.Coord ∉ RunningCoords self → (∀ t ∈ Ticks, 1 ≤ t.2.2) →
      self.PendingDirtyTiles.length - i ≤ Ticks.length →
      ∃ Before t After, Ticks = Before ++ t :: After
        ∧ ResolvesPendingElement t.1 t.2.2 (RunTicks Lib self Before) e := by
  intro Ticks
  induction Ticks with
  | nil =>
    intro self hie _ _ _ hlen
    have hil : i < self.PendingDirtyTiles.length := (List.getElem?_eq_some_iff.1 hie).1
    simp only [List.length_nil] at hlen
    omega
  | cons t rest ih =>
    intro self hie hnd hnr hbud hlen
    have hstep := ProcessTileTasks_progress self t.1 Lib t.2.1 t.2.2 e i
      (hbud t (List.mem_cons_self _ _)) hie hnd hnr
    rcases hstep with hgone | ⟨h1, h2, h3⟩
    · exact ⟨[], t, rest, rfl,
        ProcessTileTasks_resolves self t.1 Lib t.2.1 t.2.2 e i hie hnd hnr hgone⟩
    · obtain ⟨Before, t2, After, hT, hS⟩ :=
        ih _ h1 (ProcessTileTasks_pending_nodup self t.1 Lib t.2.1 t.2.2 hnd) h2
          (fun t2 ht2 => hbud t2 (List.mem_cons_of_mem _ ht2))
          (by simp only [List.length_cons] at hlen; omega)
      refine ⟨t :: Before, t2, After, by rw [hT]; rfl, ?_⟩
      simpa [RunTicks] using hS

/-- Claim C4 (the follow-up build is retained), amended: for a pending element at
position i of a queue without repeated coordinates, (1) while its coordinate is in
RunningDirtyTiles, every ProcessTileTasks call leaves it in PendingDirtyTiles, the
same element (coordinate, rebuild-geometry flag and dirty boxes); (2) once its
coordinate is no longer in RunningDirtyTiles (the running task has been collected),
among ProcessTileTasks calls with budget at least 1, at most as many as there are
elements from position i to the tail, one call resolves the element: the element
is in the queue before that call, and the first loop of the call creates its tile
generator from its coordinate and dirty boxes and takes the element out of the
queue; when the generator has data to build, the loop submits it as a running task
of the coordinate (discard flag cleared), and when it has none, the loop starts no
task for the coordinate and leaves the live mesh without a layer at the
coordinate. The element is not in the queue after the calls. -/
theorem PendingElement_retained_until_follow_up (Lib : FRecastLibrary)
    (self : FRecastNavMeshGenerator) (e : FPendingTileElement) (i : Nat)
    (hie : self.PendingDirtyTiles[i]? = some e) (hnd : (PendingCoords self).Nodup) :
    (e.Coord ∈ RunningCoords self →
        ∀ (World : UWorld) (IsDone : Nat → Bool) (NumTasksToSubmit : Int),
          e ∈ (ProcessTileTasks self World Lib IsDone NumTasksToSubmit).2.PendingDirtyTiles)
      ∧ (e.Coord ∉ RunningCoords self →
        ∀ Ticks : List (UWorld × (Nat → Bool) × Int), (∀ t ∈ Ticks, 1 ≤ t.2.2) →
          self.PendingDirtyTiles.length - i ≤ Ticks.length →
          (∃ Before t After, Ticks = Before ++ t :: After
              ∧ ResolvesPendingElement t.1 t.2.2 (RunTicks Lib self Before) e)
            ∧ e ∉ (RunTicks Lib self Ticks).PendingDirtyTiles) := by
  refine ⟨?_, ?_⟩
  · intro hb World IsDone N
    exact ProcessTileTasks_blocked_stays self World Lib IsDone N e (List.getElem?_mem hie) hb
  · intro hnr Ticks hbud hlen
    exact ⟨RunTicks_resolves Lib e i Ticks self hie hnd hnr hbud hlen,
      RunTicks_follow_up Lib e i Ticks self hie hnd hnr hbud hlen⟩

/-- Claim C4, amended, at a sample input: tile (0, 0) is being built and is pending
again; a call that collects the running task keeps the pending element, and the
next call with budget 1, in a world that still has geometry in the tile, resolves
it. -/
theorem PendingElement_retained_until_follow_up_witness :
    Sample.PendingOrigin ∈ (ProcessTileTasks Sample.ManagerBlocked Sample.World
        Sample.FailingLibrary (fun _ => true) 1).2.PendingDirtyTiles
      ∧ (∃ Before t After,
          [(Sample.World, ((fun _ => false) : Nat → Bool), (1 : Int))] = Before ++ t :: After
            ∧ ResolvesPendingElement t.1 t.2.2
                (RunTicks Sample.FailingLibrary Sample.ManagerCollected Before)
                Sample.PendingOrigin)
      ∧ Sample.PendingOrigin ∉ (RunTicks Sample.FailingLibrary Sample.ManagerCollected
          [(Sample.World, (fun _ => false), 1)]).PendingDirtyTiles :=
  ⟨(PendingElement_retained_until_follow_up Sample.FailingLibrary Sample.ManagerBlocked
      Sample.PendingOrigin 0 (by decide!) (by decide!)).1 (by decide!) Sample.World
      (fun _ => true) 1,
    (PendingElement_retained_until_follow_up Sample.FailingLibrary Sample.ManagerCollected
      Sample.PendingOrigin 0 (by decide!) (by decide!)).2 (by decide!)
      [(Sample.World, (fun _ => false), 1)] (by simp) (by decide!)⟩

/-- Claim C4, counterexample: tile (0, 0) is being built and is pending again; the
call that collects the running task keeps the pending element; the next call, with
budget 1 and no task found finished, in a world that has no geometry left, takes
the element out of the queue without submitting it: its generator has no data to
build, the counter of submitted tasks stays 0 and RunningDirtyTiles is empty after
the call. -/
theorem PendingElement_without_data_starts_no_task :
    Sample.PendingOrigin ∈ Sample.ManagerBlocked.PendingDirtyTiles
      ∧ Sample.PendingOrigin.Coord ∈ RunningCoords Sample.ManagerBlocked
      ∧ Sample.ManagerCollected.PendingDirtyTiles = [Sample.PendingOrigin]
      ∧ Sample.ManagerCollected.RunningDirtyTiles = []
      ∧ (CreateTileGenerator Sample.ManagerCollected Sample.EmptyWorld Sample.PendingOrigin.Coord
          Sample.PendingOrigin.DirtyAreas).1.HasDataToBuild = false
      ∧ (SubmitPendingLoop Sample.EmptyWorld 1 Sample.ManagerCollected.PendingDirtyTiles.length
          (Sample.ManagerCollected, 0, [])).2.1 = 0
      ∧ (ProcessTileTasks Sample.ManagerCollected Sample.EmptyWorld Sample.FailingLibrary
          (fun _ => false) 1).2.PendingDirtyTiles = []
      ∧ (ProcessTileTasks Sample.ManagerCollected Sample.EmptyWorld Sample.FailingLibrary
          (fun _ => false) 1).2.RunningDirtyTiles = [] := by
  decide!

/-- The same follow-up call in a world that still has geometry in the tile: the
generator has data to build and its task is the one running element after the
call. -/
theorem PendingElement_with_data_starts_task :
    (CreateTileGenerator Sample.ManagerCollected Sample.World Sample.PendingOrigin.Coord
        Sample.PendingOrigin.DirtyAreas).1.HasDataToBuild = true
      ∧ (ProcessTileTasks Sample.ManagerCollected Sample.World Sample.FailingLibrary
          (fun _ => false) 1).2.RunningDirtyTiles
        = [⟨⟨0, 0⟩, false,
            (CreateTileGenerator Sample.ManagerCollected Sample.World ⟨0, 0⟩ []).1⟩]
      ∧ (ProcessTileTasks Sample.ManagerCollected Sample.World Sample.FailingLibrary
          (fun _ => false) 1).2.PendingDirtyTiles = [] := by
  decide!

end RecastNavMeshGenerator

namespace RecastNavMeshGenerator

/-! ## Single precision and `int32` at sample inputs -/

/-- The tile size of ten cells of one tenth: the single-precision product is 1,
where the product of the two stored values is a little more. -/
theorem TileSizeInWorldUnits_single_precision :
    Sample.TenthConfig.cs = FloatRound (1 / 10)
      ∧ (Sample.TenthConfig.tileSize : ℚ) * Sample.TenthConfig.cs = 67108865 / 67108864
      ∧ TileSizeInWorldUnits Sample.TenthConfig = 1 := by
  decide!

/-- The tile range with that tile size: a box with Recast X from 1 to 1.5 lies in
tile column 1 only, and a box with Recast X from 0.5 to 1 reaches columns 0 and
1. -/
theorem TileRange_single_precision :
    TileRange Sample.TenthConfig ⟨⟨-3 / 2, 0, 0⟩, ⟨-1, 0, 0⟩, true⟩ = ⟨1, 1, 0, 0⟩
      ∧ TileRange Sample.TenthConfig ⟨⟨-1, 0, 0⟩, ⟨-1 / 2, 0, 0⟩, true⟩ = ⟨0, 1, 0, 0⟩ := by
  decide!

/-- The box from 1 to 2 on every axis grown by a border of one cell of one tenth:
the bounds are the single-precision values next to 0.8 and 2.2. -/
theorem GrowBoundingBox_single_precision :
    BBoxGrowOffset Sample.TenthConfig = 13421773 / 67108864
      ∧ GrowBoundingBox Sample.TenthConfig ⟨⟨1, 1, 1⟩, ⟨2, 2, 2⟩, true⟩ false
        = ⟨⟨13421773 / 16777216, 13421773 / 16777216, 13421773 / 16777216⟩,
            ⟨9227469 / 4194304, 9227469 / 4194304, 9227469 / 4194304⟩, true⟩ := by
  decide!

/-- An index sum that does not fit `int32` wraps around: the largest index moved by
a vertex offset of one is stored as the smallest `int32`. -/
theorem ExportCustomMesh_index_wraps :
    (ExportCustomMesh Sample.Triangle 3 [2147483647, 0, 1] 3 Sample.Mirror
        Sample.Buffers).IndexBuffer = [2, 1, -2147483648] := by
  decide!

end RecastNavMeshGenerator
